import Mathlib

/-!
# Voice activity detector core (`vad_core.hpp`, `vad_gmm.hpp`)

A shallow embedding of the fixed-point VAD core.  Machine integers are
modelled by `Int`; every store into an `int16_t` goes through `wrap16`, and
32-bit results that can leave the `int32_t` range go through `wrap32`.
Arithmetic right shifts `x >> n` are written as floor divisions `x / 2^n`
(`Int` division rounds towards minus infinity for a positive divisor), masks
`x & (2^n - 1)` as `x % 2^n`.

The signal-processing library (`singal_processing_library.hpp`) is not part
of the sources; its functions are the fields of the structure `Spl`, and every
function that calls into the library takes the bundle as its first argument.
-/

namespace webrtc

/-! ## Machine integers -/

/-- Conversion to `int16_t`: reduction modulo `2^16` into `[-32768, 32767]`. -/
def wrap16 (x : Int) : Int := (x + 32768) % 65536 - 32768

/-- Conversion to `int32_t`: reduction modulo `2^32` into `[-2^31, 2^31 - 1]`. -/
def wrap32 (x : Int) : Int := (x + 2147483648) % 4294967296 - 2147483648

/-- Conversion to `uint32_t`: reduction modulo `2^32` into `[0, 2^32 - 1]`. -/
def wrapU32 (x : Int) : Int := x % 4294967296

/-- Right shift `x >> n` of a signed value by a run-time count `n` (a negative
count, undefined in C, shifts by nothing). -/
def shr (x n : Int) : Int := x / 2 ^ n.toNat

/-! ## Constants of `vad_core.hpp` -/

def kNumChannels : Nat := 6
def kNumGaussians : Nat := 2
def kTableSize : Nat := kNumChannels * kNumGaussians
def kMinEnergy : Int := 10

def kAllPassCoefsQ13 : List Int := [5243, 1392]
def kSmoothingDown : Int := 6553
def kSmoothingUp : Int := 32439
def WEBRTC_SPL_WORD16_MAX : Int := 32767

def kLogConst : Int := 24660
def kLogEnergyIntPart : Int := 14336
def kHpZeroCoefs : List Int := [6631, -13262, 6631]
def kHpPoleCoefs : List Int := [16384, -7756, 5620]
def kAllPassCoefsQ15 : List Int := [20972, 5571]
def kOffsetVector : List Int := [368, 368, 272, 176, 176, 176]

def kSpectrumWeight : List Int := [6, 8, 10, 12, 14, 16]
def kNoiseUpdateConst : Int := 655
def kSpeechUpdateConst : Int := 6554
def kBackEta : Int := 154
def kMinimumDifference : List Int := [544, 544, 576, 576, 576, 576]
def kMaximumSpeech : List Int := [11392, 11392, 11520, 11520, 11520, 11520]
def kMinimumMean : List Int := [640, 768]
def kMaximumNoise : List Int := [9216, 9088, 8960, 8832, 8704, 8576]
def kNoiseDataWeights : List Int := [34, 62, 72, 66, 53, 25, 94, 66, 56, 62, 75, 103]
def kSpeechDataWeights : List Int := [48, 82, 45, 87, 50, 47, 80, 46, 83, 41, 78, 81]
def kNoiseDataMeans : List Int :=
  [6738, 4892, 7065, 6715, 6771, 3369, 7646, 3863, 7820, 7266, 5020, 4362]
def kSpeechDataMeans : List Int :=
  [8306, 10085, 10078, 11823, 11843, 6309, 9473, 9571, 10879, 7581, 8180, 7483]
def kNoiseDataStds : List Int := [378, 1064, 493, 582, 688, 593, 474, 697, 475, 688, 421, 455]
def kSpeechDataStds : List Int := [555, 505, 567, 524, 585, 1231, 509, 828, 492, 1540, 1079, 850]

def kMaxSpeechFrames : Int := 6
def kMinStd : Int := 384
def kDefaultMode : Int := 0
def kInitCheck : Int := 42

def kOverHangMax1Q : List Int := [8, 4, 3]
def kOverHangMax2Q : List Int := [14, 7, 5]
def kLocalThresholdQ : List Int := [24, 21, 24]
def kGlobalThresholdQ : List Int := [57, 48, 57]
def kOverHangMax1LBR : List Int := [8, 4, 3]
def kOverHangMax2LBR : List Int := [14, 7, 5]
def kLocalThresholdLBR : List Int := [37, 32, 37]
def kGlobalThresholdLBR : List Int := [100, 80, 100]
def kOverHangMax1AGG : List Int := [6, 3, 2]
def kOverHangMax2AGG : List Int := [9, 5, 3]
def kLocalThresholdAGG : List Int := [82, 78, 82]
def kGlobalThresholdAGG : List Int := [285, 260, 285]
def kOverHangMax1VAG : List Int := [6, 3, 2]
def kOverHangMax2VAG : List Int := [9, 5, 3]
def kLocalThresholdVAG : List Int := [94, 94, 94]
def kGlobalThresholdVAG : List Int := [1100, 1050, 1100]

/-! ## Constants of `vad_gmm.hpp` -/

def kCompVar : Int := 22005
def kLog2Exp : Int := 5909

/-! ## Instance state -/

/-- The instance `VadInstT`.  Arrays are lists; `state_48_to_8` is the carried
memory of the external 48 kHz to 8 kHz resampler, a sequence of 32-bit words. -/
structure VadInstT where
  vad : Int
  downsampling_filter_states : List Int
  state_48_to_8 : List Int
  noise_means : List Int
  speech_means : List Int
  noise_stds : List Int
  speech_stds : List Int
  frame_counter : Int
  over_hang : Int
  num_of_speech : Int
  index_vector : List Int
  low_value_vector : List Int
  mean_value : List Int
  upper_state : List Int
  lower_state : List Int
  hp_filter_state : List Int
  over_hang_max_1 : List Int
  over_hang_max_2 : List Int
  individual : List Int
  total : List Int
  init_flag : Int

/-- The functions of the signal-processing library that the VAD core calls.
`WebRtcSpl_Energy v n` gives the energy of the first `n` samples of `v` and the
number of right shifts applied to it; `WebRtcSpl_Resample48khzTo8khz` maps
(input block, carried state, scratch memory) to (output block, new state, new
scratch memory). -/
structure Spl where
  WebRtcSpl_Energy : List Int → Nat → Int × Int
  WebRtcSpl_NormU32 : Int → Int
  WebRtcSpl_NormW32 : Int → Int
  WebRtcSpl_DivW32W16 : Int → Int → Int
  WebRtcSpl_Resample48khzTo8khz : List Int → List Int → List Int → List Int × List Int × List Int

/-- Modelled from the spec: `WebRtcSpl_ResetResample48khzTo8khz`, the reset of
the external resampler state, is absent from the sources.  The spec has Init
zero all filter state; the reset overwrites the carried memory (8 + 16 + 8 + 8
words) with zeros, whatever it held before. -/
def WebRtcSpl_ResetResample48khzTo8khz (_state : List Int) : List Int :=
  List.replicate 40 0

/-! ## Mode selection and initialisation -/

/-- Mode selection `WebRtcVad_set_mode_core`: the new instance and the return
value. -/
def WebRtcVad_set_mode_core (self : VadInstT) (mode : Int) : VadInstT × Int :=
  if mode = 0 then
    ({ self with
        over_hang_max_1 := kOverHangMax1Q, over_hang_max_2 := kOverHangMax2Q,
        individual := kLocalThresholdQ, total := kGlobalThresholdQ }, 0)
  else if mode = 1 then
    ({ self with
        over_hang_max_1 := kOverHangMax1LBR, over_hang_max_2 := kOverHangMax2LBR,
        individual := kLocalThresholdLBR, total := kGlobalThresholdLBR }, 0)
  else if mode = 2 then
    ({ self with
        over_hang_max_1 := kOverHangMax1AGG, over_hang_max_2 := kOverHangMax2AGG,
        individual := kLocalThresholdAGG, total := kGlobalThresholdAGG }, 0)
  else if mode = 3 then
    ({ self with
        over_hang_max_1 := kOverHangMax1VAG, over_hang_max_2 := kOverHangMax2VAG,
        individual := kLocalThresholdVAG, total := kGlobalThresholdVAG }, 0)
  else
    (self, -1)

/-- Initialisation `WebRtcVad_InitCore`.  The instance pointer is an `Option`:
`none` is the null pointer.  The loops over the tables write every element, so each table is
replaced as a whole. -/
def WebRtcVad_InitCore (self : Option VadInstT) : Option VadInstT × Int :=
  match self with
  | none => (none, -1)
  | some s =>
    let s1 : VadInstT :=
      { s with
          vad := 1
          frame_counter := 0
          over_hang := 0
          num_of_speech := 0
          downsampling_filter_states := List.replicate 4 0
          state_48_to_8 := WebRtcSpl_ResetResample48khzTo8khz s.state_48_to_8
          noise_means := kNoiseDataMeans
          speech_means := kSpeechDataMeans
          noise_stds := kNoiseDataStds
          speech_stds := kSpeechDataStds
          low_value_vector := List.replicate (16 * kNumChannels) 10000
          index_vector := List.replicate (16 * kNumChannels) 0
          upper_state := List.replicate 5 0
          lower_state := List.replicate 5 0
          hp_filter_state := List.replicate 4 0
          mean_value := List.replicate kNumChannels 1600 }
    let r := WebRtcVad_set_mode_core s1 kDefaultMode
    if r.2 ≠ 0 then
      (some r.1, -1)
    else
      (some { r.1 with init_flag := kInitCheck }, 0)

/-! ## Front-end downsampling -/

/-- One pass of the loop of `WebRtcVad_Downsampling`: the accumulator holds the
output written so far and the two filter accumulators `tmp32_1`, `tmp32_2`. -/
def WebRtcVad_Downsampling_step (signal_in : List Int) (acc : List Int × Int × Int) (n : Nat) :
    List Int × Int × Int :=
  let tmp32_1 := acc.2.1
  let tmp32_2 := acc.2.2
  let in0 := signal_in.getD (2 * n) 0
  let in1 := signal_in.getD (2 * n + 1) 0
  -- All-pass filtering upper branch.
  let tmp16_1 := wrap16 (tmp32_1 / 2 + (kAllPassCoefsQ13.getD 0 0 * in0) / 16384)
  let tmp32_1 := wrap32 (in0 - (kAllPassCoefsQ13.getD 0 0 * tmp16_1) / 4096)
  -- All-pass filtering lower branch.
  let tmp16_2 := wrap16 (tmp32_2 / 2 + (kAllPassCoefsQ13.getD 1 0 * in1) / 16384)
  let out := wrap16 (tmp16_1 + tmp16_2)
  let tmp32_2 := wrap32 (in1 - (kAllPassCoefsQ13.getD 1 0 * tmp16_2) / 4096)
  (acc.1 ++ [out], tmp32_1, tmp32_2)

/-- Downsampling by two, `WebRtcVad_Downsampling`: `filter_state` is the pair
`filter_state[0], filter_state[1]`; the result is `signal_out` and the new
pair. -/
def WebRtcVad_Downsampling (signal_in : List Int) (filter_state : Int × Int) (in_length : Nat) :
    List Int × (Int × Int) :=
  let half_length := in_length / 2
  let r := (List.range half_length).foldl (WebRtcVad_Downsampling_step signal_in)
    ([], filter_state.1, filter_state.2)
  (r.1, (r.2.1, r.2.2))

/-! ## Minimum tracker -/

/-- Inner loop of the ageing pass of `WebRtcVad_FindMinimum`, for one `j`:
`smallest_values[j] = smallest_values[j + 1]; age[j] = age[j + 1]`.  The
arrays are the whole `index_vector` and `low_value_vector`, addressed from
`offset`; the read at `j + 1 = 16` leaves the channel's window (and, for the last
channel, the array, where it is modelled as 0). -/
def FindMinimum_shiftDown (offset : Nat) (st : List Int × List Int) (j : Nat) :
    List Int × List Int :=
  let smallest_values := st.2.set (offset + j) (st.2.getD (offset + j + 1) 0)
  let age := st.1.set (offset + j) (st.1.getD (offset + j + 1) 0)
  (age, smallest_values)

/-- Body of the ageing loop of `WebRtcVad_FindMinimum` for one `i`; the state is
the pair (`index_vector`, `low_value_vector`). -/
def FindMinimum_ageStep (offset : Nat) (st : List Int × List Int) (i : Nat) :
    List Int × List Int :=
  if st.1.getD (offset + i) 0 ≠ 100 then
    (st.1.set (offset + i) (wrap16 (st.1.getD (offset + i) 0 + 1)), st.2)
  else
    -- Too old value. Remove from memory and shift larger values downwards.
    let r := (List.range' i (16 - i)).foldl (FindMinimum_shiftDown offset) st
    (r.1.set (offset + 15) 101, r.2.set (offset + 15) 10000)

/-- The decision tree of `WebRtcVad_FindMinimum` that locates the insertion
slot; `sv i` is `smallest_values[i]`, the result `-1` means no insertion. -/
def FindMinimum_position (feature_value : Int) (sv : Nat → Int) : Int :=
  if feature_value < sv 7 then
    if feature_value < sv 3 then
      if feature_value < sv 1 then
        if feature_value < sv 0 then 0 else 1
      else if feature_value < sv 2 then 2
      else 3
    else if feature_value < sv 5 then
      if feature_value < sv 4 then 4 else 5
    else if feature_value < sv 6 then 6
    else 7
  else if feature_value < sv 15 then
    if feature_value < sv 11 then
      if feature_value < sv 9 then
        if feature_value < sv 8 then 8 else 9
      else if feature_value < sv 10 then 10
      else 11
    else if feature_value < sv 13 then
      if feature_value < sv 12 then 12 else 13
    else if feature_value < sv 14 then 14
    else 15
  else -1

/-- One pass of the insertion loop of `WebRtcVad_FindMinimum`:
`smallest_values[i] = smallest_values[i - 1]; age[i] = age[i - 1]`. -/
def FindMinimum_shiftUp (offset : Nat) (st : List Int × List Int) (i : Nat) :
    List Int × List Int :=
  let smallest_values := st.2.set (offset + i) (st.2.getD (offset + i - 1) 0)
  let age := st.1.set (offset + i) (st.1.getD (offset + i - 1) 0)
  (age, smallest_values)

/-- Insertion of `feature_value` at `position` (when `position > -1`): the
entries from `position` on move up one slot, from slot 15 downwards. -/
def FindMinimum_insert (offset : Nat) (feature_value position : Int) (st : List Int × List Int) :
    List Int × List Int :=
  if position > -1 then
    let p := position.toNat
    let r := ((List.range (15 - p)).map (fun t => 15 - t)).foldl (FindMinimum_shiftUp offset) st
    (r.1.set (offset + p) 1, r.2.set (offset + p) feature_value)
  else st

/-- The minimum tracker `WebRtcVad_FindMinimum`: the new instance and the
returned smoothed minimum. -/
def WebRtcVad_FindMinimum (self : VadInstT) (feature_value : Int) (channel : Nat) :
    VadInstT × Int :=
  let offset := channel * 16
  -- Each value in |smallest_values| is getting 1 loop older.
  let aged := (List.range 16).foldl (FindMinimum_ageStep offset)
    (self.index_vector, self.low_value_vector)
  let position :=
    FindMinimum_position feature_value (fun i => aged.2.getD (offset + i) 0)
  let ins := FindMinimum_insert offset feature_value position aged
  let smallest_values := fun (i : Nat) => ins.2.getD (offset + i) 0
  -- Get |current_median|.
  let current_median : Int :=
    if self.frame_counter > 2 then smallest_values 2
    else if self.frame_counter > 0 then smallest_values 0
    else 1600
  -- Smooth the median value.
  let alpha : Int :=
    if self.frame_counter > 0 then
      if current_median < self.mean_value.getD channel 0 then kSmoothingDown else kSmoothingUp
    else 0
  let tmp32 := (alpha + 1) * self.mean_value.getD channel 0
  let tmp32 := tmp32 + (WEBRTC_SPL_WORD16_MAX - alpha) * current_median
  let tmp32 := tmp32 + 16384
  let mean := wrap16 (tmp32 / 32768)
  ({ self with
      index_vector := ins.1
      low_value_vector := ins.2
      mean_value := self.mean_value.set channel mean }, mean)

/-! ## Filterbank and feature extraction -/

/-- One pass of the loop of `HighPassFilter`: the accumulator holds the output
written so far and `filter_state[0..3]`. -/
def HighPassFilter_step (data_in : List Int) (acc : List Int × Int × Int × Int × Int) (i : Nat) :
    List Int × Int × Int × Int × Int :=
  let f0 := acc.2.1
  let f1 := acc.2.2.1
  let f2 := acc.2.2.2.1
  let f3 := acc.2.2.2.2
  let x := data_in.getD i 0
  -- All-zero section (filter coefficients in Q14).
  let tmp32 := kHpZeroCoefs.getD 0 0 * x
  let tmp32 := wrap32 (tmp32 + kHpZeroCoefs.getD 1 0 * f0)
  let tmp32 := wrap32 (tmp32 + kHpZeroCoefs.getD 2 0 * f1)
  -- All-pole section (filter coefficients in Q14).
  let tmp32 := wrap32 (tmp32 - kHpPoleCoefs.getD 1 0 * f2)
  let tmp32 := wrap32 (tmp32 - kHpPoleCoefs.getD 2 0 * f3)
  let y := wrap16 (tmp32 / 16384)
  (acc.1 ++ [y], x, f0, y, f2)

/-- High-pass filter `HighPassFilter`: the output block and the new
`filter_state`. -/
def HighPassFilter (data_in : List Int) (data_length : Nat) (filter_state : List Int) :
    List Int × List Int :=
  let r := (List.range data_length).foldl (HighPassFilter_step data_in)
    ([], filter_state.getD 0 0, filter_state.getD 1 0, filter_state.getD 2 0,
      filter_state.getD 3 0)
  (r.1, (((filter_state.set 0 r.2.1).set 1 r.2.2.1).set 2 r.2.2.2.1).set 3 r.2.2.2.2)

/-- One pass of the loop of `AllPassFilter`; the input pointer advances by two
samples per pass, the accumulator holds the output so far and `state32`. -/
def AllPassFilter_step (data_in : List Int) (filter_coefficient : Int) (acc : List Int × Int)
    (i : Nat) : List Int × Int :=
  let x := data_in.getD (2 * i) 0
  let tmp32 := wrap32 (acc.2 + filter_coefficient * x)
  let tmp16 := wrap16 (tmp32 / 65536)
  let state32 := wrap32 (x * 16384 - filter_coefficient * tmp16)
  let state32 := wrap32 (state32 * 2)
  (acc.1 ++ [tmp16], state32)

/-- All-pass filter `AllPassFilter`: the output block and the new filter
state. -/
def AllPassFilter (data_in : List Int) (data_length : Nat) (filter_coefficient : Int)
    (filter_state : Int) : List Int × Int :=
  let state32 := filter_state * 65536
  let r := (List.range data_length).foldl (AllPassFilter_step data_in filter_coefficient)
    ([], state32)
  (r.1, wrap16 (r.2 / 65536))

/-- Band split `SplitFilter`: (`hp_data_out`, `lp_data_out`, new upper state,
new lower state). -/
def SplitFilter (data_in : List Int) (data_length : Nat) (upper_state lower_state : Int) :
    List Int × List Int × Int × Int :=
  let half_length := data_length / 2
  -- All-pass filtering upper branch.
  let up := AllPassFilter data_in half_length (kAllPassCoefsQ15.getD 0 0) upper_state
  -- All-pass filtering lower branch.
  let lo := AllPassFilter (data_in.drop 1) half_length (kAllPassCoefsQ15.getD 1 0) lower_state
  -- Make LP and HP signals.
  let hp := (List.range half_length).map (fun i => wrap16 (up.1.getD i 0 - lo.1.getD i 0))
  let lp := (List.range half_length).map (fun i => wrap16 (lo.1.getD i 0 + up.1.getD i 0))
  (hp, lp, up.2, lo.2)

/-- Log-energy of one band, `LogOfEnergy`: the new `total_energy` and the
feature `log_energy`. -/
def LogOfEnergy (spl : Spl) (data_in : List Int) (data_length : Nat) (offset total_energy : Int) :
    Int × Int :=
  let e := spl.WebRtcSpl_Energy data_in data_length
  let tot_rshifts := e.2
  let energy := wrapU32 e.1
  if energy ≠ 0 then
    let normalizing_rshifts := 17 - spl.WebRtcSpl_NormU32 energy
    let log2_energy := kLogEnergyIntPart
    let tot_rshifts := tot_rshifts + normalizing_rshifts
    -- Normalize |energy| to 15 bits.
    let energy :=
      if normalizing_rshifts < 0 then wrapU32 (energy * 2 ^ (-normalizing_rshifts).toNat)
      else shr energy normalizing_rshifts
    -- Calculate and add the fractional part to |log2_energy|.
    let log2_energy := wrap16 (log2_energy + wrap16 ((energy % 16384) / 16))
    let log_energy :=
      wrap16 ((kLogConst * log2_energy) / 524288 + (wrap32 (tot_rshifts * kLogConst)) / 512)
    let log_energy := if log_energy < 0 then 0 else log_energy
    let log_energy := wrap16 (log_energy + offset)
    -- Update the approximate |total_energy| with the energy of |data_in|.
    let total_energy :=
      if total_energy ≤ kMinEnergy then
        if tot_rshifts ≥ 0 then wrap16 (total_energy + (kMinEnergy + 1))
        else wrap16 (total_energy + wrap16 (shr energy (-tot_rshifts)))
      else total_energy
    (total_energy, log_energy)
  else
    (total_energy, offset)

/-- Feature extraction `WebRtcVad_CalculateFeatures`: the new instance, the
six features and the returned total energy.  The scratch buffers `hp_120`,
`lp_120`, `hp_60`, `lp_60` are the blocks returned by the filters. -/
def WebRtcVad_CalculateFeatures (spl : Spl) (self : VadInstT) (data_in : List Int)
    (data_length : Nat) : VadInstT × List Int × Int :=
  let total_energy : Int := 0
  let half_data_length := data_length / 2
  let length := half_data_length
  -- Split at 2000 Hz and downsample.
  let s0 := SplitFilter data_in data_length (self.upper_state.getD 0 0) (self.lower_state.getD 0 0)
  let hp_120 := s0.1
  let lp_120 := s0.2.1
  let upper_state := self.upper_state.set 0 s0.2.2.1
  let lower_state := self.lower_state.set 0 s0.2.2.2
  -- For the upper band (2000 Hz - 4000 Hz) split at 3000 Hz and downsample.
  let s1 := SplitFilter hp_120 length (upper_state.getD 1 0) (lower_state.getD 1 0)
  let hp_60 := s1.1
  let lp_60 := s1.2.1
  let upper_state := upper_state.set 1 s1.2.2.1
  let lower_state := lower_state.set 1 s1.2.2.2
  -- Energy in 3000 Hz - 4000 Hz.
  let length := length / 2
  let e5 := LogOfEnergy spl hp_60 length (kOffsetVector.getD 5 0) total_energy
  -- Energy in 2000 Hz - 3000 Hz.
  let e4 := LogOfEnergy spl lp_60 length (kOffsetVector.getD 4 0) e5.1
  -- For the lower band (0 Hz - 2000 Hz) split at 1000 Hz and downsample.
  let length := half_data_length
  let s2 := SplitFilter lp_120 length (upper_state.getD 2 0) (lower_state.getD 2 0)
  let hp_60 := s2.1
  let lp_60 := s2.2.1
  let upper_state := upper_state.set 2 s2.2.2.1
  let lower_state := lower_state.set 2 s2.2.2.2
  -- Energy in 1000 Hz - 2000 Hz.
  let length := length / 2
  let e3 := LogOfEnergy spl hp_60 length (kOffsetVector.getD 3 0) e4.1
  -- For the lower band (0 Hz - 1000 Hz) split at 500 Hz and downsample.
  let s3 := SplitFilter lp_60 length (upper_state.getD 3 0) (lower_state.getD 3 0)
  let hp_120 := s3.1
  let lp_120 := s3.2.1
  let upper_state := upper_state.set 3 s3.2.2.1
  let lower_state := lower_state.set 3 s3.2.2.2
  -- Energy in 500 Hz - 1000 Hz.
  let length := length / 2
  let e2 := LogOfEnergy spl hp_120 length (kOffsetVector.getD 2 0) e3.1
  -- For the lower band (0 Hz - 500 Hz) split at 250 Hz and downsample.
  let s4 := SplitFilter lp_120 length (upper_state.getD 4 0) (lower_state.getD 4 0)
  let hp_60 := s4.1
  let lp_60 := s4.2.1
  let upper_state := upper_state.set 4 s4.2.2.1
  let lower_state := lower_state.set 4 s4.2.2.2
  -- Energy in 250 Hz - 500 Hz.
  let length := length / 2
  let e1 := LogOfEnergy spl hp_60 length (kOffsetVector.getD 1 0) e2.1
  -- Remove 0 Hz - 80 Hz, by high pass filtering the lower band.
  let h := HighPassFilter lp_60 length self.hp_filter_state
  let hp_120 := h.1
  -- Energy in 80 Hz - 250 Hz.
  let e0 := LogOfEnergy spl hp_120 length (kOffsetVector.getD 0 0) e1.1
  ({ self with upper_state := upper_state, lower_state := lower_state, hp_filter_state := h.2 },
    [e0.2, e1.2, e2.2, e3.2, e4.2, e5.2], e0.1)

/-! ## Gaussian probability (`vad_gmm.hpp`) -/

/-- Gaussian density `WebRtcVad_GaussianProbability`: the returned probability
(Q20) and the value written to `delta` (Q11). -/
def WebRtcVad_GaussianProbability (spl : Spl) (input mean std : Int) : Int × Int :=
  -- Calculate |inv_std| = 1 / s, in Q10.
  let tmp32 := 131072 + std / 2
  let inv_std := wrap16 (spl.WebRtcSpl_DivW32W16 tmp32 std)
  -- Calculate |inv_std2| = 1 / s^2, in Q14.
  let tmp16 := inv_std / 4
  let inv_std2 := wrap16 ((tmp16 * tmp16) / 4)
  let tmp16 := wrap16 (input * 8)
  let tmp16 := wrap16 (tmp16 - mean)
  -- |delta| = (x - m) / s^2, in Q11.
  let delta := wrap16 ((inv_std2 * tmp16) / 1024)
  -- The exponent |tmp32| = (x - m)^2 / (2 * s^2), in Q10.
  let tmp32 := (delta * tmp16) / 512
  let exp_value : Int :=
    if tmp32 < kCompVar then
      let t := wrap16 (wrap32 (kLog2Exp * tmp32) / 4096)
      let t := wrap16 (-t)
      -- exp_value = (0x0400 | (tmp16 & 0x03FF))
      let exp_value := 1024 + t % 1024
      -- tmp16 ^= 0xFFFF
      let t := -t - 1
      let t := t / 1024
      let t := t + 1
      shr exp_value t
    else 0
  (inv_std * exp_value, delta)

/-! ## Statistical classifier -/

/-- Weighted average `WeightedAverage` over the two Gaussians of a channel:
`data` is the whole table, read and updated at `channel + k * kNumChannels`;
the result is the updated table and the weighted average. -/
def WeightedAverage (data : List Int) (channel : Nat) (offset : Int) (weights : List Int) :
    List Int × Int :=
  (List.range kNumGaussians).foldl
    (fun (acc : List Int × Int) k =>
      let g := channel + k * kNumChannels
      let d := wrap16 (acc.1.getD g 0 + offset)
      (acc.1.set g d, wrap32 (acc.2 + d * weights.getD g 0)))
    (data, 0)

/-- The multiplication `OverflowingMulS16ByS32ToS32`, which is allowed to
overflow: the product is reduced to 32 bits. -/
def OverflowingMulS16ByS32ToS32 (a b : Int) : Int := wrap32 (a * b)

/-- The thresholds chosen at the start of `GmmProbability` from the frame
length: (`overhead1`, `overhead2`, `individualTest`, `totalTest`). -/
def GmmProbability_thresholds (self : VadInstT) (frame_length : Nat) : Int × Int × Int × Int :=
  if frame_length = 80 then
    (self.over_hang_max_1.getD 0 0, self.over_hang_max_2.getD 0 0, self.individual.getD 0 0,
      self.total.getD 0 0)
  else if frame_length = 160 then
    (self.over_hang_max_1.getD 1 0, self.over_hang_max_2.getD 1 0, self.individual.getD 1 0,
      self.total.getD 1 0)
  else
    (self.over_hang_max_1.getD 2 0, self.over_hang_max_2.getD 2 0, self.individual.getD 2 0,
      self.total.getD 2 0)

/-- Local variables of `GmmProbability` that the first channel loop fills and
the model update reads. -/
structure GmmScratch where
  deltaN : List Int
  deltaS : List Int
  ngprvec : List Int
  sgprvec : List Int
  vadflag : Int
  sum_log_likelihood_ratios : Int

/-- The local variables of `GmmProbability` on entry (`deltaN`, `deltaS` are
written before they are read; they start as zeros here). -/
def GmmScratch.init : GmmScratch :=
  { deltaN := List.replicate kTableSize 0
    deltaS := List.replicate kTableSize 0
    ngprvec := List.replicate kTableSize 0
    sgprvec := List.replicate kTableSize 0
    vadflag := 0
    sum_log_likelihood_ratios := 0 }

/-- The mask-and-shift `(p & 0xFFFFF000) << 2` on a 32-bit value, stored into
an `int32_t`: the mask is unsigned, so the arithmetic is modulo `2^32`. -/
def maskShiftQ29 (p : Int) : Int :=
  wrap32 (wrapU32 ((wrapU32 p - wrapU32 p % 4096) * 4))

/-- Body of the first channel loop of `GmmProbability` (likelihood test of one
channel). -/
def GmmProbability_test (spl : Spl) (self : VadInstT) (features : List Int)
    (individualTest : Int) (sc : GmmScratch) (channel : Nat) : GmmScratch :=
  let g0 := channel
  let g1 := channel + kNumChannels
  let x := features.getD channel 0
  -- k = 0
  let n0 := WebRtcVad_GaussianProbability spl x (self.noise_means.getD g0 0)
    (self.noise_stds.getD g0 0)
  let noise_probability0 := wrap32 (kNoiseDataWeights.getD g0 0 * n0.1)
  let h0_test := wrap32 (0 + noise_probability0)
  let s0 := WebRtcVad_GaussianProbability spl x (self.speech_means.getD g0 0)
    (self.speech_stds.getD g0 0)
  let speech_probability0 := wrap32 (kSpeechDataWeights.getD g0 0 * s0.1)
  let h1_test := wrap32 (0 + speech_probability0)
  -- k = 1
  let n1 := WebRtcVad_GaussianProbability spl x (self.noise_means.getD g1 0)
    (self.noise_stds.getD g1 0)
  let noise_probability1 := wrap32 (kNoiseDataWeights.getD g1 0 * n1.1)
  let h0_test := wrap32 (h0_test + noise_probability1)
  let s1 := WebRtcVad_GaussianProbability spl x (self.speech_means.getD g1 0)
    (self.speech_stds.getD g1 0)
  let speech_probability1 := wrap32 (kSpeechDataWeights.getD g1 0 * s1.1)
  let h1_test := wrap32 (h1_test + speech_probability1)
  let deltaN := (sc.deltaN.set g0 n0.2).set g1 n1.2
  let deltaS := (sc.deltaS.set g0 s0.2).set g1 s1.2
  -- Calculate the log likelihood ratio.
  let shifts_h0 := wrap16 (spl.WebRtcSpl_NormW32 h0_test)
  let shifts_h1 := wrap16 (spl.WebRtcSpl_NormW32 h1_test)
  let shifts_h0 := if h0_test = 0 then 31 else shifts_h0
  let shifts_h1 := if h1_test = 0 then 31 else shifts_h1
  let log_likelihood_ratio := wrap16 (shifts_h0 - shifts_h1)
  let sum_log_likelihood_ratios :=
    wrap32 (sc.sum_log_likelihood_ratios + log_likelihood_ratio * kSpectrumWeight.getD channel 0)
  -- Local VAD decision.
  let vadflag := if log_likelihood_ratio * 4 > individualTest then 1 else sc.vadflag
  -- Calculate local noise probabilities used later when updating the GMM.
  let h0 := wrap16 (h0_test / 4096)
  let ngprvec :=
    if h0 > 0 then
      let tmp1_s32 := maskShiftQ29 noise_probability0
      let p := wrap16 (spl.WebRtcSpl_DivW32W16 tmp1_s32 h0)
      (sc.ngprvec.set g0 p).set g1 (wrap16 (16384 - p))
    else
      sc.ngprvec.set g0 16384
  -- Calculate local speech probabilities used later when updating the GMM.
  let h1 := wrap16 (h1_test / 4096)
  let sgprvec :=
    if h1 > 0 then
      let tmp1_s32 := maskShiftQ29 speech_probability0
      let p := wrap16 (spl.WebRtcSpl_DivW32W16 tmp1_s32 h1)
      (sc.sgprvec.set g0 p).set g1 (wrap16 (16384 - p))
    else
      sc.sgprvec
  { deltaN := deltaN, deltaS := deltaS, ngprvec := ngprvec, sgprvec := sgprvec,
    vadflag := vadflag, sum_log_likelihood_ratios := sum_log_likelihood_ratios }

/-- The quotient `tmp_s16` of the variance updates: `num / den` for a positive
numerator, and minus `(-num) / den` otherwise, each stored as `int16_t`; the
divisor is passed to the division as an `int16_t`. -/
def GmmProbability_signedDiv (spl : Spl) (num den : Int) : Int :=
  if num > 0 then
    wrap16 (spl.WebRtcSpl_DivW32W16 num (wrap16 den))
  else
    wrap16 (-(wrap16 (spl.WebRtcSpl_DivW32W16 (wrap32 (-num)) (wrap16 den))))

/-- The product `tmp_s16 * tmp2_s32` of the speech-variance update before it is
stored into `tmp1_s32`. -/
def GmmProbability_speechVarProduct (sgpr deltaS feature smk : Int) : Int :=
  let tmp_s16 := (smk + 4) / 8
  let tmp_s16 := wrap16 (feature - tmp_s16)
  let tmp1_s32 := (deltaS * tmp_s16) / 8
  let tmp2_s32 := tmp1_s32 - 4096
  let tmp_s16 := sgpr / 4
  tmp_s16 * tmp2_s32

/-- Body of the loop over the Gaussians in the model update of
`GmmProbability`, for the Gaussian `k` of `channel`. -/
def GmmProbability_updateGaussian (spl : Spl) (features : List Int) (sc : GmmScratch)
    (vadflag : Int) (channel : Nat) (feature_minimum tmp1_s16 maxspe : Int) (self : VadInstT)
    (k : Nat) : VadInstT :=
  let gaussian := channel + k * kNumChannels
  let nmk := self.noise_means.getD gaussian 0
  let smk := self.speech_means.getD gaussian 0
  let nsk := self.noise_stds.getD gaussian 0
  let ssk := self.speech_stds.getD gaussian 0
  -- Update noise mean vector if the frame consists of noise only.
  let nmk2 :=
    if vadflag = 0 then
      let delt := wrap16 ((sc.ngprvec.getD gaussian 0 * sc.deltaN.getD gaussian 0) / 2048)
      wrap16 (nmk + wrap16 ((delt * kNoiseUpdateConst) / 4194304))
    else nmk
  -- Long term correction of the noise mean.
  let ndelt := wrap16 (feature_minimum * 16 - tmp1_s16)
  let nmk3 := wrap16 (nmk2 + wrap16 ((ndelt * kBackEta) / 512))
  -- Control that the noise mean does not drift to much.
  let tmp_s16 : Int := ((k : Int) + 5) * 128
  let nmk3 := if nmk3 < tmp_s16 then tmp_s16 else nmk3
  let tmp_s16 : Int := (72 + (k : Int) - (channel : Int)) * 128
  let nmk3 := if nmk3 > tmp_s16 then tmp_s16 else nmk3
  let self := { self with noise_means := self.noise_means.set gaussian nmk3 }
  if vadflag ≠ 0 then
    -- Update speech mean vector.
    let delt := wrap16 ((sc.sgprvec.getD gaussian 0 * sc.deltaS.getD gaussian 0) / 2048)
    let tmp_s16 := wrap16 ((delt * kSpeechUpdateConst) / 2097152)
    let smk2 := wrap16 (smk + (tmp_s16 + 1) / 2)
    -- Control that the speech mean does not drift to much.
    let maxmu := wrap16 (maxspe + 640)
    let smk2 := if smk2 < kMinimumMean.getD k 0 then kMinimumMean.getD k 0 else smk2
    let smk2 := if smk2 > maxmu then maxmu else smk2
    let self := { self with speech_means := self.speech_means.set gaussian smk2 }
    let tmp1_s32 := wrap32 (GmmProbability_speechVarProduct (sc.sgprvec.getD gaussian 0)
      (sc.deltaS.getD gaussian 0) (features.getD channel 0) smk)
    let tmp2_s32 := tmp1_s32 / 16
    -- 0.1 * Q20 / Q7 = Q13.
    let tmp_s16 := GmmProbability_signedDiv spl tmp2_s32 (ssk * 10)
    let tmp_s16 := wrap16 (tmp_s16 + 128)
    let ssk := wrap16 (ssk + tmp_s16 / 256)
    let ssk := if ssk < kMinStd then kMinStd else ssk
    { self with speech_stds := self.speech_stds.set gaussian ssk }
  else
    -- Update GMM variance vectors.
    let tmp_s16 := wrap16 (features.getD channel 0 - nmk / 8)
    let tmp1_s32 := (sc.deltaN.getD gaussian 0 * tmp_s16) / 8
    let tmp1_s32 := tmp1_s32 - 4096
    let tmp_s16 := (sc.ngprvec.getD gaussian 0 + 2) / 4
    let tmp2_s32 := OverflowingMulS16ByS32ToS32 tmp_s16 tmp1_s32
    let tmp1_s32 := tmp2_s32 / 16384
    -- Q20 / Q7 = Q13.
    let tmp_s16 := GmmProbability_signedDiv spl tmp1_s32 nsk
    let tmp_s16 := wrap16 (tmp_s16 + 32)
    let nsk := wrap16 (nsk + tmp_s16 / 64)
    let nsk := if nsk < kMinStd then kMinStd else nsk
    { self with noise_stds := self.noise_stds.set gaussian nsk }

/-- Subtraction of `d` from the two means of `channel`
(`means[channel + k * kNumChannels] -= d` for both `k`). -/
def GmmProbability_shiftMeans (means : List Int) (channel : Nat) (d : Int) : List Int :=
  (List.range kNumGaussians).foldl
    (fun (m : List Int) k =>
      m.set (channel + k * kNumChannels) (wrap16 (m.getD (channel + k * kNumChannels) 0 - d)))
    means

/-- The step "Separate models if they are too close" of the model update for
one channel: the new instance with `noise_global_mean` and
`speech_global_mean` as they stand after the step. -/
def GmmProbability_separate (self : VadInstT) (channel : Nat) : VadInstT × Int × Int :=
  let wn := WeightedAverage self.noise_means channel 0 kNoiseDataWeights
  let self := { self with noise_means := wn.1 }
  let noise_global_mean := wn.2
  let ws := WeightedAverage self.speech_means channel 0 kSpeechDataWeights
  let self := { self with speech_means := ws.1 }
  let speech_global_mean := ws.2
  let diff := wrap16 (wrap16 (speech_global_mean / 512) - wrap16 (noise_global_mean / 512))
  if diff < kMinimumDifference.getD channel 0 then
    let tmp_s16 := wrap16 (kMinimumDifference.getD channel 0 - diff)
    let tmp1_s16 := wrap16 ((13 * tmp_s16) / 4)
    let tmp2_s16 := wrap16 ((3 * tmp_s16) / 4)
    let ws := WeightedAverage self.speech_means channel tmp1_s16 kSpeechDataWeights
    let self := { self with speech_means := ws.1 }
    let wn := WeightedAverage self.noise_means channel (wrap16 (-tmp2_s16)) kNoiseDataWeights
    let self := { self with noise_means := wn.1 }
    (self, wn.2, ws.2)
  else (self, noise_global_mean, speech_global_mean)

/-- The step "Control that the speech & noise means do not drift to much" at
the end of the model update for one channel. -/
def GmmProbability_limit (self : VadInstT) (channel : Nat)
    (noise_global_mean speech_global_mean : Int) : VadInstT :=
  let maxspe := kMaximumSpeech.getD channel 0
  let tmp2_s16 := wrap16 (speech_global_mean / 128)
  let self :=
    if tmp2_s16 > maxspe then
      { self with
        speech_means := GmmProbability_shiftMeans self.speech_means channel
          (wrap16 (tmp2_s16 - maxspe)) }
    else self
  let tmp2_s16 := wrap16 (noise_global_mean / 128)
  if tmp2_s16 > kMaximumNoise.getD channel 0 then
    { self with
      noise_means := GmmProbability_shiftMeans self.noise_means channel
        (wrap16 (tmp2_s16 - kMaximumNoise.getD channel 0)) }
  else self

/-- Body of the model-update loop of `GmmProbability` for one channel; the
state is the instance together with the running `maxspe`. -/
def GmmProbability_update (spl : Spl) (features : List Int) (sc : GmmScratch) (vadflag : Int)
    (st : VadInstT × Int) (channel : Nat) : VadInstT × Int :=
  let self := st.1
  let maxspe := st.2
  -- Get minimum value in past which is used for long term correction in Q4.
  let fm := WebRtcVad_FindMinimum self (features.getD channel 0) channel
  let self := fm.1
  let feature_minimum := fm.2
  -- Compute the "global" mean, that is the sum of the two means weighted.
  let wa := WeightedAverage self.noise_means channel 0 kNoiseDataWeights
  let self := { self with noise_means := wa.1 }
  let noise_global_mean := wa.2
  let tmp1_s16 := wrap16 (noise_global_mean / 64)
  let self := (List.range kNumGaussians).foldl
    (GmmProbability_updateGaussian spl features sc vadflag channel feature_minimum tmp1_s16 maxspe)
    self
  -- Separate models if they are too close.
  let sep := GmmProbability_separate self channel
  -- Control that the speech & noise means do not drift to much.
  let maxspe := kMaximumSpeech.getD channel 0
  (GmmProbability_limit sep.1 channel sep.2.1 sep.2.2, maxspe)

/-- The hysteresis at the end of `GmmProbability` ("Smooth with respect to
transition hysteresis"): from the raw decision `vadflag` and the two overhang
presets to the new instance and the emitted decision. -/
def GmmProbability_hysteresis (self : VadInstT) (vadflag overhead1 overhead2 : Int) :
    VadInstT × Int :=
  if vadflag = 0 then
    if self.over_hang > 0 then
      ({ self with over_hang := wrap16 (self.over_hang - 1), num_of_speech := 0 },
        wrap16 (2 + self.over_hang))
    else
      ({ self with num_of_speech := 0 }, vadflag)
  else
    let num_of_speech := wrap16 (self.num_of_speech + 1)
    if num_of_speech > kMaxSpeechFrames then
      ({ self with num_of_speech := kMaxSpeechFrames, over_hang := overhead2 }, vadflag)
    else
      ({ self with num_of_speech := num_of_speech, over_hang := overhead1 }, vadflag)

/-- The part of `GmmProbability` before the hysteresis: the likelihood test and
the model update, run only when `total_power > kMinEnergy`; the result is the
new instance and the raw decision `vadflag`. -/
def GmmProbability_raw (spl : Spl) (self : VadInstT) (features : List Int) (total_power : Int)
    (frame_length : Nat) : VadInstT × Int :=
  let th := GmmProbability_thresholds self frame_length
  let individualTest := th.2.2.1
  let totalTest := th.2.2.2
  if total_power > kMinEnergy then
    let sc := (List.range kNumChannels).foldl
      (GmmProbability_test spl self features individualTest) GmmScratch.init
    -- Make a global VAD decision: vadflag |= (sum_log_likelihood_ratios >= totalTest).
    let vadflag : Int := if sc.sum_log_likelihood_ratios ≥ totalTest then 1 else sc.vadflag
    -- Update the model parameters.
    let st := (List.range kNumChannels).foldl
      (GmmProbability_update spl features sc vadflag) (self, 12800)
    ({ st.1 with frame_counter := wrap32 (st.1.frame_counter + 1) }, vadflag)
  else
    (self, 0)

/-- The classifier `GmmProbability`: the new instance and the VAD decision. -/
def GmmProbability (spl : Spl) (self : VadInstT) (features : List Int) (total_power : Int)
    (frame_length : Nat) : VadInstT × Int :=
  let th := GmmProbability_thresholds self frame_length
  let r := GmmProbability_raw spl self features total_power frame_length
  GmmProbability_hysteresis r.1 r.2 th.1 th.2.1

/-! ## Per-frame entry points -/

/-- Classification of an 8 kHz frame, `WebRtcVad_CalcVad8khz`: the new instance
and the returned decision. -/
def WebRtcVad_CalcVad8khz (spl : Spl) (inst : VadInstT) (speech_frame : List Int)
    (frame_length : Nat) : VadInstT × Int :=
  -- Get power in the bands
  let f := WebRtcVad_CalculateFeatures spl inst speech_frame frame_length
  -- Make a VAD
  let g := GmmProbability spl f.1 f.2.1 f.2.2 frame_length
  ({ g.1 with vad := g.2 }, g.2)

/-- Classification of a 16 kHz frame, `WebRtcVad_CalcVad16khz`. -/
def WebRtcVad_CalcVad16khz (spl : Spl) (inst : VadInstT) (speech_frame : List Int)
    (frame_length : Nat) : VadInstT × Int :=
  -- Wideband: Downsample signal before doing VAD
  let d := WebRtcVad_Downsampling speech_frame
    (inst.downsampling_filter_states.getD 0 0, inst.downsampling_filter_states.getD 1 0)
    frame_length
  let inst := { inst with
    downsampling_filter_states := (inst.downsampling_filter_states.set 0 d.2.1).set 1 d.2.2 }
  let len := frame_length / 2
  WebRtcVad_CalcVad8khz spl inst d.1 len

/-- Classification of a 32 kHz frame, `WebRtcVad_CalcVad32khz`. -/
def WebRtcVad_CalcVad32khz (spl : Spl) (inst : VadInstT) (speech_frame : List Int)
    (frame_length : Nat) : VadInstT × Int :=
  -- Downsample signal 32->16->8 before doing VAD
  let d1 := WebRtcVad_Downsampling speech_frame
    (inst.downsampling_filter_states.getD 2 0, inst.downsampling_filter_states.getD 3 0)
    frame_length
  let inst := { inst with
    downsampling_filter_states := (inst.downsampling_filter_states.set 2 d1.2.1).set 3 d1.2.2 }
  let len := frame_length / 2
  let d2 := WebRtcVad_Downsampling d1.1
    (inst.downsampling_filter_states.getD 0 0, inst.downsampling_filter_states.getD 1 0) len
  let inst := { inst with
    downsampling_filter_states := (inst.downsampling_filter_states.set 0 d2.2.1).set 1 d2.2.2 }
  let len := len / 2
  -- Do VAD on an 8 kHz signal
  WebRtcVad_CalcVad8khz spl inst d2.1 len

/-- Store of an 80-sample block at `speech_nb[pos ..]` (the output pointer
handed to the resampler). -/
def writeBlock (buf : List Int) (pos : Nat) (blk : List Int) : List Int :=
  (List.range 80).foldl (fun (b : List Int) j => b.set (pos + j) (blk.getD j 0)) buf

/-- One pass of the resampling loop of `WebRtcVad_CalcVad48khz`: the state is
(`speech_nb`, `state_48_to_8`, `tmp_mem`).  Every pass hands the resampler the
pointer `speech_frame` itself. -/
def WebRtcVad_CalcVad48khz_step (spl : Spl) (speech_frame : List Int)
    (st : List Int × List Int × List Int) (i : Nat) : List Int × List Int × List Int :=
  let r := spl.WebRtcSpl_Resample48khzTo8khz speech_frame st.2.1 st.2.2
  (writeBlock st.1 (i * 80) r.1, r.2.1, r.2.2)

/-- Classification of a 48 kHz frame, `WebRtcVad_CalcVad48khz`. -/
def WebRtcVad_CalcVad48khz (spl : Spl) (inst : VadInstT) (speech_frame : List Int)
    (frame_length : Nat) : VadInstT × Int :=
  let kFrameLen10ms48khz := 480
  let num_10ms_frames := frame_length / kFrameLen10ms48khz
  let r := (List.range num_10ms_frames).foldl (WebRtcVad_CalcVad48khz_step spl speech_frame)
    (List.replicate 240 0, inst.state_48_to_8, List.replicate (480 + 256) 0)
  let inst := { inst with state_48_to_8 := r.2.1 }
  -- Do VAD on an 8 kHz signal
  WebRtcVad_CalcVad8khz spl inst r.1 (frame_length / 6)

/-! ## Reference model of the signal-processing library -/

/-- Number of bits of `n` (position of the highest set bit, 0 for 0), for
`n < 2^fuel`. -/
def bitLength : Nat → Nat → Nat
  | 0, _ => 0
  | fuel + 1, n => if n = 0 then 0 else bitLength fuel (n / 2) + 1

/-- Modelled from the spec: `WebRtcSpl_NormW32`, absent from the sources, the
normalization count of a signed 32-bit value: the number of left shifts that
bring the value to full scale (leading sign bits minus one), and 0 for 0. -/
def WebRtcSpl_NormW32 (a : Int) : Int :=
  if a = 0 then 0
  else
    let a := if a < 0 then -a - 1 else a
    31 - (bitLength 32 a.toNat : Int)

/-- Modelled from the spec: `WebRtcSpl_NormU32`, absent from the sources, the
number of leading zero bits of an unsigned 32-bit value, and 0 for 0. -/
def WebRtcSpl_NormU32 (a : Int) : Int :=
  if a = 0 then 0 else 32 - (bitLength 32 a.toNat : Int)

/-- Modelled from the spec: `WebRtcSpl_DivW32W16`, absent from the sources, the
signed 32-by-16 division: the quotient truncated towards zero, and the largest
32-bit value for a zero divisor. -/
def WebRtcSpl_DivW32W16 (num den : Int) : Int :=
  if den ≠ 0 then wrap32 (Int.tdiv num den) else 2147483647

/-- Modelled from the spec: the scaling of `WebRtcSpl_Energy` (library routine
`WebRtcSpl_GetScalingSquare`), absent from the sources: the number of right
shifts of each square for which a sum of `times` squares of the block cannot
overflow 32 bits. -/
def WebRtcSpl_GetScalingSquare (in_vector : List Int) (in_vector_length times : Nat) : Int :=
  let nbits : Int := (bitLength 32 times : Int)
  let smax := (List.range in_vector_length).foldl
    (fun (smax : Int) i =>
      let x := in_vector.getD i 0
      let sabs := if x > 0 then x else wrap16 (-x)
      if sabs > smax then sabs else smax) (-1)
  let t := WebRtcSpl_NormW32 (smax * smax)
  if smax = 0 then 0 else if t > nbits then 0 else nbits - t

/-- Modelled from the spec: `WebRtcSpl_Energy`, absent from the sources, the
block energy with its right-shift normalization count: the sum of the squares
of the first `vector_length` samples, each shifted right by the scaling, and
the scaling. -/
def WebRtcSpl_Energy (vector : List Int) (vector_length : Nat) : Int × Int :=
  let scaling := WebRtcSpl_GetScalingSquare vector vector_length vector_length
  let en := (List.range vector_length).foldl
    (fun (en : Int) i => wrap32 (en + shr (vector.getD i 0 * vector.getD i 0) scaling)) 0
  (en, scaling)

/-- Modelled from the spec: `WebRtcSpl_Resample48khzTo8khz`, absent from the
sources; the spec leaves its arithmetic open (one 480-sample chunk in, 80
samples out, carried state and scratch memory).  It is modelled as plain
decimation by six that passes state and scratch memory through; only
statements that never reach the resampler are evaluated with it. -/
def WebRtcSpl_Resample48khzTo8khz (input state tmp_mem : List Int) :
    List Int × List Int × List Int :=
  ((List.range 80).map (fun j => input.getD (6 * j) 0), state, tmp_mem)

/-- The reference primitives, bundled. -/
def splRef : Spl :=
  { WebRtcSpl_Energy := WebRtcSpl_Energy
    WebRtcSpl_NormU32 := WebRtcSpl_NormU32
    WebRtcSpl_NormW32 := WebRtcSpl_NormW32
    WebRtcSpl_DivW32W16 := WebRtcSpl_DivW32W16
    WebRtcSpl_Resample48khzTo8khz := WebRtcSpl_Resample48khzTo8khz }

/-! ## Reachable states and test instances -/

/-- An instance whose memory is all zero (a freshly allocated, cleared
`VadInstT`). -/
def zeroInst : VadInstT :=
  { vad := 0
    downsampling_filter_states := List.replicate 4 0
    state_48_to_8 := List.replicate 40 0
    noise_means := List.replicate kTableSize 0
    speech_means := List.replicate kTableSize 0
    noise_stds := List.replicate kTableSize 0
    speech_stds := List.replicate kTableSize 0
    frame_counter := 0
    over_hang := 0
    num_of_speech := 0
    index_vector := List.replicate (16 * kNumChannels) 0
    low_value_vector := List.replicate (16 * kNumChannels) 0
    mean_value := List.replicate kNumChannels 0
    upper_state := List.replicate 5 0
    lower_state := List.replicate 5 0
    hp_filter_state := List.replicate 4 0
    over_hang_max_1 := List.replicate 3 0
    over_hang_max_2 := List.replicate 3 0
    individual := List.replicate 3 0
    total := List.replicate 3 0
    init_flag := 0 }

/-- The instance that `WebRtcVad_InitCore` leaves when run on `zeroInst`. -/
def initState : VadInstT :=
  match (WebRtcVad_InitCore (some zeroInst)).1 with
  | some s => s
  | none => zeroInst

/-- States reachable from a successful `WebRtcVad_InitCore` by mode selections
(with any mode argument) and per-frame classification calls at any of the four
rates, with arbitrary frames and frame lengths. -/
inductive Reachable (spl : Spl) : VadInstT → Prop
  | init (s s' : VadInstT) :
      WebRtcVad_InitCore (some s) = (some s', 0) → Reachable spl s'
  | set_mode (s : VadInstT) (mode : Int) :
      Reachable spl s → Reachable spl (WebRtcVad_set_mode_core s mode).1
  | calc8 (s : VadInstT) (frame : List Int) (n : Nat) :
      Reachable spl s → Reachable spl (WebRtcVad_CalcVad8khz spl s frame n).1
  | calc16 (s : VadInstT) (frame : List Int) (n : Nat) :
      Reachable spl s → Reachable spl (WebRtcVad_CalcVad16khz spl s frame n).1
  | calc32 (s : VadInstT) (frame : List Int) (n : Nat) :
      Reachable spl s → Reachable spl (WebRtcVad_CalcVad32khz spl s frame n).1
  | calc48 (s : VadInstT) (frame : List Int) (n : Nat) :
      Reachable spl s → Reachable spl (WebRtcVad_CalcVad48khz spl s frame n).1

/-- The decision smoother driven by a sequence of raw decisions: each raw
decision goes through `GmmProbability_hysteresis` with the presets that
`GmmProbability` selects for the frame length; the emitted decisions are
collected in order. -/
def hysteresisRun (frame_length : Nat) : VadInstT → List Int → VadInstT × List Int
  | s, [] => (s, [])
  | s, raw :: rest =>
    let th := GmmProbability_thresholds s frame_length
    let r := GmmProbability_hysteresis s raw th.1 th.2.1
    let t := hysteresisRun frame_length r.1 rest
    (t.1, r.2 :: t.2)

/-- A run of `WebRtcVad_CalcVad8khz` over consecutive frames of `n` samples: the
final instance and the returned decisions in order. -/
def run8 (spl : Spl) (n : Nat) : VadInstT → List (List Int) → VadInstT × List Int
  | s, [] => (s, [])
  | s, f :: rest =>
    let r := WebRtcVad_CalcVad8khz spl s f n
    let t := run8 spl n r.1 rest
    (t.1, r.2 :: t.2)

/-- A 10 ms test frame at 8 kHz: four full-band samples of amplitude 1000
followed by silence. -/
def burstFrame : List Int :=
  [1000, -1000, 1000, -1000] ++ List.replicate 76 0

/-- A 10 ms test frame at 8 kHz of digital silence. -/
def silentFrame : List Int := List.replicate 80 0

/-- The filter memories of an instance: downsampling cascade, resampler,
band-splitting and high-pass states. -/
def filterState (s : VadInstT) : List Int × List Int × List Int × List Int × List Int :=
  (s.downsampling_filter_states, s.state_48_to_8, s.upper_state, s.lower_state,
    s.hp_filter_state)

/-- The bounds on the decision state that hold in every reachable state:
`num_of_speech` in `[0, 6]`, `over_hang` in `[0, 14]`, and every entry of the
two overhang tables in `[0, 14]`. -/
def DecisionInv (s : VadInstT) : Prop :=
  (0 ≤ s.num_of_speech ∧ s.num_of_speech ≤ 6) ∧ (0 ≤ s.over_hang ∧ s.over_hang ≤ 14) ∧
  (∀ i, 0 ≤ s.over_hang_max_1.getD i 0 ∧ s.over_hang_max_1.getD i 0 ≤ 14) ∧
  (∀ i, 0 ≤ s.over_hang_max_2.getD i 0 ∧ s.over_hang_max_2.getD i 0 ≤ 14)

/-- The decision state and configuration of an instance: frame counter,
overhang counter, speech-frame counter and the four threshold tables. -/
def decisionState (s : VadInstT) :
    Int × Int × Int × List Int × List Int × List Int × List Int :=
  (s.frame_counter, s.over_hang, s.num_of_speech, s.over_hang_max_1, s.over_hang_max_2,
    s.individual, s.total)

/-! ## The Gaussian density, step by step -/

/-- The value `inv_std` of `WebRtcVad_GaussianProbability`: 1 / s in Q10. -/
def GaussianProbability_inv_std (spl : Spl) (std : Int) : Int :=
  wrap16 (spl.WebRtcSpl_DivW32W16 (131072 + std / 2) std)

/-- The residual `tmp16 = (input << 3) - mean` of `WebRtcVad_GaussianProbability`
(Q7). -/
def GaussianProbability_residual (input mean : Int) : Int :=
  wrap16 (wrap16 (input * 8) - mean)

/-- The value written to `delta` by `WebRtcVad_GaussianProbability` (Q11). -/
def GaussianProbability_delta (spl : Spl) (input mean std : Int) : Int :=
  let tmp16 := GaussianProbability_inv_std spl std / 4
  let inv_std2 := wrap16 ((tmp16 * tmp16) / 4)
  wrap16 ((inv_std2 * GaussianProbability_residual input mean) / 1024)

/-- The exponent argument `tmp32 = (*delta * tmp16) >> 9` of
`WebRtcVad_GaussianProbability` (Q10). -/
def GaussianProbability_exponent (spl : Spl) (input mean std : Int) : Int :=
  (GaussianProbability_delta spl input mean std * GaussianProbability_residual input mean) / 512

/-- The factor `exp_value` of `WebRtcVad_GaussianProbability` as a function of
the exponent argument `tmp32`. -/
def GaussianProbability_exp_value (tmp32 : Int) : Int :=
  if tmp32 < kCompVar then
    let t := wrap16 (wrap32 (kLog2Exp * tmp32) / 4096)
    let t := wrap16 (-t)
    let exp_value := 1024 + t % 1024
    let t := -t - 1
    let t := t / 1024
    let t := t + 1
    shr exp_value t
  else 0

/-- The contract of the division primitive on the operands the density hands
it: for a non-negative 32-bit numerator and a positive divisor the result is
the integer quotient. -/
def DivContract (spl : Spl) : Prop :=
  ∀ num den : Int, 0 ≤ num → num < 2147483648 → 0 < den →
    spl.WebRtcSpl_DivW32W16 num den = num / den

/-! ## Silence -/

/-- A block of samples that are all zero. -/
def AllZero (l : List Int) : Prop := ∀ x ∈ l, x = 0

/-- The contract of the energy primitive on silence: an all-zero block has
energy 0. -/
def EnergyZeroContract (spl : Spl) : Prop :=
  ∀ (v : List Int) (n : Nat), AllZero v → (spl.WebRtcSpl_Energy v n).1 = 0

/-- An instance whose band-splitting and high-pass filter memories are zero and
whose hangover and speech-frame counters are zero. -/
def Quiet (s : VadInstT) : Prop :=
  s.upper_state = [0, 0, 0, 0, 0] ∧ s.lower_state = [0, 0, 0, 0, 0] ∧
  s.hp_filter_state = [0, 0, 0, 0] ∧ s.over_hang = 0 ∧ s.num_of_speech = 0

/-! ## Band energies -/

/-- The energy of a band as the code reads it: the value returned by the energy
primitive, cast to `uint32_t`, times 2 to the power of the returned shift
count. -/
def BandEnergy (spl : Spl) (v : List Int) (n : Nat) : Int :=
  wrapU32 (spl.WebRtcSpl_Energy v n).1 * 2 ^ (spl.WebRtcSpl_Energy v n).2.toNat

/-- The contract of the two library functions that `LogOfEnergy` calls: the shift
count returned with the energy is non-negative, and the normalization count of
a non-zero unsigned 32-bit value is its number of leading zero bits. -/
def EnergyContract (spl : Spl) : Prop :=
  (∀ (v : List Int) (n : Nat), 0 ≤ (spl.WebRtcSpl_Energy v n).2) ∧
  (∀ a : Int, 0 < a → a < 4294967296 →
    spl.WebRtcSpl_NormU32 a = 32 - (bitLength 32 a.toNat : Int))

/-- The six sub-band blocks that `WebRtcVad_CalculateFeatures` hands to
`LogOfEnergy`, each with its length, in channel order (80 Hz - 250 Hz first,
3000 Hz - 4000 Hz last): the filter tree of the function without the energy
computations. -/
def CalculateFeatures_bands (self : VadInstT) (data_in : List Int) (data_length : Nat) :
    List (List Int × Nat) :=
  let half_data_length := data_length / 2
  let length := half_data_length
  -- Split at 2000 Hz and downsample.
  let s0 := SplitFilter data_in data_length (self.upper_state.getD 0 0) (self.lower_state.getD 0 0)
  let hp_120 := s0.1
  let lp_120 := s0.2.1
  let upper_state := self.upper_state.set 0 s0.2.2.1
  let lower_state := self.lower_state.set 0 s0.2.2.2
  -- For the upper band (2000 Hz - 4000 Hz) split at 3000 Hz and downsample.
  let s1 := SplitFilter hp_120 length (upper_state.getD 1 0) (lower_state.getD 1 0)
  let upper_state := upper_state.set 1 s1.2.2.1
  let lower_state := lower_state.set 1 s1.2.2.2
  let length := length / 2
  let b5 := (s1.1, length)
  let b4 := (s1.2.1, length)
  -- For the lower band (0 Hz - 2000 Hz) split at 1000 Hz and downsample.
  let length := half_data_length
  let s2 := SplitFilter lp_120 length (upper_state.getD 2 0) (lower_state.getD 2 0)
  let lp_60 := s2.2.1
  let upper_state := upper_state.set 2 s2.2.2.1
  let lower_state := lower_state.set 2 s2.2.2.2
  let length := length / 2
  let b3 := (s2.1, length)
  -- For the lower band (0 Hz - 1000 Hz) split at 500 Hz and downsample.
  let s3 := SplitFilter lp_60 length (upper_state.getD 3 0) (lower_state.getD 3 0)
  let lp_120 := s3.2.1
  let upper_state := upper_state.set 3 s3.2.2.1
  let lower_state := lower_state.set 3 s3.2.2.2
  let length := length / 2
  let b2 := (s3.1, length)
  -- For the lower band (0 Hz - 500 Hz) split at 250 Hz and downsample.
  let s4 := SplitFilter lp_120 length (upper_state.getD 4 0) (lower_state.getD 4 0)
  let lp_60 := s4.2.1
  let length := length / 2
  let b1 := (s4.1, length)
  -- Remove 0 Hz - 80 Hz, by high pass filtering the lower band.
  let h := HighPassFilter lp_60 length self.hp_filter_state
  let b0 := (h.1, length)
  [b0, b1, b2, b3, b4, b5]

/-- One update of the running total in `LogOfEnergy`, as a function of the
total on entry and the energy of the band. -/
def totalEnergyStep (t e : Int) : Int :=
  if t ≤ kMinEnergy then (if e < 16384 then t + e else t + 11) else t

/-! ## Invariants of the adaptive model -/

/-- The adaptive model of an instance: the four GMM tables and the three
arrays of the minimum tracker. -/
def modelState (s : VadInstT) :
    List Int × List Int × List Int × List Int × List Int × List Int × List Int :=
  (s.noise_means, s.speech_means, s.noise_stds, s.speech_stds, s.index_vector,
    s.low_value_vector, s.mean_value)

/-- The standard deviations of an instance. -/
def stdState (s : VadInstT) : List Int × List Int := (s.noise_stds, s.speech_stds)

/-- The floor that holds for the standard deviations in every reachable state:
every entry is at least 378 (the smallest initial value, `kNoiseDataStds[0]`),
and every entry other than `noise_stds[0]` is at least `kMinStd`. -/
def StdFloor (p : List Int × List Int) : Prop :=
  ∀ i : Nat, i < kTableSize →
    378 ≤ p.1.getD i 0 ∧ (i ≠ 0 → kMinStd ≤ p.1.getD i 0) ∧ kMinStd ≤ p.2.getD i 0

/-- The floor `StdFloor` on the standard deviations of an instance. -/
def StdInv (s : VadInstT) : Prop := StdFloor (stdState s)

/-- The ordering invariant of the minimum tracker on the 16 slots from `o`, for
the values `V` as a function of the array index (the ages `A` play no part):
the values are in non-decreasing order and none exceeds 10000. -/
def WinSorted (o : Nat) (_A V : Nat → Int) : Prop :=
  (∀ i, i < 15 → V (o + i) ≤ V (o + (i + 1))) ∧ (∀ i, i < 16 → V (o + i) ≤ 10000)

/-- The age invariant of the minimum tracker on the 16 slots from `o`: no value
exceeds 10000, and every live entry (value below 10000) has an age in
[1, 100]; an age outside [1, 100] occurs on sentinel slots (value 10000)
only. -/
def WinAge (o : Nat) (A V : Nat → Int) : Prop :=
  ∀ i, i < 16 → V (o + i) ≤ 10000 ∧ (V (o + i) < 10000 → 1 ≤ A (o + i) ∧ A (o + i) ≤ 100)

/-- A property `Q` of the window at `o` (ages `A`, values `V`) that the three
window operations of `WebRtcVad_FindMinimum` preserve: ageing the entry of slot
`i` by one, evicting slot `i` (the slots above move down, slot 15 becomes the
sentinel with age 101 and value 10000), and inserting a value at slot `p`
between its neighbours (the slots from `p` move up); and that depends on the
slots of the window only. -/
def WindowClosed (Q : Nat → (Nat → Int) → (Nat → Int) → Prop) : Prop :=
  (∀ (o i : Nat) (A V A' : Nat → Int), i < 16 → A (o + i) ≠ 100 →
    (∀ t, A' t = if t = o + i then wrap16 (A t + 1) else A t) → Q o A V → Q o A' V) ∧
  (∀ (o i : Nat) (A V A' V' : Nat → Int), i < 16 →
    (∀ t, V' t = if t = o + 15 then 10000 else
      if o + i ≤ t ∧ t < o + 16 then V (t + 1) else V t) →
    (∀ t, A' t = if t = o + 15 then 101 else
      if o + i ≤ t ∧ t < o + 16 then A (t + 1) else A t) → Q o A V → Q o A' V') ∧
  (∀ (o p : Nat) (fv : Int) (A V A' V' : Nat → Int), p < 16 → fv < V (o + p) →
    (∀ m, m + 1 = p → V (o + m) ≤ fv) →
    (∀ t, V' t = if t = o + p then fv else
      if o + p < t ∧ t ≤ o + 15 then V (t - 1) else V t) →
    (∀ t, A' t = if t = o + p then 1 else
      if o + p < t ∧ t ≤ o + 15 then A (t - 1) else A t) → Q o A V → Q o A' V') ∧
  (∀ (o : Nat) (A V A' V' : Nat → Int),
    (∀ t, o ≤ t → t < o + 16 → A' t = A t ∧ V' t = V t) → Q o A V → Q o A' V')

/-- A window property `Q` read on the arrays (`index_vector`,
`low_value_vector`) at offset `o`. -/
def TrackerWin (Q : Nat → (Nat → Int) → (Nat → Int) → Prop) (o : Nat)
    (st : List Int × List Int) : Prop :=
  Q o (fun t => st.1.getD t 0) (fun t => st.2.getD t 0)

/-- What a tracker operation on the window at `o` leaves alone: the lengths of
both arrays and every slot outside the window. -/
def Untouched (o : Nat) (st r : List Int × List Int) : Prop :=
  r.1.length = st.1.length ∧ r.2.length = st.2.length ∧
  ∀ t, (t < o ∨ o + 16 ≤ t) → r.1.getD t 0 = st.1.getD t 0 ∧ r.2.getD t 0 = st.2.getD t 0

/-- The arrays of the minimum tracker. -/
def trackerState (s : VadInstT) : List Int × List Int := (s.index_vector, s.low_value_vector)

/-- A window property `Q` holds for the window of every channel, and both
tracker arrays have their 96 slots. -/
def TrackerInv (Q : Nat → (Nat → Int) → (Nat → Int) → Prop) (s : VadInstT) : Prop :=
  (trackerState s).1.length = 96 ∧ (trackerState s).2.length = 96 ∧
  ∀ c, c < kNumChannels → TrackerWin Q (c * 16) (trackerState s)

/-- States reachable from a successful `WebRtcVad_InitCore` by mode selections,
per-frame classification calls at any of the four rates, and direct calls of
`WebRtcVad_FindMinimum` with any feature value on a valid channel. -/
inductive TrackerReachable (spl : Spl) : VadInstT → Prop
  | init (s s' : VadInstT) :
      WebRtcVad_InitCore (some s) = (some s', 0) → TrackerReachable spl s'
  | set_mode (s : VadInstT) (mode : Int) :
      TrackerReachable spl s → TrackerReachable spl (WebRtcVad_set_mode_core s mode).1
  | calc8 (s : VadInstT) (frame : List Int) (n : Nat) :
      TrackerReachable spl s → TrackerReachable spl (WebRtcVad_CalcVad8khz spl s frame n).1
  | calc16 (s : VadInstT) (frame : List Int) (n : Nat) :
      TrackerReachable spl s → TrackerReachable spl (WebRtcVad_CalcVad16khz spl s frame n).1
  | calc32 (s : VadInstT) (frame : List Int) (n : Nat) :
      TrackerReachable spl s → TrackerReachable spl (WebRtcVad_CalcVad32khz spl s frame n).1
  | calc48 (s : VadInstT) (frame : List Int) (n : Nat) :
      TrackerReachable spl s → TrackerReachable spl (WebRtcVad_CalcVad48khz spl s frame n).1
  | find_minimum (s : VadInstT) (feature_value : Int) (channel : Nat) :
      channel < kNumChannels → TrackerReachable spl s →
      TrackerReachable spl (WebRtcVad_FindMinimum s feature_value channel).1

/-- A run of `WebRtcVad_FindMinimum` on one channel over a sequence of feature
values: the final instance. -/
def FindMinimum_run (channel : Nat) (s : VadInstT) (l : List Int) : VadInstT :=
  l.foldl (fun s f => (WebRtcVad_FindMinimum s f channel).1) s

/-- A window of channel 0 in which all 16 slots carry the sentinel value and
the same age `a`, on an instance whose other windows are as after Init. -/
def UniformWindow (a : Int) (s : VadInstT) : Prop :=
  (trackerState s).1.length = 96 ∧ (trackerState s).2 = List.replicate 96 10000 ∧
  ∀ t, (trackerState s).1.getD t 0 = if t < 16 then a else 0

/-! ## The mean tables through the model update -/

/-- The weighted sum `WeightedAverage` returns for two 16-bit values `d0`, `d1`
and the weights `w0`, `w1`. -/
def weightedSum (d0 d1 w0 w1 : Int) : Int := wrap32 (wrap32 (0 + d0 * w0) + d1 * w1)

/-- The upper bound on the noise means that holds in every reachable state:
both mean tables have their 12 entries, and the noise mean of Gaussian `k` of
channel `c` is at most `(72 + k - c) * 128`. -/
def NoiseInv (s : VadInstT) : Prop :=
  s.noise_means.length = 12 ∧ s.speech_means.length = 12 ∧
  ∀ c k : Nat, c < kNumChannels → k < kNumGaussians →
    s.noise_means.getD (c + k * kNumChannels) 0 ≤ (72 + (k : Int) - (c : Int)) * 128

/-- Mean tables in which every entry sits on its lower clamp (640 for the first
Gaussian, 768 for the second). -/
def lowMeans : List Int := [640, 640, 640, 640, 640, 640, 768, 768, 768, 768, 768, 768]

/-- An instance whose noise and speech means all sit on their lower clamps,
with a smoothed minimum of 0 in every channel, after one processed frame. -/
def lowState : VadInstT :=
  { initState with
    noise_means := lowMeans
    speech_means := lowMeans
    mean_value := [0, 0, 0, 0, 0, 0]
    frame_counter := 1 }

/-! ## The smoothing of the tracked minimum, in the words of the specification -/

/-- The value the specification has `WebRtcVad_FindMinimum` smooth into the
channel mean: the third-smallest window value `low2` from the third observed
frame on, the smallest value `low0` when `frame_counter` is 1 or 2, and the
default 1600 otherwise. -/
def selectedMinimum (frame_counter low0 low2 : Int) : Int :=
  if frame_counter ≥ 3 then low2
  else if frame_counter = 1 ∨ frame_counter = 2 then low0
  else 1600

/-- The smoothing weight of the specification: 0 when `frame_counter` is 0,
else 6553 when the minimum is below the current mean and 32439 otherwise. -/
def smoothingAlpha (frame_counter mean minimum : Int) : Int :=
  if frame_counter = 0 then 0
  else if minimum < mean then 6553
  else 32439

/-- The new mean of the specification:
`((alpha + 1) * mean + (32767 - alpha) * minimum + 16384) >> 15`. -/
def smoothedMinimum (frame_counter mean low0 low2 : Int) : Int :=
  let minimum := selectedMinimum frame_counter low0 low2
  let alpha := smoothingAlpha frame_counter mean minimum
  shr ((alpha + 1) * mean + (32767 - alpha) * minimum + 16384) 15

/-! ## The likelihood test of one channel -/

/-- The noise total `h0_test` of one channel in the first channel loop of
`GmmProbability`: the weighted sum of the two noise Gaussians. -/
def GmmProbability_h0 (spl : Spl) (self : VadInstT) (features : List Int) (channel : Nat) : Int :=
  let g0 := channel
  let g1 := channel + kNumChannels
  let x := features.getD channel 0
  let n0 := WebRtcVad_GaussianProbability spl x (self.noise_means.getD g0 0)
    (self.noise_stds.getD g0 0)
  let noise_probability0 := wrap32 (kNoiseDataWeights.getD g0 0 * n0.1)
  let h0_test := wrap32 (0 + noise_probability0)
  let n1 := WebRtcVad_GaussianProbability spl x (self.noise_means.getD g1 0)
    (self.noise_stds.getD g1 0)
  let noise_probability1 := wrap32 (kNoiseDataWeights.getD g1 0 * n1.1)
  wrap32 (h0_test + noise_probability1)

/-- The speech total `h1_test` of one channel in the first channel loop of
`GmmProbability`. -/
def GmmProbability_h1 (spl : Spl) (self : VadInstT) (features : List Int) (channel : Nat) : Int :=
  let g0 := channel
  let g1 := channel + kNumChannels
  let x := features.getD channel 0
  let s0 := WebRtcVad_GaussianProbability spl x (self.speech_means.getD g0 0)
    (self.speech_stds.getD g0 0)
  let speech_probability0 := wrap32 (kSpeechDataWeights.getD g0 0 * s0.1)
  let h1_test := wrap32 (0 + speech_probability0)
  let s1 := WebRtcVad_GaussianProbability spl x (self.speech_means.getD g1 0)
    (self.speech_stds.getD g1 0)
  let speech_probability1 := wrap32 (kSpeechDataWeights.getD g1 0 * s1.1)
  wrap32 (h1_test + speech_probability1)

/-- The log-likelihood ratio `log_likelihood_ratio` of one channel in the first
channel loop of `GmmProbability`: the difference of the normalisation counts of
the two totals, a count being 31 for a total of 0. -/
def GmmProbability_llr (spl : Spl) (self : VadInstT) (features : List Int) (channel : Nat) : Int :=
  let h0_test := GmmProbability_h0 spl self features channel
  let h1_test := GmmProbability_h1 spl self features channel
  let shifts_h0 := wrap16 (spl.WebRtcSpl_NormW32 h0_test)
  let shifts_h1 := wrap16 (spl.WebRtcSpl_NormW32 h1_test)
  let shifts_h0 := if h0_test = 0 then 31 else shifts_h0
  let shifts_h1 := if h1_test = 0 then 31 else shifts_h1
  wrap16 (shifts_h0 - shifts_h1)

/-- The weighted sum of the channel ratios `llr` with `kSpectrumWeight`. -/
def weightedLlrSum (llr : Nat → Int) : Int :=
  ((List.range kNumChannels).map (fun c => llr c * kSpectrumWeight.getD c 0)).sum

/-- The raw decision in the words of the specification: 1 when some channel has
`4 * llr` strictly above the local threshold or the weighted sum is strictly
above the global threshold, else 0. -/
def rawDecision_strict (llr : Nat → Int) (individualTest totalTest : Int) : Int :=
  if (List.range kNumChannels).any (fun c => decide (4 * llr c > individualTest)) ||
      decide (weightedLlrSum llr > totalTest) then 1 else 0

/-! ## The 48 kHz front end -/

/-- Contract of the external resampler, from its description as a consumer of
one 10 ms chunk: a call reads the first 480 samples at its input pointer and
nothing beyond them. -/
def ResamplerReadsChunk (spl : Spl) : Prop :=
  ∀ input state tmp_mem : List Int,
    spl.WebRtcSpl_Resample48khzTo8khz input state tmp_mem =
      spl.WebRtcSpl_Resample48khzTo8khz (input.take 480) state tmp_mem

/-- A 20 ms frame at 48 kHz: 960 samples of silence. -/
def silentFrame48 : List Int := List.replicate 960 0

/-- A 20 ms frame at 48 kHz whose first 10 ms are silent and whose second 10 ms
are a constant 1000. -/
def halfLoudFrame48 : List Int := List.replicate 480 0 ++ List.replicate 480 1000

/-! ## The ageing pass of the minimum tracker on a sample window -/

/-- The window of a channel as the list of its 16 (value, age) entries, read
from the arrays (`index_vector`, `low_value_vector`) at `offset`. -/
def windowOf (offset : Nat) (st : List Int × List Int) : List (Int × Int) :=
  (List.range 16).map (fun i => (st.2.getD (offset + i) 0, st.1.getD (offset + i) 0))

/-- An instance whose channel-0 window holds the five live entries
(500, age 100), (600, age 50), (700, age 100), (800, age 100), (900, age 20)
and eleven sentinel slots as Init leaves them; everything else is as after
Init. -/
def agedWindowState : VadInstT :=
  { initState with
    index_vector := [100, 50, 100, 100, 20] ++ List.replicate 91 0
    low_value_vector := [500, 600, 700, 800, 900] ++ List.replicate 91 10000 }

/-! ## The insertion step of the minimum tracker, in the words of the specification -/

/-- A stable insertion-sort step on a list of (value, age) entries in
non-decreasing order of value: the new entry goes before the first entry with a
strictly larger value, so after all entries equal to it. -/
def insertSortedStep (e : Int × Int) : List (Int × Int) → List (Int × Int)
  | [] => [e]
  | x :: xs => if e.1 < x.1 then e :: x :: xs else x :: insertSortedStep e xs

/-- The insertion of the specification on a 16-entry window: the new value
enters with age 1 by a stable insertion-sort step and the entry that ends up
beyond the last slot is dropped. -/
def insertWindow (feature_value : Int) (w : List (Int × Int)) : List (Int × Int) :=
  (insertSortedStep (feature_value, 1) w).take 16

/-- The smallest index `i` in 0..15 with `feature_value < smallest_values[i]`,
if there is one. -/
def firstAbove (feature_value : Int) (sv : Nat → Int) : Option Nat :=
  (List.range 16).find? (fun i => decide (feature_value < sv i))

/-! ## The global means of the two models -/

/-- The component-weighted global mean of a channel, as the sum over both
Gaussians of weight times mean (the mean in Q7, times 128). -/
def globalMean (means weights : List Int) (channel : Nat) : Int :=
  means.getD channel 0 * weights.getD channel 0 +
    means.getD (channel + kNumChannels) 0 * weights.getD (channel + kNumChannels) 0

/-- The Q5 difference of the global means of a channel:
`(speech_global_mean >> 9) - (noise_global_mean >> 9)`. -/
def modelDifference (s : VadInstT) (channel : Nat) : Int :=
  globalMean s.speech_means kSpeechDataWeights channel / 512 -
    globalMean s.noise_means kNoiseDataWeights channel / 512

/-- The shortfall `t` of the separation step: `kMinimumDifference[channel]`
minus the Q5 difference when the difference is below it, and 0 when the models
are far enough apart. -/
def separationShortfall (s : VadInstT) (channel : Nat) : Int :=
  if modelDifference s channel < kMinimumDifference.getD channel 0 then
    kMinimumDifference.getD channel 0 - modelDifference s channel
  else 0

/-- The invariant behind the upper bounds on the global means: both tables have
12 entries, and for every channel the Q7 global noise mean is at most
`kMaximumNoise[channel]`, the Q7 global speech mean is at most
`kMaximumSpeech[channel]`, and the two speech means lie in -1408..24400, at most
12800 apart. -/
def MeansInv (s : VadInstT) : Prop :=
  s.noise_means.length = 12 ∧ s.speech_means.length = 12 ∧
  ∀ c, c < kNumChannels →
    globalMean s.noise_means kNoiseDataWeights c / 128 ≤ kMaximumNoise.getD c 0 ∧
    globalMean s.speech_means kSpeechDataWeights c / 128 ≤ kMaximumSpeech.getD c 0 ∧
    (-1408 ≤ s.speech_means.getD c 0 ∧ s.speech_means.getD c 0 ≤ 24400) ∧
    (-1408 ≤ s.speech_means.getD (c + 6) 0 ∧ s.speech_means.getD (c + 6) 0 ≤ 24400) ∧
    (s.speech_means.getD c 0 - s.speech_means.getD (c + 6) 0 ≤ 12800 ∧
      s.speech_means.getD (c + 6) 0 - s.speech_means.getD c 0 ≤ 12800)

/-! ## The range of the features and of the smoothed minimum -/

/-- The contract of the library functions behind the log-energy feature:
`EnergyContract`, and a shift count returned with the energy of at most 64
(the squares it scales are 32-bit values). -/
def FeatureContract (spl : Spl) : Prop :=
  EnergyContract spl ∧ ∀ (v : List Int) (n : Nat), (spl.WebRtcSpl_Energy v n).2 ≤ 64

/-- A feature vector whose entries all lie in 0..10000. -/
def FeatureRange (features : List Int) : Prop :=
  ∀ c, 0 ≤ features.getD c 0 ∧ features.getD c 0 ≤ 10000

/-- The range invariant of the minimum tracker: six smoothed minima, and every
tracked value and every smoothed minimum in 0..10000. -/
def TrackerRange (s : VadInstT) : Prop :=
  s.mean_value.length = 6 ∧
  (∀ t, 0 ≤ (trackerState s).2.getD t 0 ∧ (trackerState s).2.getD t 0 ≤ 10000) ∧
  ∀ c, 0 ≤ s.mean_value.getD c 0 ∧ s.mean_value.getD c 0 ≤ 10000

/-! ## Runs of the minimum tracker on a constant feature -/

/-- One energetic frame for the minimum tracker of one channel: a call of
`WebRtcVad_FindMinimum` with the feature value `c`, after which the frame
counter advances by one (as `GmmProbability` does at the end of the model
update); the result is the new instance and the returned smoothed minimum. -/
def FindMinimum_frame (c : Int) (channel : Nat) (s : VadInstT) : VadInstT × Int :=
  let r := WebRtcVad_FindMinimum s c channel
  ({ r.1 with frame_counter := wrap32 (s.frame_counter + 1) }, r.2)

/-- The instance after `n` consecutive energetic frames with the constant
feature value `c`, and the smoothed minimum returned on the last of them (for
`n = 0`, the stored smoothed minimum). -/
def FindMinimum_frames (c : Int) (channel : Nat) : Nat → VadInstT → VadInstT × Int
  | 0, s => (s, s.mean_value.getD channel 0)
  | n + 1, s => FindMinimum_frame c channel (FindMinimum_frames c channel n s).1

/-- The Init state with three observed frames on its frame counter. -/
def thirdFrameState : VadInstT := { initState with frame_counter := 3 }

/-- One upward smoothing step towards the largest tracked value 10000:
`(32440 * m + 328 * 10000 + 16384) >> 15`. -/
def upStep (m : Int) : Int := (32440 * m + 328 * 10000 + 16384) / 32768

/-! ## The log-energy feature in the words of the specification -/

/-- The band energy normalized to 15 bits, in the words of the specification:
the value shifted (left when it is shorter than 15 bits, right when it is
longer) so that it lies in `[2^14, 2^15)`. -/
def normalizedEnergy (e : Int) : Int :=
  if bitLength 32 e.toNat < 15 then e * 2 ^ (15 - bitLength 32 e.toNat)
  else e / 2 ^ (bitLength 32 e.toNat - 15)

/-- The total shift count of the specification: the count `r` returned with the
energy plus the normalizing right shifts (negative for a left shift). -/
def totalShifts (e r : Int) : Int := r + ((bitLength 32 e.toNat : Int) - 15)

/-- The log-energy feature of a non-zero energy `e` with shift count `r`, in the
words of the specification:
`offset + max(0, ((24660 * log2_energy) >> 19) + ((tot_rshifts * 24660) >> 9))`
with `log2_energy = 14336 + ((normalized energy & 0x3FFF) >> 4)`. -/
def logEnergyFeature (e r offset : Int) : Int :=
  offset + max 0 ((24660 * (14336 + (normalizedEnergy e % 16384) / 16)) / 524288 +
    (totalShifts e r * 24660) / 512)

/-! ## The exp factor of the Gaussian density in the words of the specification -/

/-- The scaled exponent `n = (5909 * a) >> 12` of a Q10 exponent argument `a`
(`5909` is log2(exp(1)) in Q12). -/
def exp2Argument (a : Int) : Int := (5909 * a) / 4096

/-- The integer part `I = ceil(n / 1024)` of the split `-n/1024 = -I + f`. -/
def exp2IntegerPart (n : Int) : Int := (n + 1023) / 1024

/-- The fractional part `f` of the split `-n/1024 = -I + f`, in Q10:
`(-n) mod 1024`. -/
def exp2FractionQ10 (n : Int) : Int := (-n) % 1024

/-- The exp factor in the words of the specification:
`(1024 + ((-n) mod 1024)) >> ceil(n / 1024)`. -/
def exp2Value (n : Int) : Int :=
  (1024 + exp2FractionQ10 n) / 2 ^ (exp2IntegerPart n).toNat

/-! ## The responsibilities and the domain of the likelihood test -/

/-- The noise responsibility of component 0 of a channel, as the first channel
loop of `GmmProbability` computes it when the denominator is positive:
`WebRtcSpl_DivW32W16(noise_probability[0] & 0xFFFFF000 << 2, h0)`, stored as
`int16_t`. -/
def GmmProbability_noiseResponsibility (spl : Spl) (self : VadInstT) (features : List Int)
    (channel : Nat) : Int :=
  wrap16 (spl.WebRtcSpl_DivW32W16
    (maskShiftQ29 (wrap32 (kNoiseDataWeights.getD channel 0 *
      (WebRtcVad_GaussianProbability spl (features.getD channel 0)
        (self.noise_means.getD channel 0) (self.noise_stds.getD channel 0)).1)))
    (wrap16 (GmmProbability_h0 spl self features channel / 4096)))

/-- The speech responsibility of component 0 of a channel, computed like the
noise one from `speech_probability[0]` and `h1`. -/
def GmmProbability_speechResponsibility (spl : Spl) (self : VadInstT) (features : List Int)
    (channel : Nat) : Int :=
  wrap16 (spl.WebRtcSpl_DivW32W16
    (maskShiftQ29 (wrap32 (kSpeechDataWeights.getD channel 0 *
      (WebRtcVad_GaussianProbability spl (features.getD channel 0)
        (self.speech_means.getD channel 0) (self.speech_stds.getD channel 0)).1)))
    (wrap16 (GmmProbability_h1 spl self features channel / 4096)))

/-- The contract of the normalization primitive on the operands the likelihood
test hands it: for a positive 32-bit value the count is 31 minus the number of
bits of the value. -/
def NormW32Contract (spl : Spl) : Prop :=
  ∀ a : Int, 0 < a → a < 2147483648 →
    spl.WebRtcSpl_NormW32 a = 31 - (bitLength 32 a.toNat : Int)

/-- The domain of the likelihood test named by the specification: every
standard deviation in `[378, 32767]`, every mean in `[640, 13440]` and every
feature in `[0, 2300]`. -/
def LikelihoodDomain (self : VadInstT) (features : List Int) : Prop :=
  (∀ g, g < kTableSize →
    (378 ≤ self.noise_stds.getD g 0 ∧ self.noise_stds.getD g 0 ≤ 32767) ∧
    (378 ≤ self.speech_stds.getD g 0 ∧ self.speech_stds.getD g 0 ≤ 32767) ∧
    (640 ≤ self.noise_means.getD g 0 ∧ self.noise_means.getD g 0 ≤ 13440) ∧
    (640 ≤ self.speech_means.getD g 0 ∧ self.speech_means.getD g 0 ≤ 13440)) ∧
  ∀ c, c < kNumChannels → 0 ≤ features.getD c 0 ∧ features.getD c 0 ≤ 2300

/-! ## The overhang run in the words of the specification -/

/-- The decisions of the specification for `k` raw-negative frames that follow a
frame leaving `over_hang = p`: `2 + p, 2 + p - 1, ..., 3` on the first `p`
frames and 0 afterwards. -/
def overhangTail (p : Int) (k : Nat) : List Int :=
  (List.range k).map (fun (j : Nat) => if (j : Int) < p then 2 + p - (j : Int) else 0)

/-! ## The slots that the minimum tracker reads and writes -/

/-- Slots of `index_vector` and `low_value_vector` read by pass `i` of the ageing
loop of `WebRtcVad_FindMinimum`, from the state `st` the pass starts in: the
test reads `age[i]`; on an eviction the inner loop `for (j = i; j < 16; j++)`
reads `smallest_values[j + 1]` and `age[j + 1]`. -/
def FindMinimum_ageStep_reads (offset : Nat) (st : List Int × List Int) (i : Nat) : List Nat :=
  if st.1.getD (offset + i) 0 ≠ 100 then [offset + i]
  else (offset + i) :: (List.range' i (16 - i)).map (fun j => offset + j + 1)

/-- Slots written by pass `i` of the ageing loop: `age[i]++`, or on an eviction
`smallest_values[j]`, `age[j]` for `j = i .. 15` and then slot 15. -/
def FindMinimum_ageStep_writes (offset : Nat) (st : List Int × List Int) (i : Nat) : List Nat :=
  if st.1.getD (offset + i) 0 ≠ 100 then [offset + i]
  else (List.range' i (16 - i)).map (fun j => offset + j) ++ [offset + 15]

/-- The ageing loop of `WebRtcVad_FindMinimum` run together with its accesses:
the arrays after the loop, the slots read and the slots written, in order. -/
def FindMinimum_ageing_accesses (offset : Nat) (st : List Int × List Int) :
    (List Int × List Int) × List Nat × List Nat :=
  (List.range 16).foldl
    (fun (acc : (List Int × List Int) × List Nat × List Nat) i =>
      (FindMinimum_ageStep offset acc.1 i,
        acc.2.1 ++ FindMinimum_ageStep_reads offset acc.1 i,
        acc.2.2 ++ FindMinimum_ageStep_writes offset acc.1 i))
    (st, [], [])

/-- Slots of `smallest_values` (relative to the window) that the decision tree
of `WebRtcVad_FindMinimum` compares `feature_value` with, in order. -/
def FindMinimum_position_reads (feature_value : Int) (sv : Nat → Int) : List Nat :=
  if feature_value < sv 7 then
    if feature_value < sv 3 then
      if feature_value < sv 1 then [7, 3, 1, 0]
      else [7, 3, 1, 2]
    else if feature_value < sv 5 then [7, 3, 5, 4]
    else [7, 3, 5, 6]
  else if feature_value < sv 15 then
    if feature_value < sv 11 then
      if feature_value < sv 9 then [7, 15, 11, 9, 8]
      else [7, 15, 11, 9, 10]
    else if feature_value < sv 13 then [7, 15, 11, 13, 12]
    else [7, 15, 11, 13, 14]
  else [7, 15]

/-- Slots read by the insertion of `WebRtcVad_FindMinimum`:
`smallest_values[i - 1]`, `age[i - 1]` for `i = 15` down to `position + 1`. -/
def FindMinimum_insert_reads (offset : Nat) (position : Int) : List Nat :=
  if position > -1 then
    (List.range (15 - position.toNat)).map (fun t => offset + (15 - t) - 1)
  else []

/-- Slots written by the insertion: slot `i` for `i = 15` down to
`position + 1`, then slot `position`. -/
def FindMinimum_insert_writes (offset : Nat) (position : Int) : List Nat :=
  if position > -1 then
    (List.range (15 - position.toNat)).map (fun t => offset + (15 - t)) ++
      [offset + position.toNat]
  else []

/-- Slots read for `current_median`: `smallest_values[2]` when
`frame_counter > 2`, `smallest_values[0]` when `frame_counter > 0`. -/
def FindMinimum_median_reads (offset : Nat) (frame_counter : Int) : List Nat :=
  if frame_counter > 2 then [offset + 2]
  else if frame_counter > 0 then [offset]
  else []

/-- All slots of `index_vector` and `low_value_vector` that a call of
`WebRtcVad_FindMinimum` reads, in order. -/
def FindMinimum_reads (self : VadInstT) (feature_value : Int) (channel : Nat) : List Nat :=
  let offset := channel * 16
  let aged := FindMinimum_ageing_accesses offset (self.index_vector, self.low_value_vector)
  let sv := fun (i : Nat) => aged.1.2.getD (offset + i) 0
  aged.2.1 ++ (FindMinimum_position_reads feature_value sv).map (fun i => offset + i) ++
    FindMinimum_insert_reads offset (FindMinimum_position feature_value sv) ++
    FindMinimum_median_reads offset self.frame_counter

/-- All slots of `index_vector` and `low_value_vector` that a call of
`WebRtcVad_FindMinimum` writes, in order. -/
def FindMinimum_writes (self : VadInstT) (feature_value : Int) (channel : Nat) : List Nat :=
  let offset := channel * 16
  let aged := FindMinimum_ageing_accesses offset (self.index_vector, self.low_value_vector)
  let sv := fun (i : Nat) => aged.1.2.getD (offset + i) 0
  aged.2.2 ++ FindMinimum_insert_writes offset (FindMinimum_position feature_value sv)

/-- An instance as after Init whose last channel (channel 5, slots 80..95) holds
an entry of age 100 in its first slot. -/
def agedLastWindowState : VadInstT :=
  { initState with
    index_vector := List.replicate 80 0 ++ [100] ++ List.replicate 15 0 }

/-! ## Gaussians whose density does not wrap -/

/-- A Gaussian of the speech model on which no 16-bit step of the density
wraps: a standard deviation in `[384, 32767]`, a feature in `[0, 4095]` and a
residual `8 * feature - mean` of magnitude at most 18579 (with
`inv_std2 ≤ 1806` the value `delta` then fits 16 bits). -/
def TameGaussian (f m std : Int) : Prop :=
  384 ≤ std ∧ std ≤ 32767 ∧ 0 ≤ f ∧ f ≤ 4095 ∧ -18579 ≤ f * 8 - m ∧ f * 8 - m ≤ 18579

/-! ## The frames the classification calls hand to the feature extraction -/

/-- The contract of the energy primitive on the short blocks of the feature
extraction: for a block of at most 60 samples (a frame of at most 240 samples
gives sub-band blocks of at most 60) the shift count returned with the energy
is at most 10. -/
def ShortBlockContract (spl : Spl) : Prop :=
  ∀ (v : List Int) (n : Nat), n ≤ 60 → (spl.WebRtcSpl_Energy v n).2 ≤ 10

/-! ## The range of the speech means -/

/-- The range of the speech means that holds in every reachable state: both
mean tables have their 12 entries, and the two speech means of every channel
lie in `[640, 19980]`, at most 12800 apart. -/
def SpeechRange (s : VadInstT) : Prop :=
  s.noise_means.length = 12 ∧ s.speech_means.length = 12 ∧
  ∀ c, c < kNumChannels →
    (640 ≤ s.speech_means.getD c 0 ∧ s.speech_means.getD c 0 ≤ 19980) ∧
    (640 ≤ s.speech_means.getD (c + 6) 0 ∧ s.speech_means.getD (c + 6) 0 ≤ 19980) ∧
    (s.speech_means.getD c 0 - s.speech_means.getD (c + 6) 0 ≤ 12800 ∧
      s.speech_means.getD (c + 6) 0 - s.speech_means.getD c 0 ≤ 12800)

/-- The range of the speech standard deviations that holds in every reachable
state: every entry lies in `[kMinStd, 32767]`. -/
def SpeechStdRange (s : VadInstT) : Prop :=
  ∀ i : Nat, i < kTableSize →
    kMinStd ≤ s.speech_stds.getD i 0 ∧ s.speech_stds.getD i 0 ≤ 32767

/-! ## The product of the speech-variance update inside the model update -/

/-- The start of one pass of the model-update loop of `GmmProbability`, up to
the loop over the Gaussians: the instance after `WebRtcVad_FindMinimum` and the
weighted average of the noise means, with `feature_minimum` and `tmp1_s16`. -/
def GmmProbability_updateEntry (features : List Int) (self : VadInstT) (channel : Nat) :
    VadInstT × Int × Int :=
  let fm := WebRtcVad_FindMinimum self (features.getD channel 0) channel
  let self := fm.1
  let feature_minimum := fm.2
  let wa := WeightedAverage self.noise_means channel 0 kNoiseDataWeights
  let self := { self with noise_means := wa.1 }
  let noise_global_mean := wa.2
  (self, feature_minimum, wrap16 (noise_global_mean / 64))

/-- The speech mean `smk` that the update of Gaussian `k` of `channel` reads
when the model update of `GmmProbability` runs on `self`: the entry of
`speech_means` in the instance as the passes of the earlier channels and of the
earlier Gaussians of the channel have left it. -/
def GmmProbability_smk (spl : Spl) (features : List Int) (sc : GmmScratch) (vadflag : Int)
    (self : VadInstT) (channel k : Nat) : Int :=
  let st := (List.range channel).foldl (GmmProbability_update spl features sc vadflag)
    (self, 12800)
  let e := GmmProbability_updateEntry features st.1 channel
  let s := (List.range k).foldl
    (GmmProbability_updateGaussian spl features sc vadflag channel e.2.1 e.2.2 st.2) e.1
  s.speech_means.getD (channel + k * kNumChannels) 0

/-- The product of the speech-variance update for Gaussian `k` of `channel`, as
`GmmProbability` forms it for the instance `self` and the feature vector
`features`: the responsibilities `sgprvec` and the values `deltaS` come from the
first channel loop, `smk` from the instance at that point of the model
update. -/
def GmmProbability_speechProduct (spl : Spl) (self : VadInstT) (features : List Int)
    (individualTest vadflag : Int) (channel k : Nat) : Int :=
  let sc := (List.range kNumChannels).foldl
    (GmmProbability_test spl self features individualTest) GmmScratch.init
  let gaussian := channel + k * kNumChannels
  GmmProbability_speechVarProduct (sc.sgprvec.getD gaussian 0) (sc.deltaS.getD gaussian 0)
    (features.getD channel 0) (GmmProbability_smk spl features sc vadflag self channel k)

/-! ## The window of the minimum tracker on a constant feature -/

/-- The window of a channel (arrays `index_vector`, `low_value_vector`, slots
`o .. o + 15`) as `k` consecutive calls of `WebRtcVad_FindMinimum` from Init with
one constant feature value `c < 10000` leave it: the first `min k 16` slots hold
`c` with ages of at least 1, the remaining slots are sentinels (value 10000) of
age `k`; the age of the first slot is at most 100 and at most `k`, the second
age is not above the first, and from the second slot on the ages strictly
decrease. -/
def ConstantRunWindow (c : Int) (o k : Nat) (st : List Int × List Int) : Prop :=
  st.1.length = 96 ∧ st.2.length = 96 ∧
  (∀ t, o ≤ t → t < o + 16 → t < o + k → st.2.getD t 0 = c ∧ 1 ≤ st.1.getD t 0) ∧
  (∀ t, o + k ≤ t → t < o + 16 → st.2.getD t 0 = 10000 ∧ st.1.getD t 0 = k) ∧
  (0 < k → st.1.getD o 0 ≤ 100 ∧ st.1.getD o 0 ≤ k) ∧
  (1 < k → st.1.getD (o + 1) 0 ≤ st.1.getD o 0) ∧
  (∀ t, o + 1 ≤ t → t + 1 < o + 16 → t + 1 < o + k →
    st.1.getD (t + 1) 0 < st.1.getD t 0)

/-- One downward smoothing step on the gap between the smoothed minimum and a
selected minimum below it: `(6554 * g + 16384) >> 15`. -/
def downStep (g : Int) : Int := (6554 * g + 16384) / 32768

/-! ## Mode selection and initialisation: theorems -/

/-- C1: for every instance, each mode 0..3 is accepted (return value 0) and the
result is the instance with exactly the four threshold tables replaced by the
mode's preset; the result is the same whatever the tables held before, and the
thresholds that `GmmProbability` selects for frame lengths 80/160/240 are the
preset's entries for 10/20/30 ms. -/
theorem set_mode_core_valid (s : VadInstT) :
    WebRtcVad_set_mode_core s 0 =
      ({ s with over_hang_max_1 := [8, 4, 3], over_hang_max_2 := [14, 7, 5],
                individual := [24, 21, 24], total := [57, 48, 57] }, 0) ∧
    WebRtcVad_set_mode_core s 1 =
      ({ s with over_hang_max_1 := [8, 4, 3], over_hang_max_2 := [14, 7, 5],
                individual := [37, 32, 37], total := [100, 80, 100] }, 0) ∧
    WebRtcVad_set_mode_core s 2 =
      ({ s with over_hang_max_1 := [6, 3, 2], over_hang_max_2 := [9, 5, 3],
                individual := [82, 78, 82], total := [285, 260, 285] }, 0) ∧
    WebRtcVad_set_mode_core s 3 =
      ({ s with over_hang_max_1 := [6, 3, 2], over_hang_max_2 := [9, 5, 3],
                individual := [94, 94, 94], total := [1100, 1050, 1100] }, 0) ∧
    (∀ (mode : Int) (t1 t2 t3 t4 : List Int), (mode = 0 ∨ mode = 1 ∨ mode = 2 ∨ mode = 3) →
      WebRtcVad_set_mode_core
        { s with over_hang_max_1 := t1, over_hang_max_2 := t2, individual := t3, total := t4 }
        mode = WebRtcVad_set_mode_core s mode) ∧
    (List.map (GmmProbability_thresholds (WebRtcVad_set_mode_core s 0).1) [80, 160, 240] =
        [(8, 14, 24, 57), (4, 7, 21, 48), (3, 5, 24, 57)]) ∧
    (List.map (GmmProbability_thresholds (WebRtcVad_set_mode_core s 1).1) [80, 160, 240] =
        [(8, 14, 37, 100), (4, 7, 32, 80), (3, 5, 37, 100)]) ∧
    (List.map (GmmProbability_thresholds (WebRtcVad_set_mode_core s 2).1) [80, 160, 240] =
        [(6, 9, 82, 285), (3, 5, 78, 260), (2, 3, 82, 285)]) ∧
    (List.map (GmmProbability_thresholds (WebRtcVad_set_mode_core s 3).1) [80, 160, 240] =
        [(6, 9, 94, 1100), (3, 5, 94, 1050), (2, 3, 94, 1100)]) := by
  refine ⟨rfl, rfl, rfl, rfl, ?_, rfl, rfl, rfl, rfl⟩
  intro mode t1 t2 t3 t4 h
  rcases h with h | h | h | h <;> subst h <;> rfl

/-- Witness of C1 on the all-zero instance: mode 2 overwrites tables that held
other values with the same result as on the untouched instance. -/
theorem set_mode_core_valid_witness :
    WebRtcVad_set_mode_core
        { zeroInst with over_hang_max_1 := [1], over_hang_max_2 := [2], individual := [3],
                        total := [4] } 2 = WebRtcVad_set_mode_core zeroInst 2 :=
  (set_mode_core_valid zeroInst).2.2.2.2.1 2 [1] [2] [3] [4] (by decide)

/-- C2: a mode outside {0,1,2,3} is rejected with -1 and the instance is
returned exactly as it was; and -1 is returned only for such a mode. -/
theorem set_mode_core_invalid (s : VadInstT) (mode : Int) :
    ((mode ≠ 0 ∧ mode ≠ 1 ∧ mode ≠ 2 ∧ mode ≠ 3) → WebRtcVad_set_mode_core s mode = (s, -1)) ∧
    ((WebRtcVad_set_mode_core s mode).2 = -1 → (mode ≠ 0 ∧ mode ≠ 1 ∧ mode ≠ 2 ∧ mode ≠ 3)) := by
  unfold WebRtcVad_set_mode_core
  constructor
  · rintro ⟨h0, h1, h2, h3⟩
    simp [h0, h1, h2, h3]
  · intro h
    by_cases h0 : mode = 0
    · simp [h0] at h
    by_cases h1 : mode = 1
    · simp [h1] at h
    by_cases h2 : mode = 2
    · simp [h2] at h
    by_cases h3 : mode = 3
    · simp [h3] at h
    exact ⟨h0, h1, h2, h3⟩

/-- Witness of C2: modes 4 and -1 on the initialised instance. -/
theorem set_mode_core_invalid_witness :
    WebRtcVad_set_mode_core initState 4 = (initState, -1) ∧
    WebRtcVad_set_mode_core initState (-1) = (initState, -1) :=
  ⟨(set_mode_core_invalid initState 4).1 (by decide),
   (set_mode_core_invalid initState (-1)).1 (by decide)⟩

/-- C3: on every non-null instance, whatever it held, `WebRtcVad_InitCore`
returns 0 and leaves the one state `initState`: default Gaussian tables, all
filter states zero, counters zero, every tracker value 10000 with age 0, every
mean value 1600, the mode-0 threshold tables and `init_flag = 42`; so the result
is the same for any two prior states and a second Init changes nothing. -/
theorem InitCore_state (s : VadInstT) :
    WebRtcVad_InitCore (some s) = (some initState, 0) ∧
    (initState.noise_means = kNoiseDataMeans ∧ initState.speech_means = kSpeechDataMeans ∧
      initState.noise_stds = kNoiseDataStds ∧ initState.speech_stds = kSpeechDataStds) ∧
    (initState.downsampling_filter_states = [0, 0, 0, 0] ∧
      initState.upper_state = [0, 0, 0, 0, 0] ∧ initState.lower_state = [0, 0, 0, 0, 0] ∧
      initState.hp_filter_state = [0, 0, 0, 0]) ∧
    (initState.frame_counter = 0 ∧ initState.over_hang = 0 ∧ initState.num_of_speech = 0) ∧
    (initState.low_value_vector = List.replicate 96 10000 ∧
      initState.index_vector = List.replicate 96 0 ∧
      initState.mean_value = [1600, 1600, 1600, 1600, 1600, 1600]) ∧
    (initState.over_hang_max_1 = [8, 4, 3] ∧ initState.over_hang_max_2 = [14, 7, 5] ∧
      initState.individual = [24, 21, 24] ∧ initState.total = [57, 48, 57]) ∧
    initState.init_flag = 42 ∧
    (∀ t : VadInstT, WebRtcVad_InitCore (some t) = WebRtcVad_InitCore (some s)) ∧
    WebRtcVad_InitCore (WebRtcVad_InitCore (some s)).1 = WebRtcVad_InitCore (some s) := by
  refine ⟨rfl, ⟨rfl, rfl, rfl, rfl⟩, ⟨rfl, rfl, rfl, rfl⟩, ⟨rfl, rfl, rfl⟩, ⟨rfl, rfl, rfl⟩,
    ⟨rfl, rfl, rfl, rfl⟩, rfl, fun _ => rfl, rfl⟩

/-- C4: `WebRtcVad_InitCore` returns -1 exactly for the null instance (and then
changes nothing); on every non-null instance it returns 0, the default mode
being accepted by `WebRtcVad_set_mode_core` on every instance. -/
theorem InitCore_fails_iff_null (o : Option VadInstT) :
    ((WebRtcVad_InitCore o).2 = -1 ↔ o = none) ∧
    WebRtcVad_InitCore none = (none, -1) ∧
    (∀ s : VadInstT, (WebRtcVad_InitCore (some s)).2 = 0) ∧
    (∀ s : VadInstT, (WebRtcVad_set_mode_core s kDefaultMode).2 = 0) := by
  refine ⟨?_, rfl, fun _ => rfl, fun _ => rfl⟩
  cases o with
  | none => exact ⟨fun _ => rfl, fun _ => rfl⟩
  | some s =>
    constructor
    · intro h
      have h0 : (WebRtcVad_InitCore (some s)).2 = 0 := rfl
      rw [h0] at h
      exact absurd h (by decide)
    · intro h
      exact absurd h (by simp)

/-- Witness of C4: the null instance is rejected, the all-zero instance is not. -/
theorem InitCore_fails_iff_null_witness :
    (WebRtcVad_InitCore none).2 = -1 ∧ ¬ ((WebRtcVad_InitCore (some zeroInst)).2 = -1) :=
  ⟨(InitCore_fails_iff_null none).1.2 rfl,
   fun h => absurd ((InitCore_fails_iff_null (some zeroInst)).1.1 h) (by simp)⟩

/-! ## Frame lemmas: what the per-frame pipeline leaves alone -/

theorem wrap16_of_range (x : Int) (h1 : -32768 ≤ x) (h2 : x ≤ 32767) : wrap16 x = x := by
  unfold wrap16
  omega

theorem foldl_invariant {α β : Type} (P : α → Prop) (f : α → β → α)
    (h : ∀ a b, P a → P (f a b)) : ∀ (l : List β) (a : α), P a → P (l.foldl f a) := by
  intro l
  induction l with
  | nil => intro a ha; exact ha
  | cons b l ih => intro a ha; exact ih (f a b) (h a b ha)

theorem FindMinimum_decisionState (s : VadInstT) (feature_value : Int) (channel : Nat) :
    decisionState (WebRtcVad_FindMinimum s feature_value channel).1 = decisionState s := by
  simp only [WebRtcVad_FindMinimum, decisionState]

theorem decisionState_noise_means (s : VadInstT) (x : List Int) :
    decisionState { s with noise_means := x } = decisionState s := rfl

theorem decisionState_speech_means (s : VadInstT) (x : List Int) :
    decisionState { s with speech_means := x } = decisionState s := rfl

theorem updateGaussian_decisionState (spl : Spl) (features : List Int) (sc : GmmScratch)
    (vadflag : Int) (channel : Nat) (feature_minimum tmp1_s16 maxspe : Int) (self : VadInstT)
    (k : Nat) :
    decisionState (GmmProbability_updateGaussian spl features sc vadflag channel
      feature_minimum tmp1_s16 maxspe self k) = decisionState self := by
  show decisionState (if vadflag ≠ 0 then _ else _) = _
  split <;> rfl

theorem separate_decisionState (self : VadInstT) (channel : Nat) :
    decisionState (GmmProbability_separate self channel).1 = decisionState self := by
  unfold GmmProbability_separate
  simp only []
  split <;> rfl

theorem limit_decisionState (self : VadInstT) (channel : Nat) (n s : Int) :
    decisionState (GmmProbability_limit self channel n s) = decisionState self := by
  unfold GmmProbability_limit
  simp only []
  split_ifs <;> rfl

theorem update_decisionState (spl : Spl) (features : List Int) (sc : GmmScratch)
    (vadflag : Int) (st : VadInstT × Int) (channel : Nat) :
    decisionState (GmmProbability_update spl features sc vadflag st channel).1 =
      decisionState st.1 := by
  have hfold : ∀ (s0 : VadInstT) (fm t m : Int),
      decisionState ((List.range kNumGaussians).foldl
        (GmmProbability_updateGaussian spl features sc vadflag channel fm t m) s0) =
        decisionState s0 := by
    intro s0 fm t m
    exact foldl_invariant (fun s => decisionState s = decisionState s0) _
      (fun a b h => (updateGaussian_decisionState spl features sc vadflag channel fm t m a b).trans h)
      _ _ rfl
  unfold GmmProbability_update
  simp only [limit_decisionState, separate_decisionState, hfold, decisionState_noise_means,
    FindMinimum_decisionState]

theorem updateLoop_decisionState (spl : Spl) (features : List Int) (sc : GmmScratch)
    (vadflag : Int) (l : List Nat) (st : VadInstT × Int) :
    decisionState (l.foldl (GmmProbability_update spl features sc vadflag) st).1 =
      decisionState st.1 :=
  foldl_invariant (fun t => decisionState t.1 = decisionState st.1) _
    (fun a b h => (update_decisionState spl features sc vadflag a b).trans h) l st rfl

theorem CalculateFeatures_decisionState (spl : Spl) (self : VadInstT) (data_in : List Int)
    (data_length : Nat) :
    decisionState (WebRtcVad_CalculateFeatures spl self data_in data_length).1 =
      decisionState self := by
  simp only [WebRtcVad_CalculateFeatures, decisionState]

theorem ite_one_or (c : Prop) [Decidable c] (v : Int) (h : v = 0 ∨ v = 1) :
    (if c then (1 : Int) else v) = 0 ∨ (if c then (1 : Int) else v) = 1 := by
  split
  · exact Or.inr rfl
  · exact h

theorem test_vadflag (spl : Spl) (self : VadInstT) (features : List Int) (individualTest : Int)
    (sc : GmmScratch) (channel : Nat) (h : sc.vadflag = 0 ∨ sc.vadflag = 1) :
    (GmmProbability_test spl self features individualTest sc channel).vadflag = 0 ∨
    (GmmProbability_test spl self features individualTest sc channel).vadflag = 1 :=
  ite_one_or _ _ h

theorem raw_decision (spl : Spl) (self : VadInstT) (features : List Int) (total_power : Int)
    (frame_length : Nat) :
    (GmmProbability_raw spl self features total_power frame_length).2 = 0 ∨
    (GmmProbability_raw spl self features total_power frame_length).2 = 1 := by
  by_cases hp : total_power > kMinEnergy
  · simp only [GmmProbability_raw, if_pos hp]
    exact ite_one_or _ _
      (foldl_invariant (fun sc : GmmScratch => sc.vadflag = 0 ∨ sc.vadflag = 1) _
        (fun a b h => test_vadflag spl self features _ a b h) _ _ (Or.inl rfl))
  · simp only [GmmProbability_raw, if_neg hp]
    exact Or.inl trivial

theorem raw_state (spl : Spl) (self : VadInstT) (features : List Int) (total_power : Int)
    (frame_length : Nat) :
    decisionState (GmmProbability_raw spl self features total_power frame_length).1 =
      decisionState
        { self with frame_counter :=
            if total_power > kMinEnergy then wrap32 (self.frame_counter + 1)
            else self.frame_counter } := by
  by_cases hp : total_power > kMinEnergy
  · simp only [GmmProbability_raw, if_pos hp]
    have h := updateLoop_decisionState spl features
      ((List.range kNumChannels).foldl (GmmProbability_test spl self features
        (GmmProbability_thresholds self frame_length).2.2.1) GmmScratch.init)
      (if ((List.range kNumChannels).foldl (GmmProbability_test spl self features
        (GmmProbability_thresholds self frame_length).2.2.1) GmmScratch.init).sum_log_likelihood_ratios
          ≥ (GmmProbability_thresholds self frame_length).2.2.2 then 1
        else ((List.range kNumChannels).foldl (GmmProbability_test spl self features
        (GmmProbability_thresholds self frame_length).2.2.1) GmmScratch.init).vadflag)
      (List.range kNumChannels) (self, 12800)
    simp only [decisionState, Prod.mk.injEq] at h ⊢
    obtain ⟨h1, h2, h3, h4, h5, h6, h7⟩ := h
    exact ⟨by rw [h1], h2, h3, h4, h5, h6, h7⟩
  · simp only [GmmProbability_raw, if_neg hp]

theorem DecisionInv_congr (a b : VadInstT) (h : decisionState a = decisionState b) :
    DecisionInv a ↔ DecisionInv b := by
  simp only [decisionState, Prod.mk.injEq] at h
  obtain ⟨-, h2, h3, h4, h5, -, -⟩ := h
  simp only [DecisionInv, h2, h3, h4, h5]

theorem thresholds_bounds (s : VadInstT) (n : Nat) (h : DecisionInv s) :
    (0 ≤ (GmmProbability_thresholds s n).1 ∧ (GmmProbability_thresholds s n).1 ≤ 14) ∧
    (0 ≤ (GmmProbability_thresholds s n).2.1 ∧ (GmmProbability_thresholds s n).2.1 ≤ 14) := by
  obtain ⟨-, -, h1, h2⟩ := h
  unfold GmmProbability_thresholds
  split_ifs
  · exact ⟨h1 0, h2 0⟩
  · exact ⟨h1 1, h2 1⟩
  · exact ⟨h1 2, h2 2⟩

theorem thresholds_congr (a b : VadInstT) (n : Nat) (h : decisionState a = decisionState b) :
    GmmProbability_thresholds a n = GmmProbability_thresholds b n := by
  simp only [decisionState, Prod.mk.injEq] at h
  obtain ⟨-, -, -, h4, h5, h6, h7⟩ := h
  simp only [GmmProbability_thresholds, h4, h5, h6, h7]

theorem hysteresis_inv (s : VadInstT) (v o1 o2 : Int) (hv : v = 0 ∨ v = 1) (hs : DecisionInv s)
    (h1 : 0 ≤ o1 ∧ o1 ≤ 14) (h2 : 0 ≤ o2 ∧ o2 ≤ 14) :
    DecisionInv (GmmProbability_hysteresis s v o1 o2).1 ∧
    0 ≤ (GmmProbability_hysteresis s v o1 o2).2 ∧ (GmmProbability_hysteresis s v o1 o2).2 ≤ 16 := by
  obtain ⟨⟨hn0, hn6⟩, ⟨ho0, ho14⟩, ht1, ht2⟩ := hs
  unfold GmmProbability_hysteresis
  rcases hv with hv | hv
  · subst hv
    by_cases hpos : s.over_hang > 0
    · simp only [if_pos hpos, if_true]
      refine ⟨⟨⟨le_refl _, by norm_num⟩, ⟨?_, ?_⟩, ht1, ht2⟩, ?_, ?_⟩ <;>
        simp only [wrap16] <;> omega
    · simp only [if_neg hpos, if_true]
      exact ⟨⟨⟨le_refl _, by norm_num⟩, ⟨ho0, ho14⟩, ht1, ht2⟩, le_refl _, by norm_num⟩
  · subst hv
    have hw : wrap16 (s.num_of_speech + 1) = s.num_of_speech + 1 := by
      unfold wrap16
      omega
    simp only [hw, kMaxSpeechFrames, show ¬ ((1 : Int) = 0) by decide, if_false]
    split_ifs with hc
    · exact ⟨⟨⟨by norm_num, le_refl _⟩, h2, ht1, ht2⟩, by norm_num, by norm_num⟩
    · refine ⟨⟨⟨?_, ?_⟩, h1, ht1, ht2⟩, by norm_num, by norm_num⟩ <;> dsimp only <;> omega

theorem GmmProbability_inv (spl : Spl) (self : VadInstT) (features : List Int) (total_power : Int)
    (n : Nat) (h : DecisionInv self) :
    DecisionInv (GmmProbability spl self features total_power n).1 ∧
    0 ≤ (GmmProbability spl self features total_power n).2 ∧
    (GmmProbability spl self features total_power n).2 ≤ 16 := by
  have hraw : DecisionInv (GmmProbability_raw spl self features total_power n).1 :=
    (DecisionInv_congr _ _ (raw_state spl self features total_power n)).2 h
  have ht := thresholds_bounds self n h
  exact hysteresis_inv _ _ _ _ (raw_decision spl self features total_power n) hraw ht.1 ht.2

theorem CalcVad8khz_inv (spl : Spl) (inst : VadInstT) (frame : List Int) (n : Nat)
    (h : DecisionInv inst) :
    DecisionInv (WebRtcVad_CalcVad8khz spl inst frame n).1 ∧
    0 ≤ (WebRtcVad_CalcVad8khz spl inst frame n).2 ∧
    (WebRtcVad_CalcVad8khz spl inst frame n).2 ≤ 16 := by
  have hf : DecisionInv (WebRtcVad_CalculateFeatures spl inst frame n).1 :=
    (DecisionInv_congr _ _ (CalculateFeatures_decisionState spl inst frame n)).2 h
  exact GmmProbability_inv spl _ _ _ n hf

theorem CalcVad16khz_inv (spl : Spl) (inst : VadInstT) (frame : List Int) (n : Nat)
    (h : DecisionInv inst) :
    DecisionInv (WebRtcVad_CalcVad16khz spl inst frame n).1 ∧
    0 ≤ (WebRtcVad_CalcVad16khz spl inst frame n).2 ∧
    (WebRtcVad_CalcVad16khz spl inst frame n).2 ≤ 16 :=
  CalcVad8khz_inv spl _ _ _ h

theorem CalcVad32khz_inv (spl : Spl) (inst : VadInstT) (frame : List Int) (n : Nat)
    (h : DecisionInv inst) :
    DecisionInv (WebRtcVad_CalcVad32khz spl inst frame n).1 ∧
    0 ≤ (WebRtcVad_CalcVad32khz spl inst frame n).2 ∧
    (WebRtcVad_CalcVad32khz spl inst frame n).2 ≤ 16 :=
  CalcVad8khz_inv spl _ _ _ h

theorem CalcVad48khz_inv (spl : Spl) (inst : VadInstT) (frame : List Int) (n : Nat)
    (h : DecisionInv inst) :
    DecisionInv (WebRtcVad_CalcVad48khz spl inst frame n).1 ∧
    0 ≤ (WebRtcVad_CalcVad48khz spl inst frame n).2 ∧
    (WebRtcVad_CalcVad48khz spl inst frame n).2 ≤ 16 :=
  CalcVad8khz_inv spl _ _ _ h

theorem getD_bounds3 (a b c : Int) (ha : 0 ≤ a ∧ a ≤ 14) (hb : 0 ≤ b ∧ b ≤ 14)
    (hc : 0 ≤ c ∧ c ≤ 14) (i : Nat) :
    0 ≤ [a, b, c].getD i 0 ∧ [a, b, c].getD i 0 ≤ 14 := by
  rcases i with _ | _ | _ | i
  · exact ha
  · exact hb
  · exact hc
  · exact ⟨le_refl _, by norm_num⟩

theorem set_mode_inv (s : VadInstT) (mode : Int) (h : DecisionInv s) :
    DecisionInv (WebRtcVad_set_mode_core s mode).1 := by
  obtain ⟨hn, ho, ht1, ht2⟩ := h
  unfold WebRtcVad_set_mode_core
  split_ifs
  · exact ⟨hn, ho, getD_bounds3 8 4 3 (by decide) (by decide) (by decide),
      getD_bounds3 14 7 5 (by decide) (by decide) (by decide)⟩
  · exact ⟨hn, ho, getD_bounds3 8 4 3 (by decide) (by decide) (by decide),
      getD_bounds3 14 7 5 (by decide) (by decide) (by decide)⟩
  · exact ⟨hn, ho, getD_bounds3 6 3 2 (by decide) (by decide) (by decide),
      getD_bounds3 9 5 3 (by decide) (by decide) (by decide)⟩
  · exact ⟨hn, ho, getD_bounds3 6 3 2 (by decide) (by decide) (by decide),
      getD_bounds3 9 5 3 (by decide) (by decide) (by decide)⟩
  · exact ⟨hn, ho, ht1, ht2⟩

theorem initState_inv : DecisionInv initState :=
  ⟨⟨by decide, by decide⟩, ⟨by decide, by decide⟩,
    getD_bounds3 8 4 3 (by decide) (by decide) (by decide),
    getD_bounds3 14 7 5 (by decide) (by decide) (by decide)⟩

theorem InitCore_eq (s : VadInstT) : WebRtcVad_InitCore (some s) = (some initState, 0) := rfl

theorem Reachable_inv (spl : Spl) (s : VadInstT) (h : Reachable spl s) : DecisionInv s := by
  induction h with
  | init s s' hi =>
    rw [InitCore_eq] at hi
    have : s' = initState := by
      have := congrArg Prod.fst hi
      simpa using this.symm
    rw [this]
    exact initState_inv
  | set_mode s mode _ ih => exact set_mode_inv s mode ih
  | calc8 s frame n _ ih => exact (CalcVad8khz_inv spl s frame n ih).1
  | calc16 s frame n _ ih => exact (CalcVad16khz_inv spl s frame n ih).1
  | calc32 s frame n _ ih => exact (CalcVad32khz_inv spl s frame n ih).1
  | calc48 s frame n _ ih => exact (CalcVad48khz_inv spl s frame n ih).1

theorem hysteresisRun_append (n : Nat) (l1 l2 : List Int) :
    ∀ s : VadInstT, hysteresisRun n s (l1 ++ l2) =
      ((hysteresisRun n (hysteresisRun n s l1).1 l2).1,
        (hysteresisRun n s l1).2 ++ (hysteresisRun n (hysteresisRun n s l1).1 l2).2) := by
  induction l1 with
  | nil => intro s; rfl
  | cons a l ih =>
    intro s
    rw [List.cons_append]
    simp only [hysteresisRun]
    rw [ih]
    rfl

theorem hysteresisRun_saturated (k : Nat) :
    ∀ s : VadInstT, s.num_of_speech = 6 → s.over_hang = 14 →
      s.over_hang_max_1.getD 0 0 = 8 → s.over_hang_max_2.getD 0 0 = 14 →
      (hysteresisRun 80 s (List.replicate k 1 ++ [0])).2 = List.replicate k 1 ++ [16] := by
  induction k with
  | zero =>
    intro s h1 h2 h3 h4
    simp [hysteresisRun, GmmProbability_hysteresis, h2, wrap16]
  | succ k ih =>
    intro s h1 h2 h3 h4
    have hstep : GmmProbability_hysteresis s 1 (GmmProbability_thresholds s 80).1
        (GmmProbability_thresholds s 80).2.1 =
        ({ s with num_of_speech := 6, over_hang := 14 }, 1) := by
      have hw : wrap16 (6 + 1) = 7 := by decide
      simp only [GmmProbability_hysteresis, GmmProbability_thresholds, h1, h4, hw,
        kMaxSpeechFrames, ↓reduceIte, one_ne_zero, gt_iff_lt, Int.reduceLT]
    simp only [List.replicate_succ, List.cons_append, hysteresisRun, hstep]
    exact congrArg (List.cons 1) (ih { s with num_of_speech := 6, over_hang := 14 } rfl rfl h3 h4)

/-- A remark on the 16-bit arithmetic of the smoother: with `over_hang = 32767`,
a value that no reachable state holds (the counter is at most 14 there), a raw
decision 0 would emit -32767 instead of `2 + over_hang = 32769`. -/
theorem smoother_wrap_remark :
    0 < ({ initState with over_hang := 32767 } : VadInstT).over_hang ∧
    (GmmProbability_hysteresis { initState with over_hang := 32767 } 0 8 14).2 = -32767 ∧
    (GmmProbability_hysteresis { initState with over_hang := 32767 } 0 8 14).2 ≠
      2 + ({ initState with over_hang := 32767 } : VadInstT).over_hang := by
  decide

/-- C6 (amended): for `0 ≤ num_of_speech ≤ 6` and raw decision 1 the emitted
decision is 1, `num_of_speech` becomes `min (num_of_speech + 1) 6`, and
`over_hang` is set to the long preset exactly when `num_of_speech` was already 6
before the call (the incremented value exceeds the cap), to the short preset
otherwise; nothing else changes. -/
theorem hysteresis_positive (self : VadInstT) (overhead1 overhead2 : Int)
    (h0 : 0 ≤ self.num_of_speech) (h6 : self.num_of_speech ≤ 6) :
    GmmProbability_hysteresis self 1 overhead1 overhead2 =
      ({ self with
          num_of_speech := min (self.num_of_speech + 1) 6
          over_hang := if self.num_of_speech = 6 then overhead2 else overhead1 }, 1) := by
  have hw : wrap16 (self.num_of_speech + 1) = self.num_of_speech + 1 := by
    unfold wrap16
    omega
  by_cases h : self.num_of_speech = 6
  · have hc : self.num_of_speech + 1 > 6 := by omega
    have hm : min (self.num_of_speech + 1) 6 = 6 := by omega
    simp only [GmmProbability_hysteresis, hw, kMaxSpeechFrames, if_pos hc, if_pos h, hm,
      show ¬ ((1 : Int) = 0) by decide, if_false]
  · have hc : ¬ (self.num_of_speech + 1 > 6) := by omega
    have hm : min (self.num_of_speech + 1) 6 = self.num_of_speech + 1 := by omega
    simp only [GmmProbability_hysteresis, hw, kMaxSpeechFrames, if_neg hc, if_neg h, hm,
      show ¬ ((1 : Int) = 0) by decide, if_false]

/-- Witness of C6: a seventh consecutive speech frame selects the long preset. -/
theorem hysteresis_positive_witness :
    GmmProbability_hysteresis { initState with num_of_speech := 6 } 1 8 14 =
      ({ initState with num_of_speech := 6, over_hang := 14 }, 1) :=
  hysteresis_positive { initState with num_of_speech := 6 } 8 14 (by decide) (by decide)

/-- Counterexample to C6 as stated: from `num_of_speech = 5` (and from Init after
six raw-positive frames) `num_of_speech` has reached its cap 6 after the
increment, yet `over_hang` is the short preset 8, not the long preset 14. -/
theorem hysteresis_positive_counterexample :
    (GmmProbability_hysteresis { initState with num_of_speech := 5 } 1 8 14).1.num_of_speech = 6 ∧
    (GmmProbability_hysteresis { initState with num_of_speech := 5 } 1 8 14).1.over_hang = 8 ∧
    (hysteresisRun 80 initState [1, 1, 1, 1, 1, 1]).1.num_of_speech = 6 ∧
    (hysteresisRun 80 initState [1, 1, 1, 1, 1, 1]).1.over_hang = 8 ∧
    (GmmProbability_thresholds initState 80).2.1 = 14 ∧
    (hysteresisRun 80 initState [1, 1, 1, 1, 1, 1]).1.over_hang ≠
      (GmmProbability_thresholds initState 80).2.1 := by
  decide

/-- C8: in mode 0 with 80-sample frames, from the Init state seven raw-positive
frames followed by a raw-negative one emit 16 last; so does any run of at least
seven raw-positive frames, while a shorter run emits 10; and in every reachable
state, whatever the mode, frame and rate, the returned decision is at most 16. -/
theorem hysteresis_emits_16 :
    (hysteresisRun 80 initState [1, 1, 1, 1, 1, 1, 1, 0]).2 = [1, 1, 1, 1, 1, 1, 1, 16] ∧
    (∀ n : Nat, 7 ≤ n →
      (hysteresisRun 80 initState (List.replicate n 1 ++ [0])).2 = List.replicate n 1 ++ [16]) ∧
    (∀ n : Nat, 1 ≤ n → n < 7 →
      (hysteresisRun 80 initState (List.replicate n 1 ++ [0])).2 = List.replicate n 1 ++ [10]) ∧
    (∀ (spl : Spl) (s : VadInstT), Reachable spl s → ∀ (frame : List Int) (n : Nat),
      (WebRtcVad_CalcVad8khz spl s frame n).2 ≤ 16 ∧
      (WebRtcVad_CalcVad16khz spl s frame n).2 ≤ 16 ∧
      (WebRtcVad_CalcVad32khz spl s frame n).2 ≤ 16 ∧
      (WebRtcVad_CalcVad48khz spl s frame n).2 ≤ 16) := by
  refine ⟨by decide, ?_, ?_, ?_⟩
  · intro n hn
    obtain ⟨k, rfl⟩ : ∃ k, n = 7 + k := ⟨n - 7, by omega⟩
    have hsplit : List.replicate (7 + k) (1 : Int) ++ [0] =
        List.replicate 7 1 ++ (List.replicate k 1 ++ [0]) := by
      rw [List.replicate_add, List.append_assoc]
    rw [hsplit, hysteresisRun_append]
    have h7 : (hysteresisRun 80 initState (List.replicate 7 1)).2 = List.replicate 7 1 := by
      decide
    rw [h7, hysteresisRun_saturated k _ (by decide) (by decide) (by decide) (by decide),
      List.replicate_add, List.append_assoc]
  · intro n h1 h7
    interval_cases n <;> decide
  · intro spl s hr frame n
    have hi := Reachable_inv spl s hr
    exact ⟨(CalcVad8khz_inv spl s frame n hi).2.2, (CalcVad16khz_inv spl s frame n hi).2.2,
      (CalcVad32khz_inv spl s frame n hi).2.2, (CalcVad48khz_inv spl s frame n hi).2.2⟩

theorem hysteresis_model (s : VadInstT) (v o1 o2 : Int) :
    (GmmProbability_hysteresis s v o1 o2).1.noise_means = s.noise_means ∧
    (GmmProbability_hysteresis s v o1 o2).1.speech_means = s.speech_means ∧
    (GmmProbability_hysteresis s v o1 o2).1.noise_stds = s.noise_stds ∧
    (GmmProbability_hysteresis s v o1 o2).1.speech_stds = s.speech_stds ∧
    (GmmProbability_hysteresis s v o1 o2).1.index_vector = s.index_vector ∧
    (GmmProbability_hysteresis s v o1 o2).1.low_value_vector = s.low_value_vector ∧
    (GmmProbability_hysteresis s v o1 o2).1.mean_value = s.mean_value ∧
    (GmmProbability_hysteresis s v o1 o2).1.frame_counter = s.frame_counter := by
  unfold GmmProbability_hysteresis
  simp only []
  split_ifs <;> exact ⟨rfl, rfl, rfl, rfl, rfl, rfl, rfl, rfl⟩

theorem raw_below_floor (spl : Spl) (self : VadInstT) (features : List Int) (total_power : Int)
    (frame_length : Nat) (h : total_power ≤ kMinEnergy) :
    GmmProbability_raw spl self features total_power frame_length = (self, 0) := by
  have hn : ¬ (total_power > kMinEnergy) := not_lt.mpr h
  simp only [GmmProbability_raw, if_neg hn]

theorem GmmProbability_frame_counter (spl : Spl) (self : VadInstT) (features : List Int)
    (total_power : Int) (frame_length : Nat) (h : kMinEnergy < total_power) :
    (GmmProbability spl self features total_power frame_length).1.frame_counter =
      wrap32 (self.frame_counter + 1) := by
  have h1 := (hysteresis_model (GmmProbability_raw spl self features total_power frame_length).1
    (GmmProbability_raw spl self features total_power frame_length).2
    (GmmProbability_thresholds self frame_length).1
    (GmmProbability_thresholds self frame_length).2.1).2.2.2.2.2.2.2
  have h2 := congrArg Prod.fst (raw_state spl self features total_power frame_length)
  simp only [decisionState, if_pos (show total_power > kMinEnergy from h)] at h2
  exact h1.trans h2

/-- Witness of C8: nine raw-positive frames then a raw-negative one, and the
bound on the Init state. -/
theorem hysteresis_emits_16_witness :
    (hysteresisRun 80 initState (List.replicate 9 1 ++ [0])).2 = List.replicate 9 1 ++ [16] ∧
    (hysteresisRun 80 initState (List.replicate 3 1 ++ [0])).2 = List.replicate 3 1 ++ [10] ∧
    (WebRtcVad_CalcVad8khz splRef initState burstFrame 80).2 ≤ 16 :=
  ⟨hysteresis_emits_16.2.1 9 (by decide), hysteresis_emits_16.2.2.1 3 (by decide) (by decide),
   (hysteresis_emits_16.2.2.2 splRef initState (Reachable.init zeroInst initState rfl)
      burstFrame 80).1⟩

/-- C9: in every state reachable from a successful Init by mode selections and
per-frame classification calls, `0 ≤ num_of_speech ≤ 6` and
`0 ≤ over_hang ≤ 14`, and every decision returned from such a state is
non-negative. -/
theorem decision_state_invariant (spl : Spl) (s : VadInstT) (h : Reachable spl s) :
    (0 ≤ s.num_of_speech ∧ s.num_of_speech ≤ 6) ∧ (0 ≤ s.over_hang ∧ s.over_hang ≤ 14) ∧
    (∀ (frame : List Int) (n : Nat),
      0 ≤ (WebRtcVad_CalcVad8khz spl s frame n).2 ∧
      0 ≤ (WebRtcVad_CalcVad16khz spl s frame n).2 ∧
      0 ≤ (WebRtcVad_CalcVad32khz spl s frame n).2 ∧
      0 ≤ (WebRtcVad_CalcVad48khz spl s frame n).2) := by
  have hi := Reachable_inv spl s h
  refine ⟨hi.1, hi.2.1, fun frame n => ?_⟩
  exact ⟨(CalcVad8khz_inv spl s frame n hi).2.1, (CalcVad16khz_inv spl s frame n hi).2.1,
    (CalcVad32khz_inv spl s frame n hi).2.1, (CalcVad48khz_inv spl s frame n hi).2.1⟩

/-- Witness of C9 on the Init state with the reference primitives. -/
theorem decision_state_invariant_witness :
    (0 ≤ initState.num_of_speech ∧ initState.num_of_speech ≤ 6) ∧
    (0 ≤ initState.over_hang ∧ initState.over_hang ≤ 14) ∧
    (∀ (frame : List Int) (n : Nat),
      0 ≤ (WebRtcVad_CalcVad8khz splRef initState frame n).2 ∧
      0 ≤ (WebRtcVad_CalcVad16khz splRef initState frame n).2 ∧
      0 ≤ (WebRtcVad_CalcVad32khz splRef initState frame n).2 ∧
      0 ≤ (WebRtcVad_CalcVad48khz splRef initState frame n).2) :=
  decision_state_invariant splRef initState (Reachable.init zeroInst initState rfl)

/-- C10 (amended): if `total_power ≤ kMinEnergy` then `GmmProbability` leaves the
Gaussian means and stds, the minimum-tracker window and `frame_counter`
unchanged, the raw decision is 0, and the returned value is `2 + over_hang`
when `0 < over_hang ≤ 32765` and 0 when `over_hang ≤ 0`; if
`total_power > kMinEnergy` and `frame_counter` is a 32-bit value below
`2^31 - 1`, `frame_counter` increases by exactly 1. -/
theorem GmmProbability_energy_gate (spl : Spl) (self : VadInstT) (features : List Int)
    (total_power : Int) (frame_length : Nat) :
    (total_power ≤ kMinEnergy →
      GmmProbability_raw spl self features total_power frame_length = (self, 0) ∧
      ((GmmProbability spl self features total_power frame_length).1.noise_means =
          self.noise_means ∧
        (GmmProbability spl self features total_power frame_length).1.speech_means =
          self.speech_means ∧
        (GmmProbability spl self features total_power frame_length).1.noise_stds =
          self.noise_stds ∧
        (GmmProbability spl self features total_power frame_length).1.speech_stds =
          self.speech_stds ∧
        (GmmProbability spl self features total_power frame_length).1.index_vector =
          self.index_vector ∧
        (GmmProbability spl self features total_power frame_length).1.low_value_vector =
          self.low_value_vector ∧
        (GmmProbability spl self features total_power frame_length).1.mean_value =
          self.mean_value ∧
        (GmmProbability spl self features total_power frame_length).1.frame_counter =
          self.frame_counter) ∧
      (0 < self.over_hang → self.over_hang ≤ 32765 →
        (GmmProbability spl self features total_power frame_length).2 = 2 + self.over_hang) ∧
      (self.over_hang ≤ 0 →
        (GmmProbability spl self features total_power frame_length).2 = 0)) ∧
    (kMinEnergy < total_power → -2147483648 ≤ self.frame_counter →
      self.frame_counter < 2147483647 →
      (GmmProbability spl self features total_power frame_length).1.frame_counter =
        self.frame_counter + 1) := by
  constructor
  · intro h
    have hraw := raw_below_floor spl self features total_power frame_length h
    refine ⟨hraw, ?_, ?_, ?_⟩
    · have hm := hysteresis_model self 0 (GmmProbability_thresholds self frame_length).1
        (GmmProbability_thresholds self frame_length).2.1
      simp only [GmmProbability, hraw]
      exact hm
    · intro h1 h2
      have e2 : wrap16 (2 + self.over_hang) = 2 + self.over_hang := by unfold wrap16; omega
      simp only [GmmProbability, hraw, GmmProbability_hysteresis, if_true, gt_iff_lt, if_pos h1,
        e2]
    · intro h0
      have hn : ¬ (self.over_hang > 0) := not_lt.mpr h0
      simp only [GmmProbability, hraw, GmmProbability_hysteresis, if_true, if_neg hn]
  · intro h h1 h2
    rw [GmmProbability_frame_counter spl self features total_power frame_length h]
    unfold wrap32
    omega

/-- Witness of C10 on the Init state: below the floor with overhang 8 and 0,
above the floor with `frame_counter = 0`. -/
theorem GmmProbability_energy_gate_witness :
    (GmmProbability splRef { initState with over_hang := 8 } kOffsetVector 0 80).2 = 2 + 8 ∧
    (GmmProbability splRef initState kOffsetVector 0 80).2 = 0 ∧
    (GmmProbability splRef initState kOffsetVector 11 80).1.frame_counter = 0 + 1 :=
  ⟨((GmmProbability_energy_gate splRef { initState with over_hang := 8 } kOffsetVector 0 80).1
      (by decide)).2.2.1 (by decide) (by decide),
   ((GmmProbability_energy_gate splRef initState kOffsetVector 0 80).1 (by decide)).2.2.2
      (by decide),
   (GmmProbability_energy_gate splRef initState kOffsetVector 11 80).2 (by decide) (by decide)
      (by decide)⟩

/-- Counterexample to C10 as stated: below the floor with `over_hang = 32767`
the returned value is not `2 + over_hang`, and above the floor with
`frame_counter = 2^31 - 1` the counter does not increase by 1. -/
theorem GmmProbability_energy_gate_counterexample :
    (0 ≤ kMinEnergy ∧ 0 < ({ initState with over_hang := 32767 } : VadInstT).over_hang ∧
      (GmmProbability splRef { initState with over_hang := 32767 } kOffsetVector 0 80).2 ≠
        2 + ({ initState with over_hang := 32767 } : VadInstT).over_hang) ∧
    (kMinEnergy < 11 ∧
      (GmmProbability splRef { initState with frame_counter := 2147483647 } kOffsetVector 11
        80).1.frame_counter ≠
        ({ initState with frame_counter := 2147483647 } : VadInstT).frame_counter + 1) := by
  refine ⟨⟨by decide, by decide, by decide⟩, by decide, ?_⟩
  rw [GmmProbability_frame_counter splRef _ kOffsetVector 11 80 (by decide)]
  decide

/-! ## The filter memories through the classifier -/

theorem FindMinimum_filterState (s : VadInstT) (feature_value : Int) (channel : Nat) :
    filterState (WebRtcVad_FindMinimum s feature_value channel).1 = filterState s := by
  simp only [WebRtcVad_FindMinimum, filterState]

theorem filterState_noise_means (s : VadInstT) (x : List Int) :
    filterState { s with noise_means := x } = filterState s := rfl

theorem updateGaussian_filterState (spl : Spl) (features : List Int) (sc : GmmScratch)
    (vadflag : Int) (channel : Nat) (feature_minimum tmp1_s16 maxspe : Int) (self : VadInstT)
    (k : Nat) :
    filterState (GmmProbability_updateGaussian spl features sc vadflag channel
      feature_minimum tmp1_s16 maxspe self k) = filterState self := by
  show filterState (if vadflag ≠ 0 then _ else _) = _
  split <;> rfl

theorem separate_filterState (self : VadInstT) (channel : Nat) :
    filterState (GmmProbability_separate self channel).1 = filterState self := by
  unfold GmmProbability_separate
  simp only []
  split <;> rfl

theorem limit_filterState (self : VadInstT) (channel : Nat) (n s : Int) :
    filterState (GmmProbability_limit self channel n s) = filterState self := by
  unfold GmmProbability_limit
  simp only []
  split_ifs <;> rfl

theorem update_filterState (spl : Spl) (features : List Int) (sc : GmmScratch)
    (vadflag : Int) (st : VadInstT × Int) (channel : Nat) :
    filterState (GmmProbability_update spl features sc vadflag st channel).1 =
      filterState st.1 := by
  have hfold : ∀ (s0 : VadInstT) (fm t m : Int),
      filterState ((List.range kNumGaussians).foldl
        (GmmProbability_updateGaussian spl features sc vadflag channel fm t m) s0) =
        filterState s0 := by
    intro s0 fm t m
    exact foldl_invariant (fun s => filterState s = filterState s0) _
      (fun a b h => (updateGaussian_filterState spl features sc vadflag channel fm t m a b).trans h)
      _ _ rfl
  unfold GmmProbability_update
  simp only [limit_filterState, separate_filterState, hfold, filterState_noise_means,
    FindMinimum_filterState]

theorem updateLoop_filterState (spl : Spl) (features : List Int) (sc : GmmScratch)
    (vadflag : Int) (l : List Nat) (st : VadInstT × Int) :
    filterState (l.foldl (GmmProbability_update spl features sc vadflag) st).1 =
      filterState st.1 :=
  foldl_invariant (fun t => filterState t.1 = filterState st.1) _
    (fun a b h => (update_filterState spl features sc vadflag a b).trans h) l st rfl

theorem raw_filterState (spl : Spl) (self : VadInstT) (features : List Int) (total_power : Int)
    (frame_length : Nat) :
    filterState (GmmProbability_raw spl self features total_power frame_length).1 =
      filterState self := by
  by_cases hp : total_power > kMinEnergy
  · simp only [GmmProbability_raw, if_pos hp]
    have h := updateLoop_filterState spl features
      ((List.range kNumChannels).foldl (GmmProbability_test spl self features
        (GmmProbability_thresholds self frame_length).2.2.1) GmmScratch.init)
      (if ((List.range kNumChannels).foldl (GmmProbability_test spl self features
        (GmmProbability_thresholds self frame_length).2.2.1) GmmScratch.init).sum_log_likelihood_ratios
          ≥ (GmmProbability_thresholds self frame_length).2.2.2 then 1
        else ((List.range kNumChannels).foldl (GmmProbability_test spl self features
        (GmmProbability_thresholds self frame_length).2.2.1) GmmScratch.init).vadflag)
      (List.range kNumChannels) (self, 12800)
    simp only [filterState] at h ⊢
    exact h
  · simp only [GmmProbability_raw, if_neg hp]

theorem hysteresis_filterState (s : VadInstT) (v o1 o2 : Int) :
    filterState (GmmProbability_hysteresis s v o1 o2).1 = filterState s := by
  unfold GmmProbability_hysteresis
  simp only []
  split_ifs <;> rfl

theorem CalcVad8khz_filterState (spl : Spl) (inst : VadInstT) (frame : List Int) (n : Nat) :
    filterState (WebRtcVad_CalcVad8khz spl inst frame n).1 =
      filterState (WebRtcVad_CalculateFeatures spl inst frame n).1 :=
  (hysteresis_filterState _ _ _ _).trans (raw_filterState spl _ _ _ n)

theorem CalculateFeatures_congr (spl : Spl) (a b : VadInstT) (frame : List Int) (n : Nat)
    (h : filterState a = filterState b) :
    (WebRtcVad_CalculateFeatures spl a frame n).2 = (WebRtcVad_CalculateFeatures spl b frame n).2 := by
  simp only [filterState, Prod.mk.injEq] at h
  obtain ⟨-, -, h3, h4, h5⟩ := h
  simp only [WebRtcVad_CalculateFeatures, h3, h4, h5]

/-- The decision part of one 8 kHz classification call: the returned value and
the new counters are those of the hysteresis applied to the counters of the
instance, with the raw decision of the classifier. -/
theorem CalcVad8khz_hysteresis (spl : Spl) (s : VadInstT) (frame : List Int) (n : Nat) :
    (WebRtcVad_CalcVad8khz spl s frame n).2 =
      (GmmProbability_hysteresis s
        (GmmProbability_raw spl (WebRtcVad_CalculateFeatures spl s frame n).1
          (WebRtcVad_CalculateFeatures spl s frame n).2.1
          (WebRtcVad_CalculateFeatures spl s frame n).2.2 n).2
        (GmmProbability_thresholds s n).1 (GmmProbability_thresholds s n).2.1).2 ∧
    (WebRtcVad_CalcVad8khz spl s frame n).1.over_hang =
      (GmmProbability_hysteresis s
        (GmmProbability_raw spl (WebRtcVad_CalculateFeatures spl s frame n).1
          (WebRtcVad_CalculateFeatures spl s frame n).2.1
          (WebRtcVad_CalculateFeatures spl s frame n).2.2 n).2
        (GmmProbability_thresholds s n).1 (GmmProbability_thresholds s n).2.1).1.over_hang := by
  have hf := CalculateFeatures_decisionState spl s frame n
  have hr := raw_state spl (WebRtcVad_CalculateFeatures spl s frame n).1
    (WebRtcVad_CalculateFeatures spl s frame n).2.1
    (WebRtcVad_CalculateFeatures spl s frame n).2.2 n
  have ht := thresholds_congr _ _ n hf
  simp only [decisionState, Prod.mk.injEq] at hf hr
  obtain ⟨-, hr2, hr3, -⟩ := hr
  obtain ⟨-, hf2, hf3, -⟩ := hf
  simp only [WebRtcVad_CalcVad8khz, GmmProbability, ht]
  simp only [GmmProbability_hysteresis, hr2, hr3, hf2, hf3]
  split_ifs <;> exact ⟨rfl, rfl⟩

set_option maxRecDepth 100000

/-- C7 (the code leaves the documented range 0, 1..6): with the reference
primitives, the state after one burst frame from Init is reachable, the burst
frame returns 1, and the silent frame that follows returns 10. -/
theorem CalcVad8khz_exceeds_documented_range :
    Reachable splRef (WebRtcVad_CalcVad8khz splRef initState burstFrame 80).1 ∧
    (WebRtcVad_CalcVad8khz splRef initState burstFrame 80).2 = 1 ∧
    (WebRtcVad_CalcVad8khz splRef (WebRtcVad_CalcVad8khz splRef initState burstFrame 80).1
      silentFrame 80).2 = 10 := by
  have hraw1 : (GmmProbability_raw splRef
      (WebRtcVad_CalculateFeatures splRef initState burstFrame 80).1
      (WebRtcVad_CalculateFeatures splRef initState burstFrame 80).2.1
      (WebRtcVad_CalculateFeatures splRef initState burstFrame 80).2.2 80).2 = 1 := by
    decide!
  have htot : (WebRtcVad_CalculateFeatures splRef
      (WebRtcVad_CalculateFeatures splRef initState burstFrame 80).1 silentFrame 80).2.2 ≤
      kMinEnergy := by
    decide!
  have h1 := CalcVad8khz_hysteresis splRef initState burstFrame 80
  rw [hraw1] at h1
  have hoh : (WebRtcVad_CalcVad8khz splRef initState burstFrame 80).1.over_hang = 8 :=
    h1.2.trans (by decide)
  have hcf := CalculateFeatures_congr splRef
    (WebRtcVad_CalcVad8khz splRef initState burstFrame 80).1
    (WebRtcVad_CalculateFeatures splRef initState burstFrame 80).1 silentFrame 80
    (CalcVad8khz_filterState splRef initState burstFrame 80)
  have hraw2 := raw_below_floor splRef
    (WebRtcVad_CalculateFeatures splRef
      (WebRtcVad_CalcVad8khz splRef initState burstFrame 80).1 silentFrame 80).1
    (WebRtcVad_CalculateFeatures splRef
      (WebRtcVad_CalcVad8khz splRef initState burstFrame 80).1 silentFrame 80).2.1
    (WebRtcVad_CalculateFeatures splRef
      (WebRtcVad_CalcVad8khz splRef initState burstFrame 80).1 silentFrame 80).2.2 80
    (by rw [hcf]; exact htot)
  have h2 := (CalcVad8khz_hysteresis splRef
    (WebRtcVad_CalcVad8khz splRef initState burstFrame 80).1 silentFrame 80).1
  rw [hraw2] at h2
  refine ⟨Reachable.calc8 _ _ _ (Reachable.init zeroInst initState rfl), h1.1.trans (by decide),
    ?_⟩
  rw [h2]
  simp only [GmmProbability_hysteresis, hoh]
  decide

/-! ## The Gaussian density: cutoff, value at the mean, maximum -/

theorem GaussianProbability_unfold (spl : Spl) (input mean std : Int) :
    WebRtcVad_GaussianProbability spl input mean std =
      (GaussianProbability_inv_std spl std *
          GaussianProbability_exp_value (GaussianProbability_exponent spl input mean std),
        GaussianProbability_delta spl input mean std) := rfl

theorem splRef_DivContract : DivContract splRef := by
  intro num den h0 h1 hd
  show WebRtcSpl_DivW32W16 num den = num / den
  unfold WebRtcSpl_DivW32W16
  have hne : den ≠ 0 := by omega
  rw [if_pos hne, Int.tdiv_eq_ediv h0 (le_of_lt hd)]
  have h2 : 0 ≤ num / den := Int.ediv_nonneg h0 (le_of_lt hd)
  have h3 : num / den ≤ num := Int.ediv_le_self den h0
  unfold wrap32
  omega

theorem inv_std_value (spl : Spl) (h : DivContract spl) (std : Int) (h1 : 384 ≤ std)
    (h2 : std ≤ 32767) :
    GaussianProbability_inv_std spl std = (131072 + std / 2) / std ∧
    0 ≤ (131072 + std / 2) / std ∧ (131072 + std / 2) / std ≤ 341 := by
  have hq0 : 0 ≤ (131072 + std / 2) / std := Int.ediv_nonneg (by omega) (by omega)
  have hq1 : (131072 + std / 2) / std < 342 :=
    Int.ediv_lt_of_lt_mul (by omega) (by omega)
  refine ⟨?_, hq0, by omega⟩
  unfold GaussianProbability_inv_std
  rw [h _ _ (by omega) (by omega) (by omega)]
  unfold wrap16
  omega

theorem shr_bounds (x n : Int) (hx : 0 ≤ x) :
    0 ≤ shr x n ∧ shr x n ≤ x ∧ (1 ≤ n → shr x n ≤ x / 2) := by
  unfold shr
  have hp : (0 : Int) < 2 ^ n.toNat := by positivity
  refine ⟨Int.ediv_nonneg hx (le_of_lt hp), Int.ediv_le_self _ hx, ?_⟩
  intro hn
  obtain ⟨k, hk⟩ : ∃ k : Nat, n.toNat = k + 1 := ⟨n.toNat - 1, by omega⟩
  rw [hk, pow_succ]
  have hm : (1 : Int) ≤ 2 ^ k := one_le_pow₀ (by norm_num)
  have hy0 : 0 ≤ x / (2 ^ k * 2) := Int.ediv_nonneg hx (by positivity)
  have hy1 : x / (2 ^ k * 2) * (2 ^ k * 2) ≤ x := Int.ediv_mul_le _ (by positivity)
  apply Int.le_ediv_of_mul_le (by norm_num)
  nlinarith

theorem exp_value_bounds (tmp32 : Int) (h : 0 ≤ tmp32) :
    0 ≤ GaussianProbability_exp_value tmp32 ∧ GaussianProbability_exp_value tmp32 ≤ 1024 := by
  unfold GaussianProbability_exp_value
  by_cases hc : tmp32 < kCompVar
  · rw [if_pos hc]
    simp only [kCompVar, kLog2Exp] at hc ⊢
    have e0 : wrap32 (5909 * tmp32) = 5909 * tmp32 := by
      unfold wrap32
      omega
    have e1 : wrap16 (wrap32 (5909 * tmp32) / 4096) = 5909 * tmp32 / 4096 := by
      rw [e0]
      unfold wrap16
      omega
    have e2 : wrap16 (-(5909 * tmp32 / 4096)) = -(5909 * tmp32 / 4096) := by
      unfold wrap16
      omega
    rw [e1, e2]
    have hx : 0 ≤ 1024 + -(5909 * tmp32 / 4096) % 1024 := by omega
    have hb := shr_bounds (1024 + -(5909 * tmp32 / 4096) % 1024)
      ((- -(5909 * tmp32 / 4096) - 1) / 1024 + 1) hx
    refine ⟨hb.1, ?_⟩
    by_cases ht : 5909 * tmp32 / 4096 = 0
    · have := hb.2.1
      omega
    · have := hb.2.2 (by omega)
      omega
  · rw [if_neg hc]
    exact ⟨le_refl _, by norm_num⟩

theorem residual_delta_bounds (spl : Spl) (h : DivContract spl) (input mean std : Int)
    (h1 : 384 ≤ std) (h2 : std ≤ 32767) (h3 : 0 ≤ input) (h4 : input ≤ 2300) (h5 : 640 ≤ mean)
    (h6 : mean ≤ 13440) :
    GaussianProbability_residual input mean = input * 8 - mean ∧
    0 ≤ GaussianProbability_exponent spl input mean std := by
  have hr : GaussianProbability_residual input mean = input * 8 - mean := by
    unfold GaussianProbability_residual wrap16
    omega
  refine ⟨hr, ?_⟩
  obtain ⟨hi, hq0, hq1⟩ := inv_std_value spl h std h1 h2
  unfold GaussianProbability_exponent GaussianProbability_delta
  rw [hr, hi]
  generalize (131072 + std / 2) / std = q at hq0 hq1
  have ha0 : 0 ≤ q / 4 := by omega
  have ha1 : q / 4 ≤ 85 := by omega
  have hsq0 : 0 ≤ q / 4 * (q / 4) := mul_nonneg ha0 ha0
  have hsq1 : q / 4 * (q / 4) ≤ 7225 := by nlinarith
  have hw : wrap16 (q / 4 * (q / 4) / 4) = q / 4 * (q / 4) / 4 := by
    unfold wrap16
    omega
  simp only [hw]
  have hv0 : 0 ≤ q / 4 * (q / 4) / 4 := by omega
  have hv1 : q / 4 * (q / 4) / 4 ≤ 1806 := by omega
  generalize q / 4 * (q / 4) / 4 = v at hv0 hv1 ⊢
  generalize hd : input * 8 - mean = d
  have hd0 : -13440 ≤ d := by omega
  have hd1 : d ≤ 17760 := by omega
  rcases le_or_lt 0 d with hpos | hneg
  · have hp0 : 0 ≤ v * d := mul_nonneg hv0 hpos
    have hp1 : v * d ≤ 1806 * 17760 := by nlinarith
    have hw2 : wrap16 (v * d / 1024) = v * d / 1024 := by
      unfold wrap16
      omega
    rw [hw2]
    exact Int.ediv_nonneg (mul_nonneg (Int.ediv_nonneg hp0 (by norm_num)) hpos) (by norm_num)
  · have hp0 : v * d ≤ 0 := by nlinarith
    have hp1 : -(1806 * 13440) ≤ v * d := by nlinarith
    have hw2 : wrap16 (v * d / 1024) = v * d / 1024 := by
      unfold wrap16
      omega
    rw [hw2]
    have hq : v * d / 1024 ≤ 0 := by omega
    exact Int.ediv_nonneg (by nlinarith) (by norm_num)

/-- C13 (Gaussian hard cutoff): for every input, mean and std, when the Q10
exponent argument computed by `WebRtcVad_GaussianProbability`,
`(delta * ((input << 3) - mean)) >> 9`, is at least `kCompVar` = 22005, the
returned probability is exactly 0. -/
theorem GaussianProbability_cutoff (spl : Spl) (input mean std : Int)
    (h : kCompVar ≤ GaussianProbability_exponent spl input mean std) :
    (WebRtcVad_GaussianProbability spl input mean std).1 = 0 := by
  rw [GaussianProbability_unfold]
  have hn : ¬ (GaussianProbability_exponent spl input mean std < kCompVar) := not_lt.mpr h
  simp only [GaussianProbability_exp_value, if_neg hn, mul_zero]

theorem GaussianProbability_cutoff_witness :
    kCompVar ≤ GaussianProbability_exponent splRef 1000 640 384 ∧
    (WebRtcVad_GaussianProbability splRef 1000 640 384).1 = 0 :=
  ⟨by decide, GaussianProbability_cutoff splRef 1000 640 384 (by decide)⟩

theorem at_mean_value (spl : Spl) (h : DivContract spl) (x m std : Int)
    (h1 : 384 ≤ std) (h2 : std ≤ 32767) (hm : m = 8 * x) :
    WebRtcVad_GaussianProbability spl x m std = ((131072 + std / 2) / std * 1024, 0) ∧
    GaussianProbability_inv_std spl std = (131072 + std / 2) / std ∧
    GaussianProbability_exp_value (GaussianProbability_exponent spl x m std) = 1024 := by
  obtain ⟨hi, -, -⟩ := inv_std_value spl h std h1 h2
  have hr : GaussianProbability_residual x m = 0 := by
    unfold GaussianProbability_residual wrap16
    omega
  have hd : GaussianProbability_delta spl x m std = 0 := by
    unfold GaussianProbability_delta
    simp only [hr, mul_zero]
    decide
  have he : GaussianProbability_exponent spl x m std = 0 := by
    unfold GaussianProbability_exponent
    rw [hr, hd]
    decide
  have hv : GaussianProbability_exp_value 0 = 1024 := by decide
  rw [GaussianProbability_unfold, he, hv, hd, hi]
  exact ⟨rfl, rfl, rfl⟩

/-- C14 (Gaussian at the mean): with a division primitive that returns the
integer quotient, for every std in [384, 32767] and every input `x` and mean
`m` with `m = 8 * x`, `WebRtcVad_GaussianProbability` writes `delta = 0` and
returns `inv_std * 1024`, where `inv_std = (131072 + (std >> 1)) / std`; the
exponential factor is exactly 1024 (1.0 in Q10). -/
theorem GaussianProbability_at_mean (spl : Spl) (h : DivContract spl) (x m std : Int)
    (h1 : 384 ≤ std) (h2 : std ≤ 32767) (hm : m = 8 * x) :
    WebRtcVad_GaussianProbability spl x m std = ((131072 + std / 2) / std * 1024, 0) ∧
    GaussianProbability_inv_std spl std = (131072 + std / 2) / std ∧
    GaussianProbability_exp_value (GaussianProbability_exponent spl x m std) = 1024 :=
  at_mean_value spl h x m std h1 h2 hm

theorem GaussianProbability_at_mean_witness :
    WebRtcVad_GaussianProbability splRef 100 800 384 = (341 * 1024, 0) :=
  (GaussianProbability_at_mean splRef splRef_DivContract 100 800 384 (by decide) (by decide)
    (by decide)).1

/-- C15 (Gaussian maximal density): with a division primitive that returns the
integer quotient, for every std in [384, 32767], input in [0, 2300] and mean in
[640, 13440], the probability returned by `WebRtcVad_GaussianProbability` is
non-negative and at most `inv_std * 1024`, and it is at most the probability
returned for the same std at any input that lies on its mean. -/
theorem GaussianProbability_max_density (spl : Spl) (h : DivContract spl)
    (input mean std : Int) (h1 : 384 ≤ std) (h2 : std ≤ 32767) (h3 : 0 ≤ input)
    (h4 : input ≤ 2300) (h5 : 640 ≤ mean) (h6 : mean ≤ 13440) :
    0 ≤ (WebRtcVad_GaussianProbability spl input mean std).1 ∧
    (WebRtcVad_GaussianProbability spl input mean std).1 ≤ (131072 + std / 2) / std * 1024 ∧
    (∀ x m : Int, m = 8 * x →
      (WebRtcVad_GaussianProbability spl input mean std).1 ≤
        (WebRtcVad_GaussianProbability spl x m std).1) := by
  obtain ⟨hi, hq0, -⟩ := inv_std_value spl h std h1 h2
  obtain ⟨-, he⟩ := residual_delta_bounds spl h input mean std h1 h2 h3 h4 h5 h6
  obtain ⟨hb0, hb1⟩ := exp_value_bounds _ he
  have hle : (WebRtcVad_GaussianProbability spl input mean std).1 ≤
      (131072 + std / 2) / std * 1024 := by
    rw [GaussianProbability_unfold, hi]
    exact mul_le_mul_of_nonneg_left hb1 hq0
  refine ⟨?_, hle, ?_⟩
  · rw [GaussianProbability_unfold, hi]
    exact mul_nonneg hq0 hb0
  · intro x m hm
    rw [(at_mean_value spl h x m std h1 h2 hm).1]
    exact hle

theorem GaussianProbability_max_density_witness :
    (WebRtcVad_GaussianProbability splRef 1000 8306 555).1 ≤ (131072 + 555 / 2) / 555 * 1024 :=
  (GaussianProbability_max_density splRef splRef_DivContract 1000 8306 555 (by decide)
    (by decide) (by decide) (by decide) (by decide) (by decide)).2.1

/-! ## The silence scenario -/

theorem AllZero_getD (l : List Int) (h : AllZero l) (i : Nat) : l.getD i 0 = 0 := by
  by_cases hi : i < l.length
  · rw [List.getD_eq_getElem l 0 hi]
    exact h _ (List.getElem_mem hi)
  · exact List.getD_eq_default l 0 (not_lt.mp hi)

theorem AllZero_append_zero (l : List Int) (h : AllZero l) : AllZero (l ++ [0]) := by
  intro x hx
  rcases List.mem_append.mp hx with h1 | h1
  · exact h x h1
  · simpa using h1

theorem AllZero_drop (l : List Int) (h : AllZero l) (n : Nat) : AllZero (l.drop n) :=
  fun x hx => h x (List.mem_of_mem_drop hx)

theorem AllZero_replicate (n : Nat) : AllZero (List.replicate n 0) :=
  fun _ hx => (List.mem_replicate.mp hx).2

theorem AllPassFilter_zero (data_in : List Int) (n : Nat) (c : Int) (h : AllZero data_in) :
    AllZero (AllPassFilter data_in n c 0).1 ∧ (AllPassFilter data_in n c 0).2 = 0 := by
  have key : AllZero ((List.range n).foldl (AllPassFilter_step data_in c) ([], 0 * 65536)).1 ∧
      ((List.range n).foldl (AllPassFilter_step data_in c) ([], 0 * 65536)).2 = 0 := by
    apply foldl_invariant (fun acc : List Int × Int => AllZero acc.1 ∧ acc.2 = 0)
    · intro a b ha
      have hx : data_in.getD (2 * b) 0 = 0 := AllZero_getD _ h _
      have e1 : wrap16 (wrap32 0 / 65536) = 0 := by decide
      have e2 : wrap32 (wrap32 0 * 2) = 0 := by decide
      simp only [AllPassFilter_step, hx, ha.2, mul_zero, zero_mul, add_zero, sub_zero, e1, e2]
      exact ⟨AllZero_append_zero _ ha.1, trivial⟩
    · exact ⟨fun _ hx => absurd hx (List.not_mem_nil _), by decide⟩
  refine ⟨key.1, ?_⟩
  show wrap16 (_ / 65536) = 0
  rw [key.2]
  decide

theorem SplitFilter_zero (data_in : List Int) (n : Nat) (h : AllZero data_in) :
    AllZero (SplitFilter data_in n 0 0).1 ∧ AllZero (SplitFilter data_in n 0 0).2.1 ∧
    (SplitFilter data_in n 0 0).2.2.1 = 0 ∧ (SplitFilter data_in n 0 0).2.2.2 = 0 := by
  have hu := AllPassFilter_zero data_in (n / 2) (kAllPassCoefsQ15.getD 0 0) h
  have hl := AllPassFilter_zero (data_in.drop 1) (n / 2) (kAllPassCoefsQ15.getD 1 0)
    (AllZero_drop _ h 1)
  refine ⟨?_, ?_, hu.2, hl.2⟩
  · intro x hx
    obtain ⟨i, -, rfl⟩ := List.mem_map.mp hx
    rw [AllZero_getD _ hu.1, AllZero_getD _ hl.1]
    decide
  · intro x hx
    obtain ⟨i, -, rfl⟩ := List.mem_map.mp hx
    rw [AllZero_getD _ hu.1, AllZero_getD _ hl.1]
    decide

theorem HighPassFilter_zero (data_in : List Int) (n : Nat) (h : AllZero data_in) :
    AllZero (HighPassFilter data_in n [0, 0, 0, 0]).1 ∧
    (HighPassFilter data_in n [0, 0, 0, 0]).2 = [0, 0, 0, 0] := by
  have key : AllZero ((List.range n).foldl (HighPassFilter_step data_in)
        ([], (0 : Int), (0 : Int), (0 : Int), (0 : Int))).1 ∧
      ((List.range n).foldl (HighPassFilter_step data_in)
        ([], (0 : Int), (0 : Int), (0 : Int), (0 : Int))).2 = (0, 0, 0, 0) := by
    apply foldl_invariant
      (fun acc : List Int × Int × Int × Int × Int => AllZero acc.1 ∧ acc.2 = (0, 0, 0, 0))
    · intro a b ha
      have hx : data_in.getD b 0 = 0 := AllZero_getD _ h _
      obtain ⟨a1, a2⟩ := a
      obtain ⟨h1, h2⟩ := ha
      simp only at h1 h2
      subst h2
      simp only [HighPassFilter_step, hx, mul_zero, add_zero, sub_zero]
      exact ⟨AllZero_append_zero _ h1, by decide⟩
    · exact ⟨fun _ hx => absurd hx (List.not_mem_nil _), rfl⟩
  have e : ([], ([0, 0, 0, 0] : List Int).getD 0 0, ([0, 0, 0, 0] : List Int).getD 1 0,
      ([0, 0, 0, 0] : List Int).getD 2 0, ([0, 0, 0, 0] : List Int).getD 3 0) =
      (([] : List Int), (0 : Int), (0 : Int), (0 : Int), (0 : Int)) := rfl
  simp only [HighPassFilter, e]
  refine ⟨key.1, ?_⟩
  rw [key.2]
  rfl

theorem splRef_EnergyZeroContract : EnergyZeroContract splRef := by
  intro v n hv
  show ((List.range n).foldl
    (fun (en : Int) i => wrap32 (en + shr (v.getD i 0 * v.getD i 0)
      (WebRtcSpl_GetScalingSquare v n n))) 0) = 0
  apply foldl_invariant (fun en : Int => en = 0)
  · intro a b ha
    rw [ha, AllZero_getD v hv b]
    simp only [shr, mul_zero, Int.zero_ediv, add_zero]
    decide
  · rfl

theorem LogOfEnergy_zero (spl : Spl) (hE : EnergyZeroContract spl) (v : List Int) (n : Nat)
    (offset total : Int) (hv : AllZero v) : LogOfEnergy spl v n offset total = (total, offset) := by
  have h0 : wrapU32 (spl.WebRtcSpl_Energy v n).1 = 0 := by rw [hE v n hv]; rfl
  have hn : ¬ (wrapU32 (spl.WebRtcSpl_Energy v n).1 ≠ 0) := fun h => h h0
  simp only [LogOfEnergy, if_neg hn]

theorem CalculateFeatures_zero (spl : Spl) (hE : EnergyZeroContract spl) (s : VadInstT)
    (frame : List Int) (n : Nat) (hf : AllZero frame) (hs : Quiet s) :
    WebRtcVad_CalculateFeatures spl s frame n = (s, kOffsetVector, 0) := by
  obtain ⟨hu, hl, hh, -, -⟩ := hs
  have g0 : ([0, 0, 0, 0, 0] : List Int).getD 0 0 = 0 := rfl
  have g1 : ([0, 0, 0, 0, 0] : List Int).getD 1 0 = 0 := rfl
  have g2 : ([0, 0, 0, 0, 0] : List Int).getD 2 0 = 0 := rfl
  have g3 : ([0, 0, 0, 0, 0] : List Int).getD 3 0 = 0 := rfl
  have g4 : ([0, 0, 0, 0, 0] : List Int).getD 4 0 = 0 := rfl
  have t0 : ([0, 0, 0, 0, 0] : List Int).set 0 0 = [0, 0, 0, 0, 0] := rfl
  have t1 : ([0, 0, 0, 0, 0] : List Int).set 1 0 = [0, 0, 0, 0, 0] := rfl
  have t2 : ([0, 0, 0, 0, 0] : List Int).set 2 0 = [0, 0, 0, 0, 0] := rfl
  have t3 : ([0, 0, 0, 0, 0] : List Int).set 3 0 = [0, 0, 0, 0, 0] := rfl
  have t4 : ([0, 0, 0, 0, 0] : List Int).set 4 0 = [0, 0, 0, 0, 0] := rfl
  have a0 := SplitFilter_zero frame n hf
  have a1 := SplitFilter_zero (SplitFilter frame n 0 0).1 (n / 2) a0.1
  have a2 := SplitFilter_zero (SplitFilter frame n 0 0).2.1 (n / 2) a0.2.1
  have a3 := SplitFilter_zero (SplitFilter (SplitFilter frame n 0 0).2.1 (n / 2) 0 0).2.1
    (n / 2 / 2) a2.2.1
  have a4 := SplitFilter_zero
    (SplitFilter (SplitFilter (SplitFilter frame n 0 0).2.1 (n / 2) 0 0).2.1
      (n / 2 / 2) 0 0).2.1 (n / 2 / 2 / 2) a3.2.1
  have a5 := HighPassFilter_zero
    (SplitFilter (SplitFilter (SplitFilter (SplitFilter frame n 0 0).2.1 (n / 2) 0 0).2.1
      (n / 2 / 2) 0 0).2.1 (n / 2 / 2 / 2) 0 0).2.1 (n / 2 / 2 / 2 / 2) a4.2.1
  simp only [WebRtcVad_CalculateFeatures, hu, hl, hh, g0, g1, g2, g3, g4, t0, t1, t2, t3, t4,
    a0.2.2.1, a0.2.2.2, a1.2.2.1, a1.2.2.2, a2.2.2.1, a2.2.2.2, a3.2.2.1, a3.2.2.2,
    a4.2.2.1, a4.2.2.2, a5.2,
    LogOfEnergy_zero spl hE _ _ _ _ a1.1, LogOfEnergy_zero spl hE _ _ _ _ a1.2.1,
    LogOfEnergy_zero spl hE _ _ _ _ a2.1, LogOfEnergy_zero spl hE _ _ _ _ a3.1,
    LogOfEnergy_zero spl hE _ _ _ _ a4.1, LogOfEnergy_zero spl hE _ _ _ _ a5.1]
  have e : ({ s with
      upper_state := [0, 0, 0, 0, 0]
      lower_state := [0, 0, 0, 0, 0]
      hp_filter_state := [0, 0, 0, 0] } : VadInstT) = s := by
    cases s
    simp only at hu hl hh
    subst hu hl hh
    rfl
  rw [e]
  rfl

theorem hysteresis_quiet (s : VadInstT) (o1 o2 : Int) (h1 : s.over_hang = 0)
    (h2 : s.num_of_speech = 0) : GmmProbability_hysteresis s 0 o1 o2 = (s, 0) := by
  have e : ({ s with over_hang := 0, num_of_speech := 0 } : VadInstT) = s := by
    cases s
    simp only at h1 h2
    subst h1 h2
    rfl
  have hn : ¬ ((0 : Int) > 0) := by decide
  simp only [GmmProbability_hysteresis, h1, if_true, if_neg hn]
  rw [e]

theorem CalcVad8khz_silent (spl : Spl) (hE : EnergyZeroContract spl) (s : VadInstT)
    (frame : List Int) (n : Nat) (hf : AllZero frame) (hs : Quiet s) :
    WebRtcVad_CalcVad8khz spl s frame n = ({ s with vad := 0 }, 0) := by
  have h0 : (0 : Int) ≤ kMinEnergy := by decide
  simp only [WebRtcVad_CalcVad8khz, CalculateFeatures_zero spl hE s frame n hf hs,
    GmmProbability, raw_below_floor spl s kOffsetVector 0 n h0,
    hysteresis_quiet s _ _ hs.2.2.2.1 hs.2.2.2.2]

theorem Quiet_vad (s : VadInstT) (v : Int) (h : Quiet s) : Quiet { s with vad := v } := h

theorem run8_silent (spl : Spl) (hE : EnergyZeroContract spl) (len : Nat) (frame : List Int)
    (hf : AllZero frame) (n : Nat) (s : VadInstT) (hs : Quiet s) :
    run8 spl len s (List.replicate (n + 1) frame) =
      ({ s with vad := 0 }, List.replicate (n + 1) 0) := by
  induction n generalizing s with
  | zero =>
    show (_, [_]) = _
    simp only [CalcVad8khz_silent spl hE s frame len hf hs]
    rfl
  | succ k ih =>
    have h := ih { s with vad := 0 } (Quiet_vad s 0 hs)
    show ((run8 spl len (WebRtcVad_CalcVad8khz spl s frame len).1 (List.replicate (k + 1) frame)).1,
      (WebRtcVad_CalcVad8khz spl s frame len).2 ::
        (run8 spl len (WebRtcVad_CalcVad8khz spl s frame len).1 (List.replicate (k + 1) frame)).2) = _
    rw [CalcVad8khz_silent spl hE s frame len hf hs]
    simp only [h]
    rfl

theorem set_mode_default_initState : (WebRtcVad_set_mode_core initState 0).1 = initState := rfl

theorem set_mode_Quiet (m : Int) : Quiet (WebRtcVad_set_mode_core initState m).1 := by
  unfold WebRtcVad_set_mode_core
  split_ifs <;> exact ⟨rfl, rfl, rfl, rfl, rfl⟩

/-- C11 (silence scenario): with an energy primitive that returns 0 for an
all-zero block, start from the Init state with any mode selected and feed
all-zero frames of any length `len` to `WebRtcVad_CalcVad8khz`.  Before every
frame `j` of the run the feature extraction gives total energy 0 and the six
features 368, 368, 272, 176, 176, 176 and leaves the instance alone, the
frame returns 0, and the state after it is the starting state with
`vad = 0`; so a run of `n + 1` silent frames returns 0 on every frame.
Selecting mode 0 leaves the Init state as it is. -/
theorem silence_scenario (spl : Spl) (hE : EnergyZeroContract spl) (mode : Int) (len n : Nat) :
    (WebRtcVad_set_mode_core initState 0).1 = initState ∧
    run8 spl len (WebRtcVad_set_mode_core initState mode).1
        (List.replicate (n + 1) (List.replicate len 0)) =
      ({ (WebRtcVad_set_mode_core initState mode).1 with vad := 0 }, List.replicate (n + 1) 0) ∧
    ∀ j : Nat,
      WebRtcVad_CalculateFeatures spl
          (run8 spl len (WebRtcVad_set_mode_core initState mode).1
            (List.replicate j (List.replicate len 0))).1 (List.replicate len 0) len =
        ((run8 spl len (WebRtcVad_set_mode_core initState mode).1
            (List.replicate j (List.replicate len 0))).1, [368, 368, 272, 176, 176, 176], 0) ∧
      WebRtcVad_CalcVad8khz spl
          (run8 spl len (WebRtcVad_set_mode_core initState mode).1
            (List.replicate j (List.replicate len 0))).1 (List.replicate len 0) len =
        ({ (WebRtcVad_set_mode_core initState mode).1 with vad := 0 }, 0) := by
  have hq := set_mode_Quiet mode
  have hz := AllZero_replicate len
  refine ⟨set_mode_default_initState, run8_silent spl hE len _ hz n _ hq, ?_⟩
  intro j
  cases j with
  | zero =>
    exact ⟨CalculateFeatures_zero spl hE _ _ len hz hq, CalcVad8khz_silent spl hE _ _ len hz hq⟩
  | succ k =>
    rw [run8_silent spl hE len _ hz k _ hq]
    exact ⟨CalculateFeatures_zero spl hE _ _ len hz (Quiet_vad _ 0 hq),
      CalcVad8khz_silent spl hE _ _ len hz (Quiet_vad _ 0 hq)⟩

theorem silence_scenario_witness :
    EnergyZeroContract splRef ∧
    run8 splRef 160 (WebRtcVad_set_mode_core initState 0).1
        (List.replicate (19 + 1) (List.replicate 160 0)) =
      ({ (WebRtcVad_set_mode_core initState 0).1 with vad := 0 }, List.replicate (19 + 1) 0) :=
  ⟨splRef_EnergyZeroContract, (silence_scenario splRef splRef_EnergyZeroContract 0 160 19).2.1⟩

/-! ## The energy gate of the feature extraction -/

theorem bitLength_spec (fuel : Nat) : ∀ a : Nat, 0 < a → a < 2 ^ fuel →
    1 ≤ bitLength fuel a ∧ bitLength fuel a ≤ fuel ∧
    2 ^ (bitLength fuel a - 1) ≤ a ∧ a < 2 ^ bitLength fuel a := by
  induction fuel with
  | zero =>
    intro a h0 h1
    simp at h1
    omega
  | succ f ih =>
    intro a h0 h1
    have hne : a ≠ 0 := by omega
    simp only [bitLength, if_neg hne]
    by_cases h2 : a / 2 = 0
    · have ha : a = 1 := by omega
      subst ha
      cases f with
      | zero => simp [bitLength]
      | succ g => simp [bitLength]
    · have hlt : a / 2 < 2 ^ f := by
        rw [pow_succ] at h1
        omega
      obtain ⟨i1, i2, i3, i4⟩ := ih (a / 2) (by omega) hlt
      refine ⟨by omega, by omega, ?_, ?_⟩
      · have e : bitLength f (a / 2) + 1 - 1 = (bitLength f (a / 2) - 1) + 1 := by omega
        rw [e, pow_succ]
        omega
      · rw [pow_succ]
        omega

theorem norm_arith (a b r : Nat) (hb : 1 ≤ b) (h1 : 2 ^ (b - 1) ≤ a) (h2 : a < 2 ^ b) :
    (15 ≤ r + b → 16384 ≤ a * 2 ^ r) ∧
    (r + b < 15 → a * 2 ^ (15 - b) / 2 ^ (15 - b - r) = a * 2 ^ r ∧ a * 2 ^ r < 16384 ∧
      a * 2 ^ (15 - b) < 32768) := by
  constructor
  · intro h
    have e : (2 : Nat) ^ 14 ≤ 2 ^ (b - 1 + r) := Nat.pow_le_pow_right (by norm_num) (by omega)
    rw [pow_add] at e
    have := Nat.mul_le_mul_right (2 ^ r) h1
    omega
  · intro h
    have e1 : (2 : Nat) ^ (15 - b) = 2 ^ r * 2 ^ (15 - b - r) := by
      rw [← pow_add]
      congr 1
      omega
    have hp : 0 < (2 : Nat) ^ (15 - b - r) := by positivity
    refine ⟨?_, ?_, ?_⟩
    · rw [e1, ← mul_assoc]
      exact Nat.mul_div_cancel _ hp
    · have e : (2 : Nat) ^ (b + r) ≤ 2 ^ 14 := Nat.pow_le_pow_right (by norm_num) (by omega)
      rw [pow_add] at e
      have := Nat.mul_lt_mul_of_pos_right h2 (show 0 < 2 ^ r by positivity)
      omega
    · have e : (2 : Nat) ^ (b + (15 - b)) = 2 ^ 15 := by
        congr 1
        omega
      rw [pow_add] at e
      have := Nat.mul_lt_mul_of_pos_right h2 (show 0 < 2 ^ (15 - b) by positivity)
      omega

theorem LogOfEnergy_total (spl : Spl) (hc : EnergyContract spl) (v : List Int) (n : Nat)
    (off t : Int) (ht0 : -32768 ≤ t) (ht1 : t ≤ 32767) :
    0 ≤ BandEnergy spl v n ∧
    (LogOfEnergy spl v n off t).1 =
      if t ≤ kMinEnergy then
        (if BandEnergy spl v n < 16384 then t + BandEnergy spl v n else t + 11)
      else t := by
  obtain ⟨hs, hn⟩ := hc
  have hr := hs v n
  have ha0 : 0 ≤ wrapU32 (spl.WebRtcSpl_Energy v n).1 := by
    unfold wrapU32
    omega
  have ha1 : wrapU32 (spl.WebRtcSpl_Energy v n).1 < 4294967296 := by
    unfold wrapU32
    omega
  have hB0 : 0 ≤ BandEnergy spl v n := mul_nonneg ha0 (by positivity)
  refine ⟨hB0, ?_⟩
  by_cases hz : wrapU32 (spl.WebRtcSpl_Energy v n).1 = 0
  · have hn0 : ¬ (wrapU32 (spl.WebRtcSpl_Energy v n).1 ≠ 0) := fun h => h hz
    have hB : BandEnergy spl v n = 0 := by
      unfold BandEnergy
      rw [hz, zero_mul]
    have h16 : (0 : Int) < 16384 := by decide
    simp only [LogOfEnergy, if_neg hn0, hB, add_zero, if_pos h16, ite_self]
  · have hpos : 0 < wrapU32 (spl.WebRtcSpl_Energy v n).1 := by omega
    have hN := hn _ hpos ha1
    unfold BandEnergy
    simp only [LogOfEnergy, if_pos hz, hN]
    generalize wrapU32 (spl.WebRtcSpl_Energy v n).1 = a at *
    generalize (spl.WebRtcSpl_Energy v n).2 = r at *
    obtain ⟨a', rfl⟩ := Int.eq_ofNat_of_zero_le ha0
    obtain ⟨r', rfl⟩ := Int.eq_ofNat_of_zero_le hr
    simp only [Int.toNat_ofNat] 
    have ha' : 0 < a' := by omega
    have ha'' : a' < 2 ^ 32 := by
      norm_num
      omega
    obtain ⟨b1, b2, b3, b4⟩ := bitLength_spec 32 a' ha' ha''
    generalize bitLength 32 a' = b at *
    obtain ⟨c1, c2⟩ := norm_arith a' b r' b1 b3 b4
    by_cases ht : t ≤ kMinEnergy
    · simp only [if_pos ht]
      have ht' : t ≤ 10 := ht
      by_cases hq : 15 ≤ r' + b
      · have hge : (r' : Int) + (17 - (32 - (b : Int))) ≥ 0 := by omega
        have hbig : ¬ ((a' : Int) * 2 ^ r' < 16384) := by
          have := c1 hq
          have : ((16384 : Nat) : Int) ≤ ((a' * 2 ^ r' : Nat) : Int) := Int.ofNat_le.mpr this
          push_cast at this
          omega
        simp only [if_pos hge, if_neg hbig, kMinEnergy]
        unfold wrap16
        omega
      · obtain ⟨d1, d2, d3⟩ := c2 (by omega)
        have hlt : ¬ ((r' : Int) + (17 - (32 - (b : Int))) ≥ 0) := by omega
        have hnr : (17 : Int) - (32 - (b : Int)) < 0 := by omega
        have hsmall : (a' : Int) * 2 ^ r' < 16384 := by
          have : ((a' * 2 ^ r' : Nat) : Int) < ((16384 : Nat) : Int) := Int.ofNat_lt.mpr d2
          push_cast at this
          omega
        have e1 : (-(17 - (32 - (b : Int)))).toNat = 15 - b := by omega
        have e2 : (-((r' : Int) + (17 - (32 - (b : Int))))).toNat = 15 - b - r' := by omega
        have e3 : wrapU32 ((a' : Int) * 2 ^ (15 - b)) = ((a' * 2 ^ (15 - b) : Nat) : Int) := by
          unfold wrapU32
          push_cast
          have : ((a' * 2 ^ (15 - b) : Nat) : Int) < ((32768 : Nat) : Int) := Int.ofNat_lt.mpr d3
          push_cast at this
          have h0 : (0 : Int) ≤ (a' : Int) * 2 ^ (15 - b) := by positivity
          omega
        have e4 : shr ((a' * 2 ^ (15 - b) : Nat) : Int) (-((r' : Int) + (17 - (32 - (b : Int))))) =
            (a' : Int) * 2 ^ r' := by
          unfold shr
          rw [e2]
          have : ((a' * 2 ^ (15 - b) / 2 ^ (15 - b - r') : Nat) : Int) = ((a' * 2 ^ r' : Nat) : Int) :=
            congrArg _ d1
          push_cast at this
          push_cast
          exact this
        simp only [if_neg hlt, if_pos hnr, if_pos hsmall, e1, e3, e4]
        have h0 : (0 : Int) ≤ (a' : Int) * 2 ^ r' := by positivity
        unfold wrap16
        omega
    · simp only [if_neg ht]

theorem LogOfEnergy_gate_step (spl : Spl) (hc : EnergyContract spl) (v : List Int) (n : Nat)
    (off t S : Int) (h0 : 0 ≤ t) (h1 : t ≤ 16393) (hS : 0 ≤ S) (ha : t ≤ 10 → t = S)
    (hb : 10 < t → 10 < S) :
    0 ≤ (LogOfEnergy spl v n off t).1 ∧ (LogOfEnergy spl v n off t).1 ≤ 16393 ∧
    0 ≤ S + BandEnergy spl v n ∧
    ((LogOfEnergy spl v n off t).1 ≤ 10 → (LogOfEnergy spl v n off t).1 = S + BandEnergy spl v n) ∧
    (10 < (LogOfEnergy spl v n off t).1 → 10 < S + BandEnergy spl v n) := by
  obtain ⟨hE, ht⟩ := LogOfEnergy_total spl hc v n off t (by omega) (by omega)
  rw [ht]
  simp only [kMinEnergy]
  generalize BandEnergy spl v n = e at hE ⊢
  split_ifs <;> omega

theorem splRef_EnergyContract : EnergyContract splRef := by
  constructor
  · intro v n
    show 0 ≤ WebRtcSpl_GetScalingSquare v n n
    unfold WebRtcSpl_GetScalingSquare
    simp only []
    split_ifs <;> omega
  · intro a h0 h1
    show WebRtcSpl_NormU32 a = _
    have hne : a ≠ 0 := by omega
    simp only [WebRtcSpl_NormU32, if_neg hne]

/-- C12 (energy gate): with an energy primitive whose shift count is
non-negative and a normalization primitive that counts leading zero bits, the
total energy returned by `WebRtcVad_CalculateFeatures` exceeds `kMinEnergy` if
and only if the sum of the six sub-band energies exceeds 10, and it lies in
[0, 16393].  `LogOfEnergy` leaves a total above 10 alone and otherwise adds
the band energy when that is below 2^14 and 11 when it is not
(`totalEnergyStep`); a running total in [0, 16393] stays there and is not
changed by the 16-bit store. -/
theorem CalculateFeatures_energy_gate (spl : Spl) (hc : EnergyContract spl) (self : VadInstT)
    (data_in : List Int) (data_length : Nat) :
    (kMinEnergy < (WebRtcVad_CalculateFeatures spl self data_in data_length).2.2 ↔
      10 < ((CalculateFeatures_bands self data_in data_length).map
        (fun b => BandEnergy spl b.1 b.2)).sum) ∧
    0 ≤ (WebRtcVad_CalculateFeatures spl self data_in data_length).2.2 ∧
    (WebRtcVad_CalculateFeatures spl self data_in data_length).2.2 ≤ 16393 ∧
    (∀ (v : List Int) (n : Nat) (offset t : Int), -32768 ≤ t → t ≤ 32767 →
      (LogOfEnergy spl v n offset t).1 = totalEnergyStep t (BandEnergy spl v n)) ∧
    (∀ (v : List Int) (n : Nat) (offset t : Int), 0 ≤ t → t ≤ 16393 →
      0 ≤ (LogOfEnergy spl v n offset t).1 ∧ (LogOfEnergy spl v n offset t).1 ≤ 16393 ∧
      (LogOfEnergy spl v n offset t).1 = wrap16 (LogOfEnergy spl v n offset t).1) := by
  refine ⟨?_, ?_, ?_, ?_, ?_⟩
  rotate_left 3
  · intro v n off t h0 h1
    exact (LogOfEnergy_total spl hc v n off t h0 h1).2
  · intro v n off t h0 h1
    obtain ⟨hE, ht⟩ := LogOfEnergy_total spl hc v n off t (by omega) (by omega)
    rw [ht]
    simp only [kMinEnergy]
    generalize BandEnergy spl v n = e at hE ⊢
    unfold wrap16
    split_ifs <;> omega
  all_goals
    obtain ⟨b0, b1, b2, b3, b4, b5, hbands, htot⟩ :
        ∃ b0 b1 b2 b3 b4 b5 : List Int × Nat,
          CalculateFeatures_bands self data_in data_length = [b0, b1, b2, b3, b4, b5] ∧
          (WebRtcVad_CalculateFeatures spl self data_in data_length).2.2 =
            (LogOfEnergy spl b0.1 b0.2 (kOffsetVector.getD 0 0)
              (LogOfEnergy spl b1.1 b1.2 (kOffsetVector.getD 1 0)
                (LogOfEnergy spl b2.1 b2.2 (kOffsetVector.getD 2 0)
                  (LogOfEnergy spl b3.1 b3.2 (kOffsetVector.getD 3 0)
                    (LogOfEnergy spl b4.1 b4.2 (kOffsetVector.getD 4 0)
                      (LogOfEnergy spl b5.1 b5.2 (kOffsetVector.getD 5 0) 0).1).1).1).1).1).1 :=
      ⟨_, _, _, _, _, _, rfl, rfl⟩
    rw [htot]
    try rw [hbands]
    have i5 := LogOfEnergy_gate_step spl hc b5.1 b5.2 (kOffsetVector.getD 5 0) 0 0
      (le_refl _) (by norm_num) (le_refl _) (fun _ => rfl) (fun h => h)
    have i4 := LogOfEnergy_gate_step spl hc b4.1 b4.2 (kOffsetVector.getD 4 0) _ _
      i5.1 i5.2.1 i5.2.2.1 i5.2.2.2.1 i5.2.2.2.2
    have i3 := LogOfEnergy_gate_step spl hc b3.1 b3.2 (kOffsetVector.getD 3 0) _ _
      i4.1 i4.2.1 i4.2.2.1 i4.2.2.2.1 i4.2.2.2.2
    have i2 := LogOfEnergy_gate_step spl hc b2.1 b2.2 (kOffsetVector.getD 2 0) _ _
      i3.1 i3.2.1 i3.2.2.1 i3.2.2.2.1 i3.2.2.2.2
    have i1 := LogOfEnergy_gate_step spl hc b1.1 b1.2 (kOffsetVector.getD 1 0) _ _
      i2.1 i2.2.1 i2.2.2.1 i2.2.2.2.1 i2.2.2.2.2
    have i0 := LogOfEnergy_gate_step spl hc b0.1 b0.2 (kOffsetVector.getD 0 0) _ _
      i1.1 i1.2.1 i1.2.2.1 i1.2.2.2.1 i1.2.2.2.2
    first
      | omega
      | (simp only [List.map_cons, List.map_nil, List.sum_cons, List.sum_nil, kMinEnergy]
         omega)

theorem CalculateFeatures_energy_gate_witness :
    EnergyContract splRef ∧
    (WebRtcVad_CalculateFeatures splRef initState burstFrame 80).2.2 ≤ 16393 :=
  ⟨splRef_EnergyContract,
    (CalculateFeatures_energy_gate splRef splRef_EnergyContract initState burstFrame 80).2.2.1⟩

/-! ## Lifting invariants of the adaptive model to reachable states -/

theorem foldl_invariant_mem {α β : Type} (P : α → Prop) (f : α → β → α) (l : List β)
    (h : ∀ a b, b ∈ l → P a → P (f a b)) : ∀ (a : α), P a → P (l.foldl f a) := by
  induction l with
  | nil => intro a ha; exact ha
  | cons b l ih =>
    intro a ha
    exact ih (fun a' b' hb' => h a' b' (List.mem_cons_of_mem _ hb')) (f a b)
      (h a b (List.mem_cons_self _ _) ha)

theorem getD_set_cases (l : List Int) (j i : Nat) (v d : Int) :
    (l.set j v).getD i d = l.getD i d ∨ ((l.set j v).getD i d = v ∧ i = j ∧ j < l.length) := by
  rw [List.getD_eq_getElem?_getD, List.getD_eq_getElem?_getD, List.getElem?_set]
  by_cases h : j = i
  · subst h
    by_cases hl : j < l.length
    · right
      simp [hl]
    · left
      rw [if_pos rfl, if_neg hl, List.getElem?_eq_none (by omega)]
  · left
    simp [h]

theorem hysteresis_modelState (s : VadInstT) (v o1 o2 : Int) :
    modelState (GmmProbability_hysteresis s v o1 o2).1 = modelState s := by
  unfold GmmProbability_hysteresis
  simp only []
  split_ifs <;> rfl

theorem CalculateFeatures_modelState (spl : Spl) (self : VadInstT) (data_in : List Int)
    (data_length : Nat) :
    modelState (WebRtcVad_CalculateFeatures spl self data_in data_length).1 =
      modelState self := by
  simp only [WebRtcVad_CalculateFeatures, modelState]

theorem set_mode_modelState (s : VadInstT) (mode : Int) :
    modelState (WebRtcVad_set_mode_core s mode).1 = modelState s := by
  unfold WebRtcVad_set_mode_core
  split_ifs <;> rfl

theorem raw_lift (spl : Spl) (P : VadInstT → Prop)
    (hcongr : ∀ a b : VadInstT, modelState a = modelState b → P a → P b)
    (hstep : ∀ (features : List Int) (sc : GmmScratch) (vadflag : Int) (st : VadInstT × Int)
      (channel : Nat), channel < kNumChannels → P st.1 →
      P (GmmProbability_update spl features sc vadflag st channel).1)
    (self : VadInstT) (features : List Int) (total_power : Int) (n : Nat) (h : P self) :
    P (GmmProbability_raw spl self features total_power n).1 := by
  by_cases hp : total_power > kMinEnergy
  · simp only [GmmProbability_raw, if_pos hp]
    have hf := foldl_invariant_mem (fun st : VadInstT × Int => P st.1)
      (GmmProbability_update spl features
        ((List.range kNumChannels).foldl (GmmProbability_test spl self features
          (GmmProbability_thresholds self n).2.2.1) GmmScratch.init)
        (if ((List.range kNumChannels).foldl (GmmProbability_test spl self features
          (GmmProbability_thresholds self n).2.2.1) GmmScratch.init).sum_log_likelihood_ratios
            ≥ (GmmProbability_thresholds self n).2.2.2 then 1
          else ((List.range kNumChannels).foldl (GmmProbability_test spl self features
          (GmmProbability_thresholds self n).2.2.1) GmmScratch.init).vadflag))
      (List.range kNumChannels)
      (fun a b hb ha => hstep _ _ _ a b (List.mem_range.mp hb) ha) (self, 12800) h
    exact hcongr _ _ (by rfl) hf
  · simp only [GmmProbability_raw, if_neg hp]
    exact h

theorem CalcVad8khz_lift (spl : Spl) (P : VadInstT → Prop)
    (hcongr : ∀ a b : VadInstT, modelState a = modelState b → P a → P b)
    (hstep : ∀ (features : List Int) (sc : GmmScratch) (vadflag : Int) (st : VadInstT × Int)
      (channel : Nat), channel < kNumChannels → P st.1 →
      P (GmmProbability_update spl features sc vadflag st channel).1)
    (inst : VadInstT) (frame : List Int) (n : Nat) (h : P inst) :
    P (WebRtcVad_CalcVad8khz spl inst frame n).1 := by
  have h1 : P (WebRtcVad_CalculateFeatures spl inst frame n).1 :=
    hcongr _ _ (CalculateFeatures_modelState spl inst frame n).symm h
  have h2 := raw_lift spl P hcongr hstep _
    (WebRtcVad_CalculateFeatures spl inst frame n).2.1
    (WebRtcVad_CalculateFeatures spl inst frame n).2.2 n h1
  have h3 : P (GmmProbability spl (WebRtcVad_CalculateFeatures spl inst frame n).1
      (WebRtcVad_CalculateFeatures spl inst frame n).2.1
      (WebRtcVad_CalculateFeatures spl inst frame n).2.2 n).1 :=
    hcongr _ _ (hysteresis_modelState _ _ _ _).symm h2
  exact hcongr _ _ (by rfl) h3

theorem Reachable_lift (spl : Spl) (P : VadInstT → Prop)
    (hcongr : ∀ a b : VadInstT, modelState a = modelState b → P a → P b)
    (hinit : P initState)
    (hstep : ∀ (features : List Int) (sc : GmmScratch) (vadflag : Int) (st : VadInstT × Int)
      (channel : Nat), channel < kNumChannels → P st.1 →
      P (GmmProbability_update spl features sc vadflag st channel).1)
    (s : VadInstT) (h : Reachable spl s) : P s := by
  induction h with
  | init s s' hi =>
    rw [InitCore_eq] at hi
    have : s' = initState := by
      have := congrArg Prod.fst hi
      simpa using this.symm
    rw [this]
    exact hinit
  | set_mode s mode _ ih => exact hcongr _ _ (set_mode_modelState s mode).symm ih
  | calc8 s frame n _ ih => exact CalcVad8khz_lift spl P hcongr hstep s frame n ih
  | calc16 s frame n _ ih =>
    exact CalcVad8khz_lift spl P hcongr hstep _ _ _ (hcongr _ _ (by rfl) ih)
  | calc32 s frame n _ ih =>
    exact CalcVad8khz_lift spl P hcongr hstep _ _ _ (hcongr _ _ (by rfl) ih)
  | calc48 s frame n _ ih =>
    exact CalcVad8khz_lift spl P hcongr hstep _ _ _ (hcongr _ _ (by rfl) ih)

/-! ## The floor on the standard deviations -/

theorem FindMinimum_stdState (s : VadInstT) (feature_value : Int) (channel : Nat) :
    stdState (WebRtcVad_FindMinimum s feature_value channel).1 = stdState s := by
  simp only [WebRtcVad_FindMinimum, stdState]

theorem stdState_noise_means (s : VadInstT) (x : List Int) :
    stdState { s with noise_means := x } = stdState s := rfl

theorem separate_stdState (self : VadInstT) (channel : Nat) :
    stdState (GmmProbability_separate self channel).1 = stdState self := by
  unfold GmmProbability_separate
  simp only []
  split <;> rfl

theorem limit_stdState (self : VadInstT) (channel : Nat) (n s : Int) :
    stdState (GmmProbability_limit self channel n s) = stdState self := by
  unfold GmmProbability_limit
  simp only []
  split_ifs <;> rfl

theorem floor_ge (x : Int) : kMinStd ≤ (if x < kMinStd then kMinStd else x) := by
  split_ifs with h
  · exact le_refl _
  · exact not_lt.mp h

theorem updateGaussian_stds (spl : Spl) (features : List Int) (sc : GmmScratch)
    (vadflag : Int) (channel : Nat) (feature_minimum tmp1_s16 maxspe : Int) (self : VadInstT)
    (k : Nat) :
    ∃ v : Int, kMinStd ≤ v ∧
      (stdState (GmmProbability_updateGaussian spl features sc vadflag channel
          feature_minimum tmp1_s16 maxspe self k) =
        (self.noise_stds.set (channel + k * kNumChannels) v, self.speech_stds) ∨
       stdState (GmmProbability_updateGaussian spl features sc vadflag channel
          feature_minimum tmp1_s16 maxspe self k) =
        (self.noise_stds, self.speech_stds.set (channel + k * kNumChannels) v)) := by
  by_cases hv : vadflag ≠ 0
  · simp only [GmmProbability_updateGaussian, if_pos hv, stdState]
    exact ⟨_, floor_ge _, Or.inr rfl⟩
  · simp only [GmmProbability_updateGaussian, if_neg hv, stdState]
    exact ⟨_, floor_ge _, Or.inl rfl⟩

theorem StdInv_congr (a b : VadInstT) (h : stdState a = stdState b) (ha : StdInv a) :
    StdInv b := by
  unfold StdInv at ha ⊢
  rw [← h]
  exact ha

theorem updateGaussian_StdInv (spl : Spl) (features : List Int) (sc : GmmScratch)
    (vadflag : Int) (channel : Nat) (feature_minimum tmp1_s16 maxspe : Int) (self : VadInstT)
    (k : Nat) (h : StdInv self) :
    StdInv (GmmProbability_updateGaussian spl features sc vadflag channel
      feature_minimum tmp1_s16 maxspe self k) := by
  obtain ⟨v, hv, hr⟩ := updateGaussian_stds spl features sc vadflag channel feature_minimum
    tmp1_s16 maxspe self k
  have hv' : (384 : Int) ≤ v := hv
  intro i hi
  obtain ⟨h1, h2, h3⟩ := h i hi
  simp only [kMinStd, stdState] at h2 h3 h1 ⊢
  rcases hr with hr | hr
  · simp only [stdState, Prod.mk.injEq] at hr
    rw [hr.1, hr.2]
    rcases getD_set_cases self.noise_stds (channel + k * kNumChannels) i v 0 with e | ⟨e, -, -⟩
    · rw [e]
      exact ⟨h1, h2, h3⟩
    · rw [e]
      exact ⟨by omega, fun _ => hv', h3⟩
  · simp only [stdState, Prod.mk.injEq] at hr
    rw [hr.1, hr.2]
    rcases getD_set_cases self.speech_stds (channel + k * kNumChannels) i v 0 with e | ⟨e, -, -⟩
    · rw [e]
      exact ⟨h1, h2, h3⟩
    · rw [e]
      exact ⟨h1, h2, hv'⟩

theorem update_StdInv (spl : Spl) (features : List Int) (sc : GmmScratch)
    (vadflag : Int) (st : VadInstT × Int) (channel : Nat) (h : StdInv st.1) :
    StdInv (GmmProbability_update spl features sc vadflag st channel).1 := by
  have hfold : ∀ (s0 : VadInstT) (fm t m : Int), StdInv s0 →
      StdFloor (stdState ((List.range kNumGaussians).foldl
        (GmmProbability_updateGaussian spl features sc vadflag channel fm t m) s0)) := by
    intro s0 fm t m h0
    exact foldl_invariant StdInv _
      (fun a b ha => updateGaussian_StdInv spl features sc vadflag channel fm t m a b ha) _ _ h0
  unfold GmmProbability_update
  simp only [StdInv, limit_stdState, separate_stdState]
  apply hfold
  simp only [StdInv, stdState_noise_means, FindMinimum_stdState]
  exact h

theorem initState_StdInv : StdInv initState := by
  intro i hi
  have hi' : i < 12 := hi
  interval_cases i <;> exact ⟨by decide, by decide, by decide⟩

/-- C18, amended (standard-deviation floor): in every state reachable from a
successful Init, every entry of `noise_stds` is at least 378 and, except for
`noise_stds[0]`, at least `kMinStd` = 384, and every entry of `speech_stds` is
at least `kMinStd`; and the model update of one Gaussian writes exactly one
standard deviation, a value of at least `kMinStd`. -/
theorem std_floor_invariant (spl : Spl) (s : VadInstT) (h : Reachable spl s) :
    (∀ i : Nat, i < kTableSize →
      378 ≤ s.noise_stds.getD i 0 ∧ (i ≠ 0 → kMinStd ≤ s.noise_stds.getD i 0) ∧
      kMinStd ≤ s.speech_stds.getD i 0) ∧
    (∀ (features : List Int) (sc : GmmScratch) (vadflag : Int) (channel : Nat)
      (feature_minimum tmp1_s16 maxspe : Int) (k : Nat),
      ∃ v : Int, kMinStd ≤ v ∧
        (stdState (GmmProbability_updateGaussian spl features sc vadflag channel
            feature_minimum tmp1_s16 maxspe s k) =
          (s.noise_stds.set (channel + k * kNumChannels) v, s.speech_stds) ∨
         stdState (GmmProbability_updateGaussian spl features sc vadflag channel
            feature_minimum tmp1_s16 maxspe s k) =
          (s.noise_stds, s.speech_stds.set (channel + k * kNumChannels) v))) :=
  ⟨Reachable_lift spl StdInv (fun a b hab ha => StdInv_congr a b (by
      simp only [modelState, Prod.mk.injEq] at hab
      simp only [stdState, hab.2.2.1, hab.2.2.2.1]) ha)
    initState_StdInv
    (fun features sc vadflag st channel _ hst => update_StdInv spl features sc vadflag st channel hst)
    s h,
   fun features sc vadflag channel fm t m k =>
    updateGaussian_stds spl features sc vadflag channel fm t m s k⟩

theorem std_floor_invariant_witness :
    Reachable splRef initState ∧ 378 ≤ initState.noise_stds.getD 0 0 :=
  ⟨Reachable.init zeroInst initState rfl,
    ((std_floor_invariant splRef initState (Reachable.init zeroInst initState rfl)).1 0
      (by decide)).1⟩

/-- C18, counterexample: the state that Init leaves is reachable and its
`noise_stds[0]` is 378 (`kNoiseDataStds[0]`), below `kMinStd` = 384. -/
theorem std_floor_invariant_counterexample :
    Reachable splRef initState ∧ initState.noise_stds.getD 0 0 = 378 ∧
    ¬ (kMinStd ≤ initState.noise_stds.getD 0 0) :=
  ⟨Reachable.init zeroInst initState rfl, by decide, by decide⟩

/-! ## The minimum tracker: window operations -/

theorem getD_set (l : List Int) (j i : Nat) (v : Int) :
    (l.set j v).getD i 0 = if i = j ∧ j < l.length then v else l.getD i 0 := by
  rw [List.getD_eq_getElem?_getD, List.getD_eq_getElem?_getD, List.getElem?_set]
  by_cases h : j = i
  · subst h
    by_cases hl : j < l.length
    · simp [hl]
    · simp only [hl, and_false, if_false, if_true]
      rw [List.getElem?_eq_none (by omega)]
  · have h' : ¬ (i = j ∧ j < l.length) := fun hh => h hh.1.symm
    simp only [h, h', if_false]

theorem shiftDown_fold_fst (o : Nat) (l : List Nat) : ∀ st : List Int × List Int,
    (l.foldl (FindMinimum_shiftDown o) st).1 =
      l.foldl (fun (a : List Int) j => a.set (o + j) (a.getD (o + j + 1) 0)) st.1 := by
  induction l with
  | nil => intro st; rfl
  | cons b l ih => intro st; exact ih _

theorem shiftDown_fold_snd (o : Nat) (l : List Nat) : ∀ st : List Int × List Int,
    (l.foldl (FindMinimum_shiftDown o) st).2 =
      l.foldl (fun (a : List Int) j => a.set (o + j) (a.getD (o + j + 1) 0)) st.2 := by
  induction l with
  | nil => intro st; rfl
  | cons b l ih => intro st; exact ih _

theorem shiftUp_fold_fst (o : Nat) (l : List Nat) : ∀ st : List Int × List Int,
    (l.foldl (FindMinimum_shiftUp o) st).1 =
      l.foldl (fun (a : List Int) i => a.set (o + i) (a.getD (o + i - 1) 0)) st.1 := by
  induction l with
  | nil => intro st; rfl
  | cons b l ih => intro st; exact ih _

theorem shiftUp_fold_snd (o : Nat) (l : List Nat) : ∀ st : List Int × List Int,
    (l.foldl (FindMinimum_shiftUp o) st).2 =
      l.foldl (fun (a : List Int) i => a.set (o + i) (a.getD (o + i - 1) 0)) st.2 := by
  induction l with
  | nil => intro st; rfl
  | cons b l ih => intro st; exact ih _

theorem shiftDown_spec (o i : Nat) (a : List Int) (n : Nat) :
    ((List.range' i n).foldl (fun (a : List Int) j => a.set (o + j) (a.getD (o + j + 1) 0))
        a).length = a.length ∧
    ∀ t : Nat, ((List.range' i n).foldl
        (fun (a : List Int) j => a.set (o + j) (a.getD (o + j + 1) 0)) a).getD t 0 =
      if o + i ≤ t ∧ t < o + i + n ∧ t < a.length then a.getD (t + 1) 0 else a.getD t 0 := by
  induction n with
  | zero =>
    refine ⟨rfl, fun t => ?_⟩
    have hn : ¬ (o + i ≤ t ∧ t < o + i + 0 ∧ t < a.length) := by omega
    rw [if_neg hn]
    rfl
  | succ n ih =>
    obtain ⟨hl, hg⟩ := ih
    rw [List.range'_concat, List.foldl_append]
    simp only [List.foldl_cons, List.foldl_nil, List.length_set, one_mul]
    refine ⟨hl, fun t => ?_⟩
    rw [getD_set, hl, hg, hg]
    by_cases h1 : t = o + (i + n) ∧ o + (i + n) < a.length
    · obtain ⟨h1a, h1b⟩ := h1
      subst h1a
      have c1 : ¬ (o + i ≤ o + (i + n) + 1 ∧ o + (i + n) + 1 < o + i + n ∧
          o + (i + n) + 1 < a.length) := by omega
      have c2 : o + i ≤ o + (i + n) ∧ o + (i + n) < o + i + (n + 1) ∧ o + (i + n) < a.length := by
        omega
      have c3 : o + (i + n) = o + (i + n) ∧ o + (i + n) < a.length := ⟨rfl, h1b⟩
      rw [if_pos c3, if_neg c1, if_pos c2]
    · rw [if_neg h1]
      by_cases h2 : o + i ≤ t ∧ t < o + i + n ∧ t < a.length
      · have c2 : o + i ≤ t ∧ t < o + i + (n + 1) ∧ t < a.length := by omega
        rw [if_pos h2, if_pos c2]
      · have c2 : ¬ (o + i ≤ t ∧ t < o + i + (n + 1) ∧ t < a.length) := by omega
        rw [if_neg h2, if_neg c2]

theorem shiftUp_spec (o : Nat) (a : List Int) (n : Nat) (hn : n ≤ 15) :
    (((List.range n).map (fun t => 15 - t)).foldl
        (fun (a : List Int) i => a.set (o + i) (a.getD (o + i - 1) 0)) a).length = a.length ∧
    ∀ t : Nat, (((List.range n).map (fun t => 15 - t)).foldl
        (fun (a : List Int) i => a.set (o + i) (a.getD (o + i - 1) 0)) a).getD t 0 =
      if o + 15 < t + n ∧ t ≤ o + 15 ∧ t < a.length then a.getD (t - 1) 0 else a.getD t 0 := by
  induction n with
  | zero =>
    refine ⟨rfl, fun t => ?_⟩
    have hn : ¬ (o + 15 < t + 0 ∧ t ≤ o + 15 ∧ t < a.length) := by omega
    rw [if_neg hn]
    rfl
  | succ n ih =>
    obtain ⟨hl, hg⟩ := ih (by omega)
    rw [List.range_succ, List.map_append, List.foldl_append]
    simp only [List.map_cons, List.map_nil, List.foldl_cons, List.foldl_nil, List.length_set]
    refine ⟨hl, fun t => ?_⟩
    rw [getD_set, hl, hg, hg]
    by_cases h1 : t = o + (15 - n) ∧ o + (15 - n) < a.length
    · obtain ⟨h1a, h1b⟩ := h1
      subst h1a
      have c1 : ¬ (o + 15 < o + (15 - n) - 1 + n ∧ o + (15 - n) - 1 ≤ o + 15 ∧
          o + (15 - n) - 1 < a.length) := by omega
      have c2 : o + 15 < o + (15 - n) + (n + 1) ∧ o + (15 - n) ≤ o + 15 ∧
          o + (15 - n) < a.length := by omega
      have c3 : o + (15 - n) = o + (15 - n) ∧ o + (15 - n) < a.length := ⟨rfl, h1b⟩
      rw [if_pos c3, if_neg c1, if_pos c2]
    · rw [if_neg h1]
      by_cases h2 : o + 15 < t + n ∧ t ≤ o + 15 ∧ t < a.length
      · have c2 : o + 15 < t + (n + 1) ∧ t ≤ o + 15 ∧ t < a.length := by omega
        rw [if_pos h2, if_pos c2]
      · have c2 : ¬ (o + 15 < t + (n + 1) ∧ t ≤ o + 15 ∧ t < a.length) := by omega
        rw [if_neg h2, if_neg c2]

/-! ## The minimum tracker: ordering and age invariants -/

theorem WinSorted_closed : WindowClosed WinSorted := by
  refine ⟨?_, ?_, ?_, ?_⟩
  · intro o i A V A' _ _ _ h
    exact h
  · intro o i A V A' V' hi hV _ h
    obtain ⟨hs, hb⟩ := h
    refine ⟨?_, ?_⟩
    · intro j hj
      rw [hV (o + j), hV (o + (j + 1))]
      have n1 : ¬ (o + j = o + 15) := by omega
      rw [if_neg n1]
      by_cases e : j + 1 = 15
      · have e1 : o + (j + 1) = o + 15 := by omega
        rw [if_pos e1]
        have b0 := hb j (by omega)
        have b1 := hb (j + 1) (by omega)
        split_ifs
        · exact b1
        · exact b0
      · have e1 : ¬ (o + (j + 1) = o + 15) := by omega
        rw [if_neg e1]
        have s0 := hs j (by omega)
        have s1 := hs (j + 1) (by omega)
        split_ifs with c1 c2 c2
        · exact s1
        · omega
        · exact le_trans s0 s1
        · exact s0
    · intro j hj
      rw [hV (o + j)]
      split_ifs
      · exact le_refl _
      · exact hb (j + 1) (by omega)
      · exact hb j hj
  · intro o p fv A V A' V' hp hlt hge hV _ h
    obtain ⟨hs, hb⟩ := h
    have hbp := hb p hp
    refine ⟨?_, ?_⟩
    · intro j hj
      rw [hV (o + j), hV (o + (j + 1))]
      by_cases c1 : j = p
      · subst c1
        have e1 : ¬ (o + (j + 1) = o + j) := by omega
        have e2 : o + j < o + (j + 1) ∧ o + (j + 1) ≤ o + 15 := by omega
        rw [if_pos rfl, if_neg e1, if_pos e2]
        exact le_of_lt hlt
      · have e0 : ¬ (o + j = o + p) := by omega
        rw [if_neg e0]
        by_cases c2 : j + 1 = p
        · have e1 : o + (j + 1) = o + p := by omega
          have e2 : ¬ (o + p < o + j ∧ o + j ≤ o + 15) := by omega
          rw [if_pos e1, if_neg e2]
          exact hge j c2
        · have e1 : ¬ (o + (j + 1) = o + p) := by omega
          rw [if_neg e1]
          by_cases c3 : p < j
          · have e2 : o + p < o + j ∧ o + j ≤ o + 15 := by omega
            have e3 : o + p < o + (j + 1) ∧ o + (j + 1) ≤ o + 15 := by omega
            rw [if_pos e2, if_pos e3]
            have := hs (j - 1) (by omega)
            have e4 : o + (j - 1) = o + j - 1 := by omega
            have e5 : o + (j - 1 + 1) = o + (j + 1) - 1 := by omega
            rw [e4, e5] at this
            exact this
          · have e2 : ¬ (o + p < o + j ∧ o + j ≤ o + 15) := by omega
            have e3 : ¬ (o + p < o + (j + 1) ∧ o + (j + 1) ≤ o + 15) := by omega
            rw [if_neg e2, if_neg e3]
            exact hs j hj
    · intro j hj
      rw [hV (o + j)]
      split_ifs with c1 c2
      · omega
      · have := hb (j - 1) (by omega)
        have e4 : o + (j - 1) = o + j - 1 := by omega
        rw [e4] at this
        exact this
      · exact hb j hj
  · intro o A V A' V' hloc h
    obtain ⟨hs, hb⟩ := h
    refine ⟨?_, ?_⟩
    · intro j hj
      rw [(hloc (o + j) (by omega) (by omega)).2, (hloc (o + (j + 1)) (by omega) (by omega)).2]
      exact hs j hj
    · intro j hj
      rw [(hloc (o + j) (by omega) (by omega)).2]
      exact hb j hj

theorem WinAge_closed : WindowClosed WinAge := by
  refine ⟨?_, ?_, ?_, ?_⟩
  · intro o i A V A' _ hne hA ha
    intro j hj
    refine ⟨(ha j hj).1, fun hv => ?_⟩
    have := (ha j hj).2 hv
    rw [hA (o + j)]
    by_cases e : o + j = o + i
    · rw [if_pos e]
      have ej : j = i := by omega
      subst ej
      unfold wrap16
      omega
    · rw [if_neg e]
      exact this
  · intro o i A V A' V' hi hV hA ha
    intro j hj
    rw [hV (o + j), hA (o + j)]
    split_ifs with c1 c2
    · exact ⟨le_refl _, fun hlt => absurd hlt (lt_irrefl _)⟩
    · exact ha (j + 1) (by omega)
    · exact ha j hj
  · intro o p fv A V A' V' hp hlt hge hV hA ha
    have hbp := (ha p hp).1
    intro j hj
    rw [hV (o + j), hA (o + j)]
    split_ifs with c1 c2
    · exact ⟨by omega, fun _ => ⟨le_refl _, by norm_num⟩⟩
    · have := ha (j - 1) (by omega)
      have e4 : o + (j - 1) = o + j - 1 := by omega
      rw [e4] at this
      exact this
    · exact ha j hj
  · intro o A V A' V' hloc ha
    intro j hj
    rw [(hloc (o + j) (by omega) (by omega)).2, (hloc (o + j) (by omega) (by omega)).1]
    exact ha j hj

theorem ageStep_evict_getD (o i : Nat) (hi : i < 16) (a : List Int) (v : Int)
    (hl : o + 16 ≤ a.length) (t : Nat) :
    (((List.range' i (16 - i)).foldl
        (fun (a : List Int) j => a.set (o + j) (a.getD (o + j + 1) 0)) a).set (o + 15) v).getD t 0 =
      if t = o + 15 then v else if o + i ≤ t ∧ t < o + 16 then a.getD (t + 1) 0 else a.getD t 0 := by
  obtain ⟨hlen, hg⟩ := shiftDown_spec o i a (16 - i)
  rw [getD_set, hlen, hg]
  by_cases c1 : t = o + 15
  · have c1' : t = o + 15 ∧ o + 15 < a.length := ⟨c1, by omega⟩
    rw [if_pos c1', if_pos c1]
  · have c1' : ¬ (t = o + 15 ∧ o + 15 < a.length) := fun h => c1 h.1
    rw [if_neg c1', if_neg c1]
    by_cases c2 : o + i ≤ t ∧ t < o + 16
    · have c2' : o + i ≤ t ∧ t < o + i + (16 - i) ∧ t < a.length := by omega
      rw [if_pos c2, if_pos c2']
    · have c2' : ¬ (o + i ≤ t ∧ t < o + i + (16 - i) ∧ t < a.length) := by omega
      rw [if_neg c2, if_neg c2']

theorem ageStep_spec (Q : Nat → (Nat → Int) → (Nat → Int) → Prop) (hQ : WindowClosed Q)
    (o i : Nat) (hi : i < 16) (st : List Int × List Int)
    (h1 : o + 16 ≤ st.1.length) (h2 : o + 16 ≤ st.2.length) (h : TrackerWin Q o st) :
    TrackerWin Q o (FindMinimum_ageStep o st i) ∧
    Untouched o st (FindMinimum_ageStep o st i) := by
  by_cases hne : st.1.getD (o + i) 0 ≠ 100
  · simp only [FindMinimum_ageStep, if_pos hne]
    constructor
    · refine hQ.1 o i _ _ _ hi hne ?_ h
      intro t
      show (st.1.set (o + i) _).getD t 0 = _
      rw [getD_set]
      by_cases c : t = o + i
      · subst c
        have c' : o + i = o + i ∧ o + i < st.1.length := ⟨rfl, by omega⟩
        rw [if_pos c', if_pos rfl]
      · have c' : ¬ (t = o + i ∧ o + i < st.1.length) := fun hh => c hh.1
        rw [if_neg c', if_neg c]
    · refine ⟨List.length_set _ _ _, rfl, ?_⟩
      intro t ht
      refine ⟨?_, rfl⟩
      show (st.1.set (o + i) _).getD t 0 = _
      rw [getD_set]
      have c' : ¬ (t = o + i ∧ o + i < st.1.length) := by omega
      rw [if_neg c']
  · simp only [FindMinimum_ageStep, if_neg hne, shiftDown_fold_fst, shiftDown_fold_snd]
    constructor
    · exact hQ.2.1 o i _ _ _ _ hi
        (fun t => ageStep_evict_getD o i hi st.2 10000 h2 t)
        (fun t => ageStep_evict_getD o i hi st.1 101 h1 t) h
    · refine ⟨?_, ?_, ?_⟩
      · rw [List.length_set]
        exact (shiftDown_spec o i st.1 (16 - i)).1
      · rw [List.length_set]
        exact (shiftDown_spec o i st.2 (16 - i)).1
      · intro t ht
        have e1 := ageStep_evict_getD o i hi st.1 101 h1 t
        have e2 := ageStep_evict_getD o i hi st.2 10000 h2 t
        have c1 : ¬ (t = o + 15) := by omega
        have c2 : ¬ (o + i ≤ t ∧ t < o + 16) := by omega
        rw [if_neg c1, if_neg c2] at e1 e2
        exact ⟨e1, e2⟩

theorem Untouched_trans (o : Nat) (a b c : List Int × List Int) (h1 : Untouched o a b)
    (h2 : Untouched o b c) : Untouched o a c := by
  obtain ⟨a1, a2, a3⟩ := h1
  obtain ⟨b1, b2, b3⟩ := h2
  refine ⟨b1.trans a1, b2.trans a2, fun t ht => ?_⟩
  exact ⟨(b3 t ht).1.trans (a3 t ht).1, (b3 t ht).2.trans (a3 t ht).2⟩

theorem ageLoop_spec (Q : Nat → (Nat → Int) → (Nat → Int) → Prop) (hQ : WindowClosed Q)
    (o : Nat) (st : List Int × List Int)
    (h1 : o + 16 ≤ st.1.length) (h2 : o + 16 ≤ st.2.length) (h : TrackerWin Q o st) :
    TrackerWin Q o ((List.range 16).foldl (FindMinimum_ageStep o) st) ∧
    Untouched o st ((List.range 16).foldl (FindMinimum_ageStep o) st) := by
  apply foldl_invariant_mem (fun r => TrackerWin Q o r ∧ Untouched o st r)
  · intro a b hb ha
    obtain ⟨ha1, ha2⟩ := ha
    have hs := ageStep_spec Q hQ o b (List.mem_range.mp hb) a
      (by rw [ha2.1]; exact h1) (by rw [ha2.2.1]; exact h2) ha1
    exact ⟨hs.1, Untouched_trans o st a _ ha2 hs.2⟩
  · exact ⟨h, rfl, rfl, fun t _ => ⟨rfl, rfl⟩⟩

theorem position_spec (fv : Int) (sv : Nat → Int) :
    FindMinimum_position fv sv = -1 ∨
    ∃ n : Nat, n < 16 ∧ FindMinimum_position fv sv = (n : Int) ∧ fv < sv n ∧
      ∀ m, m + 1 = n → sv m ≤ fv := by
  unfold FindMinimum_position
  split_ifs with h7 h3 h1 h0 h2 h5 h4 h6 h15 h11 h9 h8 h10 h13 h12 h14
  · exact Or.inr ⟨0, by norm_num, rfl, h0, fun m hm => by omega⟩
  · exact Or.inr ⟨1, by norm_num, rfl, h1, fun m hm => by
      have : m = 0 := by omega
      subst this; exact not_lt.mp h0⟩
  · exact Or.inr ⟨2, by norm_num, rfl, h2, fun m hm => by
      have : m = 1 := by omega
      subst this; exact not_lt.mp h1⟩
  · exact Or.inr ⟨3, by norm_num, rfl, h3, fun m hm => by
      have : m = 2 := by omega
      subst this; exact not_lt.mp h2⟩
  · exact Or.inr ⟨4, by norm_num, rfl, h4, fun m hm => by
      have : m = 3 := by omega
      subst this; exact not_lt.mp h3⟩
  · exact Or.inr ⟨5, by norm_num, rfl, h5, fun m hm => by
      have : m = 4 := by omega
      subst this; exact not_lt.mp h4⟩
  · exact Or.inr ⟨6, by norm_num, rfl, h6, fun m hm => by
      have : m = 5 := by omega
      subst this; exact not_lt.mp h5⟩
  · exact Or.inr ⟨7, by norm_num, rfl, h7, fun m hm => by
      have : m = 6 := by omega
      subst this; exact not_lt.mp h6⟩
  · exact Or.inr ⟨8, by norm_num, rfl, h8, fun m hm => by
      have : m = 7 := by omega
      subst this; exact not_lt.mp h7⟩
  · exact Or.inr ⟨9, by norm_num, rfl, h9, fun m hm => by
      have : m = 8 := by omega
      subst this; exact not_lt.mp h8⟩
  · exact Or.inr ⟨10, by norm_num, rfl, h10, fun m hm => by
      have : m = 9 := by omega
      subst this; exact not_lt.mp h9⟩
  · exact Or.inr ⟨11, by norm_num, rfl, h11, fun m hm => by
      have : m = 10 := by omega
      subst this; exact not_lt.mp h10⟩
  · exact Or.inr ⟨12, by norm_num, rfl, h12, fun m hm => by
      have : m = 11 := by omega
      subst this; exact not_lt.mp h11⟩
  · exact Or.inr ⟨13, by norm_num, rfl, h13, fun m hm => by
      have : m = 12 := by omega
      subst this; exact not_lt.mp h12⟩
  · exact Or.inr ⟨14, by norm_num, rfl, h14, fun m hm => by
      have : m = 13 := by omega
      subst this; exact not_lt.mp h13⟩
  · exact Or.inr ⟨15, by norm_num, rfl, h15, fun m hm => by
      have : m = 14 := by omega
      subst this; exact not_lt.mp h14⟩
  · exact Or.inl rfl

theorem insert_getD (o p : Nat) (hp : p < 16) (a : List Int) (v : Int)
    (hl : o + 16 ≤ a.length) (t : Nat) :
    ((((List.range (15 - p)).map (fun t => 15 - t)).foldl
        (fun (a : List Int) i => a.set (o + i) (a.getD (o + i - 1) 0)) a).set (o + p) v).getD t 0 =
      if t = o + p then v else if o + p < t ∧ t ≤ o + 15 then a.getD (t - 1) 0 else a.getD t 0 := by
  obtain ⟨hlen, hg⟩ := shiftUp_spec o a (15 - p) (by omega)
  rw [getD_set, hlen, hg]
  by_cases c1 : t = o + p
  · have c1' : t = o + p ∧ o + p < a.length := ⟨c1, by omega⟩
    rw [if_pos c1', if_pos c1]
  · have c1' : ¬ (t = o + p ∧ o + p < a.length) := fun h => c1 h.1
    rw [if_neg c1', if_neg c1]
    by_cases c2 : o + p < t ∧ t ≤ o + 15
    · have c2' : o + 15 < t + (15 - p) ∧ t ≤ o + 15 ∧ t < a.length := by omega
      rw [if_pos c2, if_pos c2']
    · have c2' : ¬ (o + 15 < t + (15 - p) ∧ t ≤ o + 15 ∧ t < a.length) := by omega
      rw [if_neg c2, if_neg c2']

theorem insert_spec (Q : Nat → (Nat → Int) → (Nat → Int) → Prop) (hQ : WindowClosed Q)
    (o : Nat) (fv : Int) (st : List Int × List Int)
    (h1 : o + 16 ≤ st.1.length) (h2 : o + 16 ≤ st.2.length) (h : TrackerWin Q o st) :
    TrackerWin Q o (FindMinimum_insert o fv
      (FindMinimum_position fv (fun i => st.2.getD (o + i) 0)) st) ∧
    Untouched o st (FindMinimum_insert o fv
      (FindMinimum_position fv (fun i => st.2.getD (o + i) 0)) st) := by
  rcases position_spec fv (fun i => st.2.getD (o + i) 0) with hp | ⟨n, hn, hp, hlt, hge⟩
  · rw [hp]
    have hneg : ¬ ((-1 : Int) > -1) := by decide
    simp only [FindMinimum_insert, if_neg hneg]
    exact ⟨h, rfl, rfl, fun t _ => ⟨rfl, rfl⟩⟩
  · rw [hp]
    have hpos : ((n : Int) > -1) := by omega
    simp only [FindMinimum_insert, if_pos hpos, Int.toNat_ofNat, shiftUp_fold_fst,
      shiftUp_fold_snd]
    constructor
    · exact hQ.2.2.1 o n fv _ _ _ _ hn hlt hge
        (fun t => insert_getD o n hn st.2 fv h2 t)
        (fun t => insert_getD o n hn st.1 1 h1 t) h
    · refine ⟨?_, ?_, ?_⟩
      · rw [List.length_set]
        exact (shiftUp_spec o st.1 (15 - n) (by omega)).1
      · rw [List.length_set]
        exact (shiftUp_spec o st.2 (15 - n) (by omega)).1
      · intro t ht
        have e1 := insert_getD o n hn st.1 1 h1 t
        have e2 := insert_getD o n hn st.2 fv h2 t
        have c1 : ¬ (t = o + n) := by omega
        have c2 : ¬ (o + n < t ∧ t ≤ o + 15) := by omega
        rw [if_neg c1, if_neg c2] at e1 e2
        exact ⟨e1, e2⟩

theorem FindMinimum_trackerState (s : VadInstT) (fv : Int) (channel : Nat) :
    trackerState (WebRtcVad_FindMinimum s fv channel).1 =
      FindMinimum_insert (channel * 16) fv
        (FindMinimum_position fv (fun i =>
          ((List.range 16).foldl (FindMinimum_ageStep (channel * 16)) (trackerState s)).2.getD
            (channel * 16 + i) 0))
        ((List.range 16).foldl (FindMinimum_ageStep (channel * 16)) (trackerState s)) := by
  simp only [WebRtcVad_FindMinimum, trackerState]

theorem FindMinimum_spec (Q : Nat → (Nat → Int) → (Nat → Int) → Prop) (hQ : WindowClosed Q)
    (s : VadInstT) (fv : Int) (channel : Nat)
    (h1 : channel * 16 + 16 ≤ s.index_vector.length)
    (h2 : channel * 16 + 16 ≤ s.low_value_vector.length)
    (h : TrackerWin Q (channel * 16) (trackerState s)) :
    TrackerWin Q (channel * 16) (trackerState (WebRtcVad_FindMinimum s fv channel).1) ∧
    Untouched (channel * 16) (trackerState s)
      (trackerState (WebRtcVad_FindMinimum s fv channel).1) := by
  rw [FindMinimum_trackerState]
  obtain ⟨a1, a2⟩ := ageLoop_spec Q hQ (channel * 16) (trackerState s) h1 h2 h
  obtain ⟨b1, b2⟩ := insert_spec Q hQ (channel * 16) fv
    ((List.range 16).foldl (FindMinimum_ageStep (channel * 16)) (trackerState s))
    (by rw [a2.1]; exact h1) (by rw [a2.2.1]; exact h2) a1
  exact ⟨b1, Untouched_trans _ _ _ _ a2 b2⟩

theorem TrackerReachable_lift (spl : Spl) (P : VadInstT → Prop)
    (hcongr : ∀ a b : VadInstT, modelState a = modelState b → P a → P b)
    (hinit : P initState)
    (hstep : ∀ (features : List Int) (sc : GmmScratch) (vadflag : Int) (st : VadInstT × Int)
      (channel : Nat), channel < kNumChannels → P st.1 →
      P (GmmProbability_update spl features sc vadflag st channel).1)
    (hfm : ∀ (s : VadInstT) (fv : Int) (channel : Nat), channel < kNumChannels → P s →
      P (WebRtcVad_FindMinimum s fv channel).1)
    (s : VadInstT) (h : TrackerReachable spl s) : P s := by
  induction h with
  | init s s' hi =>
    rw [InitCore_eq] at hi
    have : s' = initState := by
      have := congrArg Prod.fst hi
      simpa using this.symm
    rw [this]
    exact hinit
  | set_mode s mode _ ih => exact hcongr _ _ (set_mode_modelState s mode).symm ih
  | calc8 s frame n _ ih => exact CalcVad8khz_lift spl P hcongr hstep s frame n ih
  | calc16 s frame n _ ih =>
    exact CalcVad8khz_lift spl P hcongr hstep _ _ _ (hcongr _ _ (by rfl) ih)
  | calc32 s frame n _ ih =>
    exact CalcVad8khz_lift spl P hcongr hstep _ _ _ (hcongr _ _ (by rfl) ih)
  | calc48 s frame n _ ih =>
    exact CalcVad8khz_lift spl P hcongr hstep _ _ _ (hcongr _ _ (by rfl) ih)
  | find_minimum s fv channel hc _ ih => exact hfm s fv channel hc ih

theorem Reachable_TrackerReachable (spl : Spl) (s : VadInstT) (h : Reachable spl s) :
    TrackerReachable spl s := by
  induction h with
  | init s s' hi => exact TrackerReachable.init s s' hi
  | set_mode s mode _ ih => exact TrackerReachable.set_mode s mode ih
  | calc8 s frame n _ ih => exact TrackerReachable.calc8 s frame n ih
  | calc16 s frame n _ ih => exact TrackerReachable.calc16 s frame n ih
  | calc32 s frame n _ ih => exact TrackerReachable.calc32 s frame n ih
  | calc48 s frame n _ ih => exact TrackerReachable.calc48 s frame n ih

theorem trackerState_noise_means (s : VadInstT) (x : List Int) :
    trackerState { s with noise_means := x } = trackerState s := rfl

theorem updateGaussian_trackerState (spl : Spl) (features : List Int) (sc : GmmScratch)
    (vadflag : Int) (channel : Nat) (feature_minimum tmp1_s16 maxspe : Int) (self : VadInstT)
    (k : Nat) :
    trackerState (GmmProbability_updateGaussian spl features sc vadflag channel
      feature_minimum tmp1_s16 maxspe self k) = trackerState self := by
  show trackerState (if vadflag ≠ 0 then _ else _) = _
  split <;> rfl

theorem separate_trackerState (self : VadInstT) (channel : Nat) :
    trackerState (GmmProbability_separate self channel).1 = trackerState self := by
  unfold GmmProbability_separate
  simp only []
  split <;> rfl

theorem limit_trackerState (self : VadInstT) (channel : Nat) (n s : Int) :
    trackerState (GmmProbability_limit self channel n s) = trackerState self := by
  unfold GmmProbability_limit
  simp only []
  split_ifs <;> rfl

theorem update_trackerState (spl : Spl) (features : List Int) (sc : GmmScratch)
    (vadflag : Int) (st : VadInstT × Int) (channel : Nat) :
    trackerState (GmmProbability_update spl features sc vadflag st channel).1 =
      trackerState (WebRtcVad_FindMinimum st.1 (features.getD channel 0) channel).1 := by
  have hfold : ∀ (s0 : VadInstT) (fm t m : Int),
      trackerState ((List.range kNumGaussians).foldl
        (GmmProbability_updateGaussian spl features sc vadflag channel fm t m) s0) =
        trackerState s0 := by
    intro s0 fm t m
    exact foldl_invariant (fun s => trackerState s = trackerState s0) _
      (fun a b h => (updateGaussian_trackerState spl features sc vadflag channel fm t m a b).trans h)
      _ _ rfl
  unfold GmmProbability_update
  simp only [limit_trackerState, separate_trackerState, hfold, trackerState_noise_means]

theorem TrackerInv_congr (Q : Nat → (Nat → Int) → (Nat → Int) → Prop) (a b : VadInstT)
    (h : trackerState a = trackerState b) (ha : TrackerInv Q a) : TrackerInv Q b := by
  unfold TrackerInv at ha ⊢
  rw [← h]
  exact ha

theorem FindMinimum_TrackerInv (Q : Nat → (Nat → Int) → (Nat → Int) → Prop)
    (hQ : WindowClosed Q) (s : VadInstT) (fv : Int) (channel : Nat)
    (hc : channel < kNumChannels) (h : TrackerInv Q s) :
    TrackerInv Q (WebRtcVad_FindMinimum s fv channel).1 := by
  obtain ⟨l1, l2, hw⟩ := h
  have hc' : channel < 6 := hc
  have l1' : s.index_vector.length = 96 := l1
  have l2' : s.low_value_vector.length = 96 := l2
  obtain ⟨w, u1, u2, u3⟩ := FindMinimum_spec Q hQ s fv channel (by omega) (by omega)
    (hw channel hc)
  refine ⟨u1.trans l1, u2.trans l2, ?_⟩
  intro c hcc
  have hcc' : c < 6 := hcc
  by_cases e : c = channel
  · rw [e]
    exact w
  · refine hQ.2.2.2 (c * 16) _ _ _ _ ?_ (hw c hcc)
    intro t ht1 ht2
    exact u3 t (by omega)

theorem update_TrackerInv (Q : Nat → (Nat → Int) → (Nat → Int) → Prop)
    (hQ : WindowClosed Q) (spl : Spl) (features : List Int) (sc : GmmScratch)
    (vadflag : Int) (st : VadInstT × Int) (channel : Nat) (hc : channel < kNumChannels)
    (h : TrackerInv Q st.1) :
    TrackerInv Q (GmmProbability_update spl features sc vadflag st channel).1 :=
  TrackerInv_congr Q _ _ (update_trackerState spl features sc vadflag st channel).symm
    (FindMinimum_TrackerInv Q hQ st.1 (features.getD channel 0) channel hc h)

theorem getD_replicate (n : Nat) (a : Int) (t : Nat) :
    (List.replicate n a).getD t 0 = if t < n then a else 0 := by
  rw [List.getD_eq_getElem?_getD, List.getElem?_replicate]
  split_ifs <;> rfl

theorem initState_TrackerSorted : TrackerInv WinSorted initState := by
  refine ⟨rfl, rfl, ?_⟩
  intro c hc
  have hc' : c < 6 := hc
  have e : (trackerState initState).2 = List.replicate 96 10000 := rfl
  refine ⟨?_, ?_⟩
  · intro i hi
    simp only [e, getD_replicate]
    rw [if_pos (by omega), if_pos (by omega)]
  · intro i hi
    simp only [e, getD_replicate]
    rw [if_pos (by omega)]

theorem initState_TrackerAge : TrackerInv WinAge initState := by
  refine ⟨rfl, rfl, ?_⟩
  intro c hc
  have hc' : c < 6 := hc
  have e : (trackerState initState).2 = List.replicate 96 10000 := rfl
  intro i hi
  simp only [e, getD_replicate]
  rw [if_pos (by omega)]
  exact ⟨le_refl _, fun h => absurd h (lt_irrefl _)⟩

theorem TrackerReachable_inv (Q : Nat → (Nat → Int) → (Nat → Int) → Prop)
    (hQ : WindowClosed Q) (hinit : TrackerInv Q initState) (spl : Spl) (s : VadInstT)
    (h : TrackerReachable spl s) : TrackerInv Q s :=
  TrackerReachable_lift spl (TrackerInv Q)
    (fun a b hab ha => TrackerInv_congr Q a b (by
      simp only [modelState, Prod.mk.injEq] at hab
      simp only [trackerState, hab.2.2.2.2.1, hab.2.2.2.2.2.1]) ha)
    hinit
    (fun features sc vadflag st channel hc hst =>
      update_TrackerInv Q hQ spl features sc vadflag st channel hc hst)
    (fun s fv channel hc hs => FindMinimum_TrackerInv Q hQ s fv channel hc hs)
    s h

/-! ## The minimum tracker: a window that ages without insertions -/

theorem foldl_range_ind {α : Type} (P : Nat → α → Prop) (f : α → Nat → α) (a : α) (n : Nat)
    (h0 : P 0 a) (hs : ∀ i b, i < n → P i b → P (i + 1) (f b i)) :
    P n ((List.range n).foldl f a) := by
  induction n with
  | zero => exact h0
  | succ n ih =>
    rw [List.range_succ, List.foldl_append]
    exact hs n _ (Nat.lt_succ_self n) (ih (fun i b hi hb => hs i b (Nat.lt_succ_of_lt hi) hb))

theorem ageLoop_uniform (st : List Int × List Int) (a : Int) (h0 : 0 ≤ a) (h1 : a < 100)
    (hlen : st.1.length = 96)
    (ha : ∀ t, st.1.getD t 0 = if t < 16 then a else 0) :
    ((List.range 16).foldl (FindMinimum_ageStep (0 * 16)) st).2 = st.2 ∧
    ((List.range 16).foldl (FindMinimum_ageStep (0 * 16)) st).1.length = 96 ∧
    ∀ t, ((List.range 16).foldl (FindMinimum_ageStep (0 * 16)) st).1.getD t 0 =
      if t < 16 then a + 1 else 0 := by
  have key := foldl_range_ind
    (fun (i : Nat) (r : List Int × List Int) => r.2 = st.2 ∧ r.1.length = 96 ∧
      ∀ t, r.1.getD t 0 = if t < i then a + 1 else (if t < 16 then a else 0))
    (FindMinimum_ageStep (0 * 16)) st 16 ⟨rfl, hlen, fun t => by
      rw [ha t]
      have : ¬ (t < 0) := by omega
      rw [if_neg this]⟩ ?_
  · obtain ⟨k1, k2, k3⟩ := key
    refine ⟨k1, k2, fun t => ?_⟩
    rw [k3 t]
    split_ifs <;> rfl
  · intro i b hi hb
    obtain ⟨b1, b2, b3⟩ := hb
    have hval : b.1.getD (0 * 16 + i) 0 = a := by
      rw [b3]
      have c1 : ¬ (0 * 16 + i < i) := by omega
      have c2 : 0 * 16 + i < 16 := by omega
      rw [if_neg c1, if_pos c2]
    have hne : b.1.getD (0 * 16 + i) 0 ≠ 100 := by
      rw [hval]
      omega
    simp only [FindMinimum_ageStep, if_pos hne]
    refine ⟨b1, by rw [List.length_set]; exact b2, fun t => ?_⟩
    rw [getD_set, hval, b3, b2]
    have hw : wrap16 (a + 1) = a + 1 := by
      unfold wrap16
      omega
    rw [hw]
    by_cases c : t = 0 * 16 + i
    · have c' : t = 0 * 16 + i ∧ 0 * 16 + i < 96 := ⟨c, by omega⟩
      have c2 : t < i + 1 := by omega
      rw [if_pos c', if_pos c2]
    · have c' : ¬ (t = 0 * 16 + i ∧ 0 * 16 + i < 96) := fun h => c h.1
      rw [if_neg c']
      by_cases c3 : t < i
      · have c4 : t < i + 1 := by omega
        rw [if_pos c3, if_pos c4]
      · have c4 : ¬ (t < i + 1) := by omega
        rw [if_neg c3, if_neg c4]

theorem position_none (fv : Int) (sv : Nat → Int) (h7 : sv 7 ≤ fv) (h15 : sv 15 ≤ fv) :
    FindMinimum_position fv sv = -1 := by
  have n7 : ¬ (fv < sv 7) := not_lt.mpr h7
  have n15 : ¬ (fv < sv 15) := not_lt.mpr h15
  simp only [FindMinimum_position, if_neg n7, if_neg n15]

theorem FindMinimum_uniform (s : VadInstT) (a fv : Int) (h0 : 0 ≤ a) (h1 : a < 100)
    (hf : 10000 ≤ fv) (h : UniformWindow a s) :
    UniformWindow (a + 1) (WebRtcVad_FindMinimum s fv 0).1 := by
  obtain ⟨hlen, hv, ha⟩ := h
  obtain ⟨k1, k2, k3⟩ := ageLoop_uniform (trackerState s) a h0 h1 hlen ha
  have hp : FindMinimum_position fv (fun i =>
      ((List.range 16).foldl (FindMinimum_ageStep (0 * 16)) (trackerState s)).2.getD
        (0 * 16 + i) 0) = -1 := by
    apply position_none
    · simp only [k1, hv]
      exact hf
    · simp only [k1, hv]
      exact hf
  have hneg : ¬ ((-1 : Int) > -1) := by decide
  unfold UniformWindow
  rw [FindMinimum_trackerState, hp]
  simp only [FindMinimum_insert, if_neg hneg]
  exact ⟨k2, k1.trans hv, k3⟩

theorem FindMinimum_run_uniform (n : Nat) : ∀ (s : VadInstT) (a : Int), 0 ≤ a →
    a + n ≤ 100 → UniformWindow a s →
    UniformWindow (a + n) (FindMinimum_run 0 s (List.replicate n 10000)) := by
  induction n with
  | zero =>
    intro s a _ _ h
    simp only [List.replicate, FindMinimum_run, List.foldl_nil, Nat.cast_zero, add_zero]
    exact h
  | succ n ih =>
    intro s a h0 h1 h
    simp only [List.replicate, FindMinimum_run, List.foldl_cons]
    have hstep := FindMinimum_uniform s a 10000 h0 (by push_cast at h1; omega) (le_refl _) h
    have := ih (WebRtcVad_FindMinimum s 10000 0).1 (a + 1) (by omega)
      (by push_cast at h1; omega) hstep
    have e : a + ((n + 1 : Nat) : Int) = a + 1 + (n : Int) := by push_cast; ring
    rw [e]
    simp only [FindMinimum_run] at this
    exact this

theorem FindMinimum_run_reachable (spl : Spl) (channel : Nat) (hc : channel < kNumChannels)
    (l : List Int) : ∀ s, TrackerReachable spl s →
    TrackerReachable spl (FindMinimum_run channel s l) := by
  induction l with
  | nil => intro s h; exact h
  | cons f l ih =>
    intro s h
    simp only [FindMinimum_run, List.foldl_cons]
    have := ih _ (TrackerReachable.find_minimum s f channel hc h)
    simp only [FindMinimum_run] at this
    exact this

theorem FindMinimum_run_append (channel : Nat) (l1 l2 : List Int) : ∀ s,
    FindMinimum_run channel s (l1 ++ l2) =
      FindMinimum_run channel (FindMinimum_run channel s l1) l2 := by
  induction l1 with
  | nil => intro s; rfl
  | cons f l ih =>
    intro s
    simp only [FindMinimum_run, List.foldl_append]

theorem list_ext_getD (l1 l2 : List Int) (hl : l1.length = l2.length)
    (h : ∀ t, l1.getD t 0 = l2.getD t 0) : l1 = l2 := by
  apply List.ext_getElem hl
  intro n h1 h2
  have := h n
  rw [List.getD_eq_getElem l1 0 h1, List.getD_eq_getElem l2 0 h2] at this
  exact this

theorem uniform_literal (s : VadInstT) (h : UniformWindow 100 s) :
    trackerState s = (List.replicate 16 100 ++ List.replicate 80 0, List.replicate 96 10000) := by
  obtain ⟨h1, h2, h3⟩ := h
  have e1 : (trackerState s).1 = List.replicate 16 100 ++ List.replicate 80 0 := by
    apply list_ext_getD _ _ (by rw [h1]; rfl)
    intro t
    rw [h3 t]
    by_cases c : t < 96
    · revert t
      decide
    · have c16 : ¬ (t < 16) := by omega
      rw [if_neg c16, List.getD_eq_default _ _ (by simp; omega)]
  exact Prod.ext e1 h2

theorem evict_at_100 (s : VadInstT) (h : UniformWindow 100 s) :
    (trackerState (WebRtcVad_FindMinimum s 10000 0).1).1.getD 8 0 = 102 ∧
    (trackerState (WebRtcVad_FindMinimum s 10000 0).1).2.getD 8 0 = 10000 := by
  rw [FindMinimum_trackerState, uniform_literal s h]
  decide!

theorem initState_uniform : UniformWindow 0 initState := by
  refine ⟨rfl, rfl, fun t => ?_⟩
  have e : (trackerState initState).1 = List.replicate 96 0 := rfl
  rw [e, getD_replicate]
  split_ifs <;> rfl

theorem trackerState_fst (s : VadInstT) : (trackerState s).1 = s.index_vector := rfl

theorem trackerState_snd (s : VadInstT) : (trackerState s).2 = s.low_value_vector := rfl

/-- C19 (minimum-tracker ordering invariant): in every state reachable from
Init by mode selections, per-frame classification calls and direct calls of
`WebRtcVad_FindMinimum` with any feature value, for every channel the 16
values `low_value_vector[16 * channel ..]` are in non-decreasing order and
none exceeds 10000; and `WebRtcVad_FindMinimum`, for every feature value and
every valid channel, takes an instance with this property (and arrays of 96
slots) to an instance with this property. -/
theorem tracker_ordering_invariant (spl : Spl) (s : VadInstT) (h : TrackerReachable spl s) :
    (∀ c i : Nat, c < kNumChannels →
      (i < 15 → s.low_value_vector.getD (c * 16 + i) 0 ≤
        s.low_value_vector.getD (c * 16 + (i + 1)) 0) ∧
      (i < 16 → s.low_value_vector.getD (c * 16 + i) 0 ≤ 10000)) ∧
    (∀ (s' : VadInstT) (feature_value : Int) (channel : Nat), channel < kNumChannels →
      TrackerInv WinSorted s' →
      TrackerInv WinSorted (WebRtcVad_FindMinimum s' feature_value channel).1) := by
  refine ⟨?_, fun s' fv channel hc hs =>
    FindMinimum_TrackerInv WinSorted WinSorted_closed s' fv channel hc hs⟩
  obtain ⟨-, -, hw⟩ := TrackerReachable_inv WinSorted WinSorted_closed initState_TrackerSorted
    spl s h
  intro c i hc
  exact ⟨fun hi => (hw c hc).1 i hi, fun hi => (hw c hc).2 i hi⟩

theorem tracker_ordering_invariant_witness :
    TrackerReachable splRef (WebRtcVad_FindMinimum initState 500 0).1 ∧
    (WebRtcVad_FindMinimum initState 500 0).1.low_value_vector.getD (0 * 16 + 0) 0 ≤
      (WebRtcVad_FindMinimum initState 500 0).1.low_value_vector.getD (0 * 16 + (0 + 1)) 0 :=
  ⟨TrackerReachable.find_minimum initState 500 0 (by decide)
      (TrackerReachable.init zeroInst initState rfl),
    ((tracker_ordering_invariant splRef (WebRtcVad_FindMinimum initState 500 0).1
      (TrackerReachable.find_minimum initState 500 0 (by decide)
        (TrackerReachable.init zeroInst initState rfl))).1 0 0 (by decide)).1 (by decide)⟩

/-- C20, amended (minimum-tracker age invariant): in every state reachable from
Init by mode selections, per-frame classification calls and direct calls of
`WebRtcVad_FindMinimum`, for every channel and slot the value is at most
10000 and a live entry (value below 10000) has an age in [1, 100]; so an age
outside [1, 100] sits on a sentinel slot (value 10000) only.
`WebRtcVad_FindMinimum` preserves this for every feature value and valid
channel. -/
theorem tracker_age_invariant (spl : Spl) (s : VadInstT) (h : TrackerReachable spl s) :
    (∀ c i : Nat, c < kNumChannels → i < 16 →
      s.low_value_vector.getD (c * 16 + i) 0 ≤ 10000 ∧
      (s.low_value_vector.getD (c * 16 + i) 0 < 10000 →
        1 ≤ s.index_vector.getD (c * 16 + i) 0 ∧ s.index_vector.getD (c * 16 + i) 0 ≤ 100)) ∧
    (∀ (s' : VadInstT) (feature_value : Int) (channel : Nat), channel < kNumChannels →
      TrackerInv WinAge s' →
      TrackerInv WinAge (WebRtcVad_FindMinimum s' feature_value channel).1) := by
  refine ⟨?_, fun s' fv channel hc hs =>
    FindMinimum_TrackerInv WinAge WinAge_closed s' fv channel hc hs⟩
  obtain ⟨-, -, hw⟩ := TrackerReachable_inv WinAge WinAge_closed initState_TrackerAge spl s h
  intro c i hc hi
  exact hw c hc i hi

theorem tracker_age_invariant_witness :
    TrackerReachable splRef (WebRtcVad_FindMinimum initState 500 0).1 ∧
    (WebRtcVad_FindMinimum initState 500 0).1.low_value_vector.getD (0 * 16 + 0) 0 ≤ 10000 :=
  ⟨TrackerReachable.find_minimum initState 500 0 (by decide)
      (TrackerReachable.init zeroInst initState rfl),
    ((tracker_age_invariant splRef (WebRtcVad_FindMinimum initState 500 0).1
      (TrackerReachable.find_minimum initState 500 0 (by decide)
        (TrackerReachable.init zeroInst initState rfl))).1 0 0 (by decide) (by decide)).1⟩

/-- C20, counterexample: after Init, 101 calls of `WebRtcVad_FindMinimum` on
channel 0 with the feature value 10000 leave the age 102 in slot 8 of the
channel's window, outside [1, 101]. -/
theorem tracker_age_counterexample :
    TrackerReachable splRef (FindMinimum_run 0 initState (List.replicate 101 10000)) ∧
    (FindMinimum_run 0 initState (List.replicate 101 10000)).index_vector.getD (0 * 16 + 8) 0 =
      102 ∧
    ¬ ((FindMinimum_run 0 initState (List.replicate 101 10000)).index_vector.getD
      (0 * 16 + 8) 0 ≤ 101) := by
  have hr := FindMinimum_run_reachable splRef 0 (by decide) (List.replicate 101 10000) initState
    (TrackerReachable.init zeroInst initState rfl)
  have hu := FindMinimum_run_uniform 100 initState 0 (le_refl _) (by norm_num) initState_uniform
  have hu' : UniformWindow 100 (FindMinimum_run 0 initState (List.replicate 100 10000)) := by
    have e : (0 : Int) + ((100 : Nat) : Int) = 100 := by norm_num
    rw [e] at hu
    exact hu
  have he := (evict_at_100 _ hu').1
  have hsplit : List.replicate 101 (10000 : Int) = List.replicate 100 10000 ++ [10000] :=
    List.replicate_succ' 100 10000
  have hrun : FindMinimum_run 0 initState (List.replicate 101 10000) =
      (WebRtcVad_FindMinimum (FindMinimum_run 0 initState (List.replicate 100 10000)) 10000 0).1 := by
    rw [hsplit, FindMinimum_run_append]
    rfl
  have hval : (FindMinimum_run 0 initState (List.replicate 101 10000)).index_vector.getD
      (0 * 16 + 8) 0 = 102 := by
    rw [hrun, ← trackerState_fst]
    exact he
  refine ⟨hr, hval, ?_⟩
  rw [hval]
  decide

/-! ## The clamps on the noise and speech means -/

theorem clamp_bounds (x lo hi : Int) (h : lo ≤ hi) :
    lo ≤ (if (if x < lo then lo else x) > hi then hi else (if x < lo then lo else x)) ∧
    (if (if x < lo then lo else x) > hi then hi else (if x < lo then lo else x)) ≤ hi := by
  split_ifs <;> omega

theorem updateGaussian_noise_means (spl : Spl) (features : List Int) (sc : GmmScratch)
    (vadflag : Int) (channel : Nat) (feature_minimum tmp1_s16 maxspe : Int) (self : VadInstT)
    (k : Nat) (hk : k < kNumGaussians) (hc : channel < kNumChannels) :
    ∃ v : Int, ((k : Int) + 5) * 128 ≤ v ∧ v ≤ (72 + (k : Int) - (channel : Int)) * 128 ∧
      (GmmProbability_updateGaussian spl features sc vadflag channel feature_minimum tmp1_s16
        maxspe self k).noise_means = self.noise_means.set (channel + k * kNumChannels) v := by
  have hk' : k < 2 := hk
  have hc' : channel < 6 := hc
  have hle : ((k : Int) + 5) * 128 ≤ (72 + (k : Int) - (channel : Int)) * 128 := by omega
  by_cases hv : vadflag ≠ 0
  · simp only [GmmProbability_updateGaussian, if_pos hv]
    exact ⟨_, (clamp_bounds _ _ _ hle).1, (clamp_bounds _ _ _ hle).2, rfl⟩
  · simp only [GmmProbability_updateGaussian, if_neg hv]
    exact ⟨_, (clamp_bounds _ _ _ hle).1, (clamp_bounds _ _ _ hle).2, rfl⟩

theorem WeightedAverage_spec (data : List Int) (channel : Nat) (offset : Int)
    (weights : List Int) (hl : channel + 6 < data.length) :
    (WeightedAverage data channel offset weights).1.length = data.length ∧
    (∀ g, (WeightedAverage data channel offset weights).1.getD g 0 =
      if g = channel then wrap16 (data.getD channel 0 + offset)
      else if g = channel + 6 then wrap16 (data.getD (channel + 6) 0 + offset)
      else data.getD g 0) ∧
    (WeightedAverage data channel offset weights).2 =
      wrap32 (wrap32 (0 + wrap16 (data.getD channel 0 + offset) * weights.getD channel 0) +
        wrap16 (data.getD (channel + 6) 0 + offset) * weights.getD (channel + 6) 0) := by
  have hr : List.range kNumGaussians = [0, 1] := rfl
  have e0 : channel + 0 * kNumChannels = channel := by simp
  have e1 : channel + 1 * kNumChannels = channel + 6 := by simp [kNumChannels]
  have hg : (data.set channel (wrap16 (data.getD channel 0 + offset))).getD (channel + 6) 0 =
      data.getD (channel + 6) 0 := by
    rw [getD_set]
    have : ¬ (channel + 6 = channel ∧ channel < data.length) := by omega
    rw [if_neg this]
  simp only [WeightedAverage, hr, List.foldl_cons, List.foldl_nil, e0, e1, hg]
  refine ⟨by simp only [List.length_set], fun g => ?_, trivial⟩
  rw [getD_set, getD_set, List.length_set]
  by_cases c1 : g = channel
  · subst c1
    have n1 : ¬ (g = g + 6 ∧ g + 6 < data.length) := by omega
    have p1 : g = g ∧ g < data.length := ⟨rfl, by omega⟩
    rw [if_neg n1, if_pos p1, if_pos rfl]
  · by_cases c2 : g = channel + 6
    · have p1 : g = channel + 6 ∧ channel + 6 < data.length := ⟨c2, hl⟩
      rw [if_pos p1, if_neg c1, if_pos c2]
    · have n1 : ¬ (g = channel + 6 ∧ channel + 6 < data.length) := fun h => c2 h.1
      have n2 : ¬ (g = channel ∧ channel < data.length) := fun h => c1 h.1
      rw [if_neg n1, if_neg n2, if_neg c1, if_neg c2]

theorem shiftMeans_spec (means : List Int) (channel : Nat) (d : Int)
    (hl : channel + 6 < means.length) :
    (GmmProbability_shiftMeans means channel d).length = means.length ∧
    (∀ g, (GmmProbability_shiftMeans means channel d).getD g 0 =
      if g = channel then wrap16 (means.getD channel 0 - d)
      else if g = channel + 6 then wrap16 (means.getD (channel + 6) 0 - d)
      else means.getD g 0) := by
  have hr : List.range kNumGaussians = [0, 1] := rfl
  have e0 : channel + 0 * kNumChannels = channel := by simp
  have e1 : channel + 1 * kNumChannels = channel + 6 := by simp [kNumChannels]
  have hg : (means.set channel (wrap16 (means.getD channel 0 - d))).getD (channel + 6) 0 =
      means.getD (channel + 6) 0 := by
    rw [getD_set]
    have : ¬ (channel + 6 = channel ∧ channel < means.length) := by omega
    rw [if_neg this]
  simp only [GmmProbability_shiftMeans, hr, List.foldl_cons, List.foldl_nil, e0, e1, hg]
  refine ⟨by simp only [List.length_set], fun g => ?_⟩
  rw [getD_set, getD_set, List.length_set]
  by_cases c1 : g = channel
  · subst c1
    have n1 : ¬ (g = g + 6 ∧ g + 6 < means.length) := by omega
    have p1 : g = g ∧ g < means.length := ⟨rfl, by omega⟩
    rw [if_neg n1, if_pos p1, if_pos rfl]
  · by_cases c2 : g = channel + 6
    · have p1 : g = channel + 6 ∧ channel + 6 < means.length := ⟨c2, hl⟩
      rw [if_pos p1, if_neg c1, if_pos c2]
    · have n1 : ¬ (g = channel + 6 ∧ channel + 6 < means.length) := fun h => c2 h.1
      have n2 : ¬ (g = channel ∧ channel < means.length) := fun h => c1 h.1
      rw [if_neg n1, if_neg n2, if_neg c1, if_neg c2]

theorem noise_weights (c : Nat) (hc : c < 6) :
    0 ≤ kNoiseDataWeights.getD c 0 ∧ 0 ≤ kNoiseDataWeights.getD (c + 6) 0 ∧
    kNoiseDataWeights.getD c 0 + kNoiseDataWeights.getD (c + 6) 0 = 128 := by
  interval_cases c <;> decide

theorem speech_weights (c : Nat) (hc : c < 6) :
    0 ≤ kSpeechDataWeights.getD c 0 ∧ 0 ≤ kSpeechDataWeights.getD (c + 6) 0 ∧
    kSpeechDataWeights.getD c 0 + kSpeechDataWeights.getD (c + 6) 0 = 128 := by
  interval_cases c <;> decide

theorem table_bounds (c : Nat) (hc : c < 6) :
    (544 ≤ kMinimumDifference.getD c 0 ∧ kMinimumDifference.getD c 0 ≤ 576) ∧
    (8576 ≤ kMaximumNoise.getD c 0 ∧ kMaximumNoise.getD c 0 ≤ 9216) ∧
    (11392 ≤ kMaximumSpeech.getD c 0 ∧ kMaximumSpeech.getD c 0 ≤ 11520) := by
  interval_cases c <;> decide

theorem weightedSum_bounds (d0 d1 w0 w1 lo hi : Int) (h0 : 0 ≤ w0) (h1 : 0 ≤ w1)
    (hw : w0 + w1 = 128) (hlo : -32768 ≤ lo) (hhi : hi ≤ 32767)
    (a0 : lo ≤ d0) (a1 : d0 ≤ hi) (b0 : lo ≤ d1) (b1 : d1 ≤ hi) :
    lo * 128 ≤ weightedSum d0 d1 w0 w1 ∧ weightedSum d0 d1 w0 w1 ≤ hi * 128 := by
  have p1 : lo * w0 ≤ d0 * w0 := mul_le_mul_of_nonneg_right a0 h0
  have p2 : d0 * w0 ≤ hi * w0 := mul_le_mul_of_nonneg_right a1 h0
  have p3 : lo * w1 ≤ d1 * w1 := mul_le_mul_of_nonneg_right b0 h1
  have p4 : d1 * w1 ≤ hi * w1 := mul_le_mul_of_nonneg_right b1 h1
  have q1 : lo * w0 + lo * w1 = lo * 128 := by rw [← mul_add, hw]
  have q2 : hi * w0 + hi * w1 = hi * 128 := by rw [← mul_add, hw]
  have r1 : -32768 * w0 ≤ lo * w0 := mul_le_mul_of_nonneg_right hlo h0
  have r2 : hi * w0 ≤ 32767 * w0 := mul_le_mul_of_nonneg_right hhi h0
  have r3 : -32768 * w1 ≤ lo * w1 := mul_le_mul_of_nonneg_right hlo h1
  have r4 : hi * w1 ≤ 32767 * w1 := mul_le_mul_of_nonneg_right hhi h1
  unfold weightedSum wrap32
  omega

theorem separate_shift_bounds (ng sg md : Int) (hng0 : 0 ≤ ng) (hng1 : ng ≤ 9344 * 128)
    (hsg0 : -32768 * 128 ≤ sg) (hsg1 : sg ≤ 32767 * 128) (hmd0 : 544 ≤ md) (hmd1 : md ≤ 576)
    (hd : wrap16 (wrap16 (sg / 512) - wrap16 (ng / 512)) < md) :
    0 ≤ wrap16 ((3 * wrap16 (md - wrap16 (wrap16 (sg / 512) - wrap16 (ng / 512)))) / 4) ∧
    wrap16 ((3 * wrap16 (md - wrap16 (wrap16 (sg / 512) - wrap16 (ng / 512)))) / 4) ≤ 8328 := by
  have q1 : -8192 ≤ sg / 512 ∧ sg / 512 ≤ 8191 := by omega
  have q2 : 0 ≤ ng / 512 ∧ ng / 512 ≤ 2336 := by omega
  have e1 : wrap16 (sg / 512) = sg / 512 := wrap16_of_range _ (by omega) (by omega)
  have e2 : wrap16 (ng / 512) = ng / 512 := wrap16_of_range _ (by omega) (by omega)
  rw [e1, e2] at hd ⊢
  have e3 : wrap16 (sg / 512 - ng / 512) = sg / 512 - ng / 512 :=
    wrap16_of_range _ (by omega) (by omega)
  rw [e3] at hd ⊢
  have e4 : wrap16 (md - (sg / 512 - ng / 512)) = md - (sg / 512 - ng / 512) :=
    wrap16_of_range _ (by omega) (by omega)
  rw [e4]
  have e5 : wrap16 (3 * (md - (sg / 512 - ng / 512)) / 4) = 3 * (md - (sg / 512 - ng / 512)) / 4 :=
    wrap16_of_range _ (by omega) (by omega)
  rw [e5]
  omega

theorem WeightedAverage_sum (data : List Int) (channel : Nat) (offset : Int)
    (weights : List Int) (hl : channel + 6 < data.length) :
    (WeightedAverage data channel offset weights).2 =
      weightedSum (wrap16 (data.getD channel 0 + offset))
        (wrap16 (data.getD (channel + 6) 0 + offset))
        (weights.getD channel 0) (weights.getD (channel + 6) 0) :=
  (WeightedAverage_spec data channel offset weights hl).2.2

theorem separate_noise (self : VadInstT) (c : Nat) (hc : c < 6)
    (hn : self.noise_means.length = 12) (hs : self.speech_means.length = 12)
    (h0 : 640 ≤ self.noise_means.getD c 0 ∧ self.noise_means.getD c 0 ≤ 9344)
    (h1 : 640 ≤ self.noise_means.getD (c + 6) 0 ∧ self.noise_means.getD (c + 6) 0 ≤ 9344) :
    (GmmProbability_separate self c).1.noise_means.length = 12 ∧
    (GmmProbability_separate self c).1.speech_means.length = 12 ∧
    (∀ g, g ≠ c → g ≠ c + 6 →
      (GmmProbability_separate self c).1.noise_means.getD g 0 = self.noise_means.getD g 0) ∧
    (self.noise_means.getD c 0 - 8328 ≤ (GmmProbability_separate self c).1.noise_means.getD c 0 ∧
      (GmmProbability_separate self c).1.noise_means.getD c 0 ≤ self.noise_means.getD c 0) ∧
    (self.noise_means.getD (c + 6) 0 - 8328 ≤
        (GmmProbability_separate self c).1.noise_means.getD (c + 6) 0 ∧
      (GmmProbability_separate self c).1.noise_means.getD (c + 6) 0 ≤
        self.noise_means.getD (c + 6) 0) := by
  obtain ⟨a1, a2, a3⟩ := WeightedAverage_spec self.noise_means c 0 kNoiseDataWeights (by omega)
  obtain ⟨b1, b2, b3⟩ := WeightedAverage_spec self.speech_means c 0 kSpeechDataWeights (by omega)
  have w0 : wrap16 (self.noise_means.getD c 0 + 0) = self.noise_means.getD c 0 := by
    unfold wrap16; omega
  have w1 : wrap16 (self.noise_means.getD (c + 6) 0 + 0) = self.noise_means.getD (c + 6) 0 := by
    unfold wrap16; omega
  have a2c : (WeightedAverage self.noise_means c 0 kNoiseDataWeights).1.getD c 0 =
      self.noise_means.getD c 0 := by
    rw [a2, if_pos rfl, w0]
  have a2d : (WeightedAverage self.noise_means c 0 kNoiseDataWeights).1.getD (c + 6) 0 =
      self.noise_means.getD (c + 6) 0 := by
    have n1 : ¬ (c + 6 = c) := by omega
    rw [a2, if_neg n1, if_pos rfl, w1]
  have a2o : ∀ g, g ≠ c → g ≠ c + 6 →
      (WeightedAverage self.noise_means c 0 kNoiseDataWeights).1.getD g 0 =
        self.noise_means.getD g 0 := by
    intro g g1 g2
    rw [a2, if_neg g1, if_neg g2]
  obtain ⟨nw0, nw1, nw2⟩ := noise_weights c hc
  obtain ⟨sw0, sw1, sw2⟩ := speech_weights c hc
  obtain ⟨⟨md0, md1⟩, -, -⟩ := table_bounds c hc
  rw [w0, w1] at a3
  have ng := weightedSum_bounds (self.noise_means.getD c 0) (self.noise_means.getD (c + 6) 0)
    _ _ 0 9344 nw0 nw1 nw2 (by norm_num) (by norm_num) (by omega) h0.2 (by omega) h1.2
  have sg := weightedSum_bounds (wrap16 (self.speech_means.getD c 0 + 0))
    (wrap16 (self.speech_means.getD (c + 6) 0 + 0))
    _ _ (-32768) 32767 sw0 sw1 sw2 (by norm_num) (by norm_num)
    (by unfold wrap16; omega) (by unfold wrap16; omega) (by unfold wrap16; omega)
    (by unfold wrap16; omega)
  unfold GmmProbability_separate
  simp only []
  split_ifs with hd
  · have ngA : 0 ≤ (WeightedAverage self.noise_means c 0 kNoiseDataWeights).2 ∧
        (WeightedAverage self.noise_means c 0 kNoiseDataWeights).2 ≤ 9344 * 128 := by
      rw [a3]
      unfold weightedSum at ng
      exact ⟨by omega, ng.2⟩
    have sgB : -32768 * 128 ≤ (WeightedAverage self.speech_means c 0 kSpeechDataWeights).2 ∧
        (WeightedAverage self.speech_means c 0 kSpeechDataWeights).2 ≤ 32767 * 128 := by
      rw [b3]
      unfold weightedSum at sg
      exact sg
    have hsb := separate_shift_bounds _ _ _ ngA.1 ngA.2 sgB.1 sgB.2 md0 md1 hd
    generalize wrap16 (3 * wrap16 (kMinimumDifference.getD c 0 -
      wrap16 (wrap16 ((WeightedAverage self.speech_means c 0 kSpeechDataWeights).2 / 512) -
        wrap16 ((WeightedAverage self.noise_means c 0 kNoiseDataWeights).2 / 512))) / 4) = t2
      at hsb ⊢
    generalize wrap16 (13 * wrap16 (kMinimumDifference.getD c 0 -
      wrap16 (wrap16 ((WeightedAverage self.speech_means c 0 kSpeechDataWeights).2 / 512) -
        wrap16 ((WeightedAverage self.noise_means c 0 kNoiseDataWeights).2 / 512))) / 4) = t1
    obtain ⟨c1, c2, -⟩ := WeightedAverage_spec
      (WeightedAverage self.noise_means c 0 kNoiseDataWeights).1 c (wrap16 (-t2))
      kNoiseDataWeights (by rw [a1]; omega)
    obtain ⟨d1, -, -⟩ := WeightedAverage_spec
      (WeightedAverage self.speech_means c 0 kSpeechDataWeights).1 c t1
      kSpeechDataWeights (by rw [b1]; omega)
    have n1 : ¬ (c + 6 = c) := by omega
    have v0 : wrap16 (self.noise_means.getD c 0 + wrap16 (-t2)) =
        self.noise_means.getD c 0 - t2 := by
      unfold wrap16; omega
    have v1 : wrap16 (self.noise_means.getD (c + 6) 0 + wrap16 (-t2)) =
        self.noise_means.getD (c + 6) 0 - t2 := by
      unfold wrap16; omega
    refine ⟨c1.trans (a1.trans hn), d1.trans (b1.trans hs), ?_, ?_, ?_⟩
    · intro g g1 g2
      show (WeightedAverage _ c _ kNoiseDataWeights).1.getD g 0 = _
      rw [c2, if_neg g1, if_neg g2]
      exact a2o g g1 g2
    · show _ ≤ (WeightedAverage _ c _ kNoiseDataWeights).1.getD c 0 ∧
        (WeightedAverage _ c _ kNoiseDataWeights).1.getD c 0 ≤ _
      rw [c2, if_pos rfl, a2c, v0]
      omega
    · show _ ≤ (WeightedAverage _ c _ kNoiseDataWeights).1.getD (c + 6) 0 ∧
        (WeightedAverage _ c _ kNoiseDataWeights).1.getD (c + 6) 0 ≤ _
      rw [c2, if_neg n1, if_pos rfl, a2d, v1]
      omega
  · exact ⟨a1.trans hn, b1.trans hs, a2o, ⟨by rw [a2c]; omega, by rw [a2c]⟩,
      ⟨by rw [a2d]; omega, by rw [a2d]⟩⟩

theorem limit_noise (self : VadInstT) (c : Nat) (n s : Int) (hc : c < 6)
    (hn : self.noise_means.length = 12) (hs : self.speech_means.length = 12)
    (h0 : -8000 ≤ self.noise_means.getD c 0 ∧ self.noise_means.getD c 0 ≤ 32767)
    (h1 : -8000 ≤ self.noise_means.getD (c + 6) 0 ∧ self.noise_means.getD (c + 6) 0 ≤ 32767) :
    (GmmProbability_limit self c n s).noise_means.length = 12 ∧
    (GmmProbability_limit self c n s).speech_means.length = 12 ∧
    (∀ g, g ≠ c → g ≠ c + 6 →
      (GmmProbability_limit self c n s).noise_means.getD g 0 = self.noise_means.getD g 0) ∧
    (GmmProbability_limit self c n s).noise_means.getD c 0 ≤ self.noise_means.getD c 0 ∧
    (GmmProbability_limit self c n s).noise_means.getD (c + 6) 0 ≤
      self.noise_means.getD (c + 6) 0 := by
  obtain ⟨-, ⟨mn0, mn1⟩, -⟩ := table_bounds c hc
  have n1 : ¬ (c + 6 = c) := by omega
  have hsl : ∀ d, (GmmProbability_shiftMeans self.speech_means c d).length = 12 := fun d =>
    (shiftMeans_spec self.speech_means c d (by omega)).1.trans hs
  have key : ∀ d : Int, 0 < d → d ≤ 24191 →
      (GmmProbability_shiftMeans self.noise_means c d).length = 12 ∧
      (∀ g, g ≠ c → g ≠ c + 6 →
        (GmmProbability_shiftMeans self.noise_means c d).getD g 0 = self.noise_means.getD g 0) ∧
      (GmmProbability_shiftMeans self.noise_means c d).getD c 0 ≤ self.noise_means.getD c 0 ∧
      (GmmProbability_shiftMeans self.noise_means c d).getD (c + 6) 0 ≤
        self.noise_means.getD (c + 6) 0 := by
    intro d d0 d1
    obtain ⟨e1, e2⟩ := shiftMeans_spec self.noise_means c d (by omega)
    refine ⟨e1.trans hn, ?_, ?_, ?_⟩
    · intro g g1 g2
      rw [e2, if_neg g1, if_neg g2]
    · rw [e2, if_pos rfl]
      unfold wrap16
      omega
    · rw [e2, if_neg n1, if_pos rfl]
      unfold wrap16
      omega
  have hd : ∀ x : Int, wrap16 x > kMaximumNoise.getD c 0 →
      0 < wrap16 (wrap16 x - kMaximumNoise.getD c 0) ∧
      wrap16 (wrap16 x - kMaximumNoise.getD c 0) ≤ 24191 := by
    intro x hx
    have b0 : -32768 ≤ wrap16 x := by unfold wrap16; omega
    have b1 : wrap16 x ≤ 32767 := by unfold wrap16; omega
    rw [wrap16_of_range (wrap16 x - kMaximumNoise.getD c 0) (by omega) (by omega)]
    omega
  unfold GmmProbability_limit
  simp only []
  split_ifs with c1 c2 c2
  · obtain ⟨k1, k2, k3, k4⟩ := key _ (hd _ c1).1 (hd _ c1).2
    exact ⟨k1, hsl _, k2, k3, k4⟩
  · obtain ⟨k1, k2, k3, k4⟩ := key _ (hd _ c1).1 (hd _ c1).2
    exact ⟨k1, hs, k2, k3, k4⟩
  · exact ⟨hn, hsl _, fun _ _ _ => rfl, le_refl _, le_refl _⟩
  · exact ⟨hn, hs, fun _ _ _ => rfl, le_refl _, le_refl _⟩

theorem updateGaussian_speech_length (spl : Spl) (features : List Int) (sc : GmmScratch)
    (vadflag : Int) (channel : Nat) (feature_minimum tmp1_s16 maxspe : Int) (self : VadInstT)
    (k : Nat) :
    (GmmProbability_updateGaussian spl features sc vadflag channel feature_minimum tmp1_s16
      maxspe self k).speech_means.length = self.speech_means.length := by
  by_cases hv : vadflag ≠ 0
  · simp only [GmmProbability_updateGaussian, if_pos hv, List.length_set]
  · simp only [GmmProbability_updateGaussian, if_neg hv]

theorem FindMinimum_means (s : VadInstT) (fv : Int) (channel : Nat) :
    (WebRtcVad_FindMinimum s fv channel).1.noise_means = s.noise_means ∧
    (WebRtcVad_FindMinimum s fv channel).1.speech_means = s.speech_means := by
  simp only [WebRtcVad_FindMinimum, and_self]

theorem update_stages (spl : Spl) (features : List Int) (sc : GmmScratch) (vadflag : Int)
    (st : VadInstT × Int) (channel : Nat) :
    ∃ (s1 : VadInstT) (fm t : Int),
      s1.noise_means = (WeightedAverage st.1.noise_means channel 0 kNoiseDataWeights).1 ∧
      s1.speech_means = st.1.speech_means ∧
      (GmmProbability_update spl features sc vadflag st channel).1 =
        GmmProbability_limit
          (GmmProbability_separate
            (GmmProbability_updateGaussian spl features sc vadflag channel fm t st.2
              (GmmProbability_updateGaussian spl features sc vadflag channel fm t st.2 s1 0) 1)
            channel).1 channel
          (GmmProbability_separate
            (GmmProbability_updateGaussian spl features sc vadflag channel fm t st.2
              (GmmProbability_updateGaussian spl features sc vadflag channel fm t st.2 s1 0) 1)
            channel).2.1
          (GmmProbability_separate
            (GmmProbability_updateGaussian spl features sc vadflag channel fm t st.2
              (GmmProbability_updateGaussian spl features sc vadflag channel fm t st.2 s1 0) 1)
            channel).2.2 := by
  have hr : List.range kNumGaussians = [0, 1] := rfl
  obtain ⟨f1, f2⟩ := FindMinimum_means st.1 (features.getD channel 0) channel
  refine ⟨{ (WebRtcVad_FindMinimum st.1 (features.getD channel 0) channel).1 with
      noise_means := (WeightedAverage
        (WebRtcVad_FindMinimum st.1 (features.getD channel 0) channel).1.noise_means channel 0
        kNoiseDataWeights).1 },
    (WebRtcVad_FindMinimum st.1 (features.getD channel 0) channel).2,
    wrap16 ((WeightedAverage
        (WebRtcVad_FindMinimum st.1 (features.getD channel 0) channel).1.noise_means channel 0
        kNoiseDataWeights).2 / 64), ?_, ?_, ?_⟩
  rotate_left 2
  · simp only [GmmProbability_update, hr, List.foldl_cons, List.foldl_nil]
  · simp only [f1]
  · simp only [f2]

theorem update_NoiseInv (spl : Spl) (features : List Int) (sc : GmmScratch) (vadflag : Int)
    (st : VadInstT × Int) (channel : Nat) (hc : channel < kNumChannels) (h : NoiseInv st.1) :
    NoiseInv (GmmProbability_update spl features sc vadflag st channel).1 := by
  have hc6 : channel < 6 := hc
  obtain ⟨hn, hs, hb⟩ := h
  obtain ⟨s1, fm, t, e1, e2, e3⟩ := update_stages spl features sc vadflag st channel
  rw [e3]
  obtain ⟨a1, a2, -⟩ := WeightedAverage_spec st.1.noise_means channel 0 kNoiseDataWeights
    (by omega)
  obtain ⟨v0, p0, q0, g0⟩ := updateGaussian_noise_means spl features sc vadflag channel fm t
    st.2 s1 0 (by decide) hc
  obtain ⟨v1, p1, q1, g1⟩ := updateGaussian_noise_means spl features sc vadflag channel fm t
    st.2 (GmmProbability_updateGaussian spl features sc vadflag channel fm t st.2 s1 0) 1
    (by decide) hc
  have l0 := updateGaussian_speech_length spl features sc vadflag channel fm t st.2 s1 0
  have l1 := updateGaussian_speech_length spl features sc vadflag channel fm t st.2
    (GmmProbability_updateGaussian spl features sc vadflag channel fm t st.2 s1 0) 1
  generalize GmmProbability_updateGaussian spl features sc vadflag channel fm t st.2
    (GmmProbability_updateGaussian spl features sc vadflag channel fm t st.2 s1 0) 1 = S3
    at g1 l1 ⊢
  generalize GmmProbability_updateGaussian spl features sc vadflag channel fm t st.2 s1 0 = S2
    at g0 g1 l0 l1
  have k0 : channel + 0 * kNumChannels = channel := by simp
  have k1 : channel + 1 * kNumChannels = channel + 6 := by simp [kNumChannels]
  rw [k1, g0, k0, e1] at g1
  have hlen : S3.noise_means.length = 12 := by
    rw [g1, List.length_set, List.length_set, a1, hn]
  have hslen : S3.speech_means.length = 12 := by
    rw [l1, l0, e2, hs]
  have hget : ∀ g, S3.noise_means.getD g 0 =
      if g = channel + 6 then v1 else if g = channel then v0 else st.1.noise_means.getD g 0 := by
    intro g
    rw [g1, getD_set, getD_set, List.length_set, a1]
    by_cases c1 : g = channel + 6
    · have c1' : g = channel + 6 ∧ channel + 6 < st.1.noise_means.length := ⟨c1, by omega⟩
      rw [if_pos c1', if_pos c1]
    · have c1' : ¬ (g = channel + 6 ∧ channel + 6 < st.1.noise_means.length) := fun hh => c1 hh.1
      rw [if_neg c1', if_neg c1]
      by_cases c2 : g = channel
      · have c2' : g = channel ∧ channel < st.1.noise_means.length := ⟨c2, by omega⟩
        rw [if_pos c2', if_pos c2]
      · have c2' : ¬ (g = channel ∧ channel < st.1.noise_means.length) := fun hh => c2 hh.1
        rw [if_neg c2', if_neg c2, a2, if_neg c2, if_neg c1]
  have n1 : ¬ (channel = channel + 6) := by omega
  have x0 : S3.noise_means.getD channel 0 = v0 := by
    rw [hget, if_neg n1, if_pos rfl]
  have x1 : S3.noise_means.getD (channel + 6) 0 = v1 := by
    rw [hget, if_pos rfl]
  simp only [Nat.cast_zero, Nat.cast_one] at p0 q0 p1 q1
  obtain ⟨s1a, s1b, s1c, s1d, s1e⟩ := separate_noise S3 channel hc6 hlen hslen
    (by rw [x0]; omega) (by rw [x1]; omega)
  rw [x0] at s1d
  rw [x1] at s1e
  obtain ⟨t1a, t1b, t1c, t1d, t1e⟩ := limit_noise (GmmProbability_separate S3 channel).1 channel
    (GmmProbability_separate S3 channel).2.1 (GmmProbability_separate S3 channel).2.2 hc6 s1a s1b
    (by omega) (by omega)
  refine ⟨t1a, t1b, ?_⟩
  intro c k hcc hk
  have hcc6 : c < 6 := hcc
  have hk2 : k < 2 := hk
  have hold := hb c k hcc hk
  have kk : c + k * kNumChannels = c + k * 6 := rfl
  rw [kk] at hold ⊢
  by_cases d1 : c + k * 6 = channel
  · have dk : k = 0 := by omega
    have dc : c = channel := by omega
    subst dk
    rw [d1]
    subst dc
    simp only [Nat.cast_zero]
    omega
  · by_cases d2 : c + k * 6 = channel + 6
    · have dk : k = 1 := by omega
      have dc : c = channel := by omega
      subst dk
      rw [d2]
      subst dc
      simp only [Nat.cast_one]
      omega
    · rw [t1c _ d1 d2, s1c _ d1 d2, hget, if_neg d2, if_neg d1]
      exact hold

theorem GmmProbability_lift (spl : Spl) (P : VadInstT → Prop)
    (hcongr : ∀ a b : VadInstT, modelState a = modelState b → P a → P b)
    (hstep : ∀ (features : List Int) (sc : GmmScratch) (vadflag : Int) (st : VadInstT × Int)
      (channel : Nat), channel < kNumChannels → P st.1 →
      P (GmmProbability_update spl features sc vadflag st channel).1)
    (s : VadInstT) (features : List Int) (total_power : Int) (n : Nat) (h : P s) :
    P (GmmProbability spl s features total_power n).1 :=
  hcongr _ _ (hysteresis_modelState _ _ _ _).symm
    (raw_lift spl P hcongr hstep s features total_power n h)

theorem NoiseInv_congr (a b : VadInstT) (h : modelState a = modelState b) (ha : NoiseInv a) :
    NoiseInv b := by
  simp only [modelState, Prod.mk.injEq] at h
  unfold NoiseInv at ha ⊢
  rw [← h.1, ← h.2.1]
  exact ha

theorem initState_NoiseInv : NoiseInv initState := by
  refine ⟨rfl, rfl, ?_⟩
  intro c k hc hk
  have hc' : c < 6 := hc
  have hk' : k < 2 := hk
  interval_cases c <;> interval_cases k <;> decide

/-- C16, amended (noise-mean clamp): the model update of Gaussian `k` of a
channel writes a noise mean in `[(k + 5) * 128, (72 + k - channel) * 128]`; the
upper bound `noise_means[channel + 6 * k] <= (72 + k - channel) * 128` holds in
every state reachable from Init, and one classification step keeps it, for
every feature vector and total power, from any state that satisfies it (with
mean tables of 12 entries). -/
theorem noise_mean_clamp (spl : Spl) (s : VadInstT) (h : Reachable spl s) :
    (∀ c k : Nat, c < kNumChannels → k < kNumGaussians →
      s.noise_means.getD (c + k * kNumChannels) 0 ≤ (72 + (k : Int) - (c : Int)) * 128) ∧
    (∀ (s' : VadInstT) (features : List Int) (total_power : Int) (frame_length : Nat),
      NoiseInv s' → NoiseInv (GmmProbability spl s' features total_power frame_length).1) ∧
    (∀ (features : List Int) (sc : GmmScratch) (vadflag : Int) (channel : Nat)
      (feature_minimum tmp1_s16 maxspe : Int) (self : VadInstT) (k : Nat),
      k < kNumGaussians → channel < kNumChannels →
      ∃ v : Int, ((k : Int) + 5) * 128 ≤ v ∧ v ≤ (72 + (k : Int) - (channel : Int)) * 128 ∧
        (GmmProbability_updateGaussian spl features sc vadflag channel feature_minimum
          tmp1_s16 maxspe self k).noise_means =
          self.noise_means.set (channel + k * kNumChannels) v) := by
  refine ⟨?_, ?_, ?_⟩
  · exact (Reachable_lift spl NoiseInv NoiseInv_congr initState_NoiseInv
      (fun features sc vadflag st channel hc hst =>
        update_NoiseInv spl features sc vadflag st channel hc hst) s h).2.2
  · intro s' features total_power frame_length hs
    exact GmmProbability_lift spl NoiseInv NoiseInv_congr
      (fun features sc vadflag st channel hc hst =>
        update_NoiseInv spl features sc vadflag st channel hc hst) s' features total_power
      frame_length hs
  · intro features sc vadflag channel fm t m self k hk hc
    exact updateGaussian_noise_means spl features sc vadflag channel fm t m self k hk hc

theorem noise_mean_clamp_witness :
    Reachable splRef initState ∧
    initState.noise_means.getD (0 + 0 * kNumChannels) 0 ≤ (72 + ((0 : Nat) : Int) - ((0 : Nat) : Int)) * 128 :=
  ⟨Reachable.init zeroInst initState rfl,
    (noise_mean_clamp splRef initState (Reachable.init zeroInst initState rfl)).1 0 0
      (by decide) (by decide)⟩

/-- C16, counterexample: in `lowState` every noise mean is within its bound (it
sits on the lower clamp); one classification step with the features all 0 and
total power 11 leaves `noise_means[0]` = 230, below the lower bound 640. -/
theorem noise_mean_clamp_counterexample :
    (∀ c : Nat, c < 6 → ∀ k : Nat, k < 2 →
      ((k : Int) + 5) * 128 ≤ lowState.noise_means.getD (c + k * 6) 0 ∧
      lowState.noise_means.getD (c + k * 6) 0 ≤ (72 + (k : Int) - (c : Int)) * 128) ∧
    (GmmProbability splRef lowState [0, 0, 0, 0, 0, 0] 11 80).1.noise_means.getD 0 0 = 230 ∧
    ¬ ((((0 : Nat) : Int) + 5) * 128 ≤
      (GmmProbability splRef lowState [0, 0, 0, 0, 0, 0] 11 80).1.noise_means.getD 0 0) := by
  have hv : (GmmProbability splRef lowState [0, 0, 0, 0, 0, 0] 11 80).1.noise_means.getD 0 0 =
      230 := by
    decide!
  refine ⟨by decide, hv, ?_⟩
  rw [hv]
  decide

theorem updateGaussian_speech_means (spl : Spl) (features : List Int) (sc : GmmScratch)
    (vadflag : Int) (channel : Nat) (feature_minimum tmp1_s16 maxspe : Int) (self : VadInstT)
    (k : Nat) (hk : k < kNumGaussians) (h0 : 128 ≤ maxspe) (h1 : maxspe ≤ 32127) :
    (vadflag = 0 →
      (GmmProbability_updateGaussian spl features sc vadflag channel feature_minimum tmp1_s16
        maxspe self k).speech_means = self.speech_means) ∧
    (vadflag ≠ 0 →
      ∃ v : Int, kMinimumMean.getD k 0 ≤ v ∧ v ≤ maxspe + 640 ∧
        (GmmProbability_updateGaussian spl features sc vadflag channel feature_minimum tmp1_s16
          maxspe self k).speech_means = self.speech_means.set (channel + k * kNumChannels) v) := by
  have hk' : k < 2 := hk
  have hm : wrap16 (maxspe + 640) = maxspe + 640 := wrap16_of_range _ (by omega) (by omega)
  have hle : kMinimumMean.getD k 0 ≤ maxspe + 640 := by
    interval_cases k
    · show (640 : Int) ≤ _
      omega
    · show (768 : Int) ≤ _
      omega
  constructor
  · intro hv
    have hn : ¬ (vadflag ≠ 0) := fun h => h hv
    simp only [GmmProbability_updateGaussian, if_neg hn]
  · intro hv
    simp only [GmmProbability_updateGaussian, if_pos hv, hm]
    exact ⟨_, (clamp_bounds _ _ _ hle).1, (clamp_bounds _ _ _ hle).2, rfl⟩

theorem update_maxspe (spl : Spl) (features : List Int) (sc : GmmScratch) (vadflag : Int)
    (st : VadInstT × Int) (channel : Nat) :
    (GmmProbability_update spl features sc vadflag st channel).2 =
      kMaximumSpeech.getD channel 0 := by
  simp only [GmmProbability_update]

theorem set_fold_values (P : Int → Prop) (g : Nat → Nat) (h : Nat → Nat) (l : List Nat) :
    ∀ a : List Int, (∀ t, P (a.getD t 0)) →
      ∀ t, P ((l.foldl (fun (a : List Int) j => a.set (g j) (a.getD (h j) 0)) a).getD t 0) := by
  induction l with
  | nil => intro a ha; exact ha
  | cons b l ih =>
    intro a ha
    refine ih _ ?_
    intro t
    rw [getD_set]
    split_ifs
    · exact ha _
    · exact ha _

theorem ageStep_values (P : Int → Prop) (h10000 : P 10000) (o i : Nat)
    (st : List Int × List Int) (h : ∀ t, P (st.2.getD t 0)) :
    ∀ t, P ((FindMinimum_ageStep o st i).2.getD t 0) := by
  intro t
  by_cases hne : st.1.getD (o + i) 0 ≠ 100
  · simp only [FindMinimum_ageStep, if_pos hne]
    exact h t
  · simp only [FindMinimum_ageStep, if_neg hne, shiftDown_fold_snd]
    rw [getD_set]
    split_ifs
    · exact h10000
    · exact set_fold_values P (fun j => o + j) (fun j => o + j + 1) _ st.2 h t

theorem insert_values (P : Int → Prop) (o : Nat) (fv pos : Int) (hfv : P fv)
    (st : List Int × List Int) (h : ∀ t, P (st.2.getD t 0)) :
    ∀ t, P ((FindMinimum_insert o fv pos st).2.getD t 0) := by
  intro t
  by_cases hp : pos > -1
  · simp only [FindMinimum_insert, if_pos hp, shiftUp_fold_snd]
    rw [getD_set]
    split_ifs
    · exact hfv
    · exact set_fold_values P (fun j => o + j) (fun j => o + j - 1) _ st.2 h t
  · simp only [FindMinimum_insert, if_neg hp]
    exact h t

/-- Every value of the tracker array after a call of `WebRtcVad_FindMinimum` is
a value it held before, the sentinel 10000, or the feature value: a property of
all of these holds for every slot afterwards. -/
theorem FindMinimum_values (P : Int → Prop) (h10000 : P 10000) (s : VadInstT) (fv : Int)
    (channel : Nat) (hfv : P fv) (h : ∀ t, P ((trackerState s).2.getD t 0)) :
    ∀ t, P ((trackerState (WebRtcVad_FindMinimum s fv channel).1).2.getD t 0) := by
  rw [FindMinimum_trackerState]
  apply insert_values P _ _ _ hfv
  apply foldl_invariant_mem (fun r : List Int × List Int => ∀ t, P (r.2.getD t 0))
  · intro a b _ ha
    exact ageStep_values P h10000 _ b a ha
  · exact h

theorem smoothing_range (alpha mean median : Int)
    (ha : alpha = 0 ∨ alpha = 6553 ∨ alpha = 32439)
    (hm : -32768 ≤ mean ∧ mean ≤ 32767) (hd : -32768 ≤ median ∧ median ≤ 32767) :
    wrap16 (((alpha + 1) * mean + (WEBRTC_SPL_WORD16_MAX - alpha) * median + 16384) / 32768) =
      ((alpha + 1) * mean + (32767 - alpha) * median + 16384) / 32768 := by
  have e : WEBRTC_SPL_WORD16_MAX = 32767 := rfl
  rw [e]
  apply wrap16_of_range
  · rcases ha with h | h | h <;> subst h <;> omega
  · rcases ha with h | h | h <;> subst h <;> omega

theorem FindMinimum_stages (s : VadInstT) (fv : Int) (channel : Nat) :
    ∃ (w : List Int × List Int) (median alpha : Int),
      trackerState (WebRtcVad_FindMinimum s fv channel).1 = w ∧
      median = (if s.frame_counter > 2 then w.2.getD (channel * 16 + 2) 0
        else if s.frame_counter > 0 then w.2.getD (channel * 16 + 0) 0 else 1600) ∧
      alpha = (if s.frame_counter > 0 then
        (if median < s.mean_value.getD channel 0 then kSmoothingDown else kSmoothingUp)
        else 0) ∧
      (WebRtcVad_FindMinimum s fv channel).2 =
        wrap16 (((alpha + 1) * s.mean_value.getD channel 0 +
          (WEBRTC_SPL_WORD16_MAX - alpha) * median + 16384) / 32768) ∧
      (WebRtcVad_FindMinimum s fv channel).1.mean_value =
        s.mean_value.set channel (wrap16 (((alpha + 1) * s.mean_value.getD channel 0 +
          (WEBRTC_SPL_WORD16_MAX - alpha) * median + 16384) / 32768)) := by
  refine ⟨_, _, _, FindMinimum_trackerState s fv channel, rfl, rfl, ?_, ?_⟩
  · simp only [WebRtcVad_FindMinimum, trackerState]
  · simp only [WebRtcVad_FindMinimum, trackerState]

/-- C21 (minimum selection and smoothing).  For a channel of the mean array, a
non-negative frame counter and 16-bit contents (the mean, the tracked values,
the feature value), `WebRtcVad_FindMinimum` returns the smoothed minimum of the
specification, computed from the window after ageing and insertion: the third
value `low_value[2]` when `frame_counter >= 3`, the first value `low_value[0]`
when it is 1 or 2, the default 1600 when it is 0, smoothed with weight 6553
below the mean and 32439 otherwise (0 at frame counter 0); the same value is
stored in `mean_value[channel]`, and the other channels keep their means. -/
theorem FindMinimum_smoothing (s : VadInstT) (fv : Int) (channel : Nat)
    (hc : channel < s.mean_value.length) (hfc : 0 ≤ s.frame_counter)
    (hmean : -32768 ≤ s.mean_value.getD channel 0 ∧ s.mean_value.getD channel 0 ≤ 32767)
    (hlow : ∀ t, -32768 ≤ s.low_value_vector.getD t 0 ∧ s.low_value_vector.getD t 0 ≤ 32767)
    (hfv : -32768 ≤ fv ∧ fv ≤ 32767) :
    (WebRtcVad_FindMinimum s fv channel).2 =
      smoothedMinimum s.frame_counter (s.mean_value.getD channel 0)
        ((WebRtcVad_FindMinimum s fv channel).1.low_value_vector.getD (channel * 16 + 0) 0)
        ((WebRtcVad_FindMinimum s fv channel).1.low_value_vector.getD (channel * 16 + 2) 0) ∧
    (WebRtcVad_FindMinimum s fv channel).1.mean_value.getD channel 0 =
      (WebRtcVad_FindMinimum s fv channel).2 ∧
    ∀ c, c ≠ channel →
      (WebRtcVad_FindMinimum s fv channel).1.mean_value.getD c 0 = s.mean_value.getD c 0 := by
  have hv := FindMinimum_values (fun x => -32768 ≤ x ∧ x ≤ 32767) (by decide) s fv channel hfv hlow
  obtain ⟨w, median, alpha, hw, hmed, halpha, hres, hmv⟩ := FindMinimum_stages s fv channel
  rw [hw] at hv
  have hlv : (WebRtcVad_FindMinimum s fv channel).1.low_value_vector = w.2 := by
    rw [← hw, trackerState_snd]
  rw [hlv, hmv, hres]
  have h0 := hv (channel * 16 + 0)
  have h2 := hv (channel * 16 + 2)
  generalize w.2.getD (channel * 16 + 0) 0 = l0 at h0 hmed ⊢
  generalize w.2.getD (channel * 16 + 2) 0 = l2 at h2 hmed ⊢
  refine ⟨?_, ?_, ?_⟩
  · simp only [smoothedMinimum, selectedMinimum, smoothingAlpha, shr]
    rw [kSmoothingDown, kSmoothingUp] at halpha
    by_cases c2 : s.frame_counter > 2
    · have c0 : s.frame_counter > 0 := by omega
      have c3 : s.frame_counter ≥ 3 := by omega
      have cz : ¬ s.frame_counter = 0 := by omega
      rw [if_pos c2] at hmed
      rw [if_pos c0] at halpha
      subst hmed
      simp only [if_pos c3, if_neg cz]
      by_cases cm : median < s.mean_value.getD channel 0
      · rw [if_pos cm] at halpha
        subst halpha
        simp only [if_pos cm]
        exact smoothing_range 6553 _ _ (Or.inr (Or.inl rfl)) hmean h2
      · rw [if_neg cm] at halpha
        subst halpha
        simp only [if_neg cm]
        exact smoothing_range 32439 _ _ (Or.inr (Or.inr rfl)) hmean h2
    · by_cases c0 : s.frame_counter > 0
      · have c3 : ¬ s.frame_counter ≥ 3 := by omega
        have c12 : s.frame_counter = 1 ∨ s.frame_counter = 2 := by omega
        have cz : ¬ s.frame_counter = 0 := by omega
        rw [if_neg c2, if_pos c0] at hmed
        rw [if_pos c0] at halpha
        subst hmed
        simp only [if_neg c3, if_pos c12, if_neg cz]
        by_cases cm : median < s.mean_value.getD channel 0
        · rw [if_pos cm] at halpha
          subst halpha
          simp only [if_pos cm]
          exact smoothing_range 6553 _ _ (Or.inr (Or.inl rfl)) hmean h0
        · rw [if_neg cm] at halpha
          subst halpha
          simp only [if_neg cm]
          exact smoothing_range 32439 _ _ (Or.inr (Or.inr rfl)) hmean h0
      · have c3 : ¬ s.frame_counter ≥ 3 := by omega
        have c12 : ¬ (s.frame_counter = 1 ∨ s.frame_counter = 2) := by omega
        have cz : s.frame_counter = 0 := by omega
        rw [if_neg c2, if_neg c0] at hmed
        rw [if_neg c0] at halpha
        subst hmed halpha
        simp only [if_neg c3, if_neg c12, if_pos cz]
        exact smoothing_range 0 _ _ (Or.inl rfl) hmean (by decide)
  · rw [getD_set]
    simp only [hc, and_self, if_true]
  · intro c hne
    rw [getD_set]
    have : ¬ (c = channel ∧ channel < s.mean_value.length) := fun h => hne h.1
    rw [if_neg this]

theorem FindMinimum_smoothing_witness :
    (WebRtcVad_FindMinimum { initState with frame_counter := 3 } 500 0).2 =
      smoothedMinimum 3 1600
        ((WebRtcVad_FindMinimum { initState with frame_counter := 3 } 500 0).1.low_value_vector.getD
          (0 * 16 + 0) 0)
        ((WebRtcVad_FindMinimum { initState with frame_counter := 3 } 500 0).1.low_value_vector.getD
          (0 * 16 + 2) 0) :=
  (FindMinimum_smoothing { initState with frame_counter := 3 } 500 0 (by decide) (by decide)
    (by decide) (fun t => by
      have h : ({ initState with frame_counter := 3 } : VadInstT).low_value_vector =
        List.replicate 96 10000 := rfl
      rw [h, List.getD_eq_getElem?_getD]
      by_cases ht : t < 96
      · rw [List.getElem?_replicate, if_pos ht]; decide
      · rw [List.getElem?_eq_none (by simp; omega)]; decide) (by decide)).1

/-! ## The raw decision of the classifier -/

theorem wrap16_bounds (x : Int) : -32768 ≤ wrap16 x ∧ wrap16 x ≤ 32767 := by
  unfold wrap16
  omega

theorem wrap32_of_range (x : Int) (h1 : -2147483648 ≤ x) (h2 : x ≤ 2147483647) :
    wrap32 x = x := by
  unfold wrap32
  omega

theorem llr_bounds (spl : Spl) (self : VadInstT) (features : List Int) (channel : Nat) :
    -32768 ≤ GmmProbability_llr spl self features channel ∧
      GmmProbability_llr spl self features channel ≤ 32767 := by
  unfold GmmProbability_llr
  exact wrap16_bounds _

theorem test_vadflag_eq (spl : Spl) (self : VadInstT) (features : List Int) (individualTest : Int)
    (sc : GmmScratch) (channel : Nat) :
    (GmmProbability_test spl self features individualTest sc channel).vadflag =
      if GmmProbability_llr spl self features channel * 4 > individualTest then 1
      else sc.vadflag := by
  simp only [GmmProbability_test, GmmProbability_llr, GmmProbability_h0, GmmProbability_h1]

theorem test_sum_eq (spl : Spl) (self : VadInstT) (features : List Int) (individualTest : Int)
    (sc : GmmScratch) (channel : Nat) :
    (GmmProbability_test spl self features individualTest sc channel).sum_log_likelihood_ratios =
      wrap32 (sc.sum_log_likelihood_ratios +
        GmmProbability_llr spl self features channel * kSpectrumWeight.getD channel 0) := by
  simp only [GmmProbability_test, GmmProbability_llr, GmmProbability_h0, GmmProbability_h1]

theorem testLoop_vadflag (spl : Spl) (self : VadInstT) (features : List Int)
    (individualTest : Int) :
    ((List.range kNumChannels).foldl (GmmProbability_test spl self features individualTest)
        GmmScratch.init).vadflag =
      if ∃ c, c < kNumChannels ∧ 4 * GmmProbability_llr spl self features c > individualTest
      then 1 else 0 := by
  have hr : List.range kNumChannels = [0, 1, 2, 3, 4, 5] := rfl
  have hk : kNumChannels = 6 := rfl
  rw [hr]
  simp only [List.foldl_cons, List.foldl_nil, test_vadflag_eq]
  have h0 : GmmScratch.init.vadflag = 0 := rfl
  rw [h0, hk]
  generalize GmmProbability_llr spl self features = l
  by_cases c5 : l 5 * 4 > individualTest
  · rw [if_pos c5, if_pos ⟨5, by norm_num, by omega⟩]
  rw [if_neg c5]
  by_cases c4 : l 4 * 4 > individualTest
  · rw [if_pos c4, if_pos ⟨4, by norm_num, by omega⟩]
  rw [if_neg c4]
  by_cases c3 : l 3 * 4 > individualTest
  · rw [if_pos c3, if_pos ⟨3, by norm_num, by omega⟩]
  rw [if_neg c3]
  by_cases c2 : l 2 * 4 > individualTest
  · rw [if_pos c2, if_pos ⟨2, by norm_num, by omega⟩]
  rw [if_neg c2]
  by_cases c1 : l 1 * 4 > individualTest
  · rw [if_pos c1, if_pos ⟨1, by norm_num, by omega⟩]
  rw [if_neg c1]
  by_cases c0 : l 0 * 4 > individualTest
  · rw [if_pos c0, if_pos ⟨0, by norm_num, by omega⟩]
  rw [if_neg c0]
  have hn : ¬ ∃ c, c < 6 ∧ 4 * l c > individualTest := by
    rintro ⟨c, hc, hl⟩
    have : c = 0 ∨ c = 1 ∨ c = 2 ∨ c = 3 ∨ c = 4 ∨ c = 5 := by omega
    rcases this with h | h | h | h | h | h <;> subst h <;> omega
  rw [if_neg hn]

theorem testLoop_sum (spl : Spl) (self : VadInstT) (features : List Int)
    (individualTest : Int) :
    ((List.range kNumChannels).foldl (GmmProbability_test spl self features individualTest)
        GmmScratch.init).sum_log_likelihood_ratios =
      weightedLlrSum (GmmProbability_llr spl self features) := by
  have hr : List.range kNumChannels = [0, 1, 2, 3, 4, 5] := rfl
  unfold weightedLlrSum
  rw [hr]
  simp only [List.foldl_cons, List.foldl_nil, test_sum_eq, List.map_cons, List.map_nil,
    List.sum_cons, List.sum_nil]
  have h0 : GmmScratch.init.sum_log_likelihood_ratios = 0 := rfl
  have w0 : kSpectrumWeight.getD 0 0 = 6 := rfl
  have w1 : kSpectrumWeight.getD 1 0 = 8 := rfl
  have w2 : kSpectrumWeight.getD 2 0 = 10 := rfl
  have w3 : kSpectrumWeight.getD 3 0 = 12 := rfl
  have w4 : kSpectrumWeight.getD 4 0 = 14 := rfl
  have w5 : kSpectrumWeight.getD 5 0 = 16 := rfl
  rw [h0, w0, w1, w2, w3, w4, w5]
  have b0 := llr_bounds spl self features 0
  have b1 := llr_bounds spl self features 1
  have b2 := llr_bounds spl self features 2
  have b3 := llr_bounds spl self features 3
  have b4 := llr_bounds spl self features 4
  have b5 := llr_bounds spl self features 5
  generalize GmmProbability_llr spl self features = l at b0 b1 b2 b3 b4 b5 ⊢
  rw [wrap32_of_range (0 + l 0 * 6) (by omega) (by omega)]
  rw [wrap32_of_range (0 + l 0 * 6 + l 1 * 8) (by omega) (by omega)]
  rw [wrap32_of_range (0 + l 0 * 6 + l 1 * 8 + l 2 * 10) (by omega) (by omega)]
  rw [wrap32_of_range (0 + l 0 * 6 + l 1 * 8 + l 2 * 10 + l 3 * 12) (by omega) (by omega)]
  rw [wrap32_of_range (0 + l 0 * 6 + l 1 * 8 + l 2 * 10 + l 3 * 12 + l 4 * 14) (by omega)
    (by omega)]
  rw [wrap32_of_range (0 + l 0 * 6 + l 1 * 8 + l 2 * 10 + l 3 * 12 + l 4 * 14 + l 5 * 16)
    (by omega) (by omega)]
  omega

theorem raw_snd (spl : Spl) (self : VadInstT) (features : List Int) (total_power : Int)
    (frame_length : Nat) (h : total_power > kMinEnergy) :
    (GmmProbability_raw spl self features total_power frame_length).2 =
      if ((List.range kNumChannels).foldl (GmmProbability_test spl self features
            (GmmProbability_thresholds self frame_length).2.2.1)
            GmmScratch.init).sum_log_likelihood_ratios ≥
          (GmmProbability_thresholds self frame_length).2.2.2 then 1
      else ((List.range kNumChannels).foldl (GmmProbability_test spl self features
            (GmmProbability_thresholds self frame_length).2.2.1) GmmScratch.init).vadflag := by
  simp only [GmmProbability_raw, if_pos h]

/-- C24 (raw decision rule), as the code has it.  In a frame with
`total_power > kMinEnergy` the raw decision of `GmmProbability` is 0 or 1, and
it is 1 if and only if some channel has four times its log-likelihood ratio
strictly above the local threshold of the frame length, or the sum of the
ratios weighted by `kSpectrumWeight` is at least the global threshold: the
global comparison is `>=`, so a sum equal to the threshold votes for speech. -/
theorem raw_decision_rule (spl : Spl) (self : VadInstT) (features : List Int)
    (total_power : Int) (frame_length : Nat) (h : total_power > kMinEnergy) :
    ((GmmProbability_raw spl self features total_power frame_length).2 = 1 ↔
      ((∃ c, c < kNumChannels ∧ 4 * GmmProbability_llr spl self features c >
          (GmmProbability_thresholds self frame_length).2.2.1) ∨
        weightedLlrSum (GmmProbability_llr spl self features) ≥
          (GmmProbability_thresholds self frame_length).2.2.2)) ∧
    ((GmmProbability_raw spl self features total_power frame_length).2 = 0 ∨
      (GmmProbability_raw spl self features total_power frame_length).2 = 1) := by
  rw [raw_snd spl self features total_power frame_length h, testLoop_sum, testLoop_vadflag]
  by_cases c1 : weightedLlrSum (GmmProbability_llr spl self features) ≥
      (GmmProbability_thresholds self frame_length).2.2.2
  · rw [if_pos c1]
    exact ⟨⟨fun _ => Or.inr c1, fun _ => rfl⟩, Or.inr rfl⟩
  · rw [if_neg c1]
    by_cases c2 : ∃ c, c < kNumChannels ∧ 4 * GmmProbability_llr spl self features c >
        (GmmProbability_thresholds self frame_length).2.2.1
    · rw [if_pos c2]
      exact ⟨⟨fun _ => Or.inl c2, fun _ => rfl⟩, Or.inr rfl⟩
    · rw [if_neg c2]
      refine ⟨⟨fun h01 => absurd h01 (by decide), fun h01 => ?_⟩, Or.inl rfl⟩
      rcases h01 with h01 | h01
      · exact absurd h01 c2
      · exact absurd h01 c1

theorem raw_decision_rule_witness :
    (GmmProbability_raw splRef initState [2000, 2000, 2000, 2000, 2000, 700] 11 160).2 = 0 ∨
      (GmmProbability_raw splRef initState [2000, 2000, 2000, 2000, 2000, 700] 11 160).2 = 1 :=
  (raw_decision_rule splRef initState [2000, 2000, 2000, 2000, 2000, 700] 11 160
    (by decide)).2

/-- C24, counterexample: on the Init state with the feature vector
[2000, 2000, 2000, 2000, 2000, 700] and frame length 160 the channel ratios are
0, 0, 0, 0, 0, 3, so no channel exceeds the local threshold 21 and the weighted
sum is 48, equal to the global threshold 48 and not above it; the rule with a
strict global comparison gives 0, and the raw decision of the code is 1. -/
theorem raw_decision_rule_counterexample :
    (11 : Int) > kMinEnergy ∧
    (List.range kNumChannels).map (GmmProbability_llr splRef initState
      [2000, 2000, 2000, 2000, 2000, 700]) = [0, 0, 0, 0, 0, 3] ∧
    (GmmProbability_thresholds initState 160).2.2.1 = 21 ∧
    (GmmProbability_thresholds initState 160).2.2.2 = 48 ∧
    rawDecision_strict (GmmProbability_llr splRef initState [2000, 2000, 2000, 2000, 2000, 700])
      (GmmProbability_thresholds initState 160).2.2.1
      (GmmProbability_thresholds initState 160).2.2.2 = 0 ∧
    (GmmProbability_raw splRef initState [2000, 2000, 2000, 2000, 2000, 700] 11 160).2 = 1 := by
  refine ⟨by decide, by decide!, by decide, by decide, by decide!, by decide!⟩

/-! ## The responsibilities when a channel total vanishes -/

theorem test_ngprvec_eq (spl : Spl) (self : VadInstT) (features : List Int) (individualTest : Int)
    (sc : GmmScratch) (channel : Nat) :
    (GmmProbability_test spl self features individualTest sc channel).ngprvec =
      if wrap16 (GmmProbability_h0 spl self features channel / 4096) > 0 then
        (sc.ngprvec.set channel
          (wrap16 (spl.WebRtcSpl_DivW32W16
            (maskShiftQ29 (wrap32 (kNoiseDataWeights.getD channel 0 *
              (WebRtcVad_GaussianProbability spl (features.getD channel 0)
                (self.noise_means.getD channel 0) (self.noise_stds.getD channel 0)).1)))
            (wrap16 (GmmProbability_h0 spl self features channel / 4096))))).set
          (channel + kNumChannels)
          (wrap16 (16384 - wrap16 (spl.WebRtcSpl_DivW32W16
            (maskShiftQ29 (wrap32 (kNoiseDataWeights.getD channel 0 *
              (WebRtcVad_GaussianProbability spl (features.getD channel 0)
                (self.noise_means.getD channel 0) (self.noise_stds.getD channel 0)).1)))
            (wrap16 (GmmProbability_h0 spl self features channel / 4096)))))
      else sc.ngprvec.set channel 16384 := by
  simp only [GmmProbability_test, GmmProbability_h0]

theorem test_sgprvec_eq (spl : Spl) (self : VadInstT) (features : List Int) (individualTest : Int)
    (sc : GmmScratch) (channel : Nat) :
    (GmmProbability_test spl self features individualTest sc channel).sgprvec =
      if wrap16 (GmmProbability_h1 spl self features channel / 4096) > 0 then
        (sc.sgprvec.set channel
          (wrap16 (spl.WebRtcSpl_DivW32W16
            (maskShiftQ29 (wrap32 (kSpeechDataWeights.getD channel 0 *
              (WebRtcVad_GaussianProbability spl (features.getD channel 0)
                (self.speech_means.getD channel 0) (self.speech_stds.getD channel 0)).1)))
            (wrap16 (GmmProbability_h1 spl self features channel / 4096))))).set
          (channel + kNumChannels)
          (wrap16 (16384 - wrap16 (spl.WebRtcSpl_DivW32W16
            (maskShiftQ29 (wrap32 (kSpeechDataWeights.getD channel 0 *
              (WebRtcVad_GaussianProbability spl (features.getD channel 0)
                (self.speech_means.getD channel 0) (self.speech_stds.getD channel 0)).1)))
            (wrap16 (GmmProbability_h1 spl self features channel / 4096)))))
      else sc.sgprvec := by
  simp only [GmmProbability_test, GmmProbability_h1]

theorem getD_set_ne (l : List Int) (j i : Nat) (v : Int) (h : i ≠ j) :
    (l.set j v).getD i 0 = l.getD i 0 := by
  rw [getD_set]
  have x : ¬ (i = j ∧ j < l.length) := fun hh => h hh.1
  rw [if_neg x]

theorem getD_set_set_ne (l : List Int) (j1 j2 i : Nat) (a b : Int) (h1 : i ≠ j1) (h2 : i ≠ j2) :
    ((l.set j1 a).set j2 b).getD i 0 = l.getD i 0 := by
  rw [getD_set_ne _ _ _ _ h2, getD_set_ne _ _ _ _ h1]

/-- What the first `n` passes of the first channel loop of `GmmProbability`
leave in the responsibility tables: both keep their 12 entries; a channel
already visited whose noise denominator was not positive has the noise
responsibilities (16384, 0), one whose speech denominator was not positive has
the speech responsibilities (0, 0); a channel not yet visited has zeros. -/
theorem testLoop_responsibilities (spl : Spl) (self : VadInstT) (features : List Int)
    (individualTest : Int) (n : Nat) (hn : n ≤ kNumChannels) :
    ((List.range n).foldl (GmmProbability_test spl self features individualTest)
        GmmScratch.init).ngprvec.length = 12 ∧
    ((List.range n).foldl (GmmProbability_test spl self features individualTest)
        GmmScratch.init).sgprvec.length = 12 ∧
    ∀ c, c < kNumChannels →
      (c < n →
        (wrap16 (GmmProbability_h0 spl self features c / 4096) ≤ 0 →
          ((List.range n).foldl (GmmProbability_test spl self features individualTest)
            GmmScratch.init).ngprvec.getD c 0 = 16384 ∧
          ((List.range n).foldl (GmmProbability_test spl self features individualTest)
            GmmScratch.init).ngprvec.getD (c + kNumChannels) 0 = 0) ∧
        (wrap16 (GmmProbability_h1 spl self features c / 4096) ≤ 0 →
          ((List.range n).foldl (GmmProbability_test spl self features individualTest)
            GmmScratch.init).sgprvec.getD c 0 = 0 ∧
          ((List.range n).foldl (GmmProbability_test spl self features individualTest)
            GmmScratch.init).sgprvec.getD (c + kNumChannels) 0 = 0)) ∧
      (n ≤ c →
        ((List.range n).foldl (GmmProbability_test spl self features individualTest)
          GmmScratch.init).ngprvec.getD c 0 = 0 ∧
        ((List.range n).foldl (GmmProbability_test spl self features individualTest)
          GmmScratch.init).ngprvec.getD (c + kNumChannels) 0 = 0 ∧
        ((List.range n).foldl (GmmProbability_test spl self features individualTest)
          GmmScratch.init).sgprvec.getD c 0 = 0 ∧
        ((List.range n).foldl (GmmProbability_test spl self features individualTest)
          GmmScratch.init).sgprvec.getD (c + kNumChannels) 0 = 0) := by
  have hk : kNumChannels = 6 := rfl
  rw [hk] at hn ⊢
  induction n with
  | zero =>
    refine ⟨rfl, rfl, fun c hc => ⟨fun h => absurd h (Nat.not_lt_zero c), fun _ => ?_⟩⟩
    simp only [List.range_zero, List.foldl_nil]
    have e : GmmScratch.init.ngprvec = List.replicate 12 0 := rfl
    have e2 : GmmScratch.init.sgprvec = List.replicate 12 0 := rfl
    rw [e, e2]
    have hz : ∀ t, (List.replicate 12 (0 : Int)).getD t 0 = 0 := by
      intro t
      rw [List.getD_eq_getElem?_getD, List.getElem?_replicate]
      split_ifs <;> rfl
    exact ⟨hz _, hz _, hz _, hz _⟩
  | succ n ih =>
    obtain ⟨l1, l2, ih3⟩ := ih (by omega)
    rw [List.range_succ, List.foldl_append]
    simp only [List.foldl_cons, List.foldl_nil]
    generalize (List.range n).foldl (GmmProbability_test spl self features individualTest)
      GmmScratch.init = sc at l1 l2 ih3 ⊢
    rw [test_ngprvec_eq, test_sgprvec_eq]
    refine ⟨?_, ?_, ?_⟩
    · split_ifs <;> simp only [List.length_set, l1]
    · split_ifs <;> simp only [List.length_set, l2]
    · intro c hc
      have hcn := ih3 c hc
      have hnn := (ih3 n (by omega)).2 (le_refl n)
      constructor
      · intro hlt
        by_cases hcn' : c < n
        · -- an earlier channel: untouched by pass n
          obtain ⟨a1, a2⟩ := hcn.1 hcn'
          constructor
          · intro h0
            obtain ⟨b1, b2⟩ := a1 h0
            split_ifs
            · rw [getD_set_set_ne _ _ _ _ _ _ (by omega) (by omega),
                getD_set_set_ne _ _ _ _ _ _ (by omega) (by omega)]
              exact ⟨b1, b2⟩
            · rw [getD_set_ne _ _ _ _ (by omega), getD_set_ne _ _ _ _ (by omega)]
              exact ⟨b1, b2⟩
          · intro h1
            obtain ⟨b1, b2⟩ := a2 h1
            split_ifs
            · rw [getD_set_set_ne _ _ _ _ _ _ (by omega) (by omega),
                getD_set_set_ne _ _ _ _ _ _ (by omega) (by omega)]
              exact ⟨b1, b2⟩
            · exact ⟨b1, b2⟩
        · -- the channel of this pass
          have hcn2 : c = n := by omega
          subst hcn2
          constructor
          · intro h0
            have h0' : ¬ wrap16 (GmmProbability_h0 spl self features c / 4096) > 0 := by omega
            rw [if_neg h0', getD_set, getD_set_ne _ _ _ _ (by omega)]
            have x2 : (c = c ∧ c < sc.ngprvec.length) := by omega
            rw [if_pos x2]
            exact ⟨rfl, hnn.2.1⟩
          · intro h1
            have h1' : ¬ wrap16 (GmmProbability_h1 spl self features c / 4096) > 0 := by omega
            rw [if_neg h1']
            exact ⟨hnn.2.2.1, hnn.2.2.2⟩
      · intro hle
        obtain ⟨b1, b2, b3, b4⟩ := hcn.2 (by omega)
        refine ⟨?_, ?_, ?_, ?_⟩
        · split_ifs
          · rw [getD_set_set_ne _ _ _ _ _ _ (by omega) (by omega)]
            exact b1
          · rw [getD_set_ne _ _ _ _ (by omega)]
            exact b1
        · split_ifs
          · rw [getD_set_set_ne _ _ _ _ _ _ (by omega) (by omega)]
            exact b2
          · rw [getD_set_ne _ _ _ _ (by omega)]
            exact b2
        · split_ifs
          · rw [getD_set_set_ne _ _ _ _ _ _ (by omega) (by omega)]
            exact b3
          · exact b3
        · split_ifs
          · rw [getD_set_set_ne _ _ _ _ _ _ (by omega) (by omega)]
            exact b4
          · exact b4

/-- C25 (responsibility fallback), as the code has it.  After the first channel
loop of `GmmProbability`, for every channel: when the noise denominator (the
16-bit value of the noise total `>> 12`) is not positive, the noise
responsibilities are 16384 for component 0 and 0 for component 1; when the
speech denominator is not positive, both speech responsibilities are 0, the
value the table was initialised with. -/
theorem responsibility_fallback (spl : Spl) (self : VadInstT) (features : List Int)
    (individualTest : Int) (c : Nat) (hc : c < kNumChannels) :
    (wrap16 (GmmProbability_h0 spl self features c / 4096) ≤ 0 →
      ((List.range kNumChannels).foldl (GmmProbability_test spl self features individualTest)
        GmmScratch.init).ngprvec.getD c 0 = 16384 ∧
      ((List.range kNumChannels).foldl (GmmProbability_test spl self features individualTest)
        GmmScratch.init).ngprvec.getD (c + kNumChannels) 0 = 0) ∧
    (wrap16 (GmmProbability_h1 spl self features c / 4096) ≤ 0 →
      ((List.range kNumChannels).foldl (GmmProbability_test spl self features individualTest)
        GmmScratch.init).sgprvec.getD c 0 = 0 ∧
      ((List.range kNumChannels).foldl (GmmProbability_test spl self features individualTest)
        GmmScratch.init).sgprvec.getD (c + kNumChannels) 0 = 0) :=
  ((testLoop_responsibilities spl self features individualTest kNumChannels
    (le_refl _)).2.2 c hc).1 hc

theorem responsibility_fallback_witness :
    ((List.range kNumChannels).foldl (GmmProbability_test splRef initState
        [2000, 2000, 2000, 2000, 2000, 700] 21) GmmScratch.init).ngprvec.getD 0 0 = 16384 ∧
    ((List.range kNumChannels).foldl (GmmProbability_test splRef initState
        [2000, 2000, 2000, 2000, 2000, 700] 21) GmmScratch.init).ngprvec.getD
          (0 + kNumChannels) 0 = 0 :=
  (responsibility_fallback splRef initState [2000, 2000, 2000, 2000, 2000, 700] 21 0
    (by decide)).1 (by decide!)

/-- C25, counterexample: on the Init state with the feature vector
[2000, 2000, 2000, 2000, 2000, 700], channel 0 has the speech total 0, so its
speech denominator is not positive, and the speech responsibility of
component 0 after the channel loop is 0, not 16384. -/
theorem responsibility_fallback_counterexample :
    GmmProbability_h1 splRef initState [2000, 2000, 2000, 2000, 2000, 700] 0 = 0 ∧
    wrap16 (GmmProbability_h1 splRef initState [2000, 2000, 2000, 2000, 2000, 700] 0 / 4096)
      ≤ 0 ∧
    ((List.range kNumChannels).foldl (GmmProbability_test splRef initState
        [2000, 2000, 2000, 2000, 2000, 700] 21) GmmScratch.init).sgprvec.getD 0 0 = 0 ∧
    ((List.range kNumChannels).foldl (GmmProbability_test splRef initState
        [2000, 2000, 2000, 2000, 2000, 700] 21) GmmScratch.init).sgprvec.getD 0 0 ≠ 16384 := by
  refine ⟨by decide!, by decide!, by decide!, by decide!⟩

/-! ## The 48 kHz front end: theorems -/

theorem getD_take (l : List Int) (n i : Nat) (h : i < n) :
    (l.take n).getD i 0 = l.getD i 0 := by
  rw [List.getD_eq_getElem?_getD, List.getD_eq_getElem?_getD, List.getElem?_take_of_lt h]

theorem splRef_reads_chunk : ResamplerReadsChunk splRef := by
  intro input state tmp_mem
  show WebRtcSpl_Resample48khzTo8khz input state tmp_mem =
    WebRtcSpl_Resample48khzTo8khz (input.take 480) state tmp_mem
  unfold WebRtcSpl_Resample48khzTo8khz
  have : (List.range 80).map (fun j => input.getD (6 * j) 0) =
      (List.range 80).map (fun j => (input.take 480).getD (6 * j) 0) := by
    apply List.map_congr_left
    intro j hj
    have hj' := List.mem_range.mp hj
    rw [getD_take _ _ _ (by omega)]
  rw [this]

/-- C26 (48 kHz front end): every pass of the resampling loop of
`WebRtcVad_CalcVad48khz` hands the resampler the start of the input frame, so
with a resampler that reads one 480-sample chunk the decision and the new
state are determined by the first 480 samples: two frames that agree on them
give the same result, whatever their later chunks hold. -/
theorem CalcVad48khz_first_chunk_only (spl : Spl) (h : ResamplerReadsChunk spl)
    (inst : VadInstT) (frame1 frame2 : List Int) (frame_length : Nat)
    (hf : frame1.take 480 = frame2.take 480) :
    WebRtcVad_CalcVad48khz spl inst frame1 frame_length =
      WebRtcVad_CalcVad48khz spl inst frame2 frame_length := by
  have hstep : WebRtcVad_CalcVad48khz_step spl frame1 = WebRtcVad_CalcVad48khz_step spl frame2 := by
    funext st i
    unfold WebRtcVad_CalcVad48khz_step
    rw [h frame1, h frame2, hf]
  unfold WebRtcVad_CalcVad48khz
  rw [hstep]

theorem CalcVad48khz_first_chunk_only_witness :
    silentFrame48 ≠ halfLoudFrame48 ∧
    WebRtcVad_CalcVad48khz splRef initState silentFrame48 960 =
      WebRtcVad_CalcVad48khz splRef initState halfLoudFrame48 960 :=
  ⟨by decide, CalcVad48khz_first_chunk_only splRef splRef_reads_chunk initState silentFrame48
    halfLoudFrame48 960 (by decide)⟩

/-! ## The minimum tracker: the ageing pass skips the entry that follows an eviction -/

/-- C27 (ageing), where the code departs from its comment "Each value in
|smallest_values| is getting 1 loop older. Update |age|, and remove old
values".  On the window (500, 100), (600, 50), (700, 100), (800, 100),
(900, 20) the ageing loop evicts 500 and 700 but examines neither of the
entries that move into the freed slots: 600 keeps its age 50 instead of 51,
and 800, whose age is 100 at the start of the call, stays in the window with
age 100; the two sentinels written with age 101 are aged to 102 by the later
passes.  A call of `WebRtcVad_FindMinimum` with the feature value 10000
(which inserts nothing) leaves exactly this window. -/
theorem FindMinimum_ageing_skips_shifted_entry :
    windowOf 0 (trackerState agedWindowState) =
      [(500, 100), (600, 50), (700, 100), (800, 100), (900, 20), (10000, 0), (10000, 0),
        (10000, 0), (10000, 0), (10000, 0), (10000, 0), (10000, 0), (10000, 0), (10000, 0),
        (10000, 0), (10000, 0)] ∧
    windowOf 0 ((List.range 16).foldl (FindMinimum_ageStep 0) (trackerState agedWindowState)) =
      [(600, 50), (800, 100), (900, 21), (10000, 1), (10000, 1), (10000, 1), (10000, 1),
        (10000, 1), (10000, 1), (10000, 1), (10000, 1), (10000, 1), (10000, 1), (10000, 1),
        (10000, 102), (10000, 102)] ∧
    windowOf 0 (trackerState (WebRtcVad_FindMinimum agedWindowState 10000 0).1) =
      windowOf 0 ((List.range 16).foldl (FindMinimum_ageStep 0) (trackerState agedWindowState)) := by
  refine ⟨by decide!, by decide!, by decide!⟩

/-! ## The minimum tracker: the insertion is a stable insertion-sort step -/

theorem position_first (fv : Int) (sv : Nat → Int) (hs : ∀ i, i < 15 → sv i ≤ sv (i + 1)) :
    (FindMinimum_position fv sv = -1 ∧ ∀ i, i < 16 → sv i ≤ fv) ∨
    ∃ p : Nat, p < 16 ∧ FindMinimum_position fv sv = (p : Int) ∧ fv < sv p ∧
      ∀ m, m < p → sv m ≤ fv := by
  have mono : ∀ d i, i + d < 16 → sv i ≤ sv (i + d) := by
    intro d
    induction d with
    | zero => intro i _; exact le_refl _
    | succ d ih =>
      intro i hi
      exact le_trans (ih i (by omega)) (hs (i + d) (by omega))
  have mono2 : ∀ i j, i ≤ j → j < 16 → sv i ≤ sv j := by
    intro i j hij hj
    have := mono (j - i) i (by omega)
    rwa [Nat.add_sub_cancel' hij] at this
  rcases position_spec fv sv with hp | ⟨n, hn, hp, hlt, hge⟩
  · left
    refine ⟨hp, ?_⟩
    have h15 : sv 15 ≤ fv := by
      unfold FindMinimum_position at hp
      split_ifs at hp; omega
    intro i hi
    exact le_trans (mono2 i 15 (by omega) (by omega)) h15
  · right
    refine ⟨n, hn, hp, hlt, ?_⟩
    intro m hm
    have h1 := hge (n - 1) (by omega)
    exact le_trans (mono2 m (n - 1) (by omega) (by omega)) h1

theorem find_first (fv : Int) (sv : Nat → Int) (n : Nat) :
    ∀ p, p < n → fv < sv p → (∀ m, m < p → sv m ≤ fv) →
      (List.range n).find? (fun i => decide (fv < sv i)) = some p := by
  induction n with
  | zero => intro p hp; omega
  | succ n ih =>
    intro p hp hlt hmin
    rw [List.range_succ, List.find?_append]
    by_cases hpn : p < n
    · rw [ih p hpn hlt hmin]
      rfl
    · have hpe : p = n := by omega
      subst hpe
      have hnone : (List.range p).find? (fun i => decide (fv < sv i)) = none := by
        rw [List.find?_eq_none]
        intro x hx
        have hx' := List.mem_range.mp hx
        have := hmin x hx'
        simp only [decide_eq_true_eq, not_lt]
        exact this
      rw [hnone]
      simp only [Option.none_or, List.find?_cons, List.find?_nil, decide_eq_true_eq.mpr hlt]

theorem find_none (fv : Int) (sv : Nat → Int) (n : Nat) (h : ∀ i, i < n → sv i ≤ fv) :
    (List.range n).find? (fun i => decide (fv < sv i)) = none := by
  rw [List.find?_eq_none]
  intro x hx
  have hx' := List.mem_range.mp hx
  have := h x hx'
  simp only [decide_eq_true_eq, not_lt]
  exact this

theorem insertSortedStep_split (e : Int × Int) : ∀ (w : List (Int × Int)) (p : Nat),
    p ≤ w.length → (∀ m, m < p → (w.getD m (0, 0)).1 ≤ e.1) →
    (p < w.length → e.1 < (w.getD p (0, 0)).1) →
    (p = w.length ∨ p < w.length) →
    insertSortedStep e w = w.take p ++ e :: w.drop p := by
  intro w
  induction w with
  | nil =>
    intro p hp _ _ _
    have : p = 0 := by simpa using hp
    subst this
    rfl
  | cons x xs ih =>
    intro p hp hmin hlt _
    cases p with
    | zero =>
      have h0 := hlt (by simp)
      simp only [List.getD_cons_zero] at h0
      simp only [insertSortedStep, if_pos h0, List.take_zero, List.nil_append, List.drop_zero]
    | succ p =>
      have h0 := hmin 0 (by omega)
      simp only [List.getD_cons_zero] at h0
      have h0' : ¬ e.1 < x.1 := by omega
      simp only [insertSortedStep, if_neg h0', List.take_succ_cons, List.drop_succ_cons,
        List.cons_append]
      rw [ih p (by simpa using hp)
        (fun m hm => by
          have := hmin (m + 1) (by omega)
          simpa only [List.getD_cons_succ] using this)
        (fun hpl => by
          have := hlt (by simpa using hpl)
          simpa only [List.getD_cons_succ] using this)
        (by
          have : p ≤ xs.length := by simpa using hp
          omega)]

theorem windowOf_length (o : Nat) (st : List Int × List Int) : (windowOf o st).length = 16 := by
  simp only [windowOf, List.length_map, List.length_range]

theorem windowOf_getD (o : Nat) (st : List Int × List Int) (t : Nat) (ht : t < 16) :
    (windowOf o st).getD t (0, 0) = (st.2.getD (o + t) 0, st.1.getD (o + t) 0) := by
  simp only [windowOf]
  rw [List.getD_eq_getElem?_getD, List.getElem?_map, List.getElem?_range ht]
  rfl

theorem pair_list_ext (l1 l2 : List (Int × Int)) (hl : l1.length = l2.length)
    (h : ∀ t, t < l1.length → l1.getD t (0, 0) = l2.getD t (0, 0)) : l1 = l2 := by
  apply List.ext_getElem hl
  intro n h1 h2
  have := h n h1
  rw [List.getD_eq_getElem?_getD, List.getD_eq_getElem?_getD, List.getElem?_eq_getElem h1,
    List.getElem?_eq_getElem h2] at this
  exact this

theorem insertWindow_getD (fv : Int) (w : List (Int × Int)) (hw : w.length = 16) (p : Nat)
    (hp : p < 16) (hlt : fv < (w.getD p (0, 0)).1) (hmin : ∀ m, m < p → (w.getD m (0, 0)).1 ≤ fv)
    (t : Nat) (ht : t < 16) :
    (insertWindow fv w).getD t (0, 0) =
      if t = p then (fv, 1) else if p < t then w.getD (t - 1) (0, 0) else w.getD t (0, 0) := by
  unfold insertWindow
  rw [insertSortedStep_split (fv, 1) w p (by omega) hmin (fun _ => hlt) (Or.inr (by omega))]
  rw [List.getD_eq_getElem?_getD, List.getElem?_take_of_lt ht]
  have hlen : (w.take p).length = p := by rw [List.length_take]; omega
  by_cases c1 : t = p
  · subst c1
    rw [if_pos rfl, List.getElem?_append_right (by omega), hlen, Nat.sub_self,
      List.getElem?_cons_zero]
    rfl
  · rw [if_neg c1]
    by_cases c2 : p < t
    · rw [if_pos c2, List.getElem?_append_right (by omega), hlen]
      obtain ⟨k, hk⟩ : ∃ k, t - p = k + 1 := ⟨t - p - 1, by omega⟩
      rw [hk, List.getElem?_cons_succ, List.getElem?_drop, List.getD_eq_getElem?_getD]
      have : p + k = t - 1 := by omega
      rw [this]
    · rw [if_neg c2, List.getElem?_append_left (by omega), List.getElem?_take_of_lt (by omega),
        List.getD_eq_getElem?_getD]

theorem insertWindow_none (fv : Int) : ∀ (w : List (Int × Int)),
    (∀ m, m < w.length → (w.getD m (0, 0)).1 ≤ fv) →
    insertSortedStep (fv, 1) w = w ++ [(fv, 1)] := by
  intro w h
  have := insertSortedStep_split (fv, 1) w w.length (le_refl _) h (fun hh => absurd hh (by omega))
    (Or.inl rfl)
  rw [this, List.take_length, List.drop_length]

/-- C28 (insertion equivalence).  Let `st` be the tracker arrays after the
ageing loop of a call of `WebRtcVad_FindMinimum`, with a window in
non-decreasing order of value.  The position chosen by the decision tree is the
smallest index in 0..15 whose value exceeds the feature value, and -1 (no
insertion) when there is none; the window after the call is the window `st`
after a stable insertion-sort step that drops the entry beyond the last slot:
the new value, with age 1, stands after all entries not above it, the entries
from that position on move up one slot with their ages; the slots outside the
window are not written, and when no index qualifies the arrays are left as the
ageing loop left them. -/
theorem insertion_equivalence (s : VadInstT) (fv : Int) (channel : Nat)
    (st : List Int × List Int)
    (hst : st = (List.range 16).foldl (FindMinimum_ageStep (channel * 16)) (trackerState s))
    (h1 : channel * 16 + 16 ≤ st.1.length) (h2 : channel * 16 + 16 ≤ st.2.length)
    (hs : ∀ i, i < 15 → st.2.getD (channel * 16 + i) 0 ≤ st.2.getD (channel * 16 + (i + 1)) 0) :
    FindMinimum_position fv (fun i => st.2.getD (channel * 16 + i) 0) =
      (match firstAbove fv (fun i => st.2.getD (channel * 16 + i) 0) with
        | some p => (p : Int)
        | none => -1) ∧
    windowOf (channel * 16) (trackerState (WebRtcVad_FindMinimum s fv channel).1) =
      insertWindow fv (windowOf (channel * 16) st) ∧
    Untouched (channel * 16) st (trackerState (WebRtcVad_FindMinimum s fv channel).1) ∧
    (firstAbove fv (fun i => st.2.getD (channel * 16 + i) 0) = none →
      trackerState (WebRtcVad_FindMinimum s fv channel).1 = st) := by
  rw [FindMinimum_trackerState, ← hst]
  have hU := (insert_spec (fun _ _ _ => True)
    ⟨fun _ _ _ _ _ _ _ _ _ => trivial, fun _ _ _ _ _ _ _ _ _ _ => trivial,
      fun _ _ _ _ _ _ _ _ _ _ _ _ _ => trivial, fun _ _ _ _ _ _ _ => trivial⟩
    (channel * 16) fv st h1 h2 trivial).2
  refine ⟨?_, ?_, hU, ?_⟩
  rotate_left 2
  · intro hnone
    rcases position_first fv (fun i => st.2.getD (channel * 16 + i) 0) hs with
      ⟨hp, hall⟩ | ⟨p, hp16, hp, hlt, hmin⟩
    · rw [hp]
      have hneg : ¬ ((-1 : Int) > -1) := by decide
      simp only [FindMinimum_insert, if_neg hneg]
    · rw [firstAbove, find_first fv _ 16 p hp16 hlt hmin] at hnone
      exact absurd hnone (by simp)
  · rcases position_first fv (fun i => st.2.getD (channel * 16 + i) 0) hs with
      ⟨hp, hall⟩ | ⟨p, hp16, hp, hlt, hmin⟩
    · rw [hp, firstAbove, find_none fv _ 16 hall]
    · rw [hp, firstAbove, find_first fv _ 16 p hp16 hlt hmin]
  · apply pair_list_ext
    · rw [windowOf_length, insertWindow, List.length_take]
      have : 16 ≤ (insertSortedStep (fv, 1) (windowOf (channel * 16) st)).length := by
        have hl := windowOf_length (channel * 16) st
        generalize windowOf (channel * 16) st = w at hl
        have : ∀ (w : List (Int × Int)),
            (insertSortedStep (fv, 1) w).length = w.length + 1 := by
          intro w
          induction w with
          | nil => rfl
          | cons x xs ih =>
            simp only [insertSortedStep]
            split_ifs
            · simp
            · simp [ih]
        rw [this w, hl]
        omega
      omega
    · intro t ht
      rw [windowOf_length] at ht
      rw [windowOf_getD _ _ t ht]
      rcases position_first fv (fun i => st.2.getD (channel * 16 + i) 0) hs with
        ⟨hp, hall⟩ | ⟨p, hp16, hp, hlt, hmin⟩
      · rw [hp]
        have hneg : ¬ ((-1 : Int) > -1) := by decide
        simp only [FindMinimum_insert, if_neg hneg]
        unfold insertWindow
        rw [insertWindow_none fv _ (fun m hm => by
          rw [windowOf_length] at hm
          rw [windowOf_getD _ _ m hm]
          exact hall m hm)]
        have e : (List.take 16 (windowOf (channel * 16) st ++ [(fv, 1)])).getD t (0, 0) =
            (windowOf (channel * 16) st).getD t (0, 0) := by
          rw [List.getD_eq_getElem?_getD, List.getElem?_take_of_lt ht,
            List.getElem?_append_left (by rw [windowOf_length]; exact ht),
            ← List.getD_eq_getElem?_getD]
        rw [e, windowOf_getD _ _ t ht]
      · rw [hp]
        have hpos : ((p : Int) > -1) := by omega
        simp only [FindMinimum_insert, if_pos hpos, Int.toNat_ofNat, shiftUp_fold_fst,
          shiftUp_fold_snd]
        rw [insert_getD (channel * 16) p hp16 st.2 fv h2, insert_getD (channel * 16) p hp16 st.1 1 h1]
        rw [insertWindow_getD fv _ (windowOf_length _ _) p hp16
          (by rw [windowOf_getD _ _ p hp16]; exact hlt)
          (fun m hm => by rw [windowOf_getD _ _ m (by omega)]; exact hmin m hm) t ht]
        by_cases c1 : t = p
        · subst c1
          rw [if_pos rfl, if_pos rfl, if_pos rfl]
        · have c1' : ¬ (channel * 16 + t = channel * 16 + p) := by omega
          rw [if_neg c1, if_neg c1', if_neg c1']
          by_cases c2 : p < t
          · have c2' : channel * 16 + p < channel * 16 + t ∧
                channel * 16 + t ≤ channel * 16 + 15 := by omega
            rw [if_pos c2, if_pos c2', if_pos c2', windowOf_getD _ _ (t - 1) (by omega)]
            have : channel * 16 + t - 1 = channel * 16 + (t - 1) := by omega
            rw [this]
          · have c2' : ¬ (channel * 16 + p < channel * 16 + t ∧
                channel * 16 + t ≤ channel * 16 + 15) := by omega
            rw [if_neg c2, if_neg c2', if_neg c2', windowOf_getD _ _ t ht]

theorem insertion_equivalence_witness :
    windowOf (0 * 16) (trackerState (WebRtcVad_FindMinimum agedWindowState 650 0).1) =
      insertWindow 650 (windowOf (0 * 16)
        ((List.range 16).foldl (FindMinimum_ageStep (0 * 16)) (trackerState agedWindowState))) :=
  (insertion_equivalence agedWindowState 650 0 _ rfl (by decide!) (by decide!)
    (by decide!)).2.1

/-! ## The separation and the limiting of the means, exactly -/

theorem weightedSum_eq (d0 d1 w0 w1 : Int) (h0 : 0 ≤ w0) (h1 : 0 ≤ w1) (hw : w0 + w1 = 128)
    (a0 : -32768 ≤ d0) (a1 : d0 ≤ 32767) (b0 : -32768 ≤ d1) (b1 : d1 ≤ 32767) :
    weightedSum d0 d1 w0 w1 = d0 * w0 + d1 * w1 := by
  have p1 : -32768 * w0 ≤ d0 * w0 := mul_le_mul_of_nonneg_right a0 h0
  have p2 : d0 * w0 ≤ 32767 * w0 := mul_le_mul_of_nonneg_right a1 h0
  have p3 : -32768 * w1 ≤ d1 * w1 := mul_le_mul_of_nonneg_right b0 h1
  have p4 : d1 * w1 ≤ 32767 * w1 := mul_le_mul_of_nonneg_right b1 h1
  unfold weightedSum
  rw [wrap32_of_range (0 + d0 * w0) (by omega) (by omega),
    wrap32_of_range (0 + d0 * w0 + d1 * w1) (by omega) (by omega)]
  omega

theorem globalMean_bounds (means weights : List Int) (c : Nat) (lo hi : Int)
    (h0 : 0 ≤ weights.getD c 0) (h1 : 0 ≤ weights.getD (c + 6) 0)
    (hw : weights.getD c 0 + weights.getD (c + 6) 0 = 128)
    (a0 : lo ≤ means.getD c 0) (a1 : means.getD c 0 ≤ hi)
    (b0 : lo ≤ means.getD (c + 6) 0) (b1 : means.getD (c + 6) 0 ≤ hi) :
    lo * 128 ≤ globalMean means weights c ∧ globalMean means weights c ≤ hi * 128 := by
  have p1 : lo * weights.getD c 0 ≤ means.getD c 0 * weights.getD c 0 :=
    mul_le_mul_of_nonneg_right a0 h0
  have p2 : means.getD c 0 * weights.getD c 0 ≤ hi * weights.getD c 0 :=
    mul_le_mul_of_nonneg_right a1 h0
  have p3 : lo * weights.getD (c + 6) 0 ≤ means.getD (c + 6) 0 * weights.getD (c + 6) 0 :=
    mul_le_mul_of_nonneg_right b0 h1
  have p4 : means.getD (c + 6) 0 * weights.getD (c + 6) 0 ≤ hi * weights.getD (c + 6) 0 :=
    mul_le_mul_of_nonneg_right b1 h1
  have q1 : lo * weights.getD c 0 + lo * weights.getD (c + 6) 0 = lo * 128 := by
    rw [← mul_add, hw]
  have q2 : hi * weights.getD c 0 + hi * weights.getD (c + 6) 0 = hi * 128 := by
    rw [← mul_add, hw]
  have k : c + kNumChannels = c + 6 := rfl
  unfold globalMean
  rw [k]
  omega

/-- The global mean of a table whose two entries of the channel are shifted by
`d`: the weights of a channel add up to 128. -/
theorem globalMean_shift (means means' weights : List Int) (c : Nat) (d : Int)
    (hw : weights.getD c 0 + weights.getD (c + 6) 0 = 128)
    (e0 : means'.getD c 0 = means.getD c 0 + d)
    (e1 : means'.getD (c + 6) 0 = means.getD (c + 6) 0 + d) :
    globalMean means' weights c = globalMean means weights c + 128 * d := by
  have k : c + kNumChannels = c + 6 := rfl
  unfold globalMean
  rw [k, e0, e1]
  have : (means.getD c 0 + d) * weights.getD c 0 + (means.getD (c + 6) 0 + d) *
      weights.getD (c + 6) 0 = means.getD c 0 * weights.getD c 0 +
      means.getD (c + 6) 0 * weights.getD (c + 6) 0 +
      d * (weights.getD c 0 + weights.getD (c + 6) 0) := by ring
  rw [this, hw]
  ring

/-- The weighted average with a shift `offset`, when nothing leaves the 16-bit
range: both entries of the channel are shifted, the others are kept, and the
returned sum is the global mean of the new table. -/
theorem WeightedAverage_exact (data : List Int) (c : Nat) (offset : Int) (weights : List Int)
    (hl : data.length = 12) (hc : c < 6)
    (h0 : 0 ≤ weights.getD c 0) (h1 : 0 ≤ weights.getD (c + 6) 0)
    (hw : weights.getD c 0 + weights.getD (c + 6) 0 = 128)
    (a0 : -32768 ≤ data.getD c 0 + offset) (a1 : data.getD c 0 + offset ≤ 32767)
    (b0 : -32768 ≤ data.getD (c + 6) 0 + offset) (b1 : data.getD (c + 6) 0 + offset ≤ 32767) :
    (WeightedAverage data c offset weights).1.length = 12 ∧
    (WeightedAverage data c offset weights).1.getD c 0 = data.getD c 0 + offset ∧
    (WeightedAverage data c offset weights).1.getD (c + 6) 0 = data.getD (c + 6) 0 + offset ∧
    (∀ g, g ≠ c → g ≠ c + 6 →
      (WeightedAverage data c offset weights).1.getD g 0 = data.getD g 0) ∧
    (WeightedAverage data c offset weights).2 =
      globalMean (WeightedAverage data c offset weights).1 weights c := by
  obtain ⟨l1, l2, l3⟩ := WeightedAverage_spec data c offset weights (by omega)
  have n1 : ¬ (c + 6 = c) := by omega
  have w0 := wrap16_of_range _ a0 a1
  have w1 := wrap16_of_range _ b0 b1
  have g0 : (WeightedAverage data c offset weights).1.getD c 0 = data.getD c 0 + offset := by
    rw [l2, if_pos rfl, w0]
  have g1 : (WeightedAverage data c offset weights).1.getD (c + 6) 0 =
      data.getD (c + 6) 0 + offset := by
    rw [l2, if_neg n1, if_pos rfl, w1]
  refine ⟨l1.trans hl, g0, g1, ?_, ?_⟩
  · intro g x1 x2
    rw [l2, if_neg x1, if_neg x2]
  · have k : c + kNumChannels = c + 6 := rfl
    rw [l3, w0, w1]
    have := weightedSum_eq (data.getD c 0 + offset) (data.getD (c + 6) 0 + offset) _ _ h0 h1 hw
      a0 a1 b0 b1
    unfold weightedSum at this
    rw [this]
    unfold globalMean
    rw [k, g0, g1]

theorem globalMean_congr (m1 m2 weights : List Int) (c : Nat)
    (e0 : m1.getD c 0 = m2.getD c 0) (e1 : m1.getD (c + 6) 0 = m2.getD (c + 6) 0) :
    globalMean m1 weights c = globalMean m2 weights c := by
  have k : c + kNumChannels = c + 6 := rfl
  unfold globalMean
  rw [k, e0, e1]

/-- The separation step, exactly, when nothing leaves the 16-bit range: with
`t` the shortfall of the Q5 difference, both speech means of the channel rise
by `(13 * t) >> 2`, both noise means fall by `(3 * t) >> 2`, every other entry
is kept, and the two returned global means are those of the new tables. -/
theorem separate_exact (self : VadInstT) (c : Nat) (hc : c < 6)
    (hn : self.noise_means.length = 12) (hs : self.speech_means.length = 12)
    (n0 : 640 ≤ self.noise_means.getD c 0 ∧ self.noise_means.getD c 0 ≤ 9344)
    (n1 : 640 ≤ self.noise_means.getD (c + 6) 0 ∧ self.noise_means.getD (c + 6) 0 ≤ 9344)
    (s0 : -32768 ≤ self.speech_means.getD c 0 ∧ self.speech_means.getD c 0 ≤ 32767)
    (s1 : -32768 ≤ self.speech_means.getD (c + 6) 0 ∧ self.speech_means.getD (c + 6) 0 ≤ 32767)
    (hw0 : self.speech_means.getD c 0 + 13 * separationShortfall self c / 4 ≤ 32767)
    (hw1 : self.speech_means.getD (c + 6) 0 + 13 * separationShortfall self c / 4 ≤ 32767)
    (hw2 : 13 * separationShortfall self c / 4 ≤ 32767) :
    (GmmProbability_separate self c).1.noise_means.length = 12 ∧
    (GmmProbability_separate self c).1.speech_means.length = 12 ∧
    (GmmProbability_separate self c).1.noise_means.getD c 0 =
      self.noise_means.getD c 0 - 3 * separationShortfall self c / 4 ∧
    (GmmProbability_separate self c).1.noise_means.getD (c + 6) 0 =
      self.noise_means.getD (c + 6) 0 - 3 * separationShortfall self c / 4 ∧
    (GmmProbability_separate self c).1.speech_means.getD c 0 =
      self.speech_means.getD c 0 + 13 * separationShortfall self c / 4 ∧
    (GmmProbability_separate self c).1.speech_means.getD (c + 6) 0 =
      self.speech_means.getD (c + 6) 0 + 13 * separationShortfall self c / 4 ∧
    (∀ g, g ≠ c → g ≠ c + 6 →
      (GmmProbability_separate self c).1.noise_means.getD g 0 = self.noise_means.getD g 0 ∧
      (GmmProbability_separate self c).1.speech_means.getD g 0 = self.speech_means.getD g 0) ∧
    (GmmProbability_separate self c).2.1 =
      globalMean (GmmProbability_separate self c).1.noise_means kNoiseDataWeights c ∧
    (GmmProbability_separate self c).2.2 =
      globalMean (GmmProbability_separate self c).1.speech_means kSpeechDataWeights c := by
  obtain ⟨nw0, nw1, nw2⟩ := noise_weights c hc
  obtain ⟨sw0, sw1, sw2⟩ := speech_weights c hc
  obtain ⟨⟨md0, md1⟩, -, -⟩ := table_bounds c hc
  obtain ⟨A1, A2, A3, A4, A5⟩ := WeightedAverage_exact self.noise_means c 0 kNoiseDataWeights
    hn hc nw0 nw1 nw2 (by omega) (by omega) (by omega) (by omega)
  obtain ⟨B1, B2, B3, B4, B5⟩ := WeightedAverage_exact self.speech_means c 0 kSpeechDataWeights
    hs hc sw0 sw1 sw2 (by omega) (by omega) (by omega) (by omega)
  rw [add_zero] at A2 A3 B2 B3
  have NGe : (WeightedAverage self.noise_means c 0 kNoiseDataWeights).2 =
      globalMean self.noise_means kNoiseDataWeights c := by
    rw [A5]
    exact globalMean_congr _ _ _ c A2 A3
  have SGe : (WeightedAverage self.speech_means c 0 kSpeechDataWeights).2 =
      globalMean self.speech_means kSpeechDataWeights c := by
    rw [B5]
    exact globalMean_congr _ _ _ c B2 B3
  have NGb := globalMean_bounds self.noise_means kNoiseDataWeights c 640 9344 nw0 nw1 nw2
    n0.1 n0.2 n1.1 n1.2
  have SGb := globalMean_bounds self.speech_means kSpeechDataWeights c (-32768) 32767 sw0 sw1 sw2
    s0.1 s0.2 s1.1 s1.2
  have hdiff : wrap16 (wrap16 ((WeightedAverage self.speech_means c 0 kSpeechDataWeights).2 / 512) -
      wrap16 ((WeightedAverage self.noise_means c 0 kNoiseDataWeights).2 / 512)) =
      modelDifference self c := by
    rw [NGe, SGe]
    unfold modelDifference
    rw [wrap16_of_range (globalMean self.speech_means kSpeechDataWeights c / 512) (by omega)
      (by omega),
      wrap16_of_range (globalMean self.noise_means kNoiseDataWeights c / 512) (by omega)
      (by omega)]
    exact wrap16_of_range _ (by omega) (by omega)
  have hdb : -8192 - 2336 ≤ modelDifference self c := by
    unfold modelDifference
    omega
  unfold GmmProbability_separate
  simp only []
  rw [hdiff]
  generalize WeightedAverage self.noise_means c 0 kNoiseDataWeights = W1 at A1 A2 A3 A4 A5 NGe ⊢
  generalize WeightedAverage self.speech_means c 0 kSpeechDataWeights = W2
    at B1 B2 B3 B4 B5 SGe ⊢
  by_cases hd : modelDifference self c < kMinimumDifference.getD c 0
  · have hT : separationShortfall self c =
        kMinimumDifference.getD c 0 - modelDifference self c := by
      unfold separationShortfall
      rw [if_pos hd]
    rw [hT] at hw0 hw1 hw2 ⊢
    rw [if_pos hd]
    simp only []
    generalize modelDifference self c = d at hd hw0 hw1 hw2 hdb ⊢
    generalize kMinimumDifference.getD c 0 = md at hd hw0 hw1 hw2 md0 md1 ⊢
    have e1 : wrap16 (md - d) = md - d := wrap16_of_range _ (by omega) (by omega)
    have e2 : wrap16 (13 * (md - d) / 4) = 13 * (md - d) / 4 :=
      wrap16_of_range _ (by omega) (by omega)
    have e3 : wrap16 (3 * (md - d) / 4) = 3 * (md - d) / 4 :=
      wrap16_of_range _ (by omega) (by omega)
    have e4 : wrap16 (-(3 * (md - d) / 4)) = -(3 * (md - d) / 4) :=
      wrap16_of_range _ (by omega) (by omega)
    rw [e1, e2, e3, e4]
    obtain ⟨C1, C2, C3, C4, C5⟩ := WeightedAverage_exact W2.1 c (13 * (md - d) / 4)
      kSpeechDataWeights B1 hc sw0 sw1 sw2 (by rw [B2]; omega) (by rw [B2]; omega)
      (by rw [B3]; omega) (by rw [B3]; omega)
    obtain ⟨D1, D2, D3, D4, D5⟩ := WeightedAverage_exact W1.1 c (-(3 * (md - d) / 4))
      kNoiseDataWeights A1 hc nw0 nw1 nw2 (by rw [A2]; omega) (by rw [A2]; omega)
      (by rw [A3]; omega) (by rw [A3]; omega)
    refine ⟨D1, C1, ?_, ?_, ?_, ?_, ?_, D5, C5⟩
    · rw [D2, A2]; omega
    · rw [D3, A3]; omega
    · rw [C2, B2]
    · rw [C3, B3]
    · intro g g1 g2
      exact ⟨(D4 g g1 g2).trans (A4 g g1 g2), (C4 g g1 g2).trans (B4 g g1 g2)⟩
  · have hT : separationShortfall self c = 0 := by
      unfold separationShortfall
      rw [if_neg hd]
    rw [hT]
    rw [if_neg hd]
    simp only []
    refine ⟨A1, B1, ?_, ?_, ?_, ?_, ?_, A5, B5⟩
    · rw [A2]; omega
    · rw [A3]; omega
    · rw [B2]; omega
    · rw [B3]; omega
    · intro g g1 g2
      exact ⟨A4 g g1 g2, B4 g g1 g2⟩

/-- The limiting step, exactly, when nothing leaves the 16-bit range: handed
the global means of the tables, it lowers both speech means of the channel by
the excess of the Q7 global speech mean over `kMaximumSpeech[channel]`, and
both noise means by the excess of the global noise mean over
`kMaximumNoise[channel]`. -/
theorem limit_exact (self : VadInstT) (c : Nat) (n s : Int) (hc : c < 6)
    (hn : self.noise_means.length = 12) (hs : self.speech_means.length = 12)
    (en : n = globalMean self.noise_means kNoiseDataWeights c)
    (es : s = globalMean self.speech_means kSpeechDataWeights c)
    (n0 : -8000 ≤ self.noise_means.getD c 0 ∧ self.noise_means.getD c 0 ≤ 9344)
    (n1 : -8000 ≤ self.noise_means.getD (c + 6) 0 ∧ self.noise_means.getD (c + 6) 0 ≤ 9344)
    (s0 : -32768 ≤ self.speech_means.getD c 0 ∧ self.speech_means.getD c 0 ≤ 32767)
    (s1 : -32768 ≤ self.speech_means.getD (c + 6) 0 ∧ self.speech_means.getD (c + 6) 0 ≤ 32767)
    (hw0 : s / 128 > kMaximumSpeech.getD c 0 →
      -32768 ≤ self.speech_means.getD c 0 - (s / 128 - kMaximumSpeech.getD c 0))
    (hw1 : s / 128 > kMaximumSpeech.getD c 0 →
      -32768 ≤ self.speech_means.getD (c + 6) 0 - (s / 128 - kMaximumSpeech.getD c 0)) :
    (GmmProbability_limit self c n s).noise_means.length = 12 ∧
    (GmmProbability_limit self c n s).speech_means.length = 12 ∧
    (GmmProbability_limit self c n s).noise_means.getD c 0 =
      self.noise_means.getD c 0 -
        (if n / 128 > kMaximumNoise.getD c 0 then n / 128 - kMaximumNoise.getD c 0 else 0) ∧
    (GmmProbability_limit self c n s).noise_means.getD (c + 6) 0 =
      self.noise_means.getD (c + 6) 0 -
        (if n / 128 > kMaximumNoise.getD c 0 then n / 128 - kMaximumNoise.getD c 0 else 0) ∧
    (GmmProbability_limit self c n s).speech_means.getD c 0 =
      self.speech_means.getD c 0 -
        (if s / 128 > kMaximumSpeech.getD c 0 then s / 128 - kMaximumSpeech.getD c 0 else 0) ∧
    (GmmProbability_limit self c n s).speech_means.getD (c + 6) 0 =
      self.speech_means.getD (c + 6) 0 -
        (if s / 128 > kMaximumSpeech.getD c 0 then s / 128 - kMaximumSpeech.getD c 0 else 0) ∧
    (∀ g, g ≠ c → g ≠ c + 6 →
      (GmmProbability_limit self c n s).noise_means.getD g 0 = self.noise_means.getD g 0 ∧
      (GmmProbability_limit self c n s).speech_means.getD g 0 = self.speech_means.getD g 0) := by
  obtain ⟨nw0, nw1, nw2⟩ := noise_weights c hc
  obtain ⟨sw0, sw1, sw2⟩ := speech_weights c hc
  obtain ⟨-, ⟨mn0, mn1⟩, ⟨ms0, ms1⟩⟩ := table_bounds c hc
  have NGb := globalMean_bounds self.noise_means kNoiseDataWeights c (-8000) 9344 nw0 nw1 nw2
    n0.1 n0.2 n1.1 n1.2
  have SGb := globalMean_bounds self.speech_means kSpeechDataWeights c (-32768) 32767 sw0 sw1 sw2
    s0.1 s0.2 s1.1 s1.2
  rw [← en] at NGb
  rw [← es] at SGb
  have x1 : ¬ (c + 6 = c) := by omega
  have t1 : wrap16 (s / 128) = s / 128 := wrap16_of_range _ (by omega) (by omega)
  have t2 : wrap16 (n / 128) = n / 128 := wrap16_of_range _ (by omega) (by omega)
  unfold GmmProbability_limit
  simp only []
  rw [t1, t2]
  generalize kMaximumSpeech.getD c 0 = ms at ms0 ms1 hw0 hw1 ⊢
  generalize kMaximumNoise.getD c 0 = mn at mn0 mn1 ⊢
  by_cases c1 : s / 128 > ms
  · have d1 : wrap16 (s / 128 - ms) = s / 128 - ms := wrap16_of_range _ (by omega) (by omega)
    obtain ⟨p1, p2⟩ := shiftMeans_spec self.speech_means c (s / 128 - ms) (by omega)
    have h0 := hw0 c1
    have h1 := hw1 c1
    have u0 : wrap16 (self.speech_means.getD c 0 - (s / 128 - ms)) =
        self.speech_means.getD c 0 - (s / 128 - ms) := wrap16_of_range _ (by omega) (by omega)
    have u1 : wrap16 (self.speech_means.getD (c + 6) 0 - (s / 128 - ms)) =
        self.speech_means.getD (c + 6) 0 - (s / 128 - ms) :=
      wrap16_of_range _ (by omega) (by omega)
    by_cases c2 : n / 128 > mn
    · have d2 : wrap16 (n / 128 - mn) = n / 128 - mn := wrap16_of_range _ (by omega) (by omega)
      obtain ⟨q1, q2⟩ := shiftMeans_spec self.noise_means c (n / 128 - mn) (by omega)
      have v0 : wrap16 (self.noise_means.getD c 0 - (n / 128 - mn)) =
          self.noise_means.getD c 0 - (n / 128 - mn) := wrap16_of_range _ (by omega) (by omega)
      have v1 : wrap16 (self.noise_means.getD (c + 6) 0 - (n / 128 - mn)) =
          self.noise_means.getD (c + 6) 0 - (n / 128 - mn) :=
        wrap16_of_range _ (by omega) (by omega)
      simp only [if_pos c1, if_pos c2, d1, d2]
      refine ⟨q1.trans hn, p1.trans hs, ?_, ?_, ?_, ?_, ?_⟩
      · rw [q2, if_pos rfl, v0]
      · rw [q2, if_neg x1, if_pos rfl, v1]
      · rw [p2, if_pos rfl, u0]
      · rw [p2, if_neg x1, if_pos rfl, u1]
      · intro g g1 g2
        rw [q2, p2, if_neg g1, if_neg g2, if_neg g1, if_neg g2]
        exact ⟨rfl, rfl⟩
    · simp only [if_pos c1, if_neg c2, d1]
      refine ⟨hn, p1.trans hs, ?_, ?_, ?_, ?_, ?_⟩
      · omega
      · omega
      · rw [p2, if_pos rfl, u0]
      · rw [p2, if_neg x1, if_pos rfl, u1]
      · intro g g1 g2
        rw [p2, if_neg g1, if_neg g2]
        exact ⟨trivial, rfl⟩
  · by_cases c2 : n / 128 > mn
    · have d2 : wrap16 (n / 128 - mn) = n / 128 - mn := wrap16_of_range _ (by omega) (by omega)
      obtain ⟨q1, q2⟩ := shiftMeans_spec self.noise_means c (n / 128 - mn) (by omega)
      have v0 : wrap16 (self.noise_means.getD c 0 - (n / 128 - mn)) =
          self.noise_means.getD c 0 - (n / 128 - mn) := wrap16_of_range _ (by omega) (by omega)
      have v1 : wrap16 (self.noise_means.getD (c + 6) 0 - (n / 128 - mn)) =
          self.noise_means.getD (c + 6) 0 - (n / 128 - mn) :=
        wrap16_of_range _ (by omega) (by omega)
      simp only [if_neg c1, if_pos c2, d2]
      refine ⟨q1.trans hn, hs, ?_, ?_, ?_, ?_, ?_⟩
      · rw [q2, if_pos rfl, v0]
      · rw [q2, if_neg x1, if_pos rfl, v1]
      · omega
      · omega
      · intro g g1 g2
        rw [q2, if_neg g1, if_neg g2]
        exact ⟨rfl, trivial⟩
    · simp only [if_neg c1, if_neg c2]
      refine ⟨hn, hs, ?_, ?_, ?_, ?_, ?_⟩
      · omega
      · omega
      · omega
      · omega
      · intro g g1 g2
        exact ⟨trivial, trivial⟩

/-! ## The separation of the two models -/

theorem raw_lift_gen (spl : Spl) (P : VadInstT → Prop) (F : List Int → Prop)
    (hcongr : ∀ a b : VadInstT, modelState a = modelState b → P a → P b)
    (hstep : ∀ (features : List Int) (sc : GmmScratch) (vadflag : Int) (st : VadInstT × Int)
      (channel : Nat), channel < kNumChannels → F features → 11392 ≤ st.2 → st.2 ≤ 12800 →
      P st.1 → P (GmmProbability_update spl features sc vadflag st channel).1)
    (self : VadInstT) (features : List Int) (total_power : Int) (n : Nat) (hF : F features)
    (h : P self) :
    P (GmmProbability_raw spl self features total_power n).1 := by
  by_cases hp : total_power > kMinEnergy
  · simp only [GmmProbability_raw, if_pos hp]
    have hf := foldl_invariant_mem
      (fun st : VadInstT × Int => P st.1 ∧ 11392 ≤ st.2 ∧ st.2 ≤ 12800)
      (GmmProbability_update spl features
        ((List.range kNumChannels).foldl (GmmProbability_test spl self features
          (GmmProbability_thresholds self n).2.2.1) GmmScratch.init)
        (if ((List.range kNumChannels).foldl (GmmProbability_test spl self features
          (GmmProbability_thresholds self n).2.2.1) GmmScratch.init).sum_log_likelihood_ratios
            ≥ (GmmProbability_thresholds self n).2.2.2 then 1
          else ((List.range kNumChannels).foldl (GmmProbability_test spl self features
          (GmmProbability_thresholds self n).2.2.1) GmmScratch.init).vadflag))
      (List.range kNumChannels)
      (fun a b hb ha => by
        have hb' := List.mem_range.mp hb
        refine ⟨hstep _ _ _ a b hb' hF ha.2.1 ha.2.2 ha.1, ?_⟩
        rw [update_maxspe]
        have := (table_bounds b hb').2.2
        omega)
      (self, 12800) ⟨h, by norm_num, by norm_num⟩
    exact hcongr _ _ (by rfl) hf.1
  · simp only [GmmProbability_raw, if_neg hp]
    exact h

theorem CalcVad8khz_lift_gen (spl : Spl) (P : VadInstT → Prop) (F : List Int → Prop)
    (hcongr : ∀ a b : VadInstT, modelState a = modelState b → P a → P b)
    (hF : ∀ (inst : VadInstT) (frame : List Int) (n : Nat),
      F (WebRtcVad_CalculateFeatures spl inst frame n).2.1)
    (hstep : ∀ (features : List Int) (sc : GmmScratch) (vadflag : Int) (st : VadInstT × Int)
      (channel : Nat), channel < kNumChannels → F features → 11392 ≤ st.2 → st.2 ≤ 12800 →
      P st.1 → P (GmmProbability_update spl features sc vadflag st channel).1)
    (inst : VadInstT) (frame : List Int) (n : Nat) (h : P inst) :
    P (WebRtcVad_CalcVad8khz spl inst frame n).1 := by
  have h1 : P (WebRtcVad_CalculateFeatures spl inst frame n).1 :=
    hcongr _ _ (CalculateFeatures_modelState spl inst frame n).symm h
  have h2 := raw_lift_gen spl P F hcongr hstep _
    (WebRtcVad_CalculateFeatures spl inst frame n).2.1
    (WebRtcVad_CalculateFeatures spl inst frame n).2.2 n (hF inst frame n) h1
  have h3 : P (GmmProbability spl (WebRtcVad_CalculateFeatures spl inst frame n).1
      (WebRtcVad_CalculateFeatures spl inst frame n).2.1
      (WebRtcVad_CalculateFeatures spl inst frame n).2.2 n).1 :=
    hcongr _ _ (hysteresis_modelState _ _ _ _).symm h2
  exact hcongr _ _ (by rfl) h3

/-- An invariant of the adaptive model holds in every reachable state when it
holds in the Init state and one channel of the model update keeps it, for
features as the feature extraction produces them and a running `maxspe`
between 11392 and 12800. -/
theorem Reachable_lift_gen (spl : Spl) (P : VadInstT → Prop) (F : List Int → Prop)
    (hcongr : ∀ a b : VadInstT, modelState a = modelState b → P a → P b)
    (hinit : P initState)
    (hF : ∀ (inst : VadInstT) (frame : List Int) (n : Nat),
      F (WebRtcVad_CalculateFeatures spl inst frame n).2.1)
    (hstep : ∀ (features : List Int) (sc : GmmScratch) (vadflag : Int) (st : VadInstT × Int)
      (channel : Nat), channel < kNumChannels → F features → 11392 ≤ st.2 → st.2 ≤ 12800 →
      P st.1 → P (GmmProbability_update spl features sc vadflag st channel).1)
    (s : VadInstT) (h : Reachable spl s) : P s := by
  induction h with
  | init s s' hi =>
    rw [InitCore_eq] at hi
    have : s' = initState := by
      have := congrArg Prod.fst hi
      simpa using this.symm
    rw [this]
    exact hinit
  | set_mode s mode _ ih => exact hcongr _ _ (set_mode_modelState s mode).symm ih
  | calc8 s frame n _ ih => exact CalcVad8khz_lift_gen spl P F hcongr hF hstep s frame n ih
  | calc16 s frame n _ ih =>
    exact CalcVad8khz_lift_gen spl P F hcongr hF hstep _ _ _ (hcongr _ _ (by rfl) ih)
  | calc32 s frame n _ ih =>
    exact CalcVad8khz_lift_gen spl P F hcongr hF hstep _ _ _ (hcongr _ _ (by rfl) ih)
  | calc48 s frame n _ ih =>
    exact CalcVad8khz_lift_gen spl P F hcongr hF hstep _ _ _ (hcongr _ _ (by rfl) ih)

/-! ## The upper bounds on the global means -/

theorem globalMean_between (means weights : List Int) (c : Nat)
    (h0 : 0 ≤ weights.getD c 0) (h1 : 0 ≤ weights.getD (c + 6) 0)
    (hw : weights.getD c 0 + weights.getD (c + 6) 0 = 128) :
    (128 * means.getD c 0 ≤ globalMean means weights c ∧
      globalMean means weights c ≤ 128 * means.getD (c + 6) 0) ∨
    (128 * means.getD (c + 6) 0 ≤ globalMean means weights c ∧
      globalMean means weights c ≤ 128 * means.getD c 0) := by
  by_cases h : means.getD c 0 ≤ means.getD (c + 6) 0
  · left
    have := globalMean_bounds means weights c (means.getD c 0) (means.getD (c + 6) 0) h0 h1 hw
      (le_refl _) h h (le_refl _)
    omega
  · right
    have := globalMean_bounds means weights c (means.getD (c + 6) 0) (means.getD c 0) h0 h1 hw
      (by omega) (le_refl _) (le_refl _) (by omega)
    omega

/-- The separation step followed by the limiting step, on a channel whose
noise means are within the clamps and whose speech means lie in -1408..24400 at
most 12800 apart: afterwards both global means are within their maxima, the
speech means are again in -1408..24400 and as far apart as before, and the
entries of the other channels are untouched. -/
theorem separate_limit_bounds (S : VadInstT) (c : Nat) (hc : c < 6)
    (hn : S.noise_means.length = 12) (hs : S.speech_means.length = 12)
    (n0 : 640 ≤ S.noise_means.getD c 0 ∧ S.noise_means.getD c 0 ≤ 9344)
    (n1 : 640 ≤ S.noise_means.getD (c + 6) 0 ∧ S.noise_means.getD (c + 6) 0 ≤ 9344)
    (s0 : -1408 ≤ S.speech_means.getD c 0 ∧ S.speech_means.getD c 0 ≤ 24400)
    (s1 : -1408 ≤ S.speech_means.getD (c + 6) 0 ∧ S.speech_means.getD (c + 6) 0 ≤ 24400)
    (sp : S.speech_means.getD c 0 - S.speech_means.getD (c + 6) 0 ≤ 12800 ∧
      S.speech_means.getD (c + 6) 0 - S.speech_means.getD c 0 ≤ 12800) :
    (GmmProbability_limit (GmmProbability_separate S c).1 c (GmmProbability_separate S c).2.1
      (GmmProbability_separate S c).2.2).noise_means.length = 12 ∧
    (GmmProbability_limit (GmmProbability_separate S c).1 c (GmmProbability_separate S c).2.1
      (GmmProbability_separate S c).2.2).speech_means.length = 12 ∧
    (∀ g, g ≠ c → g ≠ c + 6 →
      (GmmProbability_limit (GmmProbability_separate S c).1 c (GmmProbability_separate S c).2.1
        (GmmProbability_separate S c).2.2).noise_means.getD g 0 = S.noise_means.getD g 0 ∧
      (GmmProbability_limit (GmmProbability_separate S c).1 c (GmmProbability_separate S c).2.1
        (GmmProbability_separate S c).2.2).speech_means.getD g 0 = S.speech_means.getD g 0) ∧
    globalMean (GmmProbability_limit (GmmProbability_separate S c).1 c
      (GmmProbability_separate S c).2.1 (GmmProbability_separate S c).2.2).noise_means
      kNoiseDataWeights c / 128 ≤ kMaximumNoise.getD c 0 ∧
    globalMean (GmmProbability_limit (GmmProbability_separate S c).1 c
      (GmmProbability_separate S c).2.1 (GmmProbability_separate S c).2.2).speech_means
      kSpeechDataWeights c / 128 ≤ kMaximumSpeech.getD c 0 ∧
    (-1408 ≤ (GmmProbability_limit (GmmProbability_separate S c).1 c
        (GmmProbability_separate S c).2.1 (GmmProbability_separate S c).2.2).speech_means.getD c 0 ∧
      (GmmProbability_limit (GmmProbability_separate S c).1 c
        (GmmProbability_separate S c).2.1 (GmmProbability_separate S c).2.2).speech_means.getD c 0
        ≤ 24400) ∧
    (-1408 ≤ (GmmProbability_limit (GmmProbability_separate S c).1 c
        (GmmProbability_separate S c).2.1
        (GmmProbability_separate S c).2.2).speech_means.getD (c + 6) 0 ∧
      (GmmProbability_limit (GmmProbability_separate S c).1 c
        (GmmProbability_separate S c).2.1
        (GmmProbability_separate S c).2.2).speech_means.getD (c + 6) 0 ≤ 24400) ∧
    ((GmmProbability_limit (GmmProbability_separate S c).1 c
        (GmmProbability_separate S c).2.1 (GmmProbability_separate S c).2.2).speech_means.getD c 0 -
      (GmmProbability_limit (GmmProbability_separate S c).1 c
        (GmmProbability_separate S c).2.1
        (GmmProbability_separate S c).2.2).speech_means.getD (c + 6) 0 ≤ 12800 ∧
      (GmmProbability_limit (GmmProbability_separate S c).1 c
        (GmmProbability_separate S c).2.1
        (GmmProbability_separate S c).2.2).speech_means.getD (c + 6) 0 -
      (GmmProbability_limit (GmmProbability_separate S c).1 c
        (GmmProbability_separate S c).2.1 (GmmProbability_separate S c).2.2).speech_means.getD c 0
        ≤ 12800) := by
  obtain ⟨nw0, nw1, nw2⟩ := noise_weights c hc
  obtain ⟨sw0, sw1, sw2⟩ := speech_weights c hc
  obtain ⟨⟨md0, md1⟩, ⟨mn0, mn1⟩, ⟨ms0, ms1⟩⟩ := table_bounds c hc
  have NGb := globalMean_bounds S.noise_means kNoiseDataWeights c 640 9344 nw0 nw1 nw2
    n0.1 n0.2 n1.1 n1.2
  have SGm := globalMean_between S.speech_means kSpeechDataWeights c sw0 sw1 sw2
  have hdef : modelDifference S c =
      globalMean S.speech_means kSpeechDataWeights c / 512 -
        globalMean S.noise_means kNoiseDataWeights c / 512 := rfl
  -- the shortfall and the two nudges
  have hT : 0 ≤ separationShortfall S c ∧ separationShortfall S c ≤ 3264 ∧
      S.speech_means.getD c 0 + 13 * separationShortfall S c / 4 ≤ 24500 ∧
      S.speech_means.getD (c + 6) 0 + 13 * separationShortfall S c / 4 ≤ 24500 := by
    unfold separationShortfall
    rw [hdef]
    split_ifs with hd
    · rcases SGm with h | h <;> omega
    · omega
  obtain ⟨T0, T1, T2, T3⟩ := hT
  obtain ⟨E1, E2, E3, E4, E5, E6, E7, E8, E9⟩ := separate_exact S c hc hn hs n0 n1
    ⟨by omega, by omega⟩ ⟨by omega, by omega⟩ (by omega) (by omega) (by omega)
  have SG4 := globalMean_between (GmmProbability_separate S c).1.speech_means
    kSpeechDataWeights c sw0 sw1 sw2
  have gs4 := globalMean_shift S.speech_means (GmmProbability_separate S c).1.speech_means
    kSpeechDataWeights c _ sw2 E5 E6
  have gn4 := globalMean_shift S.noise_means (GmmProbability_separate S c).1.noise_means
    kNoiseDataWeights c (-(3 * separationShortfall S c / 4)) nw2
    (by rw [E3]; ring) (by rw [E4]; ring)
  -- when the models were nudged, the global speech mean stays below 11652 * 128
  have hnudge : 0 < separationShortfall S c →
      globalMean S.speech_means kSpeechDataWeights c < 2912 * 512 := by
    unfold separationShortfall
    rw [hdef]
    split_ifs with hd
    · intro _; omega
    · intro h; omega
  generalize separationShortfall S c = T at T0 T1 T2 T3 E3 E4 E5 E6 gs4 gn4 hnudge
  obtain ⟨L1, L2, L3, L4, L5, L6, L7⟩ := limit_exact (GmmProbability_separate S c).1 c
    (GmmProbability_separate S c).2.1 (GmmProbability_separate S c).2.2 hc E1 E2 E8 E9
    ⟨by rw [E3]; omega, by rw [E3]; omega⟩ ⟨by rw [E4]; omega, by rw [E4]; omega⟩
    ⟨by rw [E5]; omega, by rw [E5]; omega⟩ ⟨by rw [E6]; omega, by rw [E6]; omega⟩
    (by
      intro hgt
      rw [E9] at hgt ⊢
      rw [E5]
      rw [E5, E6] at SG4
      rcases SG4 with h | h <;> omega)
    (by
      intro hgt
      rw [E9] at hgt ⊢
      rw [E6]
      rw [E5, E6] at SG4
      rcases SG4 with h | h <;> omega)
  have gs5 := globalMean_shift (GmmProbability_separate S c).1.speech_means
    (GmmProbability_limit (GmmProbability_separate S c).1 c (GmmProbability_separate S c).2.1
      (GmmProbability_separate S c).2.2).speech_means kSpeechDataWeights c
    (-(if (GmmProbability_separate S c).2.2 / 128 > kMaximumSpeech.getD c 0 then
      (GmmProbability_separate S c).2.2 / 128 - kMaximumSpeech.getD c 0 else 0)) sw2
    (by rw [L5]; ring) (by rw [L6]; ring)
  have gn5 := globalMean_shift (GmmProbability_separate S c).1.noise_means
    (GmmProbability_limit (GmmProbability_separate S c).1 c (GmmProbability_separate S c).2.1
      (GmmProbability_separate S c).2.2).noise_means kNoiseDataWeights c
    (-(if (GmmProbability_separate S c).2.1 / 128 > kMaximumNoise.getD c 0 then
      (GmmProbability_separate S c).2.1 / 128 - kMaximumNoise.getD c 0 else 0)) nw2
    (by rw [L3]; ring) (by rw [L4]; ring)
  have SG5 := globalMean_between (GmmProbability_limit (GmmProbability_separate S c).1 c
    (GmmProbability_separate S c).2.1 (GmmProbability_separate S c).2.2).speech_means
    kSpeechDataWeights c sw0 sw1 sw2
  generalize GmmProbability_limit (GmmProbability_separate S c).1 c
    (GmmProbability_separate S c).2.1 (GmmProbability_separate S c).2.2 = S5
    at L1 L2 L3 L4 L5 L6 L7 gs5 gn5 SG5 ⊢
  generalize GmmProbability_separate S c = S4 at *
  refine ⟨L1, L2, ?_, ?_, ?_, ?_, ?_, ?_⟩
  · intro g g1 g2
    exact ⟨((L7 g g1 g2).1).trans (E7 g g1 g2).1, ((L7 g g1 g2).2).trans (E7 g g1 g2).2⟩
  · rw [gn5]
    split_ifs <;> omega
  · rw [gs5]
    split_ifs <;> omega
  · rw [L5, E5]
    rw [L5, L6, E5, E6] at SG5
    rw [E5, E6] at SG4
    rw [gs5] at SG5
    constructor
    · split_ifs at SG5 ⊢ with hx
      · rcases SG4 with h | h <;> omega
      · omega
    · split_ifs at SG5 ⊢ with hx
      · rcases SG5 with h | h <;> omega
      · by_cases hT0 : T = 0
        · subst hT0; omega
        · rcases SG4 with h | h <;> omega
  · rw [L6, E6]
    rw [L5, L6, E5, E6] at SG5
    rw [E5, E6] at SG4
    rw [gs5] at SG5
    constructor
    · split_ifs at SG5 ⊢ with hx
      · rcases SG4 with h | h <;> omega
      · omega
    · split_ifs at SG5 ⊢ with hx
      · rcases SG5 with h | h <;> omega
      · by_cases hT0 : T = 0
        · subst hT0; omega
        · rcases SG4 with h | h <;> omega
  · rw [L5, L6, E5, E6]
    omega

theorem update_MeansInv (spl : Spl) (features : List Int) (sc : GmmScratch) (vadflag : Int)
    (st : VadInstT × Int) (channel : Nat) (hc : channel < kNumChannels)
    (hm0 : 11392 ≤ st.2) (hm1 : st.2 ≤ 12800) (h : MeansInv st.1) :
    MeansInv (GmmProbability_update spl features sc vadflag st channel).1 := by
  have hc6 : channel < 6 := hc
  obtain ⟨hn, hs, hb⟩ := h
  obtain ⟨s1, fm, t, e1, e2, e3⟩ := update_stages spl features sc vadflag st channel
  rw [e3]
  obtain ⟨a1, a2, -⟩ := WeightedAverage_spec st.1.noise_means channel 0 kNoiseDataWeights
    (by omega)
  obtain ⟨v0, p0, q0, g0⟩ := updateGaussian_noise_means spl features sc vadflag channel fm t
    st.2 s1 0 (by decide) hc
  obtain ⟨v1, p1, q1, g1⟩ := updateGaussian_noise_means spl features sc vadflag channel fm t
    st.2 (GmmProbability_updateGaussian spl features sc vadflag channel fm t st.2 s1 0) 1
    (by decide) hc
  obtain ⟨z0, y0⟩ := updateGaussian_speech_means spl features sc vadflag channel fm t
    st.2 s1 0 (by decide) (by omega) (by omega)
  obtain ⟨z1, y1⟩ := updateGaussian_speech_means spl features sc vadflag channel fm t
    st.2 (GmmProbability_updateGaussian spl features sc vadflag channel fm t st.2 s1 0) 1
    (by decide) (by omega) (by omega)
  generalize GmmProbability_updateGaussian spl features sc vadflag channel fm t st.2
    (GmmProbability_updateGaussian spl features sc vadflag channel fm t st.2 s1 0) 1 = S3
    at g1 z1 y1 ⊢
  generalize GmmProbability_updateGaussian spl features sc vadflag channel fm t st.2 s1 0 = S2
    at g0 g1 z0 y0 z1 y1
  have k0 : channel + 0 * kNumChannels = channel := by simp
  have k1 : channel + 1 * kNumChannels = channel + 6 := by simp [kNumChannels]
  rw [k1] at g1 y1
  rw [k0] at g0 y0
  rw [g0, e1] at g1
  have hlen : S3.noise_means.length = 12 := by
    rw [g1, List.length_set, List.length_set, a1, hn]
  have hget : ∀ g, S3.noise_means.getD g 0 =
      if g = channel + 6 then v1 else if g = channel then v0 else st.1.noise_means.getD g 0 := by
    intro g
    rw [g1, getD_set, getD_set, List.length_set, a1]
    by_cases c1 : g = channel + 6
    · have c1' : g = channel + 6 ∧ channel + 6 < st.1.noise_means.length := ⟨c1, by omega⟩
      rw [if_pos c1', if_pos c1]
    · have c1' : ¬ (g = channel + 6 ∧ channel + 6 < st.1.noise_means.length) := fun hh => c1 hh.1
      rw [if_neg c1', if_neg c1]
      by_cases c2 : g = channel
      · have c2' : g = channel ∧ channel < st.1.noise_means.length := ⟨c2, by omega⟩
        rw [if_pos c2', if_pos c2]
      · have c2' : ¬ (g = channel ∧ channel < st.1.noise_means.length) := fun hh => c2 hh.1
        rw [if_neg c2', if_neg c2, a2, if_neg c2, if_neg c1]
  have x1 : ¬ (channel = channel + 6) := by omega
  have xn0 : S3.noise_means.getD channel 0 = v0 := by
    rw [hget, if_neg x1, if_pos rfl]
  have xn1 : S3.noise_means.getD (channel + 6) 0 = v1 := by
    rw [hget, if_pos rfl]
  simp only [Nat.cast_zero, Nat.cast_one] at p0 q0 p1 q1
  -- the speech means before the separation
  have hsp : S3.speech_means.length = 12 ∧
      (∀ g, g ≠ channel → g ≠ channel + 6 →
        S3.speech_means.getD g 0 = st.1.speech_means.getD g 0) ∧
      (-1408 ≤ S3.speech_means.getD channel 0 ∧ S3.speech_means.getD channel 0 ≤ 24400) ∧
      (-1408 ≤ S3.speech_means.getD (channel + 6) 0 ∧
        S3.speech_means.getD (channel + 6) 0 ≤ 24400) ∧
      (S3.speech_means.getD channel 0 - S3.speech_means.getD (channel + 6) 0 ≤ 12800 ∧
        S3.speech_means.getD (channel + 6) 0 - S3.speech_means.getD channel 0 ≤ 12800) := by
    by_cases hv : vadflag = 0
    · rw [z1 hv, z0 hv, e2]
      obtain ⟨-, -, r1, r2, r3⟩ := hb channel hc
      exact ⟨hs, fun _ _ _ => rfl, r1, r2, r3⟩
    · obtain ⟨u0, b0, b1, b2⟩ := y0 hv
      obtain ⟨u1, d0, d1, d2⟩ := y1 hv
      rw [d2, b2, e2]
      have m0 : kMinimumMean.getD 0 0 = 640 := rfl
      have m1 : kMinimumMean.getD 1 0 = 768 := rfl
      rw [m0] at b0
      rw [m1] at d0
      have gg : ∀ g, ((st.1.speech_means.set channel u0).set (channel + 6) u1).getD g 0 =
          if g = channel + 6 then u1 else if g = channel then u0
          else st.1.speech_means.getD g 0 := by
        intro g
        rw [getD_set, getD_set, List.length_set]
        by_cases c1 : g = channel + 6
        · have c1' : g = channel + 6 ∧ channel + 6 < st.1.speech_means.length := ⟨c1, by omega⟩
          rw [if_pos c1', if_pos c1]
        · have c1' : ¬ (g = channel + 6 ∧ channel + 6 < st.1.speech_means.length) :=
            fun hh => c1 hh.1
          rw [if_neg c1', if_neg c1]
          by_cases c2 : g = channel
          · have c2' : g = channel ∧ channel < st.1.speech_means.length := ⟨c2, by omega⟩
            rw [if_pos c2', if_pos c2]
          · have c2' : ¬ (g = channel ∧ channel < st.1.speech_means.length) :=
              fun hh => c2 hh.1
            rw [if_neg c2', if_neg c2]
      refine ⟨by rw [List.length_set, List.length_set, hs], ?_, ?_, ?_, ?_⟩
      · intro g g1 g2
        rw [gg, if_neg g2, if_neg g1]
      · rw [gg, if_neg x1, if_pos rfl]
        omega
      · rw [gg, if_pos rfl]
        omega
      · rw [gg, gg, if_neg x1, if_pos rfl, if_pos rfl]
        omega
  obtain ⟨hslen, hso, hs0, hs1, hsd⟩ := hsp
  obtain ⟨R1, R2, R3, R4, R5, R6, R7, R8⟩ := separate_limit_bounds S3 channel hc6 hlen hslen
    (by rw [xn0]; omega) (by rw [xn1]; omega) hs0 hs1 hsd
  generalize GmmProbability_limit (GmmProbability_separate S3 channel).1 channel
    (GmmProbability_separate S3 channel).2.1 (GmmProbability_separate S3 channel).2.2 = S5
    at R1 R2 R3 R4 R5 R6 R7 R8 ⊢
  refine ⟨R1, R2, ?_⟩
  intro c hcc
  have hcc6 : c < 6 := hcc
  by_cases hcd : c = channel
  · subst hcd
    exact ⟨R4, R5, R6, R7, R8⟩
  · have y1 : c ≠ channel + 6 := by omega
    have y2 : c + 6 ≠ channel := by omega
    have y3 : c + 6 ≠ channel + 6 := by omega
    obtain ⟨o1, o2, o3, o4, o5⟩ := hb c hcc
    have f0 := R3 c hcd y1
    have f1 := R3 (c + 6) y2 y3
    have gn0 : S5.noise_means.getD c 0 = st.1.noise_means.getD c 0 := by
      rw [f0.1, hget, if_neg y1, if_neg hcd]
    have gn1 : S5.noise_means.getD (c + 6) 0 = st.1.noise_means.getD (c + 6) 0 := by
      rw [f1.1, hget, if_neg y3, if_neg y2]
    have gs0 : S5.speech_means.getD c 0 = st.1.speech_means.getD c 0 := by
      rw [f0.2, hso c hcd y1]
    have gs1 : S5.speech_means.getD (c + 6) 0 = st.1.speech_means.getD (c + 6) 0 := by
      rw [f1.2, hso (c + 6) y2 y3]
    rw [globalMean_congr _ _ _ c gn0 gn1, globalMean_congr _ _ _ c gs0 gs1, gs0, gs1]
    exact ⟨o1, o2, o3, o4, o5⟩

theorem MeansInv_congr (a b : VadInstT) (h : modelState a = modelState b) (ha : MeansInv a) :
    MeansInv b := by
  simp only [modelState, Prod.mk.injEq] at h
  unfold MeansInv at ha ⊢
  rw [← h.1, ← h.2.1]
  exact ha

theorem initState_MeansInv : MeansInv initState := by
  refine ⟨rfl, rfl, ?_⟩
  intro c hc
  have hc' : c < 6 := hc
  interval_cases c <;> decide

/-- C29 (global-mean upper bounds).  In every state reachable from Init, for
every channel the component-weighted global speech mean, `>> 7`, is at most
`kMaximumSpeech[channel]`, and the weighted global noise mean, `>> 7`, is at
most `kMaximumNoise[channel]`; the bounds hold in the Init state and every
classification step keeps them (together with the ranges of the speech means
that make the arithmetic exact). -/
theorem global_mean_bounds (spl : Spl) (s : VadInstT) (h : Reachable spl s) :
    (∀ c, c < kNumChannels →
      globalMean s.speech_means kSpeechDataWeights c / 128 ≤ kMaximumSpeech.getD c 0 ∧
      globalMean s.noise_means kNoiseDataWeights c / 128 ≤ kMaximumNoise.getD c 0) ∧
    (∀ c, c < kNumChannels →
      globalMean initState.speech_means kSpeechDataWeights c / 128 ≤ kMaximumSpeech.getD c 0 ∧
      globalMean initState.noise_means kNoiseDataWeights c / 128 ≤ kMaximumNoise.getD c 0) ∧
    (∀ (s' : VadInstT) (features : List Int) (total_power : Int) (frame_length : Nat),
      MeansInv s' → MeansInv (GmmProbability spl s' features total_power frame_length).1) := by
  have hstep : ∀ (features : List Int) (sc : GmmScratch) (vadflag : Int) (st : VadInstT × Int)
      (channel : Nat), channel < kNumChannels → True → 11392 ≤ st.2 → st.2 ≤ 12800 →
      MeansInv st.1 → MeansInv (GmmProbability_update spl features sc vadflag st channel).1 :=
    fun features sc vadflag st channel hc _ h0 h1 hst =>
      update_MeansInv spl features sc vadflag st channel hc h0 h1 hst
  refine ⟨?_, ?_, ?_⟩
  · intro c hc
    have hI := Reachable_lift_gen spl MeansInv (fun _ => True) MeansInv_congr initState_MeansInv
      (fun _ _ _ => trivial) hstep s h
    exact ⟨(hI.2.2 c hc).2.1, (hI.2.2 c hc).1⟩
  · intro c hc
    exact ⟨(initState_MeansInv.2.2 c hc).2.1, (initState_MeansInv.2.2 c hc).1⟩
  · intro s' features total_power frame_length hs
    exact MeansInv_congr _ _ (hysteresis_modelState _ _ _ _).symm
      (raw_lift_gen spl MeansInv (fun _ => True) MeansInv_congr hstep s' features total_power
        frame_length trivial hs)

theorem global_mean_bounds_witness :
    globalMean (WebRtcVad_CalcVad8khz splRef initState burstFrame 80).1.speech_means
      kSpeechDataWeights 0 / 128 ≤ kMaximumSpeech.getD 0 0 ∧
    globalMean (WebRtcVad_CalcVad8khz splRef initState burstFrame 80).1.noise_means
      kNoiseDataWeights 0 / 128 ≤ kMaximumNoise.getD 0 0 :=
  (global_mean_bounds splRef (WebRtcVad_CalcVad8khz splRef initState burstFrame 80).1
    (Reachable.calc8 initState burstFrame 80 (Reachable.init zeroInst initState rfl))).1 0
    (by decide)

/-! ## The default of the smoothed minimum -/

theorem LogOfEnergy_feature_range (spl : Spl) (hc : FeatureContract spl) (v : List Int) (n : Nat)
    (off t : Int) (h0 : 0 ≤ off) (h1 : off ≤ 368) :
    off ≤ (LogOfEnergy spl v n off t).2 ∧ (LogOfEnergy spl v n off t).2 ≤ off + 4623 := by
  obtain ⟨⟨hs, hn⟩, hu⟩ := hc
  have hr := hs v n
  have hr2 := hu v n
  have ha0 : 0 ≤ wrapU32 (spl.WebRtcSpl_Energy v n).1 := by
    unfold wrapU32
    omega
  have ha1 : wrapU32 (spl.WebRtcSpl_Energy v n).1 < 4294967296 := by
    unfold wrapU32
    omega
  by_cases hz : wrapU32 (spl.WebRtcSpl_Energy v n).1 = 0
  · have hn0 : ¬ (wrapU32 (spl.WebRtcSpl_Energy v n).1 ≠ 0) := fun h => h hz
    simp only [LogOfEnergy, if_neg hn0]
    omega
  · have hpos : 0 < wrapU32 (spl.WebRtcSpl_Energy v n).1 := by omega
    have hN := hn _ hpos ha1
    simp only [LogOfEnergy, if_pos hz, hN]
    generalize wrapU32 (spl.WebRtcSpl_Energy v n).1 = a at *
    generalize (spl.WebRtcSpl_Energy v n).2 = r at *
    obtain ⟨a', rfl⟩ := Int.eq_ofNat_of_zero_le ha0
    have ha' : 0 < a' := by omega
    have ha'' : a' < 2 ^ 32 := by
      norm_num
      omega
    obtain ⟨b1, b2, -, -⟩ := bitLength_spec 32 a' ha' ha''
    simp only [Int.toNat_ofNat]
    generalize bitLength 32 a' = b at *
    generalize (if (17 : Int) - (32 - (b : Int)) < 0 then
        wrapU32 ((a' : Int) * 2 ^ (-(17 - (32 - (b : Int)))).toNat)
      else shr (a' : Int) (17 - (32 - (b : Int)))) = e
    have hk : kLogConst = 24660 := rfl
    have hi : kLogEnergyIntPart = 14336 := rfl
    rw [hk, hi]
    have q1 : 0 ≤ e % 16384 / 16 ∧ e % 16384 / 16 ≤ 1023 := by omega
    have w1 : wrap16 (e % 16384 / 16) = e % 16384 / 16 := wrap16_of_range _ (by omega) (by omega)
    rw [w1]
    have w2 : wrap16 (14336 + e % 16384 / 16) = 14336 + e % 16384 / 16 :=
      wrap16_of_range _ (by omega) (by omega)
    rw [w2]
    have w3 : wrap32 ((r + (17 - (32 - (b : Int)))) * 24660) =
        (r + (17 - (32 - (b : Int)))) * 24660 := wrap32_of_range _ (by omega) (by omega)
    rw [w3]
    have w4 : wrap16 (24660 * (14336 + e % 16384 / 16) / 524288 +
        (r + (17 - (32 - (b : Int)))) * 24660 / 512) =
        24660 * (14336 + e % 16384 / 16) / 524288 +
        (r + (17 - (32 - (b : Int)))) * 24660 / 512 := wrap16_of_range _ (by omega) (by omega)
    rw [w4]
    have hx : -1 ≤ 24660 * (14336 + e % 16384 / 16) / 524288 +
        (r + (17 - (32 - (b : Int)))) * 24660 / 512 ∧
        24660 * (14336 + e % 16384 / 16) / 524288 +
        (r + (17 - (32 - (b : Int)))) * 24660 / 512 ≤ 4623 := by
      omega
    generalize 24660 * (14336 + e % 16384 / 16) / 524288 +
        (r + (17 - (32 - (b : Int)))) * 24660 / 512 = x at hx ⊢
    split_ifs with hneg
    · rw [wrap16_of_range (0 + off) (by omega) (by omega)]
      omega
    · rw [wrap16_of_range (x + off) (by omega) (by omega)]
      omega

theorem CalculateFeatures_range (spl : Spl) (hc : FeatureContract spl) (inst : VadInstT)
    (frame : List Int) (n : Nat) :
    FeatureRange (WebRtcVad_CalculateFeatures spl inst frame n).2.1 := by
  have o0 : kOffsetVector.getD 0 0 = 368 := rfl
  have o1 : kOffsetVector.getD 1 0 = 368 := rfl
  have o2 : kOffsetVector.getD 2 0 = 272 := rfl
  have o3 : kOffsetVector.getD 3 0 = 176 := rfl
  have o4 : kOffsetVector.getD 4 0 = 176 := rfl
  have o5 : kOffsetVector.getD 5 0 = 176 := rfl
  have key : ∀ (v : List Int) (m : Nat) (off t : Int), 0 ≤ off → off ≤ 368 →
      0 ≤ (LogOfEnergy spl v m off t).2 ∧ (LogOfEnergy spl v m off t).2 ≤ 10000 := by
    intro v m off t h0 h1
    have := LogOfEnergy_feature_range spl hc v m off t h0 h1
    omega
  have hex : ∃ f0 f1 f2 f3 f4 f5 : Int,
      (WebRtcVad_CalculateFeatures spl inst frame n).2.1 = [f0, f1, f2, f3, f4, f5] ∧
      (0 ≤ f0 ∧ f0 ≤ 10000) ∧ (0 ≤ f1 ∧ f1 ≤ 10000) ∧ (0 ≤ f2 ∧ f2 ≤ 10000) ∧
      (0 ≤ f3 ∧ f3 ≤ 10000) ∧ (0 ≤ f4 ∧ f4 ≤ 10000) ∧ (0 ≤ f5 ∧ f5 ≤ 10000) := by
    simp only [WebRtcVad_CalculateFeatures, o0, o1, o2, o3, o4, o5]
    exact ⟨_, _, _, _, _, _, rfl, key _ _ _ _ (by norm_num) (by norm_num),
      key _ _ _ _ (by norm_num) (by norm_num), key _ _ _ _ (by norm_num) (by norm_num),
      key _ _ _ _ (by norm_num) (by norm_num), key _ _ _ _ (by norm_num) (by norm_num),
      key _ _ _ _ (by norm_num) (by norm_num)⟩
  obtain ⟨f0, f1, f2, f3, f4, f5, he, r0, r1, r2, r3, r4, r5⟩ := hex
  rw [he]
  intro c
  match c with
  | 0 => exact r0
  | 1 => exact r1
  | 2 => exact r2
  | 3 => exact r3
  | 4 => exact r4
  | 5 => exact r5
  | k + 6 =>
    have : [f0, f1, f2, f3, f4, f5].getD (k + 6) 0 = 0 := by
      simp only [List.getD_cons_succ, List.getD_nil]
    rw [this]
    decide

theorem updateGaussian_mean_value (spl : Spl) (features : List Int) (sc : GmmScratch)
    (vadflag : Int) (channel : Nat) (feature_minimum tmp1_s16 maxspe : Int) (self : VadInstT)
    (k : Nat) :
    (GmmProbability_updateGaussian spl features sc vadflag channel
      feature_minimum tmp1_s16 maxspe self k).mean_value = self.mean_value := by
  show (if vadflag ≠ 0 then _ else _ : VadInstT).mean_value = _
  split <;> rfl

theorem separate_mean_value (self : VadInstT) (channel : Nat) :
    (GmmProbability_separate self channel).1.mean_value = self.mean_value := by
  unfold GmmProbability_separate
  simp only []
  split <;> rfl

theorem limit_mean_value (self : VadInstT) (channel : Nat) (n s : Int) :
    (GmmProbability_limit self channel n s).mean_value = self.mean_value := by
  unfold GmmProbability_limit
  simp only []
  split_ifs <;> rfl

theorem update_mean_value (spl : Spl) (features : List Int) (sc : GmmScratch)
    (vadflag : Int) (st : VadInstT × Int) (channel : Nat) :
    (GmmProbability_update spl features sc vadflag st channel).1.mean_value =
      (WebRtcVad_FindMinimum st.1 (features.getD channel 0) channel).1.mean_value := by
  have hfold : ∀ (s0 : VadInstT) (fm t m : Int),
      ((List.range kNumGaussians).foldl
        (GmmProbability_updateGaussian spl features sc vadflag channel fm t m) s0).mean_value =
        s0.mean_value := by
    intro s0 fm t m
    exact foldl_invariant (fun s => s.mean_value = s0.mean_value) _
      (fun a b h => (updateGaussian_mean_value spl features sc vadflag channel fm t m a b).trans h)
      _ _ rfl
  unfold GmmProbability_update
  simp only [limit_mean_value, separate_mean_value, hfold]

theorem smoothing_in_range (alpha mean median : Int)
    (ha : alpha = 0 ∨ alpha = 6553 ∨ alpha = 32439)
    (hm : 0 ≤ mean ∧ mean ≤ 10000) (hd : 0 ≤ median ∧ median ≤ 10000) :
    0 ≤ wrap16 (((alpha + 1) * mean + (WEBRTC_SPL_WORD16_MAX - alpha) * median + 16384) / 32768) ∧
    wrap16 (((alpha + 1) * mean + (WEBRTC_SPL_WORD16_MAX - alpha) * median + 16384) / 32768) ≤
      10000 := by
  rw [smoothing_range alpha mean median ha ⟨by omega, by omega⟩ ⟨by omega, by omega⟩]
  rcases ha with h | h | h <;> subst h <;> omega

theorem FindMinimum_TrackerRange (s : VadInstT) (fv : Int) (channel : Nat)
    (hfv : 0 ≤ fv ∧ fv ≤ 10000) (h : TrackerRange s) :
    TrackerRange (WebRtcVad_FindMinimum s fv channel).1 := by
  obtain ⟨hl, hv, hm⟩ := h
  have hv' := FindMinimum_values (fun x => 0 ≤ x ∧ x ≤ 10000) (by decide) s fv channel hfv hv
  obtain ⟨w, median, alpha, hw, hmed, halpha, hres, hmv⟩ := FindMinimum_stages s fv channel
  have hmedr : 0 ≤ median ∧ median ≤ 10000 := by
    rw [hw] at hv'
    rw [hmed]
    split_ifs
    · exact hv' _
    · exact hv' _
    · decide
  have hal : alpha = 0 ∨ alpha = 6553 ∨ alpha = 32439 := by
    rw [halpha]
    split_ifs
    · exact Or.inr (Or.inl rfl)
    · exact Or.inr (Or.inr rfl)
    · exact Or.inl rfl
  have hr := smoothing_in_range alpha (s.mean_value.getD channel 0) median hal (hm channel) hmedr
  refine ⟨?_, hv', ?_⟩
  · rw [hmv, List.length_set, hl]
  · intro c
    rw [hmv, getD_set]
    split_ifs
    · exact hr
    · exact hm c

theorem TrackerRange_congr (a b : VadInstT) (h : modelState a = modelState b)
    (ha : TrackerRange a) : TrackerRange b := by
  simp only [modelState, Prod.mk.injEq] at h
  unfold TrackerRange trackerState at ha ⊢
  rw [← h.2.2.2.2.2.2, ← h.2.2.2.2.2.1]
  exact ha

theorem update_TrackerRange (spl : Spl) (features : List Int) (sc : GmmScratch) (vadflag : Int)
    (st : VadInstT × Int) (channel : Nat) (hF : FeatureRange features)
    (h : TrackerRange st.1) :
    TrackerRange (GmmProbability_update spl features sc vadflag st channel).1 := by
  have hf := FindMinimum_TrackerRange st.1 (features.getD channel 0) channel (hF channel) h
  unfold TrackerRange at hf ⊢
  rw [update_trackerState, update_mean_value]
  exact hf

theorem initState_TrackerRange : TrackerRange initState := by
  refine ⟨rfl, ?_, ?_⟩
  · intro t
    have e : (trackerState initState).2 = List.replicate 96 10000 := rfl
    rw [e, List.getD_eq_getElem?_getD, List.getElem?_replicate]
    split_ifs <;> decide
  · intro c
    have e : initState.mean_value = List.replicate 6 1600 := rfl
    rw [e, List.getD_eq_getElem?_getD, List.getElem?_replicate]
    split_ifs <;> decide

theorem bitLength_le (fuel : Nat) : ∀ m, bitLength fuel m ≤ fuel := by
  induction fuel with
  | zero => intro m; simp [bitLength]
  | succ f ih =>
    intro m
    simp only [bitLength]
    split_ifs
    · omega
    · have := ih (m / 2)
      omega

theorem NormW32_ge (a : Int) : -1 ≤ WebRtcSpl_NormW32 a := by
  unfold WebRtcSpl_NormW32
  simp only []
  have h1 := bitLength_le 32 (-a - 1).toNat
  have h2 := bitLength_le 32 a.toNat
  split_ifs <;> omega

theorem splRef_FeatureContract : FeatureContract splRef := by
  refine ⟨splRef_EnergyContract, ?_⟩
  intro v n
  show WebRtcSpl_GetScalingSquare v n n ≤ 64
  unfold WebRtcSpl_GetScalingSquare
  have h32 := bitLength_le 32 n
  simp only []
  split_ifs with h1 h2
  · omega
  · omega
  · have := NormW32_ge ((List.range n).foldl
        (fun (smax : Int) i =>
          if (if v.getD i 0 > 0 then v.getD i 0 else wrap16 (-v.getD i 0)) > smax then
            (if v.getD i 0 > 0 then v.getD i 0 else wrap16 (-v.getD i 0)) else smax) (-1) *
        (List.range n).foldl
        (fun (smax : Int) i =>
          if (if v.getD i 0 > 0 then v.getD i 0 else wrap16 (-v.getD i 0)) > smax then
            (if v.getD i 0 > 0 then v.getD i 0 else wrap16 (-v.getD i 0)) else smax) (-1))
    omega

/-- C22 (default minimum).  With an energy primitive whose shift count lies in
0..64 and a normalization primitive that counts leading zero bits, in every
state reachable from Init every tracked value and every smoothed minimum lies
in 0..10000; so in a reachable state whose `frame_counter` is zero,
`WebRtcVad_FindMinimum` returns the default 1600 for every channel and every
feature value, and leaves `mean_value[channel]` equal to 1600. -/
theorem FindMinimum_default (spl : Spl) (hc : FeatureContract spl) (s : VadInstT)
    (h : Reachable spl s) (hfc : s.frame_counter = 0) (channel : Nat)
    (hch : channel < kNumChannels) (fv : Int) :
    (WebRtcVad_FindMinimum s fv channel).2 = 1600 ∧
    (WebRtcVad_FindMinimum s fv channel).1.mean_value.getD channel 0 = 1600 := by
  have hI := Reachable_lift_gen spl TrackerRange FeatureRange TrackerRange_congr
    initState_TrackerRange (CalculateFeatures_range spl hc)
    (fun features sc vadflag st c _ hF _ _ hst =>
      update_TrackerRange spl features sc vadflag st c hF hst) s h
  obtain ⟨hl, -, hm⟩ := hI
  obtain ⟨w, median, alpha, hw, hmed, halpha, hres, hmv⟩ := FindMinimum_stages s fv channel
  have c2 : ¬ s.frame_counter > 2 := by omega
  have c0 : ¬ s.frame_counter > 0 := by omega
  rw [if_neg c2, if_neg c0] at hmed
  rw [if_neg c0] at halpha
  subst hmed halpha
  have hmc := hm channel
  have hk : WEBRTC_SPL_WORD16_MAX = 32767 := rfl
  have hval : wrap16 (((0 + 1) * s.mean_value.getD channel 0 +
      (WEBRTC_SPL_WORD16_MAX - 0) * 1600 + 16384) / 32768) = 1600 := by
    rw [hk, wrap16_of_range _ (by omega) (by omega)]
    omega
  rw [hval] at hres hmv
  refine ⟨hres, ?_⟩
  rw [hmv, getD_set]
  have hch6 : channel < 6 := hch
  have : channel = channel ∧ channel < s.mean_value.length := ⟨rfl, by omega⟩
  rw [if_pos this]

theorem FindMinimum_default_witness :
    (WebRtcVad_FindMinimum initState 9000 0).2 = 1600 ∧
    (WebRtcVad_FindMinimum initState 9000 0).1.mean_value.getD 0 0 = 1600 :=
  FindMinimum_default splRef splRef_FeatureContract initState
    (Reachable.init zeroInst initState rfl) rfl 0 (by decide) 9000

/-! ## The rate of the smoothing -/

theorem upStep_mono (a b : Int) (h : a ≤ b) : upStep a ≤ upStep b := by
  unfold upStep
  omega

theorem upStep_ge (a : Int) (h : a ≤ 10000) : a ≤ upStep a ∧ upStep a ≤ 10000 := by
  unfold upStep
  omega

theorem upStep_iterate_le (n : Nat) : upStep^[n] 1600 ≤ 10000 := by
  induction n with
  | zero => decide
  | succ n ih =>
    rw [Function.iterate_succ_apply']
    exact (upStep_ge _ ih).2

theorem FindMinimum_frame_bound (c : Int) (hc : 0 ≤ c ∧ c ≤ 10000) (channel : Nat)
    (hch : channel < 6) (s : VadInstT) (B : Int) (hB : B ≤ 10000) (n : Nat) (hn : n < 1000)
    (hr : TrackerRange s) (hfc : s.frame_counter = n)
    (h0 : n = 0 → s.mean_value.getD channel 0 = 1600)
    (hm : s.mean_value.getD channel 0 ≤ B) :
    TrackerRange (FindMinimum_frame c channel s).1 ∧
    (FindMinimum_frame c channel s).1.frame_counter = (n + 1 : Nat) ∧
    (FindMinimum_frame c channel s).2 ≤ upStep B ∧
    (FindMinimum_frame c channel s).1.mean_value.getD channel 0 =
      (FindMinimum_frame c channel s).2 := by
  have hT := FindMinimum_TrackerRange s c channel hc hr
  obtain ⟨w, median, alpha, hw, hmed, halpha, hres, hmv⟩ := FindMinimum_stages s c channel
  obtain ⟨hl, hv, hmr⟩ := hr
  have hv' := hT.2.1
  rw [hw] at hv'
  have hmedr : 0 ≤ median ∧ median ≤ 10000 := by
    rw [hmed]
    split_ifs
    · exact hv' _
    · exact hv' _
    · decide
  have hmc := hmr channel
  have hk : WEBRTC_SPL_WORD16_MAX = 32767 := rfl
  have hU := upStep_ge B hB
  have hbound : wrap16 (((alpha + 1) * s.mean_value.getD channel 0 +
      (WEBRTC_SPL_WORD16_MAX - alpha) * median + 16384) / 32768) ≤ upStep B := by
    rw [halpha, kSmoothingDown, kSmoothingUp, hk]
    unfold upStep at hU ⊢
    by_cases c0 : s.frame_counter > 0
    · rw [if_pos c0]
      by_cases cm : median < s.mean_value.getD channel 0
      · rw [if_pos cm, wrap16_of_range _ (by omega) (by omega)]
        omega
      · rw [if_neg cm, wrap16_of_range _ (by omega) (by omega)]
        omega
    · rw [if_neg c0]
      have hn0 : n = 0 := by omega
      have hm0 := h0 hn0
      have c2 : ¬ s.frame_counter > 2 := by omega
      rw [if_neg c2, if_neg c0] at hmed
      rw [hmed, hm0]
      rw [wrap16_of_range _ (by omega) (by omega)]
      omega
  have hfr : (FindMinimum_frame c channel s).2 = (WebRtcVad_FindMinimum s c channel).2 := by
    simp only [FindMinimum_frame]
  have hfm : (FindMinimum_frame c channel s).1.mean_value =
      (WebRtcVad_FindMinimum s c channel).1.mean_value := by
    simp only [FindMinimum_frame]
  have hft : trackerState (FindMinimum_frame c channel s).1 =
      trackerState (WebRtcVad_FindMinimum s c channel).1 := by
    simp only [FindMinimum_frame, trackerState]
  have hff : (FindMinimum_frame c channel s).1.frame_counter = wrap32 (s.frame_counter + 1) := by
    simp only [FindMinimum_frame]
  refine ⟨?_, ?_, ?_, ?_⟩
  · unfold TrackerRange
    rw [hfm, hft]
    exact hT
  · rw [hff, hfc, wrap32_of_range _ (by omega) (by omega)]
    push_cast
    rfl
  · rw [hfr, hres]
    exact hbound
  · rw [hfm, hfr, hmv, hres, getD_set]
    have : channel = channel ∧ channel < s.mean_value.length := ⟨rfl, by omega⟩
    rw [if_pos this]

theorem FindMinimum_frames_bound (c : Int) (hc : 0 ≤ c ∧ c ≤ 10000) (channel : Nat)
    (hch : channel < 6) (n : Nat) (hn : n < 1000) :
    TrackerRange (FindMinimum_frames c channel n initState).1 ∧
    (FindMinimum_frames c channel n initState).1.frame_counter = (n : Nat) ∧
    (FindMinimum_frames c channel n initState).2 ≤ upStep^[n] 1600 ∧
    (FindMinimum_frames c channel n initState).1.mean_value.getD channel 0 =
      (FindMinimum_frames c channel n initState).2 := by
  induction n with
  | zero =>
    have e : initState.mean_value = List.replicate 6 1600 := rfl
    have hm : initState.mean_value.getD channel 0 = 1600 := by
      rw [e, List.getD_eq_getElem?_getD, List.getElem?_replicate, if_pos hch]
      rfl
    refine ⟨initState_TrackerRange, rfl, ?_, rfl⟩
    show initState.mean_value.getD channel 0 ≤ 1600
    rw [hm]
  | succ n ih =>
    obtain ⟨i1, i2, i3, i4⟩ := ih (by omega)
    have hstep := FindMinimum_frame_bound c hc channel hch
      (FindMinimum_frames c channel n initState).1 (max 1600 (upStep^[n] 1600))
      (max_le (by norm_num) (upStep_iterate_le n)) n (by omega) i1 i2
      (fun h0 => by
        subst h0
        have e : initState.mean_value = List.replicate 6 1600 := rfl
        show initState.mean_value.getD channel 0 = 1600
        rw [e, List.getD_eq_getElem?_getD, List.getElem?_replicate, if_pos hch]
        rfl)
      (by rw [i4]; exact le_trans i3 (le_max_right _ _))
    have hmax : max 1600 (upStep^[n] 1600) = upStep^[n] 1600 := by
      apply max_eq_right
      clear hstep i1 i2 i3 i4 ih
      induction n with
      | zero => exact le_refl _
      | succ n ih =>
        rw [Function.iterate_succ_apply']
        exact le_trans (ih (by omega)) (upStep_ge _ (upStep_iterate_le n)).1
    rw [hmax] at hstep
    show TrackerRange (FindMinimum_frame c channel _).1 ∧ _
    rw [Function.iterate_succ_apply']
    exact hstep

/-- The rate of the smoothing in one call.  One call
of `WebRtcVad_FindMinimum` on a frame after the first (`frame_counter > 0`),
with 16-bit contents, moves the smoothed minimum `r` towards the selected
minimum `med` of the window as follows.  From above (`med` below the stored
mean `m`) the gap becomes `(6554 * (m - med) + 16384) >> 15`, about a fifth,
and a gap of at most 2 closes.  From below (`med` at least `m`) the gap
shrinks by `(328 * (med - m) + 16384) >> 15`, about one hundredth, and a gap
of at most 49 does not shrink at all: the returned value is the stored mean. -/
theorem smoothing_rate_per_call (s : VadInstT) (fv : Int) (channel : Nat)
    (hfc : 0 < s.frame_counter)
    (hmean : -32768 ≤ s.mean_value.getD channel 0 ∧ s.mean_value.getD channel 0 ≤ 32767)
    (hlow : ∀ t, -32768 ≤ s.low_value_vector.getD t 0 ∧ s.low_value_vector.getD t 0 ≤ 32767)
    (hfv : -32768 ≤ fv ∧ fv ≤ 32767) :
    (selectedMinimum s.frame_counter
        ((WebRtcVad_FindMinimum s fv channel).1.low_value_vector.getD (channel * 16 + 0) 0)
        ((WebRtcVad_FindMinimum s fv channel).1.low_value_vector.getD (channel * 16 + 2) 0) <
        s.mean_value.getD channel 0 →
      (WebRtcVad_FindMinimum s fv channel).2 -
        selectedMinimum s.frame_counter
          ((WebRtcVad_FindMinimum s fv channel).1.low_value_vector.getD (channel * 16 + 0) 0)
          ((WebRtcVad_FindMinimum s fv channel).1.low_value_vector.getD (channel * 16 + 2) 0) =
        (6554 * (s.mean_value.getD channel 0 -
          selectedMinimum s.frame_counter
            ((WebRtcVad_FindMinimum s fv channel).1.low_value_vector.getD (channel * 16 + 0) 0)
            ((WebRtcVad_FindMinimum s fv channel).1.low_value_vector.getD (channel * 16 + 2) 0)) +
          16384) / 32768 ∧
      (s.mean_value.getD channel 0 -
          selectedMinimum s.frame_counter
            ((WebRtcVad_FindMinimum s fv channel).1.low_value_vector.getD (channel * 16 + 0) 0)
            ((WebRtcVad_FindMinimum s fv channel).1.low_value_vector.getD (channel * 16 + 2) 0)
          ≤ 2 →
        (WebRtcVad_FindMinimum s fv channel).2 =
          selectedMinimum s.frame_counter
            ((WebRtcVad_FindMinimum s fv channel).1.low_value_vector.getD (channel * 16 + 0) 0)
            ((WebRtcVad_FindMinimum s fv channel).1.low_value_vector.getD (channel * 16 + 2) 0))) ∧
    (s.mean_value.getD channel 0 ≤
        selectedMinimum s.frame_counter
          ((WebRtcVad_FindMinimum s fv channel).1.low_value_vector.getD (channel * 16 + 0) 0)
          ((WebRtcVad_FindMinimum s fv channel).1.low_value_vector.getD (channel * 16 + 2) 0) →
      (WebRtcVad_FindMinimum s fv channel).2 - s.mean_value.getD channel 0 =
        (328 * (selectedMinimum s.frame_counter
            ((WebRtcVad_FindMinimum s fv channel).1.low_value_vector.getD (channel * 16 + 0) 0)
            ((WebRtcVad_FindMinimum s fv channel).1.low_value_vector.getD (channel * 16 + 2) 0) -
          s.mean_value.getD channel 0) + 16384) / 32768 ∧
      (selectedMinimum s.frame_counter
            ((WebRtcVad_FindMinimum s fv channel).1.low_value_vector.getD (channel * 16 + 0) 0)
            ((WebRtcVad_FindMinimum s fv channel).1.low_value_vector.getD (channel * 16 + 2) 0) -
          s.mean_value.getD channel 0 ≤ 49 →
        (WebRtcVad_FindMinimum s fv channel).2 = s.mean_value.getD channel 0)) := by
  have hv := FindMinimum_values (fun x => -32768 ≤ x ∧ x ≤ 32767) (by decide) s fv channel hfv hlow
  obtain ⟨w, median, alpha, hw, hmed, halpha, hres, hmv⟩ := FindMinimum_stages s fv channel
  rw [hw] at hv
  have hlv : (WebRtcVad_FindMinimum s fv channel).1.low_value_vector = w.2 := by
    rw [← hw, trackerState_snd]
  rw [hlv, hres]
  have h0 := hv (channel * 16 + 0)
  have h2 := hv (channel * 16 + 2)
  have hsel : selectedMinimum s.frame_counter (w.2.getD (channel * 16 + 0) 0)
      (w.2.getD (channel * 16 + 2) 0) = median := by
    rw [hmed]
    unfold selectedMinimum
    by_cases c2 : s.frame_counter > 2
    · have c3 : s.frame_counter ≥ 3 := by omega
      rw [if_pos c2, if_pos c3]
    · have c3 : ¬ s.frame_counter ≥ 3 := by omega
      have c12 : s.frame_counter = 1 ∨ s.frame_counter = 2 := by omega
      rw [if_neg c2, if_pos hfc, if_neg c3, if_pos c12]
  rw [hsel]
  have hmedr : -32768 ≤ median ∧ median ≤ 32767 := by
    rw [hmed]
    split_ifs
    · exact h2
    · exact h0
  rw [if_pos hfc, kSmoothingDown, kSmoothingUp] at halpha
  have hk : WEBRTC_SPL_WORD16_MAX = 32767 := rfl
  rw [hk]
  generalize s.mean_value.getD channel 0 = m at hmean halpha ⊢
  constructor
  · intro hlt
    rw [if_pos hlt] at halpha
    subst halpha
    rw [wrap16_of_range _ (by omega) (by omega)]
    constructor
    · omega
    · intro hg
      omega
  · intro hge
    have hn : ¬ median < m := by omega
    rw [if_neg hn] at halpha
    subst halpha
    rw [wrap16_of_range _ (by omega) (by omega)]
    constructor
    · omega
    · intro hg
      omega

theorem smoothing_rate_per_call_witness :
    (WebRtcVad_FindMinimum thirdFrameState 500 0).2 - thirdFrameState.mean_value.getD 0 0 =
      (328 * (selectedMinimum thirdFrameState.frame_counter
          ((WebRtcVad_FindMinimum thirdFrameState 500 0).1.low_value_vector.getD (0 * 16 + 0) 0)
          ((WebRtcVad_FindMinimum thirdFrameState 500 0).1.low_value_vector.getD (0 * 16 + 2) 0) -
        thirdFrameState.mean_value.getD 0 0) + 16384) / 32768 :=
  ((smoothing_rate_per_call thirdFrameState 500 0 (by decide) (by decide)
    (fun t => by
      have h : thirdFrameState.low_value_vector = List.replicate 96 10000 := rfl
      rw [h, List.getD_eq_getElem?_getD]
      by_cases ht : t < 96
      · rw [List.getElem?_replicate, if_pos ht]; decide
      · rw [List.getElem?_eq_none (by simp; omega)]; decide) (by decide)).2 (by decide!)).1

/-- C23, counterexample: from the Init state, 101 consecutive energetic frames
with the constant feature value 9999 on channel 0 return a smoothed minimum of
at most 6958 on the last frame, more than 3000 below 9999. -/
theorem FindMinimum_convergence_counterexample :
    (0 : Int) ≤ 9999 ∧ (9999 : Int) ≤ 9999 ∧ 101 > 100 ∧
    (FindMinimum_frames 9999 0 101 initState).2 ≤ 6958 ∧
    ¬ (9999 - (FindMinimum_frames 9999 0 101 initState).2 ≤ 1) := by
  have h := (FindMinimum_frames_bound 9999 (by decide) 0 (by decide) 101 (by decide)).2.2.1
  have e : upStep^[101] 1600 = 6958 := by decide
  rw [e] at h
  refine ⟨by decide, by decide, by decide, h, ?_⟩
  omega

/-! ## The log-energy feature -/

theorem normalizedEnergy_range (a : Nat) (h0 : 0 < a) (h1 : a < 2 ^ 32) :
    16384 ≤ normalizedEnergy (a : Int) ∧ normalizedEnergy (a : Int) < 32768 := by
  obtain ⟨b1, b2, b3, b4⟩ := bitLength_spec 32 a h0 h1
  unfold normalizedEnergy
  simp only [Int.toNat_ofNat]
  generalize bitLength 32 a = b at *
  by_cases hb : b < 15
  · rw [if_pos hb]
    obtain ⟨c1, -⟩ := norm_arith a b (15 - b) b1 b3 b4
    obtain ⟨-, c2⟩ := norm_arith a b 0 b1 b3 b4
    have d1 := c1 (by omega)
    have d2 := (c2 (by omega)).2.2
    have e1 : ((16384 : Nat) : Int) ≤ ((a * 2 ^ (15 - b) : Nat) : Int) := Int.ofNat_le.mpr d1
    have e2 : ((a * 2 ^ (15 - b) : Nat) : Int) < ((32768 : Nat) : Int) := Int.ofNat_lt.mpr d2
    push_cast at e1 e2
    exact ⟨e1, e2⟩
  · rw [if_neg hb]
    have hp : 0 < (2 : Nat) ^ (b - 15) := by positivity
    have f1 : 16384 ≤ a / 2 ^ (b - 15) := by
      rw [Nat.le_div_iff_mul_le hp]
      have e : (2 : Nat) ^ (14 + (b - 15)) = 2 ^ (b - 1) := by
        congr 1
        omega
      rw [pow_add] at e
      omega
    have f2 : a / 2 ^ (b - 15) < 32768 := by
      rw [Nat.div_lt_iff_lt_mul hp]
      have e : (2 : Nat) ^ (15 + (b - 15)) = 2 ^ b := by
        congr 1
        omega
      rw [pow_add] at e
      omega
    have e1 : ((16384 : Nat) : Int) ≤ ((a / 2 ^ (b - 15) : Nat) : Int) := Int.ofNat_le.mpr f1
    have e2 : ((a / 2 ^ (b - 15) : Nat) : Int) < ((32768 : Nat) : Int) := Int.ofNat_lt.mpr f2
    push_cast at e1 e2
    exact ⟨e1, e2⟩

theorem LogOfEnergy_value (spl : Spl) (hc : EnergyContract spl) (v : List Int) (n : Nat)
    (off t : Int) (h0 : 0 ≤ off) (h1 : off ≤ 368)
    (hz : wrapU32 (spl.WebRtcSpl_Energy v n).1 ≠ 0)
    (hr : (spl.WebRtcSpl_Energy v n).2 +
      (bitLength 32 (wrapU32 (spl.WebRtcSpl_Energy v n).1).toNat : Int) ≤ 672) :
    (LogOfEnergy spl v n off t).2 =
      logEnergyFeature (wrapU32 (spl.WebRtcSpl_Energy v n).1) (spl.WebRtcSpl_Energy v n).2 off := by
  obtain ⟨hs, hn⟩ := hc
  have hr0 := hs v n
  have ha0 : 0 ≤ wrapU32 (spl.WebRtcSpl_Energy v n).1 := by
    unfold wrapU32
    omega
  have ha1 : wrapU32 (spl.WebRtcSpl_Energy v n).1 < 4294967296 := by
    unfold wrapU32
    omega
  have hpos : 0 < wrapU32 (spl.WebRtcSpl_Energy v n).1 := by omega
  have hN := hn _ hpos ha1
  simp only [LogOfEnergy, if_pos hz, hN, logEnergyFeature, totalShifts]
  generalize wrapU32 (spl.WebRtcSpl_Energy v n).1 = a at *
  generalize (spl.WebRtcSpl_Energy v n).2 = r at *
  obtain ⟨a', rfl⟩ := Int.eq_ofNat_of_zero_le ha0
  have ha' : 0 < a' := by omega
  have ha'' : a' < 2 ^ 32 := by
    norm_num
    omega
  obtain ⟨b1, b2, b3, b4⟩ := bitLength_spec 32 a' ha' ha''
  obtain ⟨n1, n2⟩ := normalizedEnergy_range a' ha' ha''
  have hnorm : (if (17 : Int) - (32 - (bitLength 32 (a' : Int).toNat : Int)) < 0 then
        wrapU32 ((a' : Int) * 2 ^ (-(17 - (32 - (bitLength 32 (a' : Int).toNat : Int)))).toNat)
      else shr (a' : Int) (17 - (32 - (bitLength 32 (a' : Int).toNat : Int)))) =
      normalizedEnergy (a' : Int) := by
    have n1' := n1
    have n2' := n2
    unfold normalizedEnergy at n1' n2' ⊢
    simp only [Int.toNat_ofNat] at n1' n2' ⊢
    generalize bitLength 32 a' = b at *
    by_cases hb : b < 15
    · have hlt : (17 : Int) - (32 - (b : Int)) < 0 := by omega
      have e1 : (-(17 - (32 - (b : Int)))).toNat = 15 - b := by omega
      rw [if_pos hb] at n1' n2' ⊢
      rw [if_pos hlt, e1]
      unfold wrapU32
      omega
    · have hlt : ¬ ((17 : Int) - (32 - (b : Int)) < 0) := by omega
      have e1 : ((17 : Int) - (32 - (b : Int))).toNat = b - 15 := by omega
      rw [if_neg hb, if_neg hlt]
      unfold shr
      rw [e1]
  rw [hnorm]
  simp only [Int.toNat_ofNat] at hr ⊢
  generalize normalizedEnergy (a' : Int) = e at *
  generalize bitLength 32 a' = b at *
  have hk : kLogConst = 24660 := rfl
  have hi : kLogEnergyIntPart = 14336 := rfl
  rw [hk, hi]
  have w1 : wrap16 (e % 16384 / 16) = e % 16384 / 16 := wrap16_of_range _ (by omega) (by omega)
  rw [w1]
  have w2 : wrap16 (14336 + e % 16384 / 16) = 14336 + e % 16384 / 16 :=
    wrap16_of_range _ (by omega) (by omega)
  rw [w2]
  have e3 : r + (17 - (32 - (b : Int))) = r + ((b : Int) - 15) := by omega
  rw [e3]
  have w3 : wrap32 ((r + ((b : Int) - 15)) * 24660) = (r + ((b : Int) - 15)) * 24660 :=
    wrap32_of_range _ (by omega) (by omega)
  rw [w3]
  have w4 : wrap16 (24660 * (14336 + e % 16384 / 16) / 524288 +
      (r + ((b : Int) - 15)) * 24660 / 512) =
      24660 * (14336 + e % 16384 / 16) / 524288 +
      (r + ((b : Int) - 15)) * 24660 / 512 := wrap16_of_range _ (by omega) (by omega)
  rw [w4]
  have hx : -1 ≤ 24660 * (14336 + e % 16384 / 16) / 524288 +
      (r + ((b : Int) - 15)) * 24660 / 512 ∧
      24660 * (14336 + e % 16384 / 16) / 524288 +
      (r + ((b : Int) - 15)) * 24660 / 512 ≤ 32365 := by
    omega
  generalize 24660 * (14336 + e % 16384 / 16) / 524288 +
      (r + ((b : Int) - 15)) * 24660 / 512 = x at hx ⊢
  split_ifs with hneg
  · rw [wrap16_of_range (0 + off) (by omega) (by omega)]
    omega
  · rw [wrap16_of_range (x + off) (by omega) (by omega)]
    omega

/-- C31 (log-energy feature floor).  The offsets are 368, 368, 272, 176, 176,
176.  With library primitives that meet the feature contract, the feature that
`LogOfEnergy` writes is at least the offset; for a zero band energy it is the
offset exactly and `total_energy` is returned unchanged; for a non-zero energy
the normalized energy lies in `[2^14, 2^15)` and the feature is
`offset + max(0, ((24660 * log2_energy) >> 19) + ((tot_rshifts * 24660) >> 9))`
with `log2_energy = 14336 + ((normalized energy & 0x3FFF) >> 4)`; and every
feature of `WebRtcVad_CalculateFeatures` is at least the offset of its band. -/
theorem LogOfEnergy_floor (spl : Spl) (hc : FeatureContract spl) :
    kOffsetVector = [368, 368, 272, 176, 176, 176] ∧
    (∀ (v : List Int) (n : Nat) (off t : Int), 0 ≤ off → off ≤ 368 →
      off ≤ (LogOfEnergy spl v n off t).2 ∧
      (wrapU32 (spl.WebRtcSpl_Energy v n).1 = 0 → LogOfEnergy spl v n off t = (t, off)) ∧
      (wrapU32 (spl.WebRtcSpl_Energy v n).1 ≠ 0 →
        16384 ≤ normalizedEnergy (wrapU32 (spl.WebRtcSpl_Energy v n).1) ∧
        normalizedEnergy (wrapU32 (spl.WebRtcSpl_Energy v n).1) < 32768 ∧
        (LogOfEnergy spl v n off t).2 =
          logEnergyFeature (wrapU32 (spl.WebRtcSpl_Energy v n).1)
            (spl.WebRtcSpl_Energy v n).2 off)) ∧
    (∀ (inst : VadInstT) (frame : List Int) (n c : Nat), c < kNumChannels →
      kOffsetVector.getD c 0 ≤ (WebRtcVad_CalculateFeatures spl inst frame n).2.1.getD c 0) := by
  have key : ∀ (v : List Int) (n : Nat) (off t : Int), 0 ≤ off → off ≤ 368 →
      off ≤ (LogOfEnergy spl v n off t).2 := fun v n off t h0 h1 =>
    (LogOfEnergy_feature_range spl hc v n off t h0 h1).1
  refine ⟨rfl, ?_, ?_⟩
  · intro v n off t h0 h1
    refine ⟨key v n off t h0 h1, ?_, ?_⟩
    · intro hz
      have hn0 : ¬ (wrapU32 (spl.WebRtcSpl_Energy v n).1 ≠ 0) := fun h => h hz
      simp only [LogOfEnergy, if_neg hn0]
    · intro hz
      have ha0 : 0 ≤ wrapU32 (spl.WebRtcSpl_Energy v n).1 := by
        unfold wrapU32
        omega
      have ha1 : wrapU32 (spl.WebRtcSpl_Energy v n).1 < 4294967296 := by
        unfold wrapU32
        omega
      obtain ⟨a', ha⟩ := Int.eq_ofNat_of_zero_le ha0
      have ha' : 0 < a' := by omega
      have ha'' : a' < 2 ^ 32 := by
        norm_num
        omega
      obtain ⟨-, b2, -, -⟩ := bitLength_spec 32 a' ha' ha''
      have hr2 := hc.2 v n
      have hb : (bitLength 32 (wrapU32 (spl.WebRtcSpl_Energy v n).1).toNat : Int) ≤ 32 := by
        rw [ha, Int.toNat_ofNat]
        exact Int.ofNat_le.mpr b2
      have hrange := normalizedEnergy_range a' ha' ha''
      rw [← ha] at hrange
      exact ⟨hrange.1, hrange.2,
        LogOfEnergy_value spl hc.1 v n off t h0 h1 hz (by omega)⟩
  · intro inst frame n c hcn
    have hex : ∃ f0 f1 f2 f3 f4 f5 : Int,
        (WebRtcVad_CalculateFeatures spl inst frame n).2.1 = [f0, f1, f2, f3, f4, f5] ∧
        368 ≤ f0 ∧ 368 ≤ f1 ∧ 272 ≤ f2 ∧ 176 ≤ f3 ∧ 176 ≤ f4 ∧ 176 ≤ f5 := by
      have o0 : kOffsetVector.getD 0 0 = 368 := rfl
      have o1 : kOffsetVector.getD 1 0 = 368 := rfl
      have o2 : kOffsetVector.getD 2 0 = 272 := rfl
      have o3 : kOffsetVector.getD 3 0 = 176 := rfl
      have o4 : kOffsetVector.getD 4 0 = 176 := rfl
      have o5 : kOffsetVector.getD 5 0 = 176 := rfl
      simp only [WebRtcVad_CalculateFeatures, o0, o1, o2, o3, o4, o5]
      exact ⟨_, _, _, _, _, _, rfl, key _ _ _ _ (by norm_num) (by norm_num),
        key _ _ _ _ (by norm_num) (by norm_num), key _ _ _ _ (by norm_num) (by norm_num),
        key _ _ _ _ (by norm_num) (by norm_num), key _ _ _ _ (by norm_num) (by norm_num),
        key _ _ _ _ (by norm_num) (by norm_num)⟩
    obtain ⟨f0, f1, f2, f3, f4, f5, he, r0, r1, r2, r3, r4, r5⟩ := hex
    rw [he]
    have hk : kNumChannels = 6 := rfl
    rw [hk] at hcn
    interval_cases c
    · exact r0
    · exact r1
    · exact r2
    · exact r3
    · exact r4
    · exact r5

/-- Witness of C31: the reference primitives meet the contract; a block holding
the single sample 3 has energy 9, normalized to 18432, and the feature
`368 + 150`. -/
theorem LogOfEnergy_floor_witness :
    FeatureContract splRef ∧
    368 ≤ (LogOfEnergy splRef [3] 1 368 0).2 ∧
    normalizedEnergy (wrapU32 (splRef.WebRtcSpl_Energy [3] 1).1) = 18432 ∧
    (LogOfEnergy splRef [3] 1 368 0).2 = logEnergyFeature 9 0 368 ∧
    logEnergyFeature 9 0 368 = 518 ∧
    LogOfEnergy splRef [] 0 176 7 = (7, 176) :=
  ⟨splRef_FeatureContract,
   ((LogOfEnergy_floor splRef splRef_FeatureContract).2.1 [3] 1 368 0 (by decide) (by decide)).1,
   by decide!,
   ((LogOfEnergy_floor splRef splRef_FeatureContract).2.1 [3] 1 368 0 (by decide)
      (by decide)).2.2 (by decide!) |>.2.2,
   by decide!,
   ((LogOfEnergy_floor splRef splRef_FeatureContract).2.1 [] 0 176 7 (by decide)
      (by decide)).2.1 (by decide!)⟩

/-! ## Monotonicity of the log-energy feature -/

theorem bitLength_mono (a1 a2 : Nat) (h0 : 0 < a1) (h : a1 ≤ a2) (h2 : a2 < 2 ^ 32) :
    bitLength 32 a1 ≤ bitLength 32 a2 := by
  obtain ⟨-, -, b3, -⟩ := bitLength_spec 32 a1 h0 (by omega)
  obtain ⟨-, -, -, c4⟩ := bitLength_spec 32 a2 (by omega) h2
  by_contra hlt
  have e : (2 : Nat) ^ bitLength 32 a2 ≤ 2 ^ (bitLength 32 a1 - 1) :=
    Nat.pow_le_pow_right (by norm_num) (by omega)
  omega

theorem normalizedEnergy_mono (a1 a2 : Nat) (h : a1 ≤ a2)
    (hb : bitLength 32 a1 = bitLength 32 a2) :
    normalizedEnergy (a1 : Int) ≤ normalizedEnergy (a2 : Int) := by
  unfold normalizedEnergy
  simp only [Int.toNat_ofNat, hb]
  have h' : (a1 : Int) ≤ (a2 : Int) := Int.ofNat_le.mpr h
  split_ifs
  · exact mul_le_mul_of_nonneg_right h' (by positivity)
  · exact Int.ediv_le_ediv (by positivity) h'

theorem logEnergyFeature_mono (a1 a2 : Nat) (r1 r2 off : Int) (h0 : 0 < a1) (h : a1 ≤ a2)
    (h2 : a2 < 2 ^ 32) (hr : r1 ≤ r2) :
    logEnergyFeature (a1 : Int) r1 off ≤ logEnergyFeature (a2 : Int) r2 off := by
  have hb := bitLength_mono a1 a2 h0 h h2
  obtain ⟨n1, n2⟩ := normalizedEnergy_range a1 h0 (by omega)
  obtain ⟨m1, m2⟩ := normalizedEnergy_range a2 (by omega) h2
  unfold logEnergyFeature totalShifts
  simp only [Int.toNat_ofNat]
  by_cases heq : bitLength 32 a1 = bitLength 32 a2
  · have hm := normalizedEnergy_mono a1 a2 h heq
    rw [heq]
    generalize normalizedEnergy (a1 : Int) = x1 at *
    generalize normalizedEnergy (a2 : Int) = x2 at *
    generalize bitLength 32 a2 = b at *
    omega
  · have hlt : bitLength 32 a1 < bitLength 32 a2 := by omega
    generalize normalizedEnergy (a1 : Int) = x1 at *
    generalize normalizedEnergy (a2 : Int) = x2 at *
    generalize bitLength 32 a1 = b1 at *
    generalize bitLength 32 a2 = b2 at *
    omega

/-- C37 (monotonicity of the log-energy feature).  With primitives that meet the
energy contract, take two blocks whose energies `e1 ≤ e2` lie in `[1, 2^31)`
and whose shift counts satisfy `0 ≤ r1 ≤ r2 ≤ 641` (the counts for which the
16-bit feature does not wrap; the primitive returns at most 31): the feature of
the first block is at most the feature of the second, for the same offset.  So
the feature is non-decreasing in the energy for a fixed shift count, across the
normalization boundaries too, and non-decreasing in the shift count for a fixed
energy.  A block of energy 1 with shift count 0 has the offset as feature. -/
theorem LogOfEnergy_monotone (spl : Spl) (hc : EnergyContract spl) (v1 v2 : List Int)
    (n1 n2 : Nat) (off t1 t2 : Int) (h0 : 0 ≤ off) (h1 : off ≤ 368)
    (he1 : 1 ≤ (spl.WebRtcSpl_Energy v1 n1).1)
    (he : (spl.WebRtcSpl_Energy v1 n1).1 ≤ (spl.WebRtcSpl_Energy v2 n2).1)
    (he2 : (spl.WebRtcSpl_Energy v2 n2).1 < 2147483648)
    (hr : (spl.WebRtcSpl_Energy v1 n1).2 ≤ (spl.WebRtcSpl_Energy v2 n2).2)
    (hr2 : (spl.WebRtcSpl_Energy v2 n2).2 ≤ 641) :
    (LogOfEnergy spl v1 n1 off t1).2 ≤ (LogOfEnergy spl v2 n2 off t2).2 ∧
    (spl.WebRtcSpl_Energy v1 n1 = (1, 0) → (LogOfEnergy spl v1 n1 off t1).2 = off) := by
  have u1 : wrapU32 (spl.WebRtcSpl_Energy v1 n1).1 = (spl.WebRtcSpl_Energy v1 n1).1 := by
    unfold wrapU32
    omega
  have u2 : wrapU32 (spl.WebRtcSpl_Energy v2 n2).1 = (spl.WebRtcSpl_Energy v2 n2).1 := by
    unfold wrapU32
    omega
  obtain ⟨a1, ha1⟩ := Int.eq_ofNat_of_zero_le (show 0 ≤ (spl.WebRtcSpl_Energy v1 n1).1 by omega)
  obtain ⟨a2, ha2⟩ := Int.eq_ofNat_of_zero_le (show 0 ≤ (spl.WebRtcSpl_Energy v2 n2).1 by omega)
  have p1 : 0 < a1 := by omega
  have p2 : a1 ≤ a2 := by omega
  have p3 : a2 < 2 ^ 31 := by
    norm_num
    omega
  have p4 : a2 < 2 ^ 32 := by omega
  obtain ⟨-, c2, -, c4⟩ := bitLength_spec 32 a2 (by omega) p4
  have hb2 : bitLength 32 a2 ≤ 31 := by
    by_contra hgt
    have e : (2 : Nat) ^ 31 ≤ 2 ^ (bitLength 32 a2 - 1) :=
      Nat.pow_le_pow_right (by norm_num) (by omega)
    have := (bitLength_spec 32 a2 (by omega) p4).2.2.1
    omega
  have hb1 := bitLength_mono a1 a2 p1 p2 p4
  have hr0 := hc.1 v1 n1
  have f1 : (LogOfEnergy spl v1 n1 off t1).2 =
      logEnergyFeature (wrapU32 (spl.WebRtcSpl_Energy v1 n1).1) (spl.WebRtcSpl_Energy v1 n1).2
        off :=
    LogOfEnergy_value spl hc v1 n1 off t1 h0 h1 (by omega) (by
      rw [u1, ha1, Int.toNat_ofNat]
      omega)
  have f2 : (LogOfEnergy spl v2 n2 off t2).2 =
      logEnergyFeature (wrapU32 (spl.WebRtcSpl_Energy v2 n2).1) (spl.WebRtcSpl_Energy v2 n2).2
        off :=
    LogOfEnergy_value spl hc v2 n2 off t2 h0 h1 (by omega) (by
      rw [u2, ha2, Int.toNat_ofNat]
      omega)
  refine ⟨?_, ?_⟩
  · rw [f1, f2, u1, u2, ha1, ha2]
    exact logEnergyFeature_mono a1 a2 _ _ off p1 p2 p4 hr
  · intro h
    rw [f1, h]
    have hv : logEnergyFeature (wrapU32 1) 0 off = off + max 0 (-1) := by
      unfold logEnergyFeature
      have e : (24660 * (14336 + normalizedEnergy (wrapU32 1) % 16384 / 16)) / 524288 +
          totalShifts (wrapU32 1) 0 * 24660 / 512 = -1 := by decide!
      rw [e]
    rw [hv]
    have : max (0 : Int) (-1) = 0 := by decide
    rw [this, add_zero]

/-- Witness of C37 on the reference primitives: the one-sample blocks `[1]`
and `[2]` have the energies 1 and 4 with shift count 0. -/
theorem LogOfEnergy_monotone_witness :
    EnergyContract splRef ∧
    (LogOfEnergy splRef [1] 1 368 0).2 ≤ (LogOfEnergy splRef [2] 1 368 0).2 ∧
    (LogOfEnergy splRef [1] 1 368 0).2 = 368 :=
  ⟨splRef_EnergyContract,
   (LogOfEnergy_monotone splRef splRef_EnergyContract [1] [2] 1 1 368 0 0 (by decide) (by decide)
      (by decide!) (by decide!) (by decide!) (by decide!) (by decide!)).1,
   (LogOfEnergy_monotone splRef splRef_EnergyContract [1] [2] 1 1 368 0 0 (by decide) (by decide)
      (by decide!) (by decide!) (by decide!) (by decide!) (by decide!)).2 (by decide!)⟩

/-! ## The fixed-point exp2 of the Gaussian density -/

theorem exp_value_formula (a : Int) (h0 : 0 ≤ a) (h1 : a < 22005) :
    GaussianProbability_exp_value a = exp2Value (exp2Argument a) := by
  have hc : a < kCompVar := h1
  unfold GaussianProbability_exp_value exp2Value exp2FractionQ10 exp2IntegerPart exp2Argument
  rw [if_pos hc]
  simp only [kLog2Exp]
  have e0 : wrap32 (5909 * a) = 5909 * a := wrap32_of_range _ (by omega) (by omega)
  have e1 : wrap16 (wrap32 (5909 * a) / 4096) = 5909 * a / 4096 := by
    rw [e0]
    exact wrap16_of_range _ (by omega) (by omega)
  have e2 : wrap16 (-(5909 * a / 4096)) = -(5909 * a / 4096) :=
    wrap16_of_range _ (by omega) (by omega)
  rw [e1, e2]
  have e3 : (- -(5909 * a / 4096) - 1) / 1024 + 1 = (5909 * a / 4096 + 1023) / 1024 := by
    omega
  rw [e3]
  rfl

theorem exp_value_zero_iff (a : Int) (h0 : 0 ≤ a) :
    GaussianProbability_exp_value a = 0 ↔ 7099 ≤ a := by
  by_cases hc : a < 22005
  · rw [exp_value_formula a h0 hc]
    unfold exp2Value exp2FractionQ10 exp2IntegerPart exp2Argument
    have hx0 : 1024 ≤ 1024 + -(5909 * a / 4096) % 1024 := by omega
    have hx1 : 1024 + -(5909 * a / 4096) % 1024 < 2048 := by omega
    generalize 1024 + -(5909 * a / 4096) % 1024 = x at hx0 hx1
    constructor
    · intro hz
      by_contra hlt
      have hk : ((5909 * a / 4096 + 1023) / 1024).toNat ≤ 10 := by omega
      have hp : (2 : Int) ^ ((5909 * a / 4096 + 1023) / 1024).toNat ≤ 2 ^ 10 :=
        pow_le_pow_right₀ (by norm_num) hk
      have hpos : (0 : Int) < 2 ^ ((5909 * a / 4096 + 1023) / 1024).toNat := by positivity
      have : 1 ≤ x / 2 ^ ((5909 * a / 4096 + 1023) / 1024).toNat :=
        Int.le_ediv_of_mul_le hpos (by omega)
      omega
    · intro hge
      have hk : 11 ≤ ((5909 * a / 4096 + 1023) / 1024).toNat := by omega
      have hp : (2 : Int) ^ 11 ≤ 2 ^ ((5909 * a / 4096 + 1023) / 1024).toNat :=
        pow_le_pow_right₀ (by norm_num) hk
      exact Int.ediv_eq_zero_of_lt (by omega) (by omega)
  · have hn : ¬ (a < kCompVar) := hc
    unfold GaussianProbability_exp_value
    rw [if_neg hn]
    constructor
    · intro _
      omega
    · intro _
      rfl

/-- C33 (fixed-point exp2).  For every Q10 exponent argument `a` with
`0 ≤ a < 22005` and `n = (5909 * a) >> 12`: `0 ≤ n ≤ 31743`, so `n` fits in 16
bits; the mask and shift sequence of `WebRtcVad_GaussianProbability` computes
`(1024 + ((-n) mod 1024)) >> ceil(n / 1024)`; with `I = ceil(n / 1024)` and the
Q10 fraction `f = (-n) mod 1024` in `[0, 1024)` the split `-n = -1024 * I + f`
holds, and the result is the floor of the Q10 value `(1 + f/1024) * 2^(-I)`;
for `n = 0` the factor is exactly 1024. -/
theorem GaussianProbability_exp2 (a : Int) (h0 : 0 ≤ a) (h1 : a < 22005) :
    (0 ≤ exp2Argument a ∧ exp2Argument a ≤ 31743) ∧
    GaussianProbability_exp_value a = exp2Value (exp2Argument a) ∧
    (0 ≤ exp2IntegerPart (exp2Argument a) ∧
      0 ≤ exp2FractionQ10 (exp2Argument a) ∧ exp2FractionQ10 (exp2Argument a) < 1024 ∧
      -exp2Argument a =
        -1024 * exp2IntegerPart (exp2Argument a) + exp2FractionQ10 (exp2Argument a)) ∧
    GaussianProbability_exp_value a =
      ⌊(1024 : ℚ) * (1 + (exp2FractionQ10 (exp2Argument a) : ℚ) / 1024) /
        2 ^ (exp2IntegerPart (exp2Argument a)).toNat⌋ ∧
    (exp2Argument a = 0 → GaussianProbability_exp_value a = 1024) := by
  have hf := exp_value_formula a h0 h1
  refine ⟨?_, hf, ?_, ?_, ?_⟩
  · unfold exp2Argument
    omega
  · unfold exp2IntegerPart exp2FractionQ10 exp2Argument
    omega
  · rw [hf]
    unfold exp2Value
    generalize exp2FractionQ10 (exp2Argument a) = f
    generalize (exp2IntegerPart (exp2Argument a)).toNat = k
    have e : (1024 : ℚ) * (1 + (f : ℚ) / 1024) / 2 ^ k = ((1024 + f : Int) : ℚ) / ((2 ^ k : Nat) : ℚ) := by
      push_cast
      ring
    rw [e, Rat.floor_intCast_div_natCast]
    push_cast
    rfl
  · intro hn
    rw [hf, hn]
    decide

/-- Witness of C33: the exponent argument 1000 gives `n = 1442`, the shift 2
and the fraction 606, so the factor is `(1024 + 606) >> 2 = 407`. -/
theorem GaussianProbability_exp2_witness :
    exp2Argument 1000 = 1442 ∧ GaussianProbability_exp_value 1000 = 407 ∧
    exp2Value 1442 = 407 :=
  ⟨by decide, ((GaussianProbability_exp2 1000 (by decide) (by decide)).2.1).trans (by decide),
   by decide⟩

/-! ## The effective cutoff of the Gaussian density -/

/-- C35 (effective resolution cutoff).  With a division primitive that returns
the integer quotient, for every std in `[384, 32767]`, Q4 input in `[0, 2300]`
and Q7 mean in `[640, 13440]` the probability returned by
`WebRtcVad_GaussianProbability` is non-zero exactly when the Q10 exponent
argument is at most 7098; and for every exponent argument in `[7099, 22004]`
the `kCompVar` test has not triggered and the exp factor, hence the result, is
already 0. -/
theorem GaussianProbability_effective_cutoff (spl : Spl) (h : DivContract spl)
    (input mean std : Int) (h1 : 384 ≤ std) (h2 : std ≤ 32767) (h3 : 0 ≤ input)
    (h4 : input ≤ 2300) (h5 : 640 ≤ mean) (h6 : mean ≤ 13440) :
    ((WebRtcVad_GaussianProbability spl input mean std).1 ≠ 0 ↔
      GaussianProbability_exponent spl input mean std ≤ 7098) ∧
    (7099 ≤ GaussianProbability_exponent spl input mean std →
      GaussianProbability_exponent spl input mean std ≤ 22004 →
      GaussianProbability_exponent spl input mean std < kCompVar ∧
      GaussianProbability_exp_value (GaussianProbability_exponent spl input mean std) = 0 ∧
      (WebRtcVad_GaussianProbability spl input mean std).1 = 0) ∧
    (∀ a : Int, 7099 ≤ a → a ≤ 22004 → a < kCompVar ∧ GaussianProbability_exp_value a = 0) := by
  obtain ⟨hi, hq0, hq1⟩ := inv_std_value spl h std h1 h2
  have hq4 : 4 ≤ (131072 + std / 2) / std := Int.le_ediv_of_mul_le (by omega) (by omega)
  obtain ⟨-, he0⟩ := residual_delta_bounds spl h input mean std h1 h2 h3 h4 h5 h6
  have hz := exp_value_zero_iff (GaussianProbability_exponent spl input mean std) he0
  rw [GaussianProbability_unfold, hi]
  refine ⟨?_, ?_, ?_⟩
  · show (131072 + std / 2) / std *
        GaussianProbability_exp_value (GaussianProbability_exponent spl input mean std) ≠ 0 ↔ _
    rw [mul_ne_zero_iff]
    constructor
    · intro hne
      by_contra hgt
      exact hne.2 (hz.mpr (by omega))
    · intro hle
      refine ⟨by omega, ?_⟩
      intro h0
      have := hz.mp h0
      omega
  · intro ha hb
    have hv := hz.mpr ha
    refine ⟨show _ < (22005 : Int) by omega, hv, ?_⟩
    show (131072 + std / 2) / std *
        GaussianProbability_exp_value (GaussianProbability_exponent spl input mean std) = 0
    rw [hv, mul_zero]
  · intro a ha hb
    exact ⟨show a < (22005 : Int) by omega, (exp_value_zero_iff a (by omega)).mpr ha⟩

/-- Witness of C35: with std 500, mean 8000 and the inputs 1200 and 1250 the
exponent arguments are 5156 and 8054, on either side of 7098. -/
theorem GaussianProbability_effective_cutoff_witness :
    DivContract splRef ∧
    GaussianProbability_exponent splRef 1200 8000 500 ≤ 7098 ∧
    (WebRtcVad_GaussianProbability splRef 1200 8000 500).1 ≠ 0 ∧
    7099 ≤ GaussianProbability_exponent splRef 1250 8000 500 ∧
    GaussianProbability_exponent splRef 1250 8000 500 < kCompVar ∧
    (WebRtcVad_GaussianProbability splRef 1250 8000 500).1 = 0 :=
  ⟨splRef_DivContract, by decide!,
   (GaussianProbability_effective_cutoff splRef splRef_DivContract 1200 8000 500 (by decide)
      (by decide) (by decide) (by decide) (by decide) (by decide)).1.mpr (by decide!),
   by decide!,
   ((GaussianProbability_effective_cutoff splRef splRef_DivContract 1250 8000 500 (by decide)
      (by decide) (by decide) (by decide) (by decide) (by decide)).2.1 (by decide!)
      (by decide!)).1,
   ((GaussianProbability_effective_cutoff splRef splRef_DivContract 1250 8000 500 (by decide)
      (by decide) (by decide) (by decide) (by decide) (by decide)).2.1 (by decide!)
      (by decide!)).2.2⟩

/-! ## The likelihood totals -/

theorem splRef_NormW32Contract : NormW32Contract splRef := by
  intro a h0 h1
  show WebRtcSpl_NormW32 a = _
  unfold WebRtcSpl_NormW32
  have h2 : ¬ (a = 0) := by omega
  have h3 : ¬ (a < 0) := by omega
  simp only [if_neg h2, if_neg h3]

theorem inv_std_range (spl : Spl) (h : DivContract spl) (std : Int) (h1 : 378 ≤ std)
    (h2 : std ≤ 32767) :
    GaussianProbability_inv_std spl std = (131072 + std / 2) / std ∧
    4 ≤ (131072 + std / 2) / std ∧ (131072 + std / 2) / std ≤ 347 := by
  have hq0 : 4 ≤ (131072 + std / 2) / std := Int.le_ediv_of_mul_le (by omega) (by omega)
  have hq1 : (131072 + std / 2) / std < 348 :=
    Int.ediv_lt_of_lt_mul (by omega) (by omega)
  refine ⟨?_, hq0, by omega⟩
  unfold GaussianProbability_inv_std
  rw [h _ _ (by omega) (by omega) (by omega)]
  exact wrap16_of_range _ (by omega) (by omega)

/-- The steps of the density on the domain of the likelihood test: no 16-bit
value wraps, the exponent argument is non-negative and the probability lies in
`[0, 347 * 1024]`. -/
theorem density_steps (spl : Spl) (h : DivContract spl) (input mean std : Int)
    (h1 : 378 ≤ std) (h2 : std ≤ 32767) (h3 : 0 ≤ input) (h4 : input ≤ 2300) (h5 : 640 ≤ mean)
    (h6 : mean ≤ 13440) :
    GaussianProbability_residual input mean = input * 8 - mean ∧
    (∃ v : Int, 0 ≤ v ∧ v ≤ 1849 ∧
      GaussianProbability_delta spl input mean std = v * (input * 8 - mean) / 1024) ∧
    0 ≤ GaussianProbability_exponent spl input mean std ∧
    0 ≤ (WebRtcVad_GaussianProbability spl input mean std).1 ∧
    (WebRtcVad_GaussianProbability spl input mean std).1 ≤ 355328 := by
  have hr : GaussianProbability_residual input mean = input * 8 - mean := by
    unfold GaussianProbability_residual wrap16
    omega
  obtain ⟨hi, hq0, hq1⟩ := inv_std_range spl h std h1 h2
  have hdelta : ∃ v : Int, 0 ≤ v ∧ v ≤ 1849 ∧
      GaussianProbability_delta spl input mean std = v * (input * 8 - mean) / 1024 ∧
      -32768 ≤ v * (input * 8 - mean) / 1024 ∧ v * (input * 8 - mean) / 1024 ≤ 32767 ∧
      0 ≤ v * (input * 8 - mean) / 1024 * (input * 8 - mean) := by
    unfold GaussianProbability_delta
    rw [hr, hi]
    generalize (131072 + std / 2) / std = q at hq0 hq1
    have ha0 : 0 ≤ q / 4 := by omega
    have ha1 : q / 4 ≤ 86 := by omega
    have hsq0 : 0 ≤ q / 4 * (q / 4) := mul_nonneg ha0 ha0
    have hsq1 : q / 4 * (q / 4) ≤ 7396 := by nlinarith
    have hw : wrap16 (q / 4 * (q / 4) / 4) = q / 4 * (q / 4) / 4 :=
      wrap16_of_range _ (by omega) (by omega)
    simp only [hw]
    have hv0 : 0 ≤ q / 4 * (q / 4) / 4 := by omega
    have hv1 : q / 4 * (q / 4) / 4 ≤ 1849 := by omega
    generalize q / 4 * (q / 4) / 4 = v at hv0 hv1 ⊢
    refine ⟨v, hv0, hv1, ?_⟩
    generalize hd : input * 8 - mean = d
    have hd0 : -13440 ≤ d := by omega
    have hd1 : d ≤ 17760 := by omega
    rcases le_or_lt 0 d with hpos | hneg
    · have hp0 : 0 ≤ v * d := mul_nonneg hv0 hpos
      have hp1 : v * d ≤ 1849 * 17760 := by nlinarith
      have hw2 : wrap16 (v * d / 1024) = v * d / 1024 :=
        wrap16_of_range _ (by omega) (by omega)
      refine ⟨hw2, by omega, by omega, ?_⟩
      exact mul_nonneg (Int.ediv_nonneg hp0 (by norm_num)) hpos
    · have hp0 : v * d ≤ 0 := by nlinarith
      have hp1 : -(1849 * 13440) ≤ v * d := by nlinarith
      have hw2 : wrap16 (v * d / 1024) = v * d / 1024 :=
        wrap16_of_range _ (by omega) (by omega)
      refine ⟨hw2, by omega, by omega, ?_⟩
      have hq : v * d / 1024 ≤ 0 := by omega
      nlinarith
  obtain ⟨v, hv0, hv1, hde, -, -, hnn⟩ := hdelta
  have hex : 0 ≤ GaussianProbability_exponent spl input mean std := by
    unfold GaussianProbability_exponent
    rw [hr, hde]
    exact Int.ediv_nonneg hnn (by norm_num)
  refine ⟨hr, ⟨v, hv0, hv1, hde⟩, hex, ?_, ?_⟩
  · rw [GaussianProbability_unfold, hi]
    exact mul_nonneg (by omega) (exp_value_bounds _ hex).1
  · rw [GaussianProbability_unfold, hi]
    show (131072 + std / 2) / std *
      GaussianProbability_exp_value (GaussianProbability_exponent spl input mean std) ≤ 355328
    obtain ⟨e0, e1⟩ := exp_value_bounds _ hex
    generalize GaussianProbability_exp_value (GaussianProbability_exponent spl input mean std) = e
      at e0 e1
    generalize (131072 + std / 2) / std = q at hq0 hq1
    nlinarith

theorem weights_sum (c : Nat) (hc : c < kNumChannels) :
    (0 ≤ kNoiseDataWeights.getD c 0 ∧ 0 ≤ kNoiseDataWeights.getD (c + kNumChannels) 0 ∧
      kNoiseDataWeights.getD c 0 + kNoiseDataWeights.getD (c + kNumChannels) 0 = 128) ∧
    (0 ≤ kSpeechDataWeights.getD c 0 ∧ 0 ≤ kSpeechDataWeights.getD (c + kNumChannels) 0 ∧
      kSpeechDataWeights.getD c 0 + kSpeechDataWeights.getD (c + kNumChannels) 0 = 128) := by
  have hk : kNumChannels = 6 := rfl
  rw [hk] at hc ⊢
  interval_cases c <;> decide

/-- A weighted total of two probabilities in `[0, M]` with weights that sum to
128: nothing wraps. -/
theorem total_steps (w0 w1 p0 p1 : Int) (hw0 : 0 ≤ w0) (hw1 : 0 ≤ w1) (hw : w0 + w1 = 128)
    (hp0 : 0 ≤ p0 ∧ p0 ≤ 355328) (hp1 : 0 ≤ p1 ∧ p1 ≤ 355328) :
    wrap32 (w0 * p0) = w0 * p0 ∧
    wrap32 (wrap32 (0 + wrap32 (w0 * p0)) + wrap32 (w1 * p1)) = w0 * p0 + w1 * p1 ∧
    0 ≤ w0 * p0 ∧ 0 ≤ w1 * p1 ∧ w0 * p0 + w1 * p1 ≤ 45481984 := by
  have a0 : 0 ≤ w0 * p0 := mul_nonneg hw0 hp0.1
  have a1 : 0 ≤ w1 * p1 := mul_nonneg hw1 hp1.1
  have b0 : w0 * p0 ≤ w0 * 355328 := mul_le_mul_of_nonneg_left hp0.2 hw0
  have b1 : w1 * p1 ≤ w1 * 355328 := mul_le_mul_of_nonneg_left hp1.2 hw1
  have e0 : wrap32 (w0 * p0) = w0 * p0 := wrap32_of_range _ (by omega) (by omega)
  have e1 : wrap32 (w1 * p1) = w1 * p1 := wrap32_of_range _ (by omega) (by omega)
  have e2 : wrap32 (0 + w0 * p0) = w0 * p0 := by
    rw [zero_add]
    exact e0
  have e3 : wrap32 (w0 * p0 + w1 * p1) = w0 * p0 + w1 * p1 :=
    wrap32_of_range _ (by omega) (by omega)
  refine ⟨e0, ?_, a0, a1, by omega⟩
  rw [e0, e1, e2, e3]

/-- The responsibility quotient on a total that does not wrap. -/
theorem responsibility_steps (spl : Spl) (h : DivContract spl) (x t : Int) (hx0 : 0 ≤ x)
    (hxt : x ≤ t) (ht : t ≤ 45481984) (hpos : 0 < t / 4096) :
    wrap16 (t / 4096) = t / 4096 ∧
    0 ≤ wrap16 (spl.WebRtcSpl_DivW32W16 (maskShiftQ29 x) (wrap16 (t / 4096))) ∧
    wrap16 (spl.WebRtcSpl_DivW32W16 (maskShiftQ29 x) (wrap16 (t / 4096))) ≤ 16384 ∧
    wrap16 (spl.WebRtcSpl_DivW32W16 (maskShiftQ29 x) (wrap16 (t / 4096))) =
      16384 * (x / 4096) / (t / 4096) := by
  have e1 : wrap16 (t / 4096) = t / 4096 := wrap16_of_range _ (by omega) (by omega)
  have e2 : maskShiftQ29 x = 16384 * (x / 4096) := by
    unfold maskShiftQ29 wrapU32 wrap32
    omega
  rw [e1, e2, h _ _ (by omega) (by omega) hpos]
  have q0 : 0 ≤ 16384 * (x / 4096) / (t / 4096) :=
    Int.ediv_nonneg (by omega) (by omega)
  have q1 : 16384 * (x / 4096) / (t / 4096) ≤ 16384 := by
    apply Int.ediv_le_of_le_mul hpos
    have : x / 4096 ≤ t / 4096 := by omega
    omega
  rw [wrap16_of_range _ (by omega) (by omega)]
  exact ⟨rfl, q0, q1, rfl⟩

theorem getD_set_self (l : List Int) (i : Nat) (v : Int) (h : i < l.length) :
    (l.set i v).getD i 0 = v := by
  rw [getD_set]
  have x : i = i ∧ i < l.length := ⟨rfl, h⟩
  rw [if_pos x]

/-- What the first `n` passes of the first channel loop of `GmmProbability`
leave in the responsibility tables, entry by entry: for a visited channel the
quotient and its complement to 16384 when the denominator is positive, and the
fallback values otherwise; zeros for a channel not yet visited. -/
theorem testLoop_entries (spl : Spl) (self : VadInstT) (features : List Int)
    (individualTest : Int) (n : Nat) (hn : n ≤ kNumChannels) :
    ((List.range n).foldl (GmmProbability_test spl self features individualTest)
        GmmScratch.init).ngprvec.length = 12 ∧
    ((List.range n).foldl (GmmProbability_test spl self features individualTest)
        GmmScratch.init).sgprvec.length = 12 ∧
    ∀ c, c < kNumChannels →
      (c < n →
        ((List.range n).foldl (GmmProbability_test spl self features individualTest)
            GmmScratch.init).ngprvec.getD c 0 =
          (if wrap16 (GmmProbability_h0 spl self features c / 4096) > 0 then
            GmmProbability_noiseResponsibility spl self features c else 16384) ∧
        ((List.range n).foldl (GmmProbability_test spl self features individualTest)
            GmmScratch.init).ngprvec.getD (c + kNumChannels) 0 =
          (if wrap16 (GmmProbability_h0 spl self features c / 4096) > 0 then
            wrap16 (16384 - GmmProbability_noiseResponsibility spl self features c) else 0) ∧
        ((List.range n).foldl (GmmProbability_test spl self features individualTest)
            GmmScratch.init).sgprvec.getD c 0 =
          (if wrap16 (GmmProbability_h1 spl self features c / 4096) > 0 then
            GmmProbability_speechResponsibility spl self features c else 0) ∧
        ((List.range n).foldl (GmmProbability_test spl self features individualTest)
            GmmScratch.init).sgprvec.getD (c + kNumChannels) 0 =
          (if wrap16 (GmmProbability_h1 spl self features c / 4096) > 0 then
            wrap16 (16384 - GmmProbability_speechResponsibility spl self features c) else 0)) ∧
      (n ≤ c →
        ((List.range n).foldl (GmmProbability_test spl self features individualTest)
          GmmScratch.init).ngprvec.getD c 0 = 0 ∧
        ((List.range n).foldl (GmmProbability_test spl self features individualTest)
          GmmScratch.init).ngprvec.getD (c + kNumChannels) 0 = 0 ∧
        ((List.range n).foldl (GmmProbability_test spl self features individualTest)
          GmmScratch.init).sgprvec.getD c 0 = 0 ∧
        ((List.range n).foldl (GmmProbability_test spl self features individualTest)
          GmmScratch.init).sgprvec.getD (c + kNumChannels) 0 = 0) := by
  have hk : kNumChannels = 6 := rfl
  rw [hk] at hn ⊢
  induction n with
  | zero =>
    refine ⟨rfl, rfl, fun c hc => ⟨fun h => absurd h (Nat.not_lt_zero c), fun _ => ?_⟩⟩
    simp only [List.range_zero, List.foldl_nil]
    have e : GmmScratch.init.ngprvec = List.replicate 12 0 := rfl
    have e2 : GmmScratch.init.sgprvec = List.replicate 12 0 := rfl
    rw [e, e2]
    have hz : ∀ t, (List.replicate 12 (0 : Int)).getD t 0 = 0 := by
      intro t
      rw [List.getD_eq_getElem?_getD, List.getElem?_replicate]
      split_ifs <;> rfl
    exact ⟨hz _, hz _, hz _, hz _⟩
  | succ n ih =>
    obtain ⟨l1, l2, ih3⟩ := ih (by omega)
    rw [List.range_succ, List.foldl_append]
    simp only [List.foldl_cons, List.foldl_nil]
    generalize (List.range n).foldl (GmmProbability_test spl self features individualTest)
      GmmScratch.init = sc at l1 l2 ih3 ⊢
    rw [test_ngprvec_eq, test_sgprvec_eq]
    have eN : wrap16 (spl.WebRtcSpl_DivW32W16
        (maskShiftQ29 (wrap32 (kNoiseDataWeights.getD n 0 *
          (WebRtcVad_GaussianProbability spl (features.getD n 0)
            (self.noise_means.getD n 0) (self.noise_stds.getD n 0)).1)))
        (wrap16 (GmmProbability_h0 spl self features n / 4096))) =
        GmmProbability_noiseResponsibility spl self features n := rfl
    have eS : wrap16 (spl.WebRtcSpl_DivW32W16
        (maskShiftQ29 (wrap32 (kSpeechDataWeights.getD n 0 *
          (WebRtcVad_GaussianProbability spl (features.getD n 0)
            (self.speech_means.getD n 0) (self.speech_stds.getD n 0)).1)))
        (wrap16 (GmmProbability_h1 spl self features n / 4096))) =
        GmmProbability_speechResponsibility spl self features n := rfl
    rw [eN, eS]
    simp only [hk]
    generalize hNR : GmmProbability_noiseResponsibility spl self features n = NR
    generalize hSR : GmmProbability_speechResponsibility spl self features n = SR
    refine ⟨?_, ?_, ?_⟩
    · split_ifs <;> simp only [List.length_set, l1]
    · split_ifs <;> simp only [List.length_set, l2]
    · intro c hc
      have hcn := ih3 c hc
      have hnn := (ih3 n (by omega)).2 (le_refl n)
      constructor
      · intro hlt
        by_cases hcn' : c < n
        · -- an earlier channel: untouched by pass n
          obtain ⟨a1, a2, a3, a4⟩ := hcn.1 hcn'
          refine ⟨?_, ?_, ?_, ?_⟩
          · rw [← a1]
            split_ifs
            · rw [getD_set_set_ne _ _ _ _ _ _ (by omega) (by omega)]
            · rw [getD_set_ne _ _ _ _ (by omega)]
          · rw [← a2]
            split_ifs
            · rw [getD_set_set_ne _ _ _ _ _ _ (by omega) (by omega)]
            · rw [getD_set_ne _ _ _ _ (by omega)]
          · rw [← a3]
            split_ifs
            · rw [getD_set_set_ne _ _ _ _ _ _ (by omega) (by omega)]
            · rfl
          · rw [← a4]
            split_ifs
            · rw [getD_set_set_ne _ _ _ _ _ _ (by omega) (by omega)]
            · rfl
        · -- the channel of this pass
          have hcn2 : c = n := by omega
          subst hcn2
          rw [hNR, hSR]
          refine ⟨?_, ?_, ?_, ?_⟩
          · by_cases h0 : wrap16 (GmmProbability_h0 spl self features c / 4096) > 0
            · rw [if_pos h0, if_pos h0, getD_set_ne _ _ _ _ (by omega),
                getD_set_self _ _ _ (by omega)]
            · rw [if_neg h0, if_neg h0, getD_set_self _ _ _ (by omega)]
          · by_cases h0 : wrap16 (GmmProbability_h0 spl self features c / 4096) > 0
            · rw [if_pos h0, if_pos h0, getD_set_self _ _ _ (by
                rw [List.length_set]
                omega)]
            · rw [if_neg h0, if_neg h0, getD_set_ne _ _ _ _ (by omega)]
              exact hnn.2.1
          · by_cases h1 : wrap16 (GmmProbability_h1 spl self features c / 4096) > 0
            · rw [if_pos h1, if_pos h1, getD_set_ne _ _ _ _ (by omega),
                getD_set_self _ _ _ (by omega)]
            · rw [if_neg h1, if_neg h1]
              exact hnn.2.2.1
          · by_cases h1 : wrap16 (GmmProbability_h1 spl self features c / 4096) > 0
            · rw [if_pos h1, if_pos h1, getD_set_self _ _ _ (by
                rw [List.length_set]
                omega)]
            · rw [if_neg h1, if_neg h1]
              exact hnn.2.2.2
      · intro hle
        obtain ⟨b1, b2, b3, b4⟩ := hcn.2 (by omega)
        refine ⟨?_, ?_, ?_, ?_⟩
        · split_ifs
          · rw [getD_set_set_ne _ _ _ _ _ _ (by omega) (by omega)]
            exact b1
          · rw [getD_set_ne _ _ _ _ (by omega)]
            exact b1
        · split_ifs
          · rw [getD_set_set_ne _ _ _ _ _ _ (by omega) (by omega)]
            exact b2
          · rw [getD_set_ne _ _ _ _ (by omega)]
            exact b2
        · split_ifs
          · rw [getD_set_set_ne _ _ _ _ _ _ (by omega) (by omega)]
            exact b3
          · exact b3
        · split_ifs
          · rw [getD_set_set_ne _ _ _ _ _ _ (by omega) (by omega)]
            exact b4
          · exact b4

/-- The totals of one channel on the domain of the likelihood test. -/
theorem totals_steps (spl : Spl) (h : DivContract spl) (self : VadInstT) (features : List Int)
    (hd : LikelihoodDomain self features) (c : Nat) (hc : c < kNumChannels) :
    (GmmProbability_h0 spl self features c =
        kNoiseDataWeights.getD c 0 *
          (WebRtcVad_GaussianProbability spl (features.getD c 0) (self.noise_means.getD c 0)
            (self.noise_stds.getD c 0)).1 +
        kNoiseDataWeights.getD (c + kNumChannels) 0 *
          (WebRtcVad_GaussianProbability spl (features.getD c 0)
            (self.noise_means.getD (c + kNumChannels) 0)
            (self.noise_stds.getD (c + kNumChannels) 0)).1 ∧
      0 ≤ GmmProbability_h0 spl self features c ∧
      GmmProbability_h0 spl self features c ≤ 45481984 ∧
      (0 < GmmProbability_h0 spl self features c / 4096 →
        0 ≤ GmmProbability_noiseResponsibility spl self features c ∧
        GmmProbability_noiseResponsibility spl self features c ≤ 16384)) ∧
    (GmmProbability_h1 spl self features c =
        kSpeechDataWeights.getD c 0 *
          (WebRtcVad_GaussianProbability spl (features.getD c 0) (self.speech_means.getD c 0)
            (self.speech_stds.getD c 0)).1 +
        kSpeechDataWeights.getD (c + kNumChannels) 0 *
          (WebRtcVad_GaussianProbability spl (features.getD c 0)
            (self.speech_means.getD (c + kNumChannels) 0)
            (self.speech_stds.getD (c + kNumChannels) 0)).1 ∧
      0 ≤ GmmProbability_h1 spl self features c ∧
      GmmProbability_h1 spl self features c ≤ 45481984 ∧
      (0 < GmmProbability_h1 spl self features c / 4096 →
        0 ≤ GmmProbability_speechResponsibility spl self features c ∧
        GmmProbability_speechResponsibility spl self features c ≤ 16384)) := by
  obtain ⟨ht, hf⟩ := hd
  have hk : kNumChannels = 6 := rfl
  have hkt : kTableSize = 12 := rfl
  obtain ⟨f0, f1⟩ := hf c hc
  obtain ⟨⟨a1, a2⟩, ⟨a3, a4⟩, ⟨a5, a6⟩, ⟨a7, a8⟩⟩ := ht c (by omega)
  obtain ⟨⟨b1, b2⟩, ⟨b3, b4⟩, ⟨b5, b6⟩, ⟨b7, b8⟩⟩ := ht (c + kNumChannels) (by omega)
  obtain ⟨⟨wn0, wn1, wn⟩, ⟨ws0, ws1, ws⟩⟩ := weights_sum c hc
  obtain ⟨-, -, -, pn0⟩ := density_steps spl h (features.getD c 0) (self.noise_means.getD c 0)
    (self.noise_stds.getD c 0) a1 a2 f0 f1 a5 a6
  obtain ⟨-, -, -, pn1⟩ := density_steps spl h (features.getD c 0)
    (self.noise_means.getD (c + kNumChannels) 0) (self.noise_stds.getD (c + kNumChannels) 0)
    b1 b2 f0 f1 b5 b6
  obtain ⟨-, -, -, ps0⟩ := density_steps spl h (features.getD c 0) (self.speech_means.getD c 0)
    (self.speech_stds.getD c 0) a3 a4 f0 f1 a7 a8
  obtain ⟨-, -, -, ps1⟩ := density_steps spl h (features.getD c 0)
    (self.speech_means.getD (c + kNumChannels) 0) (self.speech_stds.getD (c + kNumChannels) 0)
    b3 b4 f0 f1 b7 b8
  obtain ⟨n1, n2, n3, n4, n5⟩ := total_steps _ _ _ _ wn0 wn1 wn pn0 pn1
  obtain ⟨s1, s2, s3, s4, s5⟩ := total_steps _ _ _ _ ws0 ws1 ws ps0 ps1
  have e0 : GmmProbability_h0 spl self features c = _ := n2
  have e1 : GmmProbability_h1 spl self features c = _ := s2
  refine ⟨⟨e0, by omega, by omega, ?_⟩, ⟨e1, by omega, by omega, ?_⟩⟩
  · intro hpos
    have := responsibility_steps spl h _ (GmmProbability_h0 spl self features c) n3
      (by omega) (by omega) hpos
    unfold GmmProbability_noiseResponsibility
    rw [n1]
    exact ⟨this.2.1, this.2.2.1⟩
  · intro hpos
    have := responsibility_steps spl h _ (GmmProbability_h1 spl self features c) s3
      (by omega) (by omega) hpos
    unfold GmmProbability_speechResponsibility
    rw [s1]
    exact ⟨this.2.1, this.2.2.1⟩

theorem norm_count_range (spl : Spl) (hN : NormW32Contract spl) (t : Int) (h0 : 0 ≤ t)
    (h1 : t ≤ 45481984) :
    0 ≤ (if t = 0 then 31 else wrap16 (spl.WebRtcSpl_NormW32 t)) ∧
    (if t = 0 then 31 else wrap16 (spl.WebRtcSpl_NormW32 t)) ≤ 31 := by
  by_cases hz : t = 0
  · rw [if_pos hz]
    exact ⟨by norm_num, le_refl _⟩
  · rw [if_neg hz, hN t (by omega) (by omega)]
    obtain ⟨a, rfl⟩ := Int.eq_ofNat_of_zero_le h0
    have ha : a < 2 ^ 32 := by
      norm_num
      omega
    obtain ⟨b1, b2, b3, -⟩ := bitLength_spec 32 a (by omega) ha
    have hb : bitLength 32 a ≤ 27 := by
      by_contra hgt
      have e : (2 : Nat) ^ 27 ≤ 2 ^ (bitLength 32 a - 1) :=
        Nat.pow_le_pow_right (by norm_num) (by omega)
      omega
    rw [Int.toNat_ofNat]
    rw [wrap16_of_range _ (by omega) (by omega)]
    omega

/-- C36 (likelihood totals stay in range).  The two mixture weights of every
channel sum to 128 in both weight tables.  With a division primitive that
returns the integer quotient and a normalization primitive that counts the
leading bits, for every state whose standard deviations lie in `[378, 32767]`
and whose means lie in `[640, 13440]` and every feature vector in `[0, 2300]`,
for every channel: the totals `h0_test` and `h1_test` are the plain weighted
sums (nothing wraps) and lie in `[0, 2^27)`; their values `>> 12` are
non-negative 16-bit numbers; after the first channel loop the two noise
responsibilities lie in `[0, 16384]` and sum to 16384; and the log-likelihood
ratio lies in `[-31, 31]`. -/
theorem likelihood_totals_range (spl : Spl) (h : DivContract spl) (hN : NormW32Contract spl)
    (self : VadInstT) (features : List Int) (individualTest : Int)
    (hd : LikelihoodDomain self features) (c : Nat) (hc : c < kNumChannels) :
    (kNoiseDataWeights.getD c 0 + kNoiseDataWeights.getD (c + kNumChannels) 0 = 128 ∧
      kSpeechDataWeights.getD c 0 + kSpeechDataWeights.getD (c + kNumChannels) 0 = 128) ∧
    (GmmProbability_h0 spl self features c =
        kNoiseDataWeights.getD c 0 *
          (WebRtcVad_GaussianProbability spl (features.getD c 0) (self.noise_means.getD c 0)
            (self.noise_stds.getD c 0)).1 +
        kNoiseDataWeights.getD (c + kNumChannels) 0 *
          (WebRtcVad_GaussianProbability spl (features.getD c 0)
            (self.noise_means.getD (c + kNumChannels) 0)
            (self.noise_stds.getD (c + kNumChannels) 0)).1 ∧
      0 ≤ GmmProbability_h0 spl self features c ∧
      GmmProbability_h0 spl self features c < 2 ^ 27) ∧
    (GmmProbability_h1 spl self features c =
        kSpeechDataWeights.getD c 0 *
          (WebRtcVad_GaussianProbability spl (features.getD c 0) (self.speech_means.getD c 0)
            (self.speech_stds.getD c 0)).1 +
        kSpeechDataWeights.getD (c + kNumChannels) 0 *
          (WebRtcVad_GaussianProbability spl (features.getD c 0)
            (self.speech_means.getD (c + kNumChannels) 0)
            (self.speech_stds.getD (c + kNumChannels) 0)).1 ∧
      0 ≤ GmmProbability_h1 spl self features c ∧
      GmmProbability_h1 spl self features c < 2 ^ 27) ∧
    (wrap16 (GmmProbability_h0 spl self features c / 4096) =
        GmmProbability_h0 spl self features c / 4096 ∧
      0 ≤ GmmProbability_h0 spl self features c / 4096 ∧
      GmmProbability_h0 spl self features c / 4096 ≤ 32767 ∧
      wrap16 (GmmProbability_h1 spl self features c / 4096) =
        GmmProbability_h1 spl self features c / 4096 ∧
      0 ≤ GmmProbability_h1 spl self features c / 4096 ∧
      GmmProbability_h1 spl self features c / 4096 ≤ 32767) ∧
    ((0 ≤ ((List.range kNumChannels).foldl
          (GmmProbability_test spl self features individualTest)
          GmmScratch.init).ngprvec.getD c 0 ∧
        ((List.range kNumChannels).foldl (GmmProbability_test spl self features individualTest)
          GmmScratch.init).ngprvec.getD c 0 ≤ 16384) ∧
      (0 ≤ ((List.range kNumChannels).foldl
          (GmmProbability_test spl self features individualTest)
          GmmScratch.init).ngprvec.getD (c + kNumChannels) 0 ∧
        ((List.range kNumChannels).foldl (GmmProbability_test spl self features individualTest)
          GmmScratch.init).ngprvec.getD (c + kNumChannels) 0 ≤ 16384) ∧
      ((List.range kNumChannels).foldl (GmmProbability_test spl self features individualTest)
          GmmScratch.init).ngprvec.getD c 0 +
        ((List.range kNumChannels).foldl (GmmProbability_test spl self features individualTest)
          GmmScratch.init).ngprvec.getD (c + kNumChannels) 0 = 16384) ∧
    (-31 ≤ GmmProbability_llr spl self features c ∧
      GmmProbability_llr spl self features c ≤ 31) := by
  obtain ⟨⟨-, -, wn⟩, ⟨-, -, ws⟩⟩ := weights_sum c hc
  obtain ⟨⟨e0, p0, q0, r0⟩, ⟨e1, p1, q1, -⟩⟩ := totals_steps spl h self features hd c hc
  refine ⟨⟨wn, ws⟩, ⟨e0, p0, ?_⟩, ⟨e1, p1, ?_⟩, ?_, ?_, ?_⟩
  · norm_num
    omega
  · norm_num
    omega
  · exact ⟨wrap16_of_range _ (by omega) (by omega), by omega, by omega,
      wrap16_of_range _ (by omega) (by omega), by omega, by omega⟩
  · obtain ⟨-, -, hent⟩ := testLoop_entries spl self features individualTest kNumChannels
      (le_refl _)
    obtain ⟨g0, g1, -, -⟩ := (hent c hc).1 hc
    rw [g0, g1]
    have w : wrap16 (GmmProbability_h0 spl self features c / 4096) =
        GmmProbability_h0 spl self features c / 4096 := wrap16_of_range _ (by omega) (by omega)
    rw [w]
    by_cases hpos : GmmProbability_h0 spl self features c / 4096 > 0
    · obtain ⟨t0, t1⟩ := r0 hpos
      rw [if_pos hpos, if_pos hpos]
      rw [wrap16_of_range (16384 - GmmProbability_noiseResponsibility spl self features c)
        (by omega) (by omega)]
      omega
    · rw [if_neg hpos, if_neg hpos]
      omega
  · unfold GmmProbability_llr
    simp only []
    have c0 := norm_count_range spl hN _ p0 q0
    have c1 := norm_count_range spl hN _ p1 q1
    generalize (if GmmProbability_h0 spl self features c = 0 then (31 : Int)
      else wrap16 (spl.WebRtcSpl_NormW32 (GmmProbability_h0 spl self features c))) = x0 at c0 ⊢
    generalize (if GmmProbability_h1 spl self features c = 0 then (31 : Int)
      else wrap16 (spl.WebRtcSpl_NormW32 (GmmProbability_h1 spl self features c))) = x1 at c1 ⊢
    rw [wrap16_of_range _ (by omega) (by omega)]
    omega

theorem initState_LikelihoodDomain :
    LikelihoodDomain initState [1000, 1000, 1000, 1000, 1000, 1000] := by
  unfold LikelihoodDomain
  decide

/-- Witness of C36: the reference primitives meet both contracts, and the
Init state with a feature vector of 1000s lies in the domain. -/
theorem likelihood_totals_range_witness :
    DivContract splRef ∧ NormW32Contract splRef ∧
    LikelihoodDomain initState [1000, 1000, 1000, 1000, 1000, 1000] ∧
    0 ≤ GmmProbability_h0 splRef initState [1000, 1000, 1000, 1000, 1000, 1000] 0 ∧
    GmmProbability_h0 splRef initState [1000, 1000, 1000, 1000, 1000, 1000] 0 < 2 ^ 27 ∧
    -31 ≤ GmmProbability_llr splRef initState [1000, 1000, 1000, 1000, 1000, 1000] 0 ∧
    GmmProbability_llr splRef initState [1000, 1000, 1000, 1000, 1000, 1000] 0 ≤ 31 :=
  ⟨splRef_DivContract, splRef_NormW32Contract, initState_LikelihoodDomain,
   (likelihood_totals_range splRef splRef_DivContract splRef_NormW32Contract initState
      [1000, 1000, 1000, 1000, 1000, 1000] 24 initState_LikelihoodDomain 0 (by decide)).2.1.2.1,
   (likelihood_totals_range splRef splRef_DivContract splRef_NormW32Contract initState
      [1000, 1000, 1000, 1000, 1000, 1000] 24 initState_LikelihoodDomain 0 (by decide)).2.1.2.2,
   (likelihood_totals_range splRef splRef_DivContract splRef_NormW32Contract initState
      [1000, 1000, 1000, 1000, 1000, 1000] 24 initState_LikelihoodDomain 0 (by decide)).2.2.2.2.2.1,
   (likelihood_totals_range splRef splRef_DivContract splRef_NormW32Contract initState
      [1000, 1000, 1000, 1000, 1000, 1000] 24 initState_LikelihoodDomain 0 (by decide)).2.2.2.2.2.2⟩

/-! ## Aggressiveness is monotone -/

theorem raw_one_iff (spl : Spl) (self : VadInstT) (features : List Int)
    (total_power : Int) (frame_length : Nat) (h : total_power > kMinEnergy) :
    (GmmProbability_raw spl self features total_power frame_length).2 = 1 ↔
      ((∃ c, c < kNumChannels ∧ 4 * GmmProbability_llr spl self features c >
          (GmmProbability_thresholds self frame_length).2.2.1) ∨
        weightedLlrSum (GmmProbability_llr spl self features) ≥
          (GmmProbability_thresholds self frame_length).2.2.2) := by
  rw [raw_snd spl self features total_power frame_length h, testLoop_sum, testLoop_vadflag]
  by_cases c1 : weightedLlrSum (GmmProbability_llr spl self features) ≥
      (GmmProbability_thresholds self frame_length).2.2.2
  · rw [if_pos c1]
    exact ⟨fun _ => Or.inr c1, fun _ => rfl⟩
  · rw [if_neg c1]
    by_cases c2 : ∃ c, c < kNumChannels ∧ 4 * GmmProbability_llr spl self features c >
        (GmmProbability_thresholds self frame_length).2.2.1
    · rw [if_pos c2]
      exact ⟨fun _ => Or.inl c2, fun _ => rfl⟩
    · rw [if_neg c2]
      refine ⟨fun h01 => absurd h01 (by decide), fun h01 => ?_⟩
      rcases h01 with h01 | h01
      · exact absurd h01 c2
      · exact absurd h01 c1

theorem set_mode_llr (spl : Spl) (s : VadInstT) (mode : Int) (features : List Int) (c : Nat) :
    GmmProbability_llr spl (WebRtcVad_set_mode_core s mode).1 features c =
      GmmProbability_llr spl s features c := by
  unfold WebRtcVad_set_mode_core
  split_ifs <;> simp only [GmmProbability_llr, GmmProbability_h0, GmmProbability_h1]

theorem set_mode_llr_fun (spl : Spl) (s : VadInstT) (mode : Int) (features : List Int) :
    GmmProbability_llr spl (WebRtcVad_set_mode_core s mode).1 features =
      GmmProbability_llr spl s features :=
  funext (set_mode_llr spl s mode features)

/-- The thresholds and overhang presets that a mode selection leaves for a
frame length. -/
theorem set_mode_thresholds (s : VadInstT) (n : Nat) :
    GmmProbability_thresholds (WebRtcVad_set_mode_core s 0).1 n =
      (if n = 80 then (8, 14, 24, 57) else if n = 160 then (4, 7, 21, 48) else (3, 5, 24, 57)) ∧
    GmmProbability_thresholds (WebRtcVad_set_mode_core s 1).1 n =
      (if n = 80 then (8, 14, 37, 100) else if n = 160 then (4, 7, 32, 80)
        else (3, 5, 37, 100)) ∧
    GmmProbability_thresholds (WebRtcVad_set_mode_core s 2).1 n =
      (if n = 80 then (6, 9, 82, 285) else if n = 160 then (3, 5, 78, 260)
        else (2, 3, 82, 285)) ∧
    GmmProbability_thresholds (WebRtcVad_set_mode_core s 3).1 n =
      (if n = 80 then (6, 9, 94, 1100) else if n = 160 then (3, 5, 94, 1050)
        else (2, 3, 94, 1100)) := by
  refine ⟨?_, ?_, ?_, ?_⟩ <;>
  · simp only [GmmProbability_thresholds, WebRtcVad_set_mode_core]
    split_ifs <;> first | rfl | (exfalso; omega)

/-- The four presets of a mode for a frame length, compared between two modes
`m < m'`. -/
theorem set_mode_order (s : VadInstT) (n : Nat) (m m' : Int) (h0 : 0 ≤ m) (h1 : m < m')
    (h2 : m' ≤ 3) :
    (GmmProbability_thresholds (WebRtcVad_set_mode_core s m).1 n).2.2.1 <
      (GmmProbability_thresholds (WebRtcVad_set_mode_core s m').1 n).2.2.1 ∧
    (GmmProbability_thresholds (WebRtcVad_set_mode_core s m).1 n).2.2.2 <
      (GmmProbability_thresholds (WebRtcVad_set_mode_core s m').1 n).2.2.2 ∧
    (GmmProbability_thresholds (WebRtcVad_set_mode_core s m').1 n).1 ≤
      (GmmProbability_thresholds (WebRtcVad_set_mode_core s m).1 n).1 ∧
    (GmmProbability_thresholds (WebRtcVad_set_mode_core s m').1 n).2.1 ≤
      (GmmProbability_thresholds (WebRtcVad_set_mode_core s m).1 n).2.1 ∧
    (GmmProbability_thresholds (WebRtcVad_set_mode_core s m).1 n).1 ≤
      (GmmProbability_thresholds (WebRtcVad_set_mode_core s m).1 n).2.1 ∧
    (GmmProbability_thresholds (WebRtcVad_set_mode_core s m').1 n).1 ≤
      (GmmProbability_thresholds (WebRtcVad_set_mode_core s m').1 n).2.1 := by
  obtain ⟨t0, t1, t2, t3⟩ := set_mode_thresholds s n
  have hm : (m = 0 ∧ (m' = 1 ∨ m' = 2 ∨ m' = 3)) ∨ (m = 1 ∧ (m' = 2 ∨ m' = 3)) ∨
      (m = 2 ∧ m' = 3) := by omega
  rcases hm with ⟨rfl, rfl | rfl | rfl⟩ | ⟨rfl, rfl | rfl⟩ | ⟨rfl, rfl⟩ <;>
  · simp only [t0, t1, t2, t3]
    split_ifs <;> decide

/-- C38 (aggressiveness is monotone).  For every frame length (every
frame-duration index) and any two modes `m < m'` in 0..3, the local and the
global threshold of mode `m` are strictly below those of mode `m'`, both
overhang presets of mode `m'` are at most those of mode `m`, and in each mode
`over_hang_max_1 ≤ over_hang_max_2`.  Hence for two instances that differ only
in the tables set by the modes `m ≤ m'`, and any feature vector, total power
and frame length, a raw decision of 1 under mode `m'` implies a raw decision of
1 under mode `m`. -/
theorem aggressiveness_monotone (spl : Spl) (s : VadInstT) (m m' : Int) (h0 : 0 ≤ m)
    (h1 : m ≤ m') (h2 : m' ≤ 3) (frame_length : Nat) :
    (m < m' →
      (GmmProbability_thresholds (WebRtcVad_set_mode_core s m).1 frame_length).2.2.1 <
        (GmmProbability_thresholds (WebRtcVad_set_mode_core s m').1 frame_length).2.2.1 ∧
      (GmmProbability_thresholds (WebRtcVad_set_mode_core s m).1 frame_length).2.2.2 <
        (GmmProbability_thresholds (WebRtcVad_set_mode_core s m').1 frame_length).2.2.2 ∧
      (GmmProbability_thresholds (WebRtcVad_set_mode_core s m').1 frame_length).1 ≤
        (GmmProbability_thresholds (WebRtcVad_set_mode_core s m).1 frame_length).1 ∧
      (GmmProbability_thresholds (WebRtcVad_set_mode_core s m').1 frame_length).2.1 ≤
        (GmmProbability_thresholds (WebRtcVad_set_mode_core s m).1 frame_length).2.1 ∧
      (GmmProbability_thresholds (WebRtcVad_set_mode_core s m).1 frame_length).1 ≤
        (GmmProbability_thresholds (WebRtcVad_set_mode_core s m).1 frame_length).2.1 ∧
      (GmmProbability_thresholds (WebRtcVad_set_mode_core s m').1 frame_length).1 ≤
        (GmmProbability_thresholds (WebRtcVad_set_mode_core s m').1 frame_length).2.1) ∧
    (∀ (features : List Int) (total_power : Int),
      (GmmProbability_raw spl (WebRtcVad_set_mode_core s m').1 features total_power
        frame_length).2 = 1 →
      (GmmProbability_raw spl (WebRtcVad_set_mode_core s m).1 features total_power
        frame_length).2 = 1) := by
  refine ⟨fun hlt => set_mode_order s frame_length m m' h0 hlt h2, ?_⟩
  intro features total_power hraw
  rcases eq_or_lt_of_le h1 with heq | hlt
  · rw [heq]
    exact hraw
  · obtain ⟨o1, o2, -⟩ := set_mode_order s frame_length m m' h0 hlt h2
    by_cases hp : total_power > kMinEnergy
    · rw [raw_one_iff _ _ _ _ _ hp] at hraw ⊢
      simp only [set_mode_llr_fun] at hraw ⊢
      rcases hraw with ⟨c, hc, hl⟩ | hs
      · exact Or.inl ⟨c, hc, by omega⟩
      · exact Or.inr (by omega)
    · have hz : (GmmProbability_raw spl (WebRtcVad_set_mode_core s m').1 features total_power
          frame_length).2 = 0 := by
        simp only [GmmProbability_raw, if_neg hp]
      rw [hz] at hraw
      exact absurd hraw (by decide)

/-- Witness of C38: modes 1 and 3 on the Init state with 10 ms frames; a frame
with all six features at 1400 is speech in mode 3, hence in mode 1. -/
theorem aggressiveness_monotone_witness :
    (GmmProbability_thresholds (WebRtcVad_set_mode_core initState 1).1 80).2.2.1 <
      (GmmProbability_thresholds (WebRtcVad_set_mode_core initState 3).1 80).2.2.1 ∧
    (GmmProbability_raw splRef (WebRtcVad_set_mode_core initState 1).1
        [1400, 1400, 1400, 1400, 1400, 1400] 11 80).2 = 1 :=
  ⟨((aggressiveness_monotone splRef initState 1 3 (by decide) (by decide) (by decide) 80).1
      (by decide)).1,
   (aggressiveness_monotone splRef initState 1 3 (by decide) (by decide) (by decide) 80).2
      [1400, 1400, 1400, 1400, 1400, 1400] 11 (by decide!)⟩

/-! ## The length of an overhang run -/

theorem overhangTail_succ (p : Int) (k : Nat) :
    overhangTail p (k + 1) =
      (if 0 < p then 2 + p else 0) :: overhangTail (if 0 < p then p - 1 else p) k := by
  unfold overhangTail
  rw [List.range_succ_eq_map, List.map_cons, List.map_map]
  congr 1
  · simp
  · apply List.map_congr_left
    intro j _
    simp only [Function.comp, Nat.cast_succ]
    by_cases hp : 0 < p
    · rw [if_pos hp]
      by_cases hj : (j : Int) + 1 < p
      · rw [if_pos hj, if_pos (by omega)]
        omega
      · rw [if_neg hj, if_neg (by omega)]
    · rw [if_neg hp]
      rw [if_neg (by omega), if_neg (by omega)]

theorem overhangTail_count (k : Nat) : ∀ p : Int, 0 ≤ p →
    ((overhangTail p k).filter (fun d => decide (d ≠ 0))).length = min k p.toNat := by
  induction k with
  | zero =>
    intro p _
    simp [overhangTail]
  | succ k ih =>
    intro p hp
    rw [overhangTail_succ]
    by_cases h : 0 < p
    · have hne : (2 + p ≠ 0) := by omega
      rw [if_pos h, if_pos h, List.filter_cons_of_pos (by simpa using hne), List.length_cons,
        ih (p - 1) (by omega)]
      omega
    · have hz : p = 0 := by omega
      subst hz
      rw [if_neg h, if_neg h, List.filter_cons_of_neg (by simp), ih 0 (le_refl _)]
      simp

theorem overhangTail_values (p : Int) (k : Nat) :
    ∀ d ∈ overhangTail p k, d = 0 ∨ (3 ≤ d ∧ d ≤ 2 + p) := by
  intro d hd
  unfold overhangTail at hd
  rw [List.mem_map] at hd
  obtain ⟨j, -, rfl⟩ := hd
  by_cases hj : (j : Int) < p
  · rw [if_pos hj]
    right
    omega
  · rw [if_neg hj]
    left
    rfl

theorem hysteresis_zero_step (s : VadInstT) (o1 o2 : Int) (h0 : 0 ≤ s.over_hang)
    (h1 : s.over_hang ≤ 32765) :
    (GmmProbability_hysteresis s 0 o1 o2).2 = (if 0 < s.over_hang then 2 + s.over_hang else 0) ∧
    (GmmProbability_hysteresis s 0 o1 o2).1.over_hang =
      (if 0 < s.over_hang then s.over_hang - 1 else s.over_hang) := by
  by_cases h : 0 < s.over_hang
  · have e1 : wrap16 (s.over_hang - 1) = s.over_hang - 1 :=
      wrap16_of_range _ (by omega) (by omega)
    have e2 : wrap16 (2 + s.over_hang) = 2 + s.over_hang :=
      wrap16_of_range _ (by omega) (by omega)
    simp only [GmmProbability_hysteresis, if_true, gt_iff_lt, if_pos h, e1, e2]
    exact ⟨trivial, trivial⟩
  · simp only [GmmProbability_hysteresis, if_true, gt_iff_lt, if_neg h]
    exact ⟨trivial, trivial⟩

theorem hysteresisRun_zeros (frame_length k : Nat) : ∀ s : VadInstT, 0 ≤ s.over_hang →
    s.over_hang ≤ 32765 →
    (hysteresisRun frame_length s (List.replicate k 0)).2 = overhangTail s.over_hang k := by
  induction k with
  | zero =>
    intro s _ _
    rfl
  | succ k ih =>
    intro s h0 h1
    obtain ⟨a, b⟩ := hysteresis_zero_step s (GmmProbability_thresholds s frame_length).1
      (GmmProbability_thresholds s frame_length).2.1 h0 h1
    rw [List.replicate_succ, overhangTail_succ]
    simp only [hysteresisRun]
    rw [a, ih _ (by rw [b]; split_ifs <;> omega) (by rw [b]; split_ifs <;> omega), b]

/-- C34 (overhang run length).  When a raw-positive frame, run on a state that
satisfies the decision-state invariant (every reachable state does), leaves
`over_hang = p`, then `0 ≤ p ≤ 14`, and `k` following frames of raw decision 0
(mode unchanged) emit `2 + p, 2 + p - 1, ..., 3` on the first `p` frames and 0
on every later frame: the emitted decisions are `overhangTail p k`.  So no
emitted decision is 2 (each is 0 or at least 3), and exactly `min k p` of the
`k` decisions are non-zero.  The same holds from any state with
`0 ≤ over_hang ≤ 32765`. -/
theorem overhang_run_length (frame_length k : Nat) :
    (∀ s : VadInstT, 0 ≤ s.over_hang → s.over_hang ≤ 32765 →
      (hysteresisRun frame_length s (List.replicate k 0)).2 = overhangTail s.over_hang k ∧
      (∀ d ∈ (hysteresisRun frame_length s (List.replicate k 0)).2, d ≠ 2 ∧ (d = 0 ∨ 3 ≤ d)) ∧
      (((hysteresisRun frame_length s (List.replicate k 0)).2).filter
        (fun d => decide (d ≠ 0))).length = min k s.over_hang.toNat) ∧
    (∀ s0 : VadInstT, DecisionInv s0 →
      (0 ≤ (hysteresisRun frame_length s0 [1]).1.over_hang ∧
        (hysteresisRun frame_length s0 [1]).1.over_hang ≤ 14) ∧
      (hysteresisRun frame_length s0 (1 :: List.replicate k 0)).2 =
        1 :: overhangTail (hysteresisRun frame_length s0 [1]).1.over_hang k ∧
      (∀ d ∈ (hysteresisRun frame_length s0 (1 :: List.replicate k 0)).2, d ≠ 2) ∧
      (((hysteresisRun frame_length s0 (1 :: List.replicate k 0)).2.tail).filter
        (fun d => decide (d ≠ 0))).length =
          min k (hysteresisRun frame_length s0 [1]).1.over_hang.toNat) := by
  have part1 : ∀ s : VadInstT, 0 ≤ s.over_hang → s.over_hang ≤ 32765 →
      (hysteresisRun frame_length s (List.replicate k 0)).2 = overhangTail s.over_hang k ∧
      (∀ d ∈ (hysteresisRun frame_length s (List.replicate k 0)).2, d ≠ 2 ∧ (d = 0 ∨ 3 ≤ d)) ∧
      (((hysteresisRun frame_length s (List.replicate k 0)).2).filter
        (fun d => decide (d ≠ 0))).length = min k s.over_hang.toNat := by
    intro s h0 h1
    have e := hysteresisRun_zeros frame_length k s h0 h1
    rw [e]
    refine ⟨rfl, ?_, overhangTail_count k _ h0⟩
    intro d hd
    have := overhangTail_values _ k d hd
    omega
  refine ⟨part1, ?_⟩
  intro s0 hs
  have hv : (1 : Int) = 0 ∨ (1 : Int) = 1 := Or.inr rfl
  obtain ⟨t1, t2⟩ := thresholds_bounds s0 frame_length hs
  have hi := (hysteresis_inv s0 1 (GmmProbability_thresholds s0 frame_length).1
    (GmmProbability_thresholds s0 frame_length).2.1 hv hs t1 t2).1.2.1
  have e1 : (hysteresisRun frame_length s0 [1]).1 =
      (GmmProbability_hysteresis s0 1 (GmmProbability_thresholds s0 frame_length).1
        (GmmProbability_thresholds s0 frame_length).2.1).1 := by
    simp only [hysteresisRun]
  have e2 : (GmmProbability_hysteresis s0 1 (GmmProbability_thresholds s0 frame_length).1
        (GmmProbability_thresholds s0 frame_length).2.1).2 = 1 := by
    simp only [GmmProbability_hysteresis]
    split_ifs <;> first | rfl | (exfalso; omega)
  have e3 : (hysteresisRun frame_length s0 (1 :: List.replicate k 0)).2 =
      1 :: (hysteresisRun frame_length (hysteresisRun frame_length s0 [1]).1
        (List.replicate k 0)).2 := by
    rw [e1]
    simp only [hysteresisRun, e2]
  rw [← e1] at hi
  obtain ⟨p1, p2, p3⟩ := part1 (hysteresisRun frame_length s0 [1]).1 hi.1 (by omega)
  refine ⟨hi, ?_, ?_, ?_⟩
  · rw [e3, p1]
  · intro d hd
    rw [e3, List.mem_cons] at hd
    rcases hd with rfl | hd
    · decide
    · exact (p2 d hd).1
  · rw [e3, List.tail_cons]
    exact p3

/-- Witness of C34: from Init in mode 0 with 10 ms frames, one raw-positive
frame leaves the short preset 8, and twelve raw-negative frames then emit
10, 9, ..., 3 followed by four zeros. -/
theorem overhang_run_length_witness :
    (hysteresisRun 80 initState [1]).1.over_hang = 8 ∧
    (hysteresisRun 80 initState (1 :: List.replicate 12 0)).2 =
      1 :: overhangTail (hysteresisRun 80 initState [1]).1.over_hang 12 ∧
    overhangTail 8 12 = [10, 9, 8, 7, 6, 5, 4, 3, 0, 0, 0, 0] :=
  ⟨by decide, ((overhang_run_length 80 12).2 initState initState_inv).2.1, by decide⟩

/-! ## The minimum tracker: the slots it reads and writes -/

theorem foldl_fst {α β γ : Type} (f : α → γ → α) (g : α × β → γ → β) (l : List γ) :
    ∀ (a : α) (b : β),
      (l.foldl (fun (acc : α × β) i => (f acc.1 i, g acc i)) (a, b)).1 = l.foldl f a := by
  induction l with
  | nil => intro a b; rfl
  | cons x l ih =>
    intro a b
    simp only [List.foldl_cons]
    exact ih _ _

theorem ageing_accesses_state (offset : Nat) (st : List Int × List Int) :
    (FindMinimum_ageing_accesses offset st).1 =
      (List.range 16).foldl (FindMinimum_ageStep offset) st := by
  unfold FindMinimum_ageing_accesses
  exact foldl_fst (FindMinimum_ageStep offset)
    (fun (acc : (List Int × List Int) × List Nat × List Nat) i =>
      (acc.2.1 ++ FindMinimum_ageStep_reads offset acc.1 i,
        acc.2.2 ++ FindMinimum_ageStep_writes offset acc.1 i)) (List.range 16) st ([], [])

theorem ageStep_accesses_bounds (o : Nat) (st : List Int × List Int) (i : Nat) (hi : i < 16) :
    (∀ k ∈ FindMinimum_ageStep_reads o st i, o ≤ k ∧ k ≤ o + 16) ∧
    (∀ k ∈ FindMinimum_ageStep_writes o st i, o ≤ k ∧ k ≤ o + 15) := by
  unfold FindMinimum_ageStep_reads FindMinimum_ageStep_writes
  constructor
  · intro k hk
    split_ifs at hk
    · rw [List.mem_singleton] at hk
      omega
    · rw [List.mem_cons, List.mem_map] at hk
      rcases hk with rfl | ⟨j, hj, rfl⟩
      · omega
      · rw [List.mem_range'_1] at hj
        omega
  · intro k hk
    split_ifs at hk
    · rw [List.mem_singleton] at hk
      omega
    · rw [List.mem_append, List.mem_map, List.mem_singleton] at hk
      rcases hk with ⟨j, hj, rfl⟩ | rfl
      · rw [List.mem_range'_1] at hj
        omega
      · omega

theorem ageing_accesses_bounds (o : Nat) (st : List Int × List Int) :
    (∀ k ∈ (FindMinimum_ageing_accesses o st).2.1, o ≤ k ∧ k ≤ o + 16) ∧
    (∀ k ∈ (FindMinimum_ageing_accesses o st).2.2, o ≤ k ∧ k ≤ o + 15) := by
  unfold FindMinimum_ageing_accesses
  apply foldl_invariant_mem
    (fun (acc : (List Int × List Int) × List Nat × List Nat) =>
      (∀ k ∈ acc.2.1, o ≤ k ∧ k ≤ o + 16) ∧ (∀ k ∈ acc.2.2, o ≤ k ∧ k ≤ o + 15))
  · intro a b hb ha
    obtain ⟨s1, s2⟩ := ageStep_accesses_bounds o a.1 b (List.mem_range.mp hb)
    constructor
    · intro k hk
      rcases List.mem_append.mp hk with h | h
      · exact ha.1 k h
      · exact s1 k h
    · intro k hk
      rcases List.mem_append.mp hk with h | h
      · exact ha.2 k h
      · exact s2 k h
  · exact ⟨fun k hk => absurd hk (List.not_mem_nil k), fun k hk => absurd hk (List.not_mem_nil k)⟩

theorem ageing_reads_past_window (o : Nat) (st : List Int × List Int)
    (h : st.1.getD o 0 = 100) : o + 16 ∈ (FindMinimum_ageing_accesses o st).2.1 := by
  unfold FindMinimum_ageing_accesses
  have hr : List.range 16 = 0 :: List.range' 1 15 := by decide
  rw [hr, List.foldl_cons]
  apply foldl_invariant
    (fun (acc : (List Int × List Int) × List Nat × List Nat) => o + 16 ∈ acc.2.1)
  · intro a b ha
    exact List.mem_append_left _ ha
  · show o + 16 ∈ [] ++ FindMinimum_ageStep_reads o st 0
    have hn : ¬ (st.1.getD (o + 0) 0 ≠ 100) := fun hh => hh h
    rw [List.nil_append, FindMinimum_ageStep_reads, if_neg hn]
    apply List.mem_cons_of_mem
    rw [List.mem_map]
    exact ⟨15, by decide, rfl⟩

theorem position_reads_bounds (fv : Int) (sv : Nat → Int) :
    ∀ k ∈ FindMinimum_position_reads fv sv, k ≤ 15 := by
  intro k hk
  unfold FindMinimum_position_reads at hk
  split_ifs at hk <;> simp only [List.mem_cons, List.mem_singleton, List.not_mem_nil,
    or_false] at hk <;> omega

/-- C39 (index safety of the minimum tracker), where the code departs from its
comment "Pointer to memory for the 16 minimum values and the age of each value
of the |channel|".  For a channel whose 16 slots lie inside the arrays, every
slot that `WebRtcVad_FindMinimum` writes lies in the channel's window
`16*channel .. 16*channel + 15`, and the call changes no slot outside the
window and no other channel's `mean_value`.  The reads, however, reach slot
`16*channel + 16`, one past the window: an eviction in the ageing loop runs
`for (j = i; j < 16; j++)` and reads `smallest_values[j + 1]` and `age[j + 1]`
at `j = 15`.  Every read lies in `16*channel .. 16*channel + 16`, and slot
`16*channel + 16` is read whenever the first slot of the window has age 100;
for channel 5 this is index 96 of the 96-element arrays. -/
theorem FindMinimum_reads_past_window (self : VadInstT) (feature_value : Int) (channel : Nat)
    (h1 : channel * 16 + 16 ≤ self.index_vector.length)
    (h2 : channel * 16 + 16 ≤ self.low_value_vector.length) :
    (FindMinimum_ageing_accesses (channel * 16) (trackerState self)).1 =
      (List.range 16).foldl (FindMinimum_ageStep (channel * 16)) (trackerState self) ∧
    (∀ k ∈ FindMinimum_writes self feature_value channel,
      channel * 16 ≤ k ∧ k ≤ channel * 16 + 15) ∧
    (∀ k ∈ FindMinimum_reads self feature_value channel,
      channel * 16 ≤ k ∧ k ≤ channel * 16 + 16) ∧
    (self.index_vector.getD (channel * 16) 0 = 100 →
      channel * 16 + 16 ∈ FindMinimum_reads self feature_value channel) ∧
    Untouched (channel * 16) (trackerState self)
      (trackerState (WebRtcVad_FindMinimum self feature_value channel).1) ∧
    (∀ c, c ≠ channel →
      (WebRtcVad_FindMinimum self feature_value channel).1.mean_value.getD c 0 =
        self.mean_value.getD c 0) := by
  obtain ⟨r1, r2⟩ := ageing_accesses_bounds (channel * 16)
    (self.index_vector, self.low_value_vector)
  refine ⟨ageing_accesses_state _ _, ?_, ?_, ?_, ?_, ?_⟩
  · intro k hk
    unfold FindMinimum_writes at hk
    simp only [] at hk
    rcases List.mem_append.mp hk with h | h
    · exact r2 k h
    · unfold FindMinimum_insert_writes at h
      rcases position_spec feature_value (fun i =>
        (FindMinimum_ageing_accesses (channel * 16)
          (self.index_vector, self.low_value_vector)).1.2.getD (channel * 16 + i) 0) with
        hp | ⟨n, hn, hp, -, -⟩
      · rw [hp] at h
        simp at h
      · rw [hp] at h
        have hpos : ((n : Int) > -1) := by omega
        rw [if_pos hpos, Int.toNat_ofNat, List.mem_append, List.mem_map,
          List.mem_singleton] at h
        rcases h with ⟨t, ht, rfl⟩ | rfl
        · rw [List.mem_range] at ht
          omega
        · omega
  · intro k hk
    unfold FindMinimum_reads at hk
    simp only [] at hk
    rcases List.mem_append.mp hk with h | h
    · rcases List.mem_append.mp h with h | h
      · rcases List.mem_append.mp h with h | h
        · exact r1 k h
        · rw [List.mem_map] at h
          obtain ⟨i, hi, rfl⟩ := h
          have := position_reads_bounds _ _ i hi
          omega
      · unfold FindMinimum_insert_reads at h
        rcases position_spec feature_value (fun i =>
          (FindMinimum_ageing_accesses (channel * 16)
            (self.index_vector, self.low_value_vector)).1.2.getD (channel * 16 + i) 0) with
          hp | ⟨n, hn, hp, -, -⟩
        · rw [hp] at h
          simp at h
        · rw [hp] at h
          have hpos : ((n : Int) > -1) := by omega
          rw [if_pos hpos, Int.toNat_ofNat, List.mem_map] at h
          obtain ⟨t, ht, rfl⟩ := h
          rw [List.mem_range] at ht
          omega
    · unfold FindMinimum_median_reads at h
      split_ifs at h <;> simp only [List.mem_singleton, List.not_mem_nil] at h <;> omega
  · intro h100
    unfold FindMinimum_reads
    simp only []
    apply List.mem_append_left
    apply List.mem_append_left
    apply List.mem_append_left
    exact ageing_reads_past_window _ _ h100
  · exact (FindMinimum_spec (fun _ _ _ => True)
      ⟨fun _ _ _ _ _ _ _ _ _ => trivial, fun _ _ _ _ _ _ _ _ _ _ => trivial,
        fun _ _ _ _ _ _ _ _ _ _ _ _ _ => trivial, fun _ _ _ _ _ _ _ => trivial⟩
      self feature_value channel h1 h2 trivial).2
  · intro c hc
    have e : (WebRtcVad_FindMinimum self feature_value channel).1.mean_value =
        self.mean_value.set channel (WebRtcVad_FindMinimum self feature_value channel).2 := by
      simp only [WebRtcVad_FindMinimum]
    rw [e, getD_set_ne _ _ _ _ hc]

/-- Witness of C39 on the last channel: with an entry of age 100 in slot 80, a
call for channel 5 reads slot 96 of arrays that have 96 slots (0..95). -/
theorem FindMinimum_reads_past_window_witness :
    agedLastWindowState.index_vector.length = 96 ∧
    agedLastWindowState.low_value_vector.length = 96 ∧
    agedLastWindowState.index_vector.getD (5 * 16) 0 = 100 ∧
    5 * 16 + 16 ∈ FindMinimum_reads agedLastWindowState 10000 5 ∧
    FindMinimum_reads agedLastWindowState 10000 5 =
      [80, 81, 82, 83, 84, 85, 86, 87, 88, 89, 90, 91, 92, 93, 94, 95, 96,
        81, 82, 83, 84, 85, 86, 87, 88, 89, 90, 91, 92, 93, 94, 95, 87, 95] :=
  ⟨by decide, by decide, by decide,
   (FindMinimum_reads_past_window agedLastWindowState 10000 5 (by decide) (by decide)).2.2.2.1
     (by decide),
   by decide!⟩

/-! ## The product of the speech-variance update -/

theorem test_deltaS_eq (spl : Spl) (self : VadInstT) (features : List Int) (individualTest : Int)
    (sc : GmmScratch) (channel : Nat) :
    (GmmProbability_test spl self features individualTest sc channel).deltaS =
      (sc.deltaS.set channel
        (WebRtcVad_GaussianProbability spl (features.getD channel 0)
          (self.speech_means.getD channel 0) (self.speech_stds.getD channel 0)).2).set
        (channel + kNumChannels)
        (WebRtcVad_GaussianProbability spl (features.getD channel 0)
          (self.speech_means.getD (channel + kNumChannels) 0)
          (self.speech_stds.getD (channel + kNumChannels) 0)).2 := by
  simp only [GmmProbability_test]

/-- What the first `n` passes of the first channel loop of `GmmProbability`
leave in `deltaS`: for a visited channel the two values written by the
density. -/
theorem testLoop_deltaS (spl : Spl) (self : VadInstT) (features : List Int)
    (individualTest : Int) (n : Nat) (hn : n ≤ kNumChannels) :
    ((List.range n).foldl (GmmProbability_test spl self features individualTest)
        GmmScratch.init).deltaS.length = 12 ∧
    ∀ c, c < n →
      ((List.range n).foldl (GmmProbability_test spl self features individualTest)
          GmmScratch.init).deltaS.getD c 0 =
        (WebRtcVad_GaussianProbability spl (features.getD c 0)
          (self.speech_means.getD c 0) (self.speech_stds.getD c 0)).2 ∧
      ((List.range n).foldl (GmmProbability_test spl self features individualTest)
          GmmScratch.init).deltaS.getD (c + kNumChannels) 0 =
        (WebRtcVad_GaussianProbability spl (features.getD c 0)
          (self.speech_means.getD (c + kNumChannels) 0)
          (self.speech_stds.getD (c + kNumChannels) 0)).2 := by
  have hk : kNumChannels = 6 := rfl
  rw [hk] at hn ⊢
  induction n with
  | zero => exact ⟨rfl, fun c hc => absurd hc (Nat.not_lt_zero c)⟩
  | succ n ih =>
    obtain ⟨l1, ih3⟩ := ih (by omega)
    rw [List.range_succ, List.foldl_append]
    simp only [List.foldl_cons, List.foldl_nil]
    generalize (List.range n).foldl (GmmProbability_test spl self features individualTest)
      GmmScratch.init = sc at l1 ih3 ⊢
    rw [test_deltaS_eq]
    simp only [hk]
    refine ⟨by simp only [List.length_set, l1], ?_⟩
    intro c hc
    by_cases hcn : c < n
    · obtain ⟨a1, a2⟩ := ih3 c hcn
      rw [getD_set_set_ne _ _ _ _ _ _ (by omega) (by omega),
        getD_set_set_ne _ _ _ _ _ _ (by omega) (by omega)]
      exact ⟨a1, a2⟩
    · have hcn2 : c = n := by omega
      subst hcn2
      rw [getD_set_ne _ _ _ _ (by omega), getD_set_self _ _ _ (by omega),
        getD_set_self _ _ _ (by rw [List.length_set]; omega)]
      exact ⟨rfl, rfl⟩

/-- The steps of the density on a tame Gaussian: no 16-bit value wraps, `delta`
has the sign of the residual, the exponent argument is non-negative and the
probability lies in `[0, 341 * 1024]`. -/
theorem density_tame (spl : Spl) (h : DivContract spl) (f m std : Int)
    (ht : TameGaussian f m std) :
    GaussianProbability_residual f m = f * 8 - m ∧
    (-32768 ≤ GaussianProbability_delta spl f m std ∧
      GaussianProbability_delta spl f m std ≤ 32767 ∧
      0 ≤ GaussianProbability_delta spl f m std * (f * 8 - m)) ∧
    0 ≤ GaussianProbability_exponent spl f m std ∧
    0 ≤ (WebRtcVad_GaussianProbability spl f m std).1 ∧
    (WebRtcVad_GaussianProbability spl f m std).1 ≤ 355328 := by
  obtain ⟨h1, h2, h3, h4, h5, h6⟩ := ht
  have hr : GaussianProbability_residual f m = f * 8 - m := by
    unfold GaussianProbability_residual wrap16
    omega
  obtain ⟨hi, hq0, hq1⟩ := inv_std_value spl h std h1 h2
  have hdelta : -32768 ≤ GaussianProbability_delta spl f m std ∧
      GaussianProbability_delta spl f m std ≤ 32767 ∧
      0 ≤ GaussianProbability_delta spl f m std * (f * 8 - m) := by
    unfold GaussianProbability_delta
    rw [hr, hi]
    generalize (131072 + std / 2) / std = q at hq0 hq1
    have ha0 : 0 ≤ q / 4 := by omega
    have ha1 : q / 4 ≤ 85 := by omega
    have hsq0 : 0 ≤ q / 4 * (q / 4) := mul_nonneg ha0 ha0
    have hsq1 : q / 4 * (q / 4) ≤ 7225 := by nlinarith
    have hw : wrap16 (q / 4 * (q / 4) / 4) = q / 4 * (q / 4) / 4 :=
      wrap16_of_range _ (by omega) (by omega)
    simp only [hw]
    have hv0 : 0 ≤ q / 4 * (q / 4) / 4 := by omega
    have hv1 : q / 4 * (q / 4) / 4 ≤ 1806 := by omega
    generalize q / 4 * (q / 4) / 4 = v at hv0 hv1 ⊢
    generalize f * 8 - m = d at h5 h6 ⊢
    rcases le_or_lt 0 d with hpos | hneg
    · have hp0 : 0 ≤ v * d := mul_nonneg hv0 hpos
      have hp1 : v * d ≤ 1806 * 18579 := by nlinarith
      have hw2 : wrap16 (v * d / 1024) = v * d / 1024 :=
        wrap16_of_range _ (by omega) (by omega)
      rw [hw2]
      refine ⟨by omega, by omega, ?_⟩
      exact mul_nonneg (Int.ediv_nonneg hp0 (by norm_num)) hpos
    · have hp0 : v * d ≤ 0 := by nlinarith
      have hp1 : -(1806 * 18579) ≤ v * d := by nlinarith
      have hw2 : wrap16 (v * d / 1024) = v * d / 1024 :=
        wrap16_of_range _ (by omega) (by omega)
      rw [hw2]
      refine ⟨by omega, by omega, ?_⟩
      have hq : v * d / 1024 ≤ 0 := by omega
      nlinarith
  have hex : 0 ≤ GaussianProbability_exponent spl f m std := by
    unfold GaussianProbability_exponent
    rw [hr]
    exact Int.ediv_nonneg hdelta.2.2 (by norm_num)
  refine ⟨hr, hdelta, hex, ?_, ?_⟩
  · rw [GaussianProbability_unfold, hi]
    exact mul_nonneg (by omega) (exp_value_bounds _ hex).1
  · rw [GaussianProbability_unfold, hi]
    show (131072 + std / 2) / std *
      GaussianProbability_exp_value (GaussianProbability_exponent spl f m std) ≤ 355328
    obtain ⟨e0, e1⟩ := exp_value_bounds _ hex
    generalize GaussianProbability_exp_value (GaussianProbability_exponent spl f m std) = e
      at e0 e1
    generalize (131072 + std / 2) / std = q at hq0 hq1
    nlinarith

/-- The product of the speech-variance update for one Gaussian whose density
did not wrap: `sg` is the responsibility, `delta` the value written by the
density, `d` its residual and `(delta * d) >> 9` the exponent argument. -/
theorem product_bound (sg delta d f m : Int) (hsg : 0 ≤ sg ∧ sg ≤ 16384)
    (hdl : -32768 ≤ delta ∧ delta ≤ 32767) (hd : d = f * 8 - m)
    (hd0 : -18579 ≤ d) (hd1 : d ≤ 18579)
    (hE : 0 ≤ delta * d ∧ (delta * d) / 512 ≤ 7098) :
    -2147483648 ≤ GmmProbability_speechVarProduct sg delta f m ∧
    GmmProbability_speechVarProduct sg delta f m ≤ 2147483647 := by
  unfold GmmProbability_speechVarProduct
  simp only []
  have w : wrap16 (f - (m + 4) / 8) = f - (m + 4) / 8 := wrap16_of_range _ (by omega) (by omega)
  rw [w]
  obtain ⟨e, he0, he1, he⟩ : ∃ e : Int, -4 ≤ e ∧ e ≤ 3 ∧ (f - (m + 4) / 8) * 8 = d + e :=
    ⟨(f - (m + 4) / 8) * 8 - d, by omega, by omega, by ring⟩
  have ha : delta * d ≤ 3634687 := by omega
  have hb : delta * ((f - (m + 4) / 8) * 8) = delta * d + delta * e := by
    rw [he]
    ring
  have hde : -131072 ≤ delta * e ∧ delta * e ≤ 131072 := by
    constructor <;> nlinarith
  have hb2 : delta * (f - (m + 4) / 8) * 8 = delta * d + delta * e := by
    rw [← hb]
    ring
  generalize delta * (f - (m + 4) / 8) = b at hb2
  generalize delta * d = a at hE ha hb2
  generalize delta * e = c at hde hb2
  have hx : -20481 ≤ b / 8 - 4096 ∧ b / 8 - 4096 ≤ 54749 := by omega
  generalize b / 8 - 4096 = x at hx
  have hq : 0 ≤ sg / 4 ∧ sg / 4 ≤ 4096 := by omega
  generalize sg / 4 = q at hq
  constructor <;> nlinarith

/-- One tame Gaussian of the speech-variance update: with a responsibility `sg`
in `[0, 16384]` that is 0 when the density is 0, the product computed with the
value `delta` written by the density stays in the signed 32-bit range. -/
theorem gaussian_product_range (spl : Spl) (h : DivContract spl) (f m std sg : Int)
    (ht : TameGaussian f m std) (hsg : 0 ≤ sg ∧ sg ≤ 16384)
    (hz : (WebRtcVad_GaussianProbability spl f m std).1 = 0 → sg = 0) :
    -2147483648 ≤ GmmProbability_speechVarProduct sg
        (WebRtcVad_GaussianProbability spl f m std).2 f m ∧
    GmmProbability_speechVarProduct sg
        (WebRtcVad_GaussianProbability spl f m std).2 f m ≤ 2147483647 := by
  by_cases hp : (WebRtcVad_GaussianProbability spl f m std).1 = 0
  · rw [hz hp]
    unfold GmmProbability_speechVarProduct
    simp only []
    have e : (0 : Int) / 4 = 0 := by decide
    rw [e, zero_mul]
    exact ⟨by norm_num, by norm_num⟩
  · obtain ⟨hr, ⟨dl0, dl1, dl2⟩, hex, -, -⟩ := density_tame spl h f m std ht
    obtain ⟨h1, h2, h3, h4, h5, h6⟩ := ht
    have hE : GaussianProbability_exponent spl f m std ≤ 7098 := by
      by_contra hgt
      have hzero := (exp_value_zero_iff _ hex).mpr (by omega)
      apply hp
      rw [GaussianProbability_unfold]
      show GaussianProbability_inv_std spl std *
        GaussianProbability_exp_value (GaussianProbability_exponent spl f m std) = 0
      rw [hzero, mul_zero]
    have hdel : (WebRtcVad_GaussianProbability spl f m std).2 =
        GaussianProbability_delta spl f m std := by
      rw [GaussianProbability_unfold]
    have hexp : GaussianProbability_exponent spl f m std =
        GaussianProbability_delta spl f m std * (f * 8 - m) / 512 := by
      unfold GaussianProbability_exponent
      rw [hr]
    rw [hexp] at hE
    rw [hdel]
    exact product_bound sg _ (f * 8 - m) f m hsg ⟨dl0, dl1⟩ rfl h5 h6 ⟨dl2, hE⟩

/-- The speech responsibilities after the first channel loop, for a channel
whose two speech Gaussians are tame: both lie in `[0, 16384]`, and a Gaussian
whose density is 0 has the responsibility 0. -/
theorem speech_responsibilities (spl : Spl) (h : DivContract spl) (self : VadInstT)
    (features : List Int) (individualTest : Int) (c : Nat) (hc : c < kNumChannels)
    (t0 : TameGaussian (features.getD c 0) (self.speech_means.getD c 0)
      (self.speech_stds.getD c 0))
    (t1 : TameGaussian (features.getD c 0) (self.speech_means.getD (c + kNumChannels) 0)
      (self.speech_stds.getD (c + kNumChannels) 0)) :
    (0 ≤ ((List.range kNumChannels).foldl (GmmProbability_test spl self features individualTest)
        GmmScratch.init).sgprvec.getD c 0 ∧
      ((List.range kNumChannels).foldl (GmmProbability_test spl self features individualTest)
        GmmScratch.init).sgprvec.getD c 0 ≤ 16384) ∧
    (0 ≤ ((List.range kNumChannels).foldl (GmmProbability_test spl self features individualTest)
        GmmScratch.init).sgprvec.getD (c + kNumChannels) 0 ∧
      ((List.range kNumChannels).foldl (GmmProbability_test spl self features individualTest)
        GmmScratch.init).sgprvec.getD (c + kNumChannels) 0 ≤ 16384) ∧
    ((WebRtcVad_GaussianProbability spl (features.getD c 0) (self.speech_means.getD c 0)
        (self.speech_stds.getD c 0)).1 = 0 →
      ((List.range kNumChannels).foldl (GmmProbability_test spl self features individualTest)
        GmmScratch.init).sgprvec.getD c 0 = 0) ∧
    ((WebRtcVad_GaussianProbability spl (features.getD c 0)
        (self.speech_means.getD (c + kNumChannels) 0)
        (self.speech_stds.getD (c + kNumChannels) 0)).1 = 0 →
      ((List.range kNumChannels).foldl (GmmProbability_test spl self features individualTest)
        GmmScratch.init).sgprvec.getD (c + kNumChannels) 0 = 0) := by
  obtain ⟨-, -, hent⟩ := testLoop_entries spl self features individualTest kNumChannels
    (le_refl _)
  obtain ⟨-, -, g0, g1⟩ := (hent c hc).1 hc
  rw [g0, g1]
  obtain ⟨-, ⟨ws0, ws1, ws⟩⟩ := weights_sum c hc
  obtain ⟨-, -, -, ps0⟩ := density_tame spl h _ _ _ t0
  obtain ⟨-, -, -, ps1⟩ := density_tame spl h _ _ _ t1
  obtain ⟨s1, s2, s3, s4, s5⟩ := total_steps _ _ _ _ ws0 ws1 ws ps0 ps1
  have e1 : GmmProbability_h1 spl self features c = _ := s2
  have eSR : GmmProbability_speechResponsibility spl self features c =
      wrap16 (spl.WebRtcSpl_DivW32W16
        (maskShiftQ29 (kSpeechDataWeights.getD c 0 *
          (WebRtcVad_GaussianProbability spl (features.getD c 0) (self.speech_means.getD c 0)
            (self.speech_stds.getD c 0)).1))
        (wrap16 (GmmProbability_h1 spl self features c / 4096))) := by
    unfold GmmProbability_speechResponsibility
    rw [s1]
  rw [eSR]
  generalize (WebRtcVad_GaussianProbability spl (features.getD c 0) (self.speech_means.getD c 0)
    (self.speech_stds.getD c 0)).1 = p0 at *
  generalize (WebRtcVad_GaussianProbability spl (features.getD c 0)
    (self.speech_means.getD (c + kNumChannels) 0)
    (self.speech_stds.getD (c + kNumChannels) 0)).1 = p1 at *
  generalize kSpeechDataWeights.getD c 0 = w0 at *
  generalize kSpeechDataWeights.getD (c + kNumChannels) 0 = w1 at *
  generalize GmmProbability_h1 spl self features c = t at *
  have w : wrap16 (t / 4096) = t / 4096 := wrap16_of_range _ (by omega) (by omega)
  by_cases hpos : t / 4096 > 0
  · obtain ⟨-, r0, r1, r2⟩ := responsibility_steps spl h (w0 * p0) t s3 (by omega) (by omega)
      hpos
    have hpos' : wrap16 (t / 4096) > 0 := by
      rw [w]
      exact hpos
    rw [if_pos hpos', if_pos hpos']
    have w2 : wrap16 (16384 - wrap16 (spl.WebRtcSpl_DivW32W16 (maskShiftQ29 (w0 * p0))
        (wrap16 (t / 4096)))) = 16384 - wrap16 (spl.WebRtcSpl_DivW32W16
          (maskShiftQ29 (w0 * p0)) (wrap16 (t / 4096))) :=
      wrap16_of_range _ (by omega) (by omega)
    rw [w2]
    refine ⟨⟨r0, r1⟩, ⟨by omega, by omega⟩, ?_, ?_⟩
    · intro hz
      rw [r2, hz, mul_zero]
      simp
    · intro hz
      rw [r2]
      have ht : t = w0 * p0 := by
        rw [e1, hz, mul_zero, add_zero]
      rw [← ht]
      have : 16384 * (t / 4096) / (t / 4096) = 16384 :=
        Int.mul_ediv_cancel _ (by omega)
      rw [this]
      norm_num
  · have hpos' : ¬ (wrap16 (t / 4096) > 0) := by
      rw [w]
      exact hpos
    rw [if_neg hpos', if_neg hpos']
    exact ⟨⟨le_refl _, by norm_num⟩, ⟨le_refl _, by norm_num⟩, fun _ => rfl, fun _ => rfl⟩

/-- The product of the speech-variance update for a channel whose two speech
Gaussians are tame: for both Gaussians the product
`(sgprvec[gaussian] >> 2) * (((deltaS[gaussian] * (features[channel] - ((smk + 4) >> 3))) >> 3) - 4096)`,
computed with the responsibilities and the values `deltaS` that the first
channel loop of `GmmProbability` leaves, lies in the signed 32-bit range. -/
theorem speechVarProduct_tame (spl : Spl) (h : DivContract spl) (self : VadInstT)
    (features : List Int) (individualTest : Int) (c : Nat) (hc : c < kNumChannels)
    (t0 : TameGaussian (features.getD c 0) (self.speech_means.getD c 0)
      (self.speech_stds.getD c 0))
    (t1 : TameGaussian (features.getD c 0) (self.speech_means.getD (c + kNumChannels) 0)
      (self.speech_stds.getD (c + kNumChannels) 0))
    (k : Nat) (hk : k < kNumGaussians) :
    -2147483648 ≤ GmmProbability_speechVarProduct
        (((List.range kNumChannels).foldl (GmmProbability_test spl self features individualTest)
          GmmScratch.init).sgprvec.getD (c + k * kNumChannels) 0)
        (((List.range kNumChannels).foldl (GmmProbability_test spl self features individualTest)
          GmmScratch.init).deltaS.getD (c + k * kNumChannels) 0)
        (features.getD c 0) (self.speech_means.getD (c + k * kNumChannels) 0) ∧
    GmmProbability_speechVarProduct
        (((List.range kNumChannels).foldl (GmmProbability_test spl self features individualTest)
          GmmScratch.init).sgprvec.getD (c + k * kNumChannels) 0)
        (((List.range kNumChannels).foldl (GmmProbability_test spl self features individualTest)
          GmmScratch.init).deltaS.getD (c + k * kNumChannels) 0)
        (features.getD c 0) (self.speech_means.getD (c + k * kNumChannels) 0) ≤ 2147483647 := by
  obtain ⟨r0, r1, z0, z1⟩ := speech_responsibilities spl h self features individualTest c hc
    t0 t1
  obtain ⟨-, hdel⟩ := testLoop_deltaS spl self features individualTest kNumChannels (le_refl _)
  obtain ⟨d0, d1⟩ := hdel c hc
  have hkg : kNumGaussians = 2 := rfl
  have hk2 : k = 0 ∨ k = 1 := by omega
  rcases hk2 with rfl | rfl
  · rw [zero_mul, add_zero, d0]
    exact gaussian_product_range spl h _ _ _ _ t0 r0 z0
  · rw [one_mul, d1]
    exact gaussian_product_range spl h _ _ _ _ t1 r1 z1

/-! ## The features of a frame of at most 240 samples -/

theorem bitLength_small (n : Nat) (h : n ≤ 60) : bitLength 32 n ≤ 6 := by
  by_cases h0 : n = 0
  · subst h0
    decide
  · obtain ⟨-, -, b3, -⟩ := bitLength_spec 32 n (by omega) (by omega)
    by_contra hgt
    have e : (2 : Nat) ^ 6 ≤ 2 ^ (bitLength 32 n - 1) :=
      Nat.pow_le_pow_right (by norm_num) (by omega)
    omega

theorem splRef_ShortBlockContract : ShortBlockContract splRef := by
  intro v n hn
  show WebRtcSpl_GetScalingSquare v n n ≤ 10
  unfold WebRtcSpl_GetScalingSquare
  have h6 := bitLength_small n hn
  simp only []
  split_ifs with h1 h2
  · omega
  · omega
  · have := NormW32_ge ((List.range n).foldl
        (fun (smax : Int) i =>
          if (if v.getD i 0 > 0 then v.getD i 0 else wrap16 (-v.getD i 0)) > smax then
            (if v.getD i 0 > 0 then v.getD i 0 else wrap16 (-v.getD i 0)) else smax) (-1) *
        (List.range n).foldl
        (fun (smax : Int) i =>
          if (if v.getD i 0 > 0 then v.getD i 0 else wrap16 (-v.getD i 0)) > smax then
            (if v.getD i 0 > 0 then v.getD i 0 else wrap16 (-v.getD i 0)) else smax) (-1))
    omega

theorem LogOfEnergy_short (spl : Spl) (hc : EnergyContract spl) (hs : ShortBlockContract spl)
    (v : List Int) (n : Nat) (off t : Int) (hn : n ≤ 60) (h0 : 0 ≤ off) (h1 : off ≤ 368) :
    off ≤ (LogOfEnergy spl v n off t).2 ∧ (LogOfEnergy spl v n off t).2 ≤ off + 2022 := by
  by_cases hz : wrapU32 (spl.WebRtcSpl_Energy v n).1 = 0
  · have hn0 : ¬ (wrapU32 (spl.WebRtcSpl_Energy v n).1 ≠ 0) := fun h => h hz
    simp only [LogOfEnergy, if_neg hn0]
    omega
  · have ha0 : 0 ≤ wrapU32 (spl.WebRtcSpl_Energy v n).1 := by
      unfold wrapU32
      omega
    have ha1 : wrapU32 (spl.WebRtcSpl_Energy v n).1 < 4294967296 := by
      unfold wrapU32
      omega
    obtain ⟨a', ha⟩ := Int.eq_ofNat_of_zero_le ha0
    have ha' : 0 < a' := by omega
    have ha'' : a' < 2 ^ 32 := by
      norm_num
      omega
    obtain ⟨b1, b2, -, -⟩ := bitLength_spec 32 a' ha' ha''
    have hr0 := hc.1 v n
    have hr1 := hs v n hn
    have hb : (bitLength 32 (wrapU32 (spl.WebRtcSpl_Energy v n).1).toNat : Int) ≤ 32 := by
      rw [ha, Int.toNat_ofNat]
      exact Int.ofNat_le.mpr b2
    rw [LogOfEnergy_value spl hc v n off t h0 h1 hz (by omega)]
    obtain ⟨n1, n2⟩ := normalizedEnergy_range a' ha' ha''
    rw [← ha] at n1 n2
    unfold logEnergyFeature totalShifts
    generalize normalizedEnergy (wrapU32 (spl.WebRtcSpl_Energy v n).1) = e at n1 n2
    generalize (bitLength 32 (wrapU32 (spl.WebRtcSpl_Energy v n).1).toNat : Int) = b at hb
    generalize (spl.WebRtcSpl_Energy v n).2 = r at hr0 hr1
    omega

/-- The features of a frame of at most 240 samples: each lies between the offset
of its band and the offset plus 2022. -/
theorem CalculateFeatures_short (spl : Spl) (hc : EnergyContract spl)
    (hs : ShortBlockContract spl) (inst : VadInstT) (frame : List Int) (n : Nat)
    (hn : n ≤ 240) (c : Nat) (hcn : c < kNumChannels) :
    kOffsetVector.getD c 0 ≤ (WebRtcVad_CalculateFeatures spl inst frame n).2.1.getD c 0 ∧
    (WebRtcVad_CalculateFeatures spl inst frame n).2.1.getD c 0 ≤
      kOffsetVector.getD c 0 + 2022 := by
  have key := LogOfEnergy_short spl hc hs
  have o0 : kOffsetVector.getD 0 0 = 368 := rfl
  have o1 : kOffsetVector.getD 1 0 = 368 := rfl
  have o2 : kOffsetVector.getD 2 0 = 272 := rfl
  have o3 : kOffsetVector.getD 3 0 = 176 := rfl
  have o4 : kOffsetVector.getD 4 0 = 176 := rfl
  have o5 : kOffsetVector.getD 5 0 = 176 := rfl
  have hex : ∃ f0 f1 f2 f3 f4 f5 : Int,
      (WebRtcVad_CalculateFeatures spl inst frame n).2.1 = [f0, f1, f2, f3, f4, f5] ∧
      (368 ≤ f0 ∧ f0 ≤ 368 + 2022) ∧ (368 ≤ f1 ∧ f1 ≤ 368 + 2022) ∧
      (272 ≤ f2 ∧ f2 ≤ 272 + 2022) ∧ (176 ≤ f3 ∧ f3 ≤ 176 + 2022) ∧
      (176 ≤ f4 ∧ f4 ≤ 176 + 2022) ∧ (176 ≤ f5 ∧ f5 ≤ 176 + 2022) := by
    simp only [WebRtcVad_CalculateFeatures, o0, o1, o2, o3, o4, o5]
    exact ⟨_, _, _, _, _, _, rfl,
      key _ _ _ _ (by omega) (by norm_num) (by norm_num),
      key _ _ _ _ (by omega) (by norm_num) (by norm_num),
      key _ _ _ _ (by omega) (by norm_num) (by norm_num),
      key _ _ _ _ (by omega) (by norm_num) (by norm_num),
      key _ _ _ _ (by omega) (by norm_num) (by norm_num),
      key _ _ _ _ (by omega) (by norm_num) (by norm_num)⟩
  obtain ⟨f0, f1, f2, f3, f4, f5, he, r0, r1, r2, r3, r4, r5⟩ := hex
  rw [he]
  have hk : kNumChannels = 6 := rfl
  rw [hk] at hcn
  interval_cases c
  · rw [o0]; exact r0
  · rw [o1]; exact r1
  · rw [o2]; exact r2
  · rw [o3]; exact r3
  · rw [o4]; exact r4
  · rw [o5]; exact r5

/-! ## The speech means stay in range -/

theorem channel_constants (c : Nat) (hc : c < 6) :
    ∃ w0 w1 v0 v1 md ms mn : Int,
      kSpeechDataWeights.getD c 0 = w0 ∧ kSpeechDataWeights.getD (c + 6) 0 = w1 ∧
      kNoiseDataWeights.getD c 0 = v0 ∧ kNoiseDataWeights.getD (c + 6) 0 = v1 ∧
      kMinimumDifference.getD c 0 = md ∧ kMaximumSpeech.getD c 0 = ms ∧
      kMaximumNoise.getD c 0 = mn ∧
      (((c : Int) = 0 ∧ w0 = 48 ∧ w1 = 80 ∧ v0 = 34 ∧ v1 = 94 ∧ md = 544 ∧ ms = 11392 ∧
          mn = 9216) ∨
        ((c : Int) = 1 ∧ w0 = 82 ∧ w1 = 46 ∧ v0 = 62 ∧ v1 = 66 ∧ md = 544 ∧ ms = 11392 ∧
          mn = 9088) ∨
        ((c : Int) = 2 ∧ w0 = 45 ∧ w1 = 83 ∧ v0 = 72 ∧ v1 = 56 ∧ md = 576 ∧ ms = 11520 ∧
          mn = 8960) ∨
        ((c : Int) = 3 ∧ w0 = 87 ∧ w1 = 41 ∧ v0 = 66 ∧ v1 = 62 ∧ md = 576 ∧ ms = 11520 ∧
          mn = 8832) ∨
        ((c : Int) = 4 ∧ w0 = 50 ∧ w1 = 78 ∧ v0 = 53 ∧ v1 = 75 ∧ md = 576 ∧ ms = 11520 ∧
          mn = 8704) ∨
        ((c : Int) = 5 ∧ w0 = 47 ∧ w1 = 81 ∧ v0 = 25 ∧ v1 = 103 ∧ md = 576 ∧ ms = 11520 ∧
          mn = 8576)) := by
  refine ⟨_, _, _, _, _, _, _, rfl, rfl, rfl, rfl, rfl, rfl, rfl, ?_⟩
  interval_cases c <;> decide

/-- The separation and the drift control of one channel, exactly: both speech
means of the channel move by the same amount, the nudge `a = 13 * t / 4` of the
separation minus the cut `L` of the drift control. -/
theorem separate_limit_formula (S : VadInstT) (c : Nat) (hc : c < 6)
    (hn : S.noise_means.length = 12) (hs : S.speech_means.length = 12)
    (n0 : 640 ≤ S.noise_means.getD c 0 ∧ S.noise_means.getD c 0 ≤ 9344)
    (n1 : 640 ≤ S.noise_means.getD (c + 6) 0 ∧ S.noise_means.getD (c + 6) 0 ≤ 9344)
    (s0 : -1408 ≤ S.speech_means.getD c 0 ∧ S.speech_means.getD c 0 ≤ 24400)
    (s1 : -1408 ≤ S.speech_means.getD (c + 6) 0 ∧ S.speech_means.getD (c + 6) 0 ≤ 24400)
    (sp : S.speech_means.getD c 0 - S.speech_means.getD (c + 6) 0 ≤ 12800 ∧
      S.speech_means.getD (c + 6) 0 - S.speech_means.getD c 0 ≤ 12800) :
    (GmmProbability_limit (GmmProbability_separate S c).1 c (GmmProbability_separate S c).2.1
      (GmmProbability_separate S c).2.2).noise_means.length = 12 ∧
    (GmmProbability_limit (GmmProbability_separate S c).1 c (GmmProbability_separate S c).2.1
      (GmmProbability_separate S c).2.2).speech_means.length = 12 ∧
    (∀ g, g ≠ c → g ≠ c + 6 →
      (GmmProbability_limit (GmmProbability_separate S c).1 c (GmmProbability_separate S c).2.1
        (GmmProbability_separate S c).2.2).speech_means.getD g 0 = S.speech_means.getD g 0) ∧
    (GmmProbability_limit (GmmProbability_separate S c).1 c (GmmProbability_separate S c).2.1
        (GmmProbability_separate S c).2.2).speech_means.getD c 0 =
      S.speech_means.getD c 0 + 13 * separationShortfall S c / 4 -
        (if (globalMean S.speech_means kSpeechDataWeights c +
              128 * (13 * separationShortfall S c / 4)) / 128 > kMaximumSpeech.getD c 0 then
          (globalMean S.speech_means kSpeechDataWeights c +
              128 * (13 * separationShortfall S c / 4)) / 128 - kMaximumSpeech.getD c 0
        else 0) ∧
    (GmmProbability_limit (GmmProbability_separate S c).1 c (GmmProbability_separate S c).2.1
        (GmmProbability_separate S c).2.2).speech_means.getD (c + 6) 0 =
      S.speech_means.getD (c + 6) 0 + 13 * separationShortfall S c / 4 -
        (if (globalMean S.speech_means kSpeechDataWeights c +
              128 * (13 * separationShortfall S c / 4)) / 128 > kMaximumSpeech.getD c 0 then
          (globalMean S.speech_means kSpeechDataWeights c +
              128 * (13 * separationShortfall S c / 4)) / 128 - kMaximumSpeech.getD c 0
        else 0) := by
  obtain ⟨nw0, nw1, nw2⟩ := noise_weights c hc
  obtain ⟨sw0, sw1, sw2⟩ := speech_weights c hc
  obtain ⟨⟨md0, md1⟩, ⟨mn0, mn1⟩, ⟨ms0, ms1⟩⟩ := table_bounds c hc
  have NGb := globalMean_bounds S.noise_means kNoiseDataWeights c 640 9344 nw0 nw1 nw2
    n0.1 n0.2 n1.1 n1.2
  have SGm := globalMean_between S.speech_means kSpeechDataWeights c sw0 sw1 sw2
  have hdef : modelDifference S c =
      globalMean S.speech_means kSpeechDataWeights c / 512 -
        globalMean S.noise_means kNoiseDataWeights c / 512 := rfl
  have hT : 0 ≤ separationShortfall S c ∧ separationShortfall S c ≤ 3264 ∧
      S.speech_means.getD c 0 + 13 * separationShortfall S c / 4 ≤ 24500 ∧
      S.speech_means.getD (c + 6) 0 + 13 * separationShortfall S c / 4 ≤ 24500 := by
    unfold separationShortfall
    rw [hdef]
    split_ifs with hd
    · rcases SGm with h | h <;> omega
    · omega
  obtain ⟨T0, T1, T2, T3⟩ := hT
  obtain ⟨E1, E2, E3, E4, E5, E6, E7, E8, E9⟩ := separate_exact S c hc hn hs n0 n1
    ⟨by omega, by omega⟩ ⟨by omega, by omega⟩ (by omega) (by omega) (by omega)
  have SG4 := globalMean_between (GmmProbability_separate S c).1.speech_means
    kSpeechDataWeights c sw0 sw1 sw2
  have gs4 := globalMean_shift S.speech_means (GmmProbability_separate S c).1.speech_means
    kSpeechDataWeights c _ sw2 E5 E6
  generalize separationShortfall S c = T at T0 T1 T2 T3 E3 E4 E5 E6 gs4 ⊢
  obtain ⟨L1, L2, L3, L4, L5, L6, L7⟩ := limit_exact (GmmProbability_separate S c).1 c
    (GmmProbability_separate S c).2.1 (GmmProbability_separate S c).2.2 hc E1 E2 E8 E9
    ⟨by rw [E3]; omega, by rw [E3]; omega⟩ ⟨by rw [E4]; omega, by rw [E4]; omega⟩
    ⟨by rw [E5]; omega, by rw [E5]; omega⟩ ⟨by rw [E6]; omega, by rw [E6]; omega⟩
    (by
      intro hgt
      rw [E9] at hgt ⊢
      rw [E5]
      rw [E5, E6] at SG4
      rcases SG4 with h | h <;> omega)
    (by
      intro hgt
      rw [E9] at hgt ⊢
      rw [E6]
      rw [E5, E6] at SG4
      rcases SG4 with h | h <;> omega)
  refine ⟨L1, L2, ?_, ?_, ?_⟩
  · intro g g1 g2
    exact ((L7 g g1 g2).2).trans (E7 g g1 g2).2
  · rw [L5, E5, E9, gs4]
  · rw [L6, E6, E9, gs4]

/-- The separation and the drift control keep the range of the speech means of
the channel: with the noise means of the channel on or below their clamps, two
speech means in `[640, 19980]` at most 12800 apart stay so. -/
theorem separate_limit_sharp (S : VadInstT) (c : Nat) (hc : c < 6)
    (hn : S.noise_means.length = 12) (hs : S.speech_means.length = 12)
    (n0 : 640 ≤ S.noise_means.getD c 0 ∧ S.noise_means.getD c 0 ≤ (72 - (c : Int)) * 128)
    (n1 : 768 ≤ S.noise_means.getD (c + 6) 0 ∧
      S.noise_means.getD (c + 6) 0 ≤ (73 - (c : Int)) * 128)
    (s0 : 640 ≤ S.speech_means.getD c 0 ∧ S.speech_means.getD c 0 ≤ 19980)
    (s1 : 640 ≤ S.speech_means.getD (c + 6) 0 ∧ S.speech_means.getD (c + 6) 0 ≤ 19980)
    (sp : S.speech_means.getD c 0 - S.speech_means.getD (c + 6) 0 ≤ 12800 ∧
      S.speech_means.getD (c + 6) 0 - S.speech_means.getD c 0 ≤ 12800) :
    (640 ≤ (GmmProbability_limit (GmmProbability_separate S c).1 c
        (GmmProbability_separate S c).2.1 (GmmProbability_separate S c).2.2).speech_means.getD c 0 ∧
      (GmmProbability_limit (GmmProbability_separate S c).1 c
        (GmmProbability_separate S c).2.1 (GmmProbability_separate S c).2.2).speech_means.getD c 0
        ≤ 19980) ∧
    (640 ≤ (GmmProbability_limit (GmmProbability_separate S c).1 c
        (GmmProbability_separate S c).2.1
        (GmmProbability_separate S c).2.2).speech_means.getD (c + 6) 0 ∧
      (GmmProbability_limit (GmmProbability_separate S c).1 c
        (GmmProbability_separate S c).2.1
        (GmmProbability_separate S c).2.2).speech_means.getD (c + 6) 0 ≤ 19980) ∧
    ((GmmProbability_limit (GmmProbability_separate S c).1 c
        (GmmProbability_separate S c).2.1 (GmmProbability_separate S c).2.2).speech_means.getD c 0 -
      (GmmProbability_limit (GmmProbability_separate S c).1 c
        (GmmProbability_separate S c).2.1
        (GmmProbability_separate S c).2.2).speech_means.getD (c + 6) 0 ≤ 12800 ∧
      (GmmProbability_limit (GmmProbability_separate S c).1 c
        (GmmProbability_separate S c).2.1
        (GmmProbability_separate S c).2.2).speech_means.getD (c + 6) 0 -
      (GmmProbability_limit (GmmProbability_separate S c).1 c
        (GmmProbability_separate S c).2.1 (GmmProbability_separate S c).2.2).speech_means.getD c 0
        ≤ 12800) := by
  have hcI : (0 : Int) ≤ (c : Int) ∧ (c : Int) ≤ 5 := by omega
  obtain ⟨-, -, -, F0, F1⟩ := separate_limit_formula S c hc hn hs ⟨n0.1, by omega⟩
    ⟨by omega, by omega⟩ ⟨by omega, by omega⟩ ⟨by omega, by omega⟩ sp
  rw [F0, F1]
  have k6 : c + kNumChannels = c + 6 := rfl
  unfold separationShortfall modelDifference globalMean
  rw [k6]
  obtain ⟨w0, w1, v0, v1, md, ms, mn, e1, e2, e3, e4, e5, e6, e7, hcase⟩ :=
    channel_constants c hc
  rw [e1, e2, e3, e4, e5, e6]
  generalize S.speech_means.getD c 0 = x0 at s0 sp ⊢
  generalize S.speech_means.getD (c + 6) 0 = x1 at s1 sp ⊢
  generalize S.noise_means.getD c 0 = y0 at n0 ⊢
  generalize S.noise_means.getD (c + 6) 0 = y1 at n1 ⊢
  rcases hcase with ⟨hc0, rfl, rfl, rfl, rfl, rfl, rfl, rfl⟩ |
    ⟨hc0, rfl, rfl, rfl, rfl, rfl, rfl, rfl⟩ | ⟨hc0, rfl, rfl, rfl, rfl, rfl, rfl, rfl⟩ |
    ⟨hc0, rfl, rfl, rfl, rfl, rfl, rfl, rfl⟩ | ⟨hc0, rfl, rfl, rfl, rfl, rfl, rfl, rfl⟩ |
    ⟨hc0, rfl, rfl, rfl, rfl, rfl, rfl, rfl⟩ <;>
  · rw [hc0] at n0 n1
    split_ifs <;> omega

/-- One pass of the model-update loop keeps the range of the speech means and
leaves the speech means of the other channels as they are. -/
theorem update_speech_facts (spl : Spl) (features : List Int) (sc : GmmScratch) (vadflag : Int)
    (st : VadInstT × Int) (channel : Nat) (hc : channel < kNumChannels)
    (hm0 : 11392 ≤ st.2) (hm1 : st.2 ≤ 12800) (h : SpeechRange st.1) :
    SpeechRange (GmmProbability_update spl features sc vadflag st channel).1 ∧
    ∀ g, g ≠ channel → g ≠ channel + 6 →
      (GmmProbability_update spl features sc vadflag st channel).1.speech_means.getD g 0 =
        st.1.speech_means.getD g 0 := by
  have hc6 : channel < 6 := hc
  obtain ⟨hn, hs, hb⟩ := h
  obtain ⟨s1, fm, t, e1, e2, e3⟩ := update_stages spl features sc vadflag st channel
  rw [e3]
  obtain ⟨a1, a2, -⟩ := WeightedAverage_spec st.1.noise_means channel 0 kNoiseDataWeights
    (by omega)
  obtain ⟨v0, p0, q0, g0⟩ := updateGaussian_noise_means spl features sc vadflag channel fm t
    st.2 s1 0 (by decide) hc
  obtain ⟨v1, p1, q1, g1⟩ := updateGaussian_noise_means spl features sc vadflag channel fm t
    st.2 (GmmProbability_updateGaussian spl features sc vadflag channel fm t st.2 s1 0) 1
    (by decide) hc
  obtain ⟨z0, y0⟩ := updateGaussian_speech_means spl features sc vadflag channel fm t
    st.2 s1 0 (by decide) (by omega) (by omega)
  obtain ⟨z1, y1⟩ := updateGaussian_speech_means spl features sc vadflag channel fm t
    st.2 (GmmProbability_updateGaussian spl features sc vadflag channel fm t st.2 s1 0) 1
    (by decide) (by omega) (by omega)
  generalize GmmProbability_updateGaussian spl features sc vadflag channel fm t st.2
    (GmmProbability_updateGaussian spl features sc vadflag channel fm t st.2 s1 0) 1 = S3
    at g1 z1 y1 ⊢
  generalize GmmProbability_updateGaussian spl features sc vadflag channel fm t st.2 s1 0 = S2
    at g0 g1 z0 y0 z1 y1
  have k0 : channel + 0 * kNumChannels = channel := by simp
  have k1 : channel + 1 * kNumChannels = channel + 6 := by simp [kNumChannels]
  rw [k1] at g1 y1
  rw [k0] at g0 y0
  rw [g0, e1] at g1
  have hlen : S3.noise_means.length = 12 := by
    rw [g1, List.length_set, List.length_set, a1, hn]
  have hget : ∀ g, S3.noise_means.getD g 0 =
      if g = channel + 6 then v1 else if g = channel then v0 else st.1.noise_means.getD g 0 := by
    intro g
    rw [g1, getD_set, getD_set, List.length_set, a1]
    by_cases c1 : g = channel + 6
    · have c1' : g = channel + 6 ∧ channel + 6 < st.1.noise_means.length := ⟨c1, by omega⟩
      rw [if_pos c1', if_pos c1]
    · have c1' : ¬ (g = channel + 6 ∧ channel + 6 < st.1.noise_means.length) := fun hh => c1 hh.1
      rw [if_neg c1', if_neg c1]
      by_cases c2 : g = channel
      · have c2' : g = channel ∧ channel < st.1.noise_means.length := ⟨c2, by omega⟩
        rw [if_pos c2', if_pos c2]
      · have c2' : ¬ (g = channel ∧ channel < st.1.noise_means.length) := fun hh => c2 hh.1
        rw [if_neg c2', if_neg c2, a2, if_neg c2, if_neg c1]
  have x1 : ¬ (channel = channel + 6) := by omega
  have xn0 : S3.noise_means.getD channel 0 = v0 := by
    rw [hget, if_neg x1, if_pos rfl]
  have xn1 : S3.noise_means.getD (channel + 6) 0 = v1 := by
    rw [hget, if_pos rfl]
  simp only [Nat.cast_zero, Nat.cast_one] at p0 q0 p1 q1
  -- the speech means before the separation
  have hsp : S3.speech_means.length = 12 ∧
      (∀ g, g ≠ channel → g ≠ channel + 6 →
        S3.speech_means.getD g 0 = st.1.speech_means.getD g 0) ∧
      (640 ≤ S3.speech_means.getD channel 0 ∧ S3.speech_means.getD channel 0 ≤ 19980) ∧
      (640 ≤ S3.speech_means.getD (channel + 6) 0 ∧
        S3.speech_means.getD (channel + 6) 0 ≤ 19980) ∧
      (S3.speech_means.getD channel 0 - S3.speech_means.getD (channel + 6) 0 ≤ 12800 ∧
        S3.speech_means.getD (channel + 6) 0 - S3.speech_means.getD channel 0 ≤ 12800) := by
    by_cases hv : vadflag = 0
    · rw [z1 hv, z0 hv, e2]
      obtain ⟨r1, r2, r3⟩ := hb channel hc
      exact ⟨hs, fun _ _ _ => rfl, r1, r2, r3⟩
    · obtain ⟨u0, b0, b1, b2⟩ := y0 hv
      obtain ⟨u1, d0, d1, d2⟩ := y1 hv
      rw [d2, b2, e2]
      have m0 : kMinimumMean.getD 0 0 = 640 := rfl
      have m1 : kMinimumMean.getD 1 0 = 768 := rfl
      rw [m0] at b0
      rw [m1] at d0
      have gg : ∀ g, ((st.1.speech_means.set channel u0).set (channel + 6) u1).getD g 0 =
          if g = channel + 6 then u1 else if g = channel then u0
          else st.1.speech_means.getD g 0 := by
        intro g
        rw [getD_set, getD_set, List.length_set]
        by_cases c1 : g = channel + 6
        · have c1' : g = channel + 6 ∧ channel + 6 < st.1.speech_means.length := ⟨c1, by omega⟩
          rw [if_pos c1', if_pos c1]
        · have c1' : ¬ (g = channel + 6 ∧ channel + 6 < st.1.speech_means.length) :=
            fun hh => c1 hh.1
          rw [if_neg c1', if_neg c1]
          by_cases c2 : g = channel
          · have c2' : g = channel ∧ channel < st.1.speech_means.length := ⟨c2, by omega⟩
            rw [if_pos c2', if_pos c2]
          · have c2' : ¬ (g = channel ∧ channel < st.1.speech_means.length) :=
              fun hh => c2 hh.1
            rw [if_neg c2', if_neg c2]
      refine ⟨by rw [List.length_set, List.length_set, hs], ?_, ?_, ?_, ?_⟩
      · intro g g1 g2
        rw [gg, if_neg g2, if_neg g1]
      · rw [gg, if_neg x1, if_pos rfl]
        omega
      · rw [gg, if_pos rfl]
        omega
      · rw [gg, gg, if_neg x1, if_pos rfl, if_pos rfl]
        omega
  obtain ⟨hslen, hso, hs0, hs1, hsd⟩ := hsp
  obtain ⟨R1, R2, R3, -, -⟩ := separate_limit_formula S3 channel hc6 hlen hslen
    (by rw [xn0]; omega) (by rw [xn1]; omega) ⟨by omega, by omega⟩ ⟨by omega, by omega⟩ hsd
  obtain ⟨R4, R5, R6⟩ := separate_limit_sharp S3 channel hc6 hlen hslen
    (by rw [xn0]; omega) (by rw [xn1]; omega) hs0 hs1 hsd
  generalize GmmProbability_limit (GmmProbability_separate S3 channel).1 channel
    (GmmProbability_separate S3 channel).2.1 (GmmProbability_separate S3 channel).2.2 = S5
    at R1 R2 R3 R4 R5 R6 ⊢
  refine ⟨⟨R1, R2, ?_⟩, fun g g1 g2 => (R3 g g1 g2).trans (hso g g1 g2)⟩
  intro c hcc
  have hcc6 : c < 6 := hcc
  by_cases hcd : c = channel
  · subst hcd
    exact ⟨R4, R5, R6⟩
  · have y1 : c ≠ channel + 6 := by omega
    have y2 : c + 6 ≠ channel := by omega
    have y3 : c + 6 ≠ channel + 6 := by omega
    obtain ⟨o1, o2, o3⟩ := hb c hcc
    have gs0 : S5.speech_means.getD c 0 = st.1.speech_means.getD c 0 := by
      rw [R3 c hcd y1, hso c hcd y1]
    have gs1 : S5.speech_means.getD (c + 6) 0 = st.1.speech_means.getD (c + 6) 0 := by
      rw [R3 (c + 6) y2 y3, hso (c + 6) y2 y3]
    rw [gs0, gs1]
    exact ⟨o1, o2, o3⟩

theorem update_SpeechRange (spl : Spl) (features : List Int) (sc : GmmScratch) (vadflag : Int)
    (st : VadInstT × Int) (channel : Nat) (hc : channel < kNumChannels)
    (hm0 : 11392 ≤ st.2) (hm1 : st.2 ≤ 12800) (h : SpeechRange st.1) :
    SpeechRange (GmmProbability_update spl features sc vadflag st channel).1 :=
  (update_speech_facts spl features sc vadflag st channel hc hm0 hm1 h).1

theorem SpeechRange_congr (a b : VadInstT) (h : modelState a = modelState b)
    (ha : SpeechRange a) : SpeechRange b := by
  simp only [modelState, Prod.mk.injEq] at h
  unfold SpeechRange at ha ⊢
  rw [← h.1, ← h.2.1]
  exact ha

theorem initState_SpeechRange : SpeechRange initState := by
  refine ⟨rfl, rfl, ?_⟩
  intro c hc
  have hc' : c < 6 := hc
  interval_cases c <;> decide

theorem Reachable_SpeechRange (spl : Spl) (s : VadInstT) (h : Reachable spl s) :
    SpeechRange s :=
  Reachable_lift_gen spl SpeechRange (fun _ => True) SpeechRange_congr initState_SpeechRange
    (fun _ _ _ => trivial)
    (fun features sc vadflag st channel hc _ h0 h1 hst =>
      update_SpeechRange spl features sc vadflag st channel hc h0 h1 hst) s h

/-! ## The speech standard deviations stay in range -/

theorem updateGaussian_speech_stds (spl : Spl) (features : List Int) (sc : GmmScratch)
    (vadflag : Int) (channel : Nat) (feature_minimum tmp1_s16 maxspe : Int) (self : VadInstT)
    (k : Nat) :
    (GmmProbability_updateGaussian spl features sc vadflag channel
        feature_minimum tmp1_s16 maxspe self k).speech_stds = self.speech_stds ∨
    ∃ v : Int, kMinStd ≤ v ∧ v ≤ 32767 ∧
      (GmmProbability_updateGaussian spl features sc vadflag channel
          feature_minimum tmp1_s16 maxspe self k).speech_stds =
        self.speech_stds.set (channel + k * kNumChannels) v := by
  by_cases hv : vadflag ≠ 0
  · right
    simp only [GmmProbability_updateGaussian, if_pos hv]
    refine ⟨_, floor_ge _, ?_, rfl⟩
    split_ifs
    · decide
    · exact (wrap16_bounds _).2
  · left
    simp only [GmmProbability_updateGaussian, if_neg hv]

theorem updateGaussian_SpeechStdRange (spl : Spl) (features : List Int) (sc : GmmScratch)
    (vadflag : Int) (channel : Nat) (feature_minimum tmp1_s16 maxspe : Int) (self : VadInstT)
    (k : Nat) (h : SpeechStdRange self) :
    SpeechStdRange (GmmProbability_updateGaussian spl features sc vadflag channel
      feature_minimum tmp1_s16 maxspe self k) := by
  rcases updateGaussian_speech_stds spl features sc vadflag channel feature_minimum tmp1_s16
    maxspe self k with e | ⟨v, hv0, hv1, e⟩
  · intro i hi
    rw [e]
    exact h i hi
  · intro i hi
    rw [e]
    rcases getD_set_cases self.speech_stds (channel + k * kNumChannels) i v 0 with e2 | ⟨e2, -, -⟩
    · rw [e2]
      exact h i hi
    · rw [e2]
      exact ⟨hv0, hv1⟩

theorem update_SpeechStdRange (spl : Spl) (features : List Int) (sc : GmmScratch)
    (vadflag : Int) (st : VadInstT × Int) (channel : Nat) (h : SpeechStdRange st.1) :
    SpeechStdRange (GmmProbability_update spl features sc vadflag st channel).1 := by
  have hcongr : ∀ a b : VadInstT, stdState a = stdState b → SpeechStdRange a →
      SpeechStdRange b := by
    intro a b hab ha
    simp only [stdState, Prod.mk.injEq] at hab
    unfold SpeechStdRange at ha ⊢
    rw [← hab.2]
    exact ha
  have hfold : ∀ (s0 : VadInstT) (fm t m : Int), SpeechStdRange s0 →
      SpeechStdRange ((List.range kNumGaussians).foldl
        (GmmProbability_updateGaussian spl features sc vadflag channel fm t m) s0) := by
    intro s0 fm t m h0
    exact foldl_invariant SpeechStdRange _
      (fun a b ha => updateGaussian_SpeechStdRange spl features sc vadflag channel fm t m a b ha)
      _ _ h0
  obtain ⟨s1, fm, t, e1, e2, e3⟩ := update_stages spl features sc vadflag st channel
  have hr : List.range kNumGaussians = [0, 1] := rfl
  have key := hfold { (WebRtcVad_FindMinimum st.1 (features.getD channel 0) channel).1 with
      noise_means := (WeightedAverage
        (WebRtcVad_FindMinimum st.1 (features.getD channel 0) channel).1.noise_means channel 0
        kNoiseDataWeights).1 }
    (WebRtcVad_FindMinimum st.1 (features.getD channel 0) channel).2
    (wrap16 ((WeightedAverage
        (WebRtcVad_FindMinimum st.1 (features.getD channel 0) channel).1.noise_means channel 0
        kNoiseDataWeights).2 / 64)) st.2
    (hcongr st.1 _ (by
      simp only [stdState_noise_means, FindMinimum_stdState]) h)
  refine hcongr _ _ ?_ key
  unfold GmmProbability_update
  simp only [limit_stdState, separate_stdState]

theorem Reachable_SpeechStdRange (spl : Spl) (s : VadInstT) (h : Reachable spl s) :
    SpeechStdRange s :=
  Reachable_lift spl SpeechStdRange
    (fun a b hab ha => by
      simp only [modelState, Prod.mk.injEq] at hab
      unfold SpeechStdRange at ha ⊢
      rw [← hab.2.2.2.1]
      exact ha)
    (by
      intro i hi
      have hi' : i < 12 := hi
      interval_cases i <;> exact ⟨by decide, by decide⟩)
    (fun features sc vadflag st channel _ hst =>
      update_SpeechStdRange spl features sc vadflag st channel hst) s h

/-! ## The speech-variance product does not wrap -/

/-- One pass of the model-update loop, written with `GmmProbability_updateEntry`. -/
theorem update_entry (spl : Spl) (features : List Int) (sc : GmmScratch) (vadflag : Int)
    (st : VadInstT × Int) (channel : Nat) :
    GmmProbability_update spl features sc vadflag st channel =
      (GmmProbability_limit
        (GmmProbability_separate
          ((List.range kNumGaussians).foldl
            (GmmProbability_updateGaussian spl features sc vadflag channel
              (GmmProbability_updateEntry features st.1 channel).2.1
              (GmmProbability_updateEntry features st.1 channel).2.2 st.2)
            (GmmProbability_updateEntry features st.1 channel).1) channel).1 channel
        (GmmProbability_separate
          ((List.range kNumGaussians).foldl
            (GmmProbability_updateGaussian spl features sc vadflag channel
              (GmmProbability_updateEntry features st.1 channel).2.1
              (GmmProbability_updateEntry features st.1 channel).2.2 st.2)
            (GmmProbability_updateEntry features st.1 channel).1) channel).2.1
        (GmmProbability_separate
          ((List.range kNumGaussians).foldl
            (GmmProbability_updateGaussian spl features sc vadflag channel
              (GmmProbability_updateEntry features st.1 channel).2.1
              (GmmProbability_updateEntry features st.1 channel).2.2 st.2)
            (GmmProbability_updateEntry features st.1 channel).1) channel).2.2,
        kMaximumSpeech.getD channel 0) := by
  simp only [GmmProbability_update, GmmProbability_updateEntry]

/-- The passes of the first `c` channels of the model update keep the range of
the speech means and the running `maxspe`, and leave the speech means of the
channels from `c` on as they were. -/
theorem updateLoop_speech (spl : Spl) (features : List Int) (sc : GmmScratch) (vadflag : Int)
    (self : VadInstT) (h : SpeechRange self) (c : Nat) (hc : c ≤ kNumChannels) :
    SpeechRange ((List.range c).foldl (GmmProbability_update spl features sc vadflag)
      (self, 12800)).1 ∧
    11392 ≤ ((List.range c).foldl (GmmProbability_update spl features sc vadflag)
      (self, 12800)).2 ∧
    ((List.range c).foldl (GmmProbability_update spl features sc vadflag)
      (self, 12800)).2 ≤ 12800 ∧
    ∀ g, (∀ b, b < c → g ≠ b ∧ g ≠ b + 6) →
      ((List.range c).foldl (GmmProbability_update spl features sc vadflag)
        (self, 12800)).1.speech_means.getD g 0 = self.speech_means.getD g 0 := by
  have hc6 : c ≤ 6 := hc
  refine foldl_range_ind
    (fun (i : Nat) (st : VadInstT × Int) => SpeechRange st.1 ∧ 11392 ≤ st.2 ∧ st.2 ≤ 12800 ∧
      ∀ g, (∀ b, b < i → g ≠ b ∧ g ≠ b + 6) →
        st.1.speech_means.getD g 0 = self.speech_means.getD g 0)
    (GmmProbability_update spl features sc vadflag) (self, 12800) c
    ⟨h, by norm_num, by norm_num, fun _ _ => rfl⟩ ?_
  intro i st hi ⟨p1, p2, p3, p4⟩
  have hi6 : i < 6 := by omega
  obtain ⟨q1, q2⟩ := update_speech_facts spl features sc vadflag st i hi6 p2 p3 p1
  obtain ⟨-, -, t1, t2⟩ := table_bounds i hi6
  refine ⟨q1, ?_, ?_, ?_⟩
  · rw [update_maxspe]
    exact t1
  · rw [update_maxspe]
    omega
  · intro g hg
    rw [q2 g (hg i (Nat.lt_succ_self i)).1 (hg i (Nat.lt_succ_self i)).2]
    exact p4 g (fun b hb => hg b (Nat.lt_succ_of_lt hb))

/-- The speech mean read by the update of a Gaussian is the one the instance
held when the model update started: the earlier channels and the other
Gaussian of the channel do not write it. -/
theorem smk_eq (spl : Spl) (features : List Int) (sc : GmmScratch) (vadflag : Int)
    (self : VadInstT) (h : SpeechRange self) (c : Nat) (hc : c < kNumChannels)
    (k : Nat) (hk : k < kNumGaussians) :
    GmmProbability_smk spl features sc vadflag self c k =
      self.speech_means.getD (c + k * kNumChannels) 0 := by
  have hc6 : c < 6 := hc
  have hk2 : k < 2 := hk
  have hk6 : kNumChannels = 6 := rfl
  obtain ⟨-, m0, m1, hfix⟩ := updateLoop_speech spl features sc vadflag self h c (by omega)
  simp only [GmmProbability_smk]
  generalize (List.range c).foldl (GmmProbability_update spl features sc vadflag)
    (self, 12800) = st at m0 m1 hfix ⊢
  have he : (GmmProbability_updateEntry features st.1 c).1.speech_means =
      st.1.speech_means := by
    simp only [GmmProbability_updateEntry]
    exact (FindMinimum_means st.1 (features.getD c 0) c).2
  have hk01 : k = 0 ∨ k = 1 := by omega
  rcases hk01 with rfl | rfl
  · have hr0 : List.range 0 = [] := rfl
    rw [hr0, List.foldl_nil, he]
    exact hfix _ (fun b hb => ⟨by omega, by omega⟩)
  · have hr1 : List.range 1 = [0] := rfl
    rw [hr1, List.foldl_cons, List.foldl_nil]
    obtain ⟨z, y⟩ := updateGaussian_speech_means spl features sc vadflag c
      (GmmProbability_updateEntry features st.1 c).2.1
      (GmmProbability_updateEntry features st.1 c).2.2 st.2
      (GmmProbability_updateEntry features st.1 c).1 0 (by decide) (by omega) (by omega)
    by_cases hv : vadflag = 0
    · rw [z hv, he]
      exact hfix _ (fun b hb => ⟨by omega, by omega⟩)
    · obtain ⟨v, -, -, e⟩ := y hv
      rw [e, he, getD_set_ne _ _ _ _ (by rw [hk6]; omega)]
      exact hfix _ (fun b hb => ⟨by omega, by omega⟩)

/-- In an instance whose speech means and speech standard deviations are in
their reachable ranges, both speech Gaussians of a channel are tame for a
feature between the offset of the band and the offset plus 2022. -/
theorem speech_gaussians_tame (self : VadInstT) (hm : SpeechRange self)
    (hs : SpeechStdRange self) (f : Int) (c : Nat) (hc : c < kNumChannels)
    (hf : kOffsetVector.getD c 0 ≤ f ∧ f ≤ kOffsetVector.getD c 0 + 2022) :
    TameGaussian f (self.speech_means.getD c 0) (self.speech_stds.getD c 0) ∧
    TameGaussian f (self.speech_means.getD (c + kNumChannels) 0)
      (self.speech_stds.getD (c + kNumChannels) 0) := by
  have hc6 : c < 6 := hc
  have hk6 : kNumChannels = 6 := rfl
  have ho : 176 ≤ kOffsetVector.getD c 0 ∧ kOffsetVector.getD c 0 ≤ 368 := by
    interval_cases c <;> decide
  obtain ⟨-, -, hb⟩ := hm
  obtain ⟨⟨a0, a1⟩, ⟨b0, b1⟩, -⟩ := hb c hc
  have s0 := hs c (by show c < 12; omega)
  have s1 := hs (c + 6) (by show c + 6 < 12; omega)
  have hmin : kMinStd = 384 := rfl
  rw [hmin] at s0 s1
  rw [hk6]
  unfold TameGaussian
  refine ⟨⟨s0.1, s0.2, ?_, ?_, ?_, ?_⟩, ⟨s1.1, s1.2, ?_, ?_, ?_, ?_⟩⟩ <;> omega

/-- The multiplication that is allowed to overflow returns the product reduced
modulo `2 ^ 32` into the signed 32-bit range. -/
theorem OverflowingMul_mod (a b : Int) :
    (-2147483648 ≤ OverflowingMulS16ByS32ToS32 a b ∧
      OverflowingMulS16ByS32ToS32 a b ≤ 2147483647) ∧
    (OverflowingMulS16ByS32ToS32 a b - a * b) % 4294967296 = 0 := by
  unfold OverflowingMulS16ByS32ToS32 wrap32
  generalize a * b = p
  omega

/-- C32: wraparound is confined to the one documented multiply. Take a state
reachable from Init, an instance `self` that carries its adaptive model (the
instance that reaches `GmmProbability` differs from the reachable one in filter
memories only) and the feature vector that `WebRtcVad_CalculateFeatures`
produces for any instance and any frame of at most 240 samples, the longest
frame the 8 kHz path accepts. For every channel and both Gaussians the product
`(sgprvec[gaussian] >> 2) * (((deltaS[gaussian] * (features[channel] - ((smk + 4) >> 3))) >> 3) - 4096)`
of the speech-variance update, formed with the scratch values of the first
channel loop and the speech mean read at that point of the model update, lies
in the signed 32-bit range, so that storing it into `tmp1_s32` keeps its value,
whatever the threshold `individualTest` and the decision `vadflag` are. The
product of the noise-variance update goes through
`OverflowingMulS16ByS32ToS32`, which returns the exact product reduced modulo
`2 ^ 32` into the signed 32-bit range, and does wrap for 16-bit and 32-bit
arguments such as `4096 * 524288`. -/
theorem speech_variance_product_range (spl : Spl) (hD : DivContract spl)
    (hE : EnergyContract spl) (hS : ShortBlockContract spl)
    (s : VadInstT) (hr : Reachable spl s)
    (self : VadInstT) (hself : modelState self = modelState s)
    (inst : VadInstT) (frame : List Int) (n : Nat) (hn : n ≤ 240)
    (individualTest vadflag : Int) (c : Nat) (hc : c < kNumChannels)
    (k : Nat) (hk : k < kNumGaussians) :
    (-2147483648 ≤ GmmProbability_speechProduct spl self
        (WebRtcVad_CalculateFeatures spl inst frame n).2.1 individualTest vadflag c k ∧
      GmmProbability_speechProduct spl self
        (WebRtcVad_CalculateFeatures spl inst frame n).2.1 individualTest vadflag c k ≤
        2147483647) ∧
    wrap32 (GmmProbability_speechProduct spl self
        (WebRtcVad_CalculateFeatures spl inst frame n).2.1 individualTest vadflag c k) =
      GmmProbability_speechProduct spl self
        (WebRtcVad_CalculateFeatures spl inst frame n).2.1 individualTest vadflag c k ∧
    (∀ a b : Int,
      (-2147483648 ≤ OverflowingMulS16ByS32ToS32 a b ∧
        OverflowingMulS16ByS32ToS32 a b ≤ 2147483647) ∧
      (OverflowingMulS16ByS32ToS32 a b - a * b) % 4294967296 = 0) ∧
    OverflowingMulS16ByS32ToS32 4096 524288 = -2147483648 := by
  have hm : SpeechRange self :=
    SpeechRange_congr s self hself.symm (Reachable_SpeechRange spl s hr)
  have hs : SpeechStdRange self := by
    have h0 := Reachable_SpeechStdRange spl s hr
    simp only [modelState, Prod.mk.injEq] at hself
    unfold SpeechStdRange at h0 ⊢
    rw [hself.2.2.2.1]
    exact h0
  have hf := CalculateFeatures_short spl hE hS inst frame n hn c hc
  obtain ⟨t0, t1⟩ := speech_gaussians_tame self hm hs _ c hc hf
  have key : -2147483648 ≤ GmmProbability_speechProduct spl self
        (WebRtcVad_CalculateFeatures spl inst frame n).2.1 individualTest vadflag c k ∧
      GmmProbability_speechProduct spl self
        (WebRtcVad_CalculateFeatures spl inst frame n).2.1 individualTest vadflag c k ≤
        2147483647 := by
    simp only [GmmProbability_speechProduct]
    rw [smk_eq spl _ _ vadflag self hm c hc k hk]
    exact speechVarProduct_tame spl hD self _ individualTest c hc t0 t1 k hk
  exact ⟨key, wrap32_of_range _ key.1 key.2, OverflowingMul_mod, by decide⟩

/-- The first frame after Init: for the burst frame of 80 samples classified in
the initial state, the product of the speech-variance update of the first
Gaussian of the lowest band lies in the signed 32-bit range. -/
theorem speech_variance_product_range_witness :
    DivContract splRef ∧ EnergyContract splRef ∧ ShortBlockContract splRef ∧
    Reachable splRef initState ∧
    modelState (WebRtcVad_CalculateFeatures splRef initState burstFrame 80).1 =
      modelState initState ∧
    -2147483648 ≤ GmmProbability_speechProduct splRef
      (WebRtcVad_CalculateFeatures splRef initState burstFrame 80).1
      (WebRtcVad_CalculateFeatures splRef initState burstFrame 80).2.1 24 1 0 0 ∧
    GmmProbability_speechProduct splRef
      (WebRtcVad_CalculateFeatures splRef initState burstFrame 80).1
      (WebRtcVad_CalculateFeatures splRef initState burstFrame 80).2.1 24 1 0 0 ≤ 2147483647 :=
  ⟨splRef_DivContract, splRef_EnergyContract, splRef_ShortBlockContract,
   Reachable.init zeroInst initState rfl,
   CalculateFeatures_modelState splRef initState burstFrame 80,
   (speech_variance_product_range splRef splRef_DivContract splRef_EnergyContract
      splRef_ShortBlockContract initState (Reachable.init zeroInst initState rfl)
      (WebRtcVad_CalculateFeatures splRef initState burstFrame 80).1
      (CalculateFeatures_modelState splRef initState burstFrame 80)
      initState burstFrame 80 (by decide) 24 1 0 (by decide) 0 (by decide)).1⟩

/-! ## The ageing pass, slot by slot -/

/-- The ageing loop over the slots `lo .. lo + len - 1` when none of them has
age 100: every one of these ages goes up by one, nothing else changes. -/
theorem ageRange_increment (o : Nat) (len : Nat) : ∀ (lo : Nat) (st : List Int × List Int),
    lo + len ≤ 16 → o + 16 ≤ st.1.length →
    (∀ t, o + lo ≤ t → t < o + lo + len →
      st.1.getD t 0 ≠ 100 ∧ -32769 ≤ st.1.getD t 0 ∧ st.1.getD t 0 ≤ 32766) →
    ((List.range' lo len).foldl (FindMinimum_ageStep o) st).2 = st.2 ∧
    ((List.range' lo len).foldl (FindMinimum_ageStep o) st).1.length = st.1.length ∧
    ∀ t, ((List.range' lo len).foldl (FindMinimum_ageStep o) st).1.getD t 0 =
      if o + lo ≤ t ∧ t < o + lo + len then st.1.getD t 0 + 1 else st.1.getD t 0 := by
  induction len with
  | zero =>
    intro lo st _ _ _
    refine ⟨rfl, rfl, fun t => ?_⟩
    have hn : ¬ (o + lo ≤ t ∧ t < o + lo + 0) := by omega
    rw [if_neg hn]
    rfl
  | succ len ih =>
    intro lo st hle hlen hages
    obtain ⟨a1, a2, a3⟩ := hages (o + lo) (le_refl _) (by omega)
    have hstep : FindMinimum_ageStep o st lo =
        (st.1.set (o + lo) (st.1.getD (o + lo) 0 + 1), st.2) := by
      simp only [FindMinimum_ageStep, if_pos a1]
      rw [wrap16_of_range _ (by omega) (by omega)]
    rw [List.range'_succ, List.foldl_cons, hstep]
    obtain ⟨r1, r2, r3⟩ := ih (lo + 1)
      (st.1.set (o + lo) (st.1.getD (o + lo) 0 + 1), st.2) (by omega)
      (by rw [List.length_set]; exact hlen)
      (by
        intro t h1 h2
        show (st.1.set (o + lo) (st.1.getD (o + lo) 0 + 1)).getD t 0 ≠ 100 ∧ _
        rw [getD_set_ne _ _ _ _ (by omega)]
        exact hages t (by omega) (by omega))
    refine ⟨r1, by rw [r2, List.length_set], fun t => ?_⟩
    rw [r3 t]
    show (if o + (lo + 1) ≤ t ∧ t < o + (lo + 1) + len then
        (st.1.set (o + lo) (st.1.getD (o + lo) 0 + 1)).getD t 0 + 1
      else (st.1.set (o + lo) (st.1.getD (o + lo) 0 + 1)).getD t 0) = _
    by_cases c : t = o + lo
    · subst c
      have c1 : ¬ (o + (lo + 1) ≤ o + lo ∧ o + lo < o + (lo + 1) + len) := by omega
      have c2 : o + lo ≤ o + lo ∧ o + lo < o + lo + (len + 1) := by omega
      rw [if_neg c1, if_pos c2, getD_set_self _ _ _ (by omega)]
    · rw [getD_set_ne _ _ _ _ c]
      by_cases c3 : o + (lo + 1) ≤ t ∧ t < o + (lo + 1) + len
      · have c4 : o + lo ≤ t ∧ t < o + lo + (len + 1) := by omega
        rw [if_pos c3, if_pos c4]
      · have c4 : ¬ (o + lo ≤ t ∧ t < o + lo + (len + 1)) := by omega
        rw [if_neg c3, if_neg c4]

/-- The ageing pass on a window without an entry of age 100: all 16 ages go up
by one, the values stay. -/
theorem ageLoop_no_evict (o : Nat) (st : List Int × List Int) (hlen : o + 16 ≤ st.1.length)
    (hages : ∀ t, o ≤ t → t < o + 16 →
      st.1.getD t 0 ≠ 100 ∧ -32769 ≤ st.1.getD t 0 ∧ st.1.getD t 0 ≤ 32766) :
    ((List.range 16).foldl (FindMinimum_ageStep o) st).2 = st.2 ∧
    ((List.range 16).foldl (FindMinimum_ageStep o) st).1.length = st.1.length ∧
    ∀ t, ((List.range 16).foldl (FindMinimum_ageStep o) st).1.getD t 0 =
      if o ≤ t ∧ t < o + 16 then st.1.getD t 0 + 1 else st.1.getD t 0 := by
  have hr : List.range 16 = List.range' 0 16 := by decide
  rw [hr]
  obtain ⟨r1, r2, r3⟩ := ageRange_increment o 16 0 st (by omega) hlen
    (fun t h1 h2 => hages t (by omega) (by omega))
  refine ⟨r1, r2, fun t => ?_⟩
  rw [r3 t]
  by_cases c : o ≤ t ∧ t < o + 16
  · have c' : o + 0 ≤ t ∧ t < o + 0 + 16 := by omega
    rw [if_pos c, if_pos c']
  · have c' : ¬ (o + 0 ≤ t ∧ t < o + 0 + 16) := by omega
    rw [if_neg c, if_neg c']

/-- The ageing pass on a window whose first entry has age 100 while the
entries from the third on have other ages: the first entry is evicted, the
entry that moves into the first slot keeps its age, the others age by one, and
the last slot becomes a sentinel (value 10000) of age 102. -/
theorem ageLoop_evict_first (o : Nat) (st : List Int × List Int)
    (h1 : o + 16 ≤ st.1.length) (h2 : o + 16 ≤ st.2.length)
    (h100 : st.1.getD o 0 = 100)
    (hages : ∀ t, o + 2 ≤ t → t < o + 16 →
      st.1.getD t 0 ≠ 100 ∧ -32769 ≤ st.1.getD t 0 ∧ st.1.getD t 0 ≤ 32766) :
    ((List.range 16).foldl (FindMinimum_ageStep o) st).1.length = st.1.length ∧
    ((List.range 16).foldl (FindMinimum_ageStep o) st).2.length = st.2.length ∧
    (∀ t, ((List.range 16).foldl (FindMinimum_ageStep o) st).2.getD t 0 =
      if t = o + 15 then 10000 else if o ≤ t ∧ t < o + 16 then st.2.getD (t + 1) 0
      else st.2.getD t 0) ∧
    ∀ t, ((List.range 16).foldl (FindMinimum_ageStep o) st).1.getD t 0 =
      if t = o + 15 then 102 else if t = o then st.1.getD (t + 1) 0
      else if o < t ∧ t < o + 16 then st.1.getD (t + 1) 0 + 1 else st.1.getD t 0 := by
  obtain ⟨z, hz⟩ : ∃ z : Nat, z = 0 := ⟨0, rfl⟩
  have hr : List.range 16 = z :: List.range' (z + 1) 15 := by
    subst hz
    decide
  have hz16 : z < 16 := by omega
  have hne : ¬ (st.1.getD (o + z) 0 ≠ 100) := by
    subst hz
    intro h
    exact h h100
  rw [hr, List.foldl_cons]
  have e1 := fun t => ageStep_evict_getD o z hz16 st.1 101 h1 t
  have e2 := fun t => ageStep_evict_getD o z hz16 st.2 10000 h2 t
  have l1 := (shiftDown_spec o z st.1 (16 - z)).1
  have l2 := (shiftDown_spec o z st.2 (16 - z)).1
  have hstep : FindMinimum_ageStep o st z =
      (((List.range' z (16 - z)).foldl
          (fun (a : List Int) j => a.set (o + j) (a.getD (o + j + 1) 0)) st.1).set (o + 15) 101,
        ((List.range' z (16 - z)).foldl
          (fun (a : List Int) j => a.set (o + j) (a.getD (o + j + 1) 0)) st.2).set (o + 15)
          10000) := by
    simp only [FindMinimum_ageStep, if_neg hne, shiftDown_fold_fst, shiftDown_fold_snd]
  rw [hstep]
  have lA : (((List.range' z (16 - z)).foldl
      (fun (a : List Int) j => a.set (o + j) (a.getD (o + j + 1) 0)) st.1).set (o + 15)
      101).length = st.1.length := by
    rw [List.length_set]
    exact l1
  have lV : (((List.range' z (16 - z)).foldl
      (fun (a : List Int) j => a.set (o + j) (a.getD (o + j + 1) 0)) st.2).set (o + 15)
      10000).length = st.2.length := by
    rw [List.length_set]
    exact l2
  obtain ⟨r1, r2, r3⟩ := ageRange_increment o 15 (z + 1)
    (((List.range' z (16 - z)).foldl
        (fun (a : List Int) j => a.set (o + j) (a.getD (o + j + 1) 0)) st.1).set (o + 15) 101,
      ((List.range' z (16 - z)).foldl
        (fun (a : List Int) j => a.set (o + j) (a.getD (o + j + 1) 0)) st.2).set (o + 15)
        10000)
    (by omega) (by rw [lA]; exact h1)
    (by
      intro t t1 t2
      show (((List.range' z (16 - z)).foldl
        (fun (a : List Int) j => a.set (o + j) (a.getD (o + j + 1) 0)) st.1).set (o + 15)
        101).getD t 0 ≠ 100 ∧ _
      rw [e1 t]
      by_cases c : t = o + 15
      · rw [if_pos c]
        omega
      · have c2 : o + z ≤ t ∧ t < o + 16 := by omega
        rw [if_neg c, if_pos c2]
        exact hages (t + 1) (by omega) (by omega))
  refine ⟨r2.trans lA, ?_, ?_, ?_⟩
  · rw [r1]
    exact lV
  · intro t
    rw [r1]
    show (((List.range' z (16 - z)).foldl
      (fun (a : List Int) j => a.set (o + j) (a.getD (o + j + 1) 0)) st.2).set (o + 15)
      10000).getD t 0 = _
    rw [e2 t]
    by_cases c : t = o + 15
    · rw [if_pos c, if_pos c]
    · rw [if_neg c, if_neg c]
      by_cases c2 : o ≤ t ∧ t < o + 16
      · have c3 : o + z ≤ t ∧ t < o + 16 := by omega
        rw [if_pos c2, if_pos c3]
      · have c3 : ¬ (o + z ≤ t ∧ t < o + 16) := by omega
        rw [if_neg c2, if_neg c3]
  · intro t
    rw [r3 t]
    show (if o + (z + 1) ≤ t ∧ t < o + (z + 1) + 15 then
        (((List.range' z (16 - z)).foldl
          (fun (a : List Int) j => a.set (o + j) (a.getD (o + j + 1) 0)) st.1).set (o + 15)
          101).getD t 0 + 1
      else (((List.range' z (16 - z)).foldl
          (fun (a : List Int) j => a.set (o + j) (a.getD (o + j + 1) 0)) st.1).set (o + 15)
          101).getD t 0) = _
    rw [e1 t]
    by_cases c : t = o + 15
    · have c1 : o + (z + 1) ≤ t ∧ t < o + (z + 1) + 15 := by omega
      rw [if_pos c1, if_pos c, if_pos c]
      rfl
    · rw [if_neg c, if_neg c]
      by_cases c0 : t = o
      · have c1 : ¬ (o + (z + 1) ≤ t ∧ t < o + (z + 1) + 15) := by omega
        have c2 : o + z ≤ t ∧ t < o + 16 := by omega
        rw [if_neg c1, if_pos c2, if_pos c0]
      · rw [if_neg c0]
        by_cases c3 : o < t ∧ t < o + 16
        · have c1 : o + (z + 1) ≤ t ∧ t < o + (z + 1) + 15 := by omega
          have c2 : o + z ≤ t ∧ t < o + 16 := by omega
          rw [if_pos c1, if_pos c2, if_pos c3]
        · have c1 : ¬ (o + (z + 1) ≤ t ∧ t < o + (z + 1) + 15) := by omega
          have c2 : ¬ (o + z ≤ t ∧ t < o + 16) := by omega
          rw [if_neg c1, if_neg c2, if_neg c3]

/-- The insertion at a slot `p` that the decision tree returned: the entries
from `p` on move up one slot and slot `p` takes the new value with age 1. -/
theorem insert_at (o p : Nat) (hp : p < 16) (fv : Int) (st : List Int × List Int)
    (h1 : o + 16 ≤ st.1.length) (h2 : o + 16 ≤ st.2.length) :
    (FindMinimum_insert o fv (p : Int) st).1.length = st.1.length ∧
    (FindMinimum_insert o fv (p : Int) st).2.length = st.2.length ∧
    (∀ t, (FindMinimum_insert o fv (p : Int) st).2.getD t 0 =
      if t = o + p then fv else if o + p < t ∧ t ≤ o + 15 then st.2.getD (t - 1) 0
      else st.2.getD t 0) ∧
    ∀ t, (FindMinimum_insert o fv (p : Int) st).1.getD t 0 =
      if t = o + p then 1 else if o + p < t ∧ t ≤ o + 15 then st.1.getD (t - 1) 0
      else st.1.getD t 0 := by
  have hpos : ((p : Int) > -1) := by omega
  simp only [FindMinimum_insert, if_pos hpos, Int.toNat_ofNat, shiftUp_fold_fst,
    shiftUp_fold_snd]
  refine ⟨?_, ?_, fun t => insert_getD o p hp st.2 fv h2 t,
    fun t => insert_getD o p hp st.1 1 h1 t⟩
  · rw [List.length_set]
    exact (shiftUp_spec o st.1 (15 - p) (by omega)).1
  · rw [List.length_set]
    exact (shiftUp_spec o st.2 (15 - p) (by omega)).1

/-! ## One call of the minimum tracker on the window of a constant run -/

/-- In the window of a constant run the age at distance `d` behind the second
slot is at least `d` below the age of the second slot. -/
theorem constantRun_ages (c : Int) (o k : Nat) (st : List Int × List Int)
    (h : ConstantRunWindow c o k st) :
    ∀ d t, t = o + 1 + d → t < o + 16 → t < o + k →
      st.1.getD t 0 + d ≤ st.1.getD (o + 1) 0 := by
  obtain ⟨-, -, -, -, -, -, hCh⟩ := h
  intro d
  induction d with
  | zero =>
    intro t ht _ _
    have e : t = o + 1 := by omega
    rw [e]
    simp
  | succ d ih =>
    intro t ht h16 hk
    have i1 := ih (o + 1 + d) rfl (by omega) (by omega)
    have i2 := hCh (o + 1 + d) (by omega) (by omega) (by omega)
    have e : t = o + 1 + d + 1 := by omega
    rw [e]
    push_cast
    omega

/-- The window of a constant run after one more call with the same feature
value: an eviction happens in the first slot only, and the value enters when
the window holds a sentinel. -/
theorem FindMinimum_constant_window (c : Int) (hc0 : 0 ≤ c) (hc1 : c ≤ 9999) (channel : Nat)
    (hch : channel < 6) (k : Nat) (s : VadInstT)
    (h : ConstantRunWindow c (channel * 16) k (trackerState s)) :
    ConstantRunWindow c (channel * 16) (k + 1)
      (trackerState (WebRtcVad_FindMinimum s c channel).1) := by
  rw [FindMinimum_trackerState]
  generalize trackerState s = st at h ⊢
  have ho : channel * 16 + 16 ≤ 96 := by omega
  generalize channel * 16 = o at h ho ⊢
  have chain := constantRun_ages c o k st h
  obtain ⟨l1, l2, hV, hS, hA0, hA1, hCh⟩ := h
  -- the ages behind the second slot
  have hlate : ∀ t, o + 2 ≤ t → t < o + 16 → t < o + k →
      1 ≤ st.1.getD t 0 ∧ st.1.getD t 0 + 1 ≤ st.1.getD (o + 1) 0 := by
    intro t t1 t2 t3
    obtain ⟨d, hd⟩ : ∃ d : Nat, t = o + 1 + d := ⟨t - (o + 1), by omega⟩
    have := chain d t hd t2 t3
    have hd1 : (1 : Int) ≤ (d : Int) := by
      have : 1 ≤ d := by omega
      exact_mod_cast this
    exact ⟨(hV t (by omega) t2 t3).2, by omega⟩
  by_cases e100 : st.1.getD o 0 = 100
  · -- the first entry is evicted
    have hk : 100 ≤ k := by
      by_contra hlt
      by_cases k0 : k = 0
      · have := (hS o (by omega) (by omega)).2
        rw [k0] at this
        rw [e100] at this
        norm_num at this
      · have := (hA0 (by omega)).2
        rw [e100] at this
        have : (100 : Nat) ≤ k := by exact_mod_cast this
        omega
    have h1k := hA1 (by omega)
    rw [e100] at h1k
    obtain ⟨a1, a2, aV, aA⟩ := ageLoop_evict_first o st (by omega) (by omega) e100
      (by
        intro t t1 t2
        have := hlate t t1 t2 (by omega)
        omega)
    generalize (List.range 16).foldl (FindMinimum_ageStep o) st = ag at a1 a2 aV aA ⊢
    have gV : ∀ t, o ≤ t → t < o + 15 → ag.2.getD t 0 = c := by
      intro t t1 t2
      have c1 : ¬ (t = o + 15) := by omega
      have c2 : o ≤ t ∧ t < o + 16 := by omega
      rw [aV t, if_neg c1, if_pos c2]
      exact (hV (t + 1) (by omega) (by omega) (by omega)).1
    have gV15 : ag.2.getD (o + 15) 0 = 10000 := by
      rw [aV (o + 15), if_pos rfl]
    have hp : FindMinimum_position c (fun i => ag.2.getD (o + i) 0) = ((15 : Nat) : Int) := by
      rcases position_first c (fun i => ag.2.getD (o + i) 0) (by
          intro i hi
          show ag.2.getD (o + i) 0 ≤ ag.2.getD (o + (i + 1)) 0
          rw [gV (o + i) (by omega) (by omega)]
          by_cases c15 : i + 1 = 15
          · rw [c15, gV15]
            omega
          · rw [gV (o + (i + 1)) (by omega) (by omega)]) with
        ⟨-, hall⟩ | ⟨p, hp16, hpe, hlt, -⟩
      · have := hall 15 (by omega)
        have e : ag.2.getD (o + 15) 0 ≤ c := this
        rw [gV15] at e
        omega
      · have hlt' : c < ag.2.getD (o + p) 0 := hlt
        by_cases cp : p = 15
        · rw [hpe, cp]
        · rw [gV (o + p) (by omega) (by omega)] at hlt'
          omega
    rw [hp]
    obtain ⟨i1, i2, iV, iA⟩ := insert_at o 15 (by omega) c ag (by omega) (by omega)
    generalize FindMinimum_insert o c ((15 : Nat) : Int) ag = r at i1 i2 iV iA ⊢
    have rV : ∀ t, o ≤ t → t < o + 16 → r.2.getD t 0 = c := by
      intro t t1 t2
      rw [iV t]
      by_cases c1 : t = o + 15
      · rw [if_pos c1]
      · have c2 : ¬ (o + 15 < t ∧ t ≤ o + 15) := by omega
        rw [if_neg c1, if_neg c2]
        exact gV t t1 (by omega)
    have rA15 : r.1.getD (o + 15) 0 = 1 := by
      rw [iA (o + 15), if_pos rfl]
    have rA0 : r.1.getD o 0 = st.1.getD (o + 1) 0 := by
      have c1 : ¬ (o = o + 15) := by omega
      have c2 : ¬ (o + 15 < o ∧ o ≤ o + 15) := by omega
      rw [iA o, if_neg c1, if_neg c2, aA o, if_neg c1, if_pos rfl]
    have rAm : ∀ t, o < t → t < o + 15 → r.1.getD t 0 = st.1.getD (t + 1) 0 + 1 := by
      intro t t1 t2
      have c1 : ¬ (t = o + 15) := by omega
      have c2 : ¬ (o + 15 < t ∧ t ≤ o + 15) := by omega
      have c3 : ¬ (t = o) := by omega
      have c4 : o < t ∧ t < o + 16 := by omega
      rw [iA t, if_neg c1, if_neg c2, aA t, if_neg c1, if_neg c3, if_pos c4]
    have hfirst := hV (o + 1) (by omega) (by omega) (by omega)
    refine ⟨i1.trans (a1.trans l1), i2.trans (a2.trans l2), ?_, ?_, ?_, ?_, ?_⟩
    · intro t t1 t2 _
      refine ⟨rV t t1 t2, ?_⟩
      by_cases c0 : t = o
      · rw [c0, rA0]
        exact hfirst.2
      · by_cases c15 : t = o + 15
        · rw [c15, rA15]
        · rw [rAm t (by omega) (by omega)]
          have := (hV (t + 1) (by omega) (by omega) (by omega)).2
          omega
    · intro t t1 t2
      omega
    · intro _
      rw [rA0]
      push_cast
      have : (100 : Int) ≤ (k : Int) := by exact_mod_cast hk
      omega
    · intro _
      rw [rA0, rAm (o + 1) (by omega) (by omega)]
      have := hCh (o + 1) (by omega) (by omega) (by omega)
      omega
    · intro t t1 t2 _
      by_cases c15 : t + 1 = o + 15
      · rw [c15, rA15, rAm t (by omega) (by omega)]
        have := (hV (t + 1) (by omega) (by omega) (by omega)).2
        omega
      · rw [rAm (t + 1) (by omega) (by omega), rAm t (by omega) (by omega)]
        have := hCh (t + 1) (by omega) (by omega) (by omega)
        omega
  · -- no entry has age 100
    have hfirst100 : 0 < k → st.1.getD o 0 ≤ 99 := by
      intro hk0
      have := (hA0 hk0).1
      omega
    have hall : ∀ t, o ≤ t → t < o + 16 →
        st.1.getD t 0 ≠ 100 ∧ 0 ≤ st.1.getD t 0 ∧ st.1.getD t 0 ≤ 99 ∧
          (0 < k → st.1.getD t 0 ≤ k) := by
      intro t t1 t2
      by_cases ck : t < o + k
      · have hk0 : 0 < k := by omega
        have b0 := hfirst100 hk0
        have b1 := (hA0 hk0).2
        have b2 := (hV t t1 t2 ck).2
        by_cases c0 : t = o
        · rw [c0] at b2 ⊢
          exact ⟨e100, by omega, by omega, fun _ => b1⟩
        · have b3 := hA1 (by omega)
          by_cases c1 : t = o + 1
          · rw [c1]
            have := (hV (o + 1) (by omega) (by omega) (by omega)).2
            exact ⟨by omega, by omega, by omega, fun _ => by omega⟩
          · have := hlate t (by omega) t2 ck
            exact ⟨by omega, by omega, by omega, fun _ => by omega⟩
      · have b := (hS t (by omega) t2).2
        have hk16 : k < 16 := by omega
        have : (k : Int) < 16 := by exact_mod_cast hk16
        rw [b]
        exact ⟨by omega, by omega, by omega, fun _ => le_refl _⟩
    obtain ⟨aV, a1, aA⟩ := ageLoop_no_evict o st (by omega)
      (fun t t1 t2 => by
        have := hall t t1 t2
        omega)
    generalize (List.range 16).foldl (FindMinimum_ageStep o) st = ag at aV a1 aA ⊢
    have gA : ∀ t, o ≤ t → t < o + 16 → ag.1.getD t 0 = st.1.getD t 0 + 1 := by
      intro t t1 t2
      have c : o ≤ t ∧ t < o + 16 := ⟨t1, t2⟩
      rw [aA t, if_pos c]
    have hsorted : ∀ i, i < 15 → (fun i => ag.2.getD (o + i) 0) i ≤
        (fun i => ag.2.getD (o + i) 0) (i + 1) := by
      intro i hi
      show ag.2.getD (o + i) 0 ≤ ag.2.getD (o + (i + 1)) 0
      rw [aV]
      by_cases c1 : o + (i + 1) < o + k
      · rw [(hV (o + i) (by omega) (by omega) (by omega)).1,
          (hV (o + (i + 1)) (by omega) (by omega) c1).1]
      · rw [(hS (o + (i + 1)) (by omega) (by omega)).1]
        by_cases c2 : o + i < o + k
        · rw [(hV (o + i) (by omega) (by omega) c2).1]
          omega
        · rw [(hS (o + i) (by omega) (by omega)).1]
    by_cases hk16 : 16 ≤ k
    · -- the window is full: no insertion
      have hp : FindMinimum_position c (fun i => ag.2.getD (o + i) 0) = -1 := by
        apply position_none
        · show ag.2.getD (o + 7) 0 ≤ c
          rw [aV, (hV (o + 7) (by omega) (by omega) (by omega)).1]
        · show ag.2.getD (o + 15) 0 ≤ c
          rw [aV, (hV (o + 15) (by omega) (by omega) (by omega)).1]
      have hneg : ¬ ((-1 : Int) > -1) := by decide
      rw [hp]
      simp only [FindMinimum_insert, if_neg hneg]
      have b0 := hfirst100 (by omega)
      have b1 := (hA0 (by omega)).2
      refine ⟨a1.trans l1, by rw [aV]; exact l2, ?_, ?_, ?_, ?_, ?_⟩
      · intro t t1 t2 _
        rw [aV, gA t t1 t2]
        have := hV t t1 t2 (by omega)
        exact ⟨this.1, by omega⟩
      · intro t t1 t2
        omega
      · intro _
        rw [gA o (le_refl _) (by omega)]
        push_cast
        omega
      · intro _
        rw [gA o (le_refl _) (by omega), gA (o + 1) (by omega) (by omega)]
        have := hA1 (by omega)
        omega
      · intro t t1 t2 _
        rw [gA t (by omega) (by omega), gA (t + 1) (by omega) (by omega)]
        have := hCh t t1 t2 (by omega)
        omega
    · -- the value enters at slot `k`
      have hk16' : k < 16 := by omega
      have hkI : (k : Int) < 16 := by exact_mod_cast hk16'
      have hp : FindMinimum_position c (fun i => ag.2.getD (o + i) 0) = (k : Int) := by
        rcases position_first c (fun i => ag.2.getD (o + i) 0) hsorted with
          ⟨-, hall'⟩ | ⟨p, hp16, hpe, hlt, hbelow⟩
        · have e : ag.2.getD (o + k) 0 ≤ c := hall' k hk16'
          rw [aV, (hS (o + k) (le_refl _) (by omega)).1] at e
          omega
        · have hlt' : c < ag.2.getD (o + p) 0 := hlt
          rw [aV] at hlt'
          have hpk : ¬ (p < k) := by
            intro hpk
            rw [(hV (o + p) (by omega) (by omega) (by omega)).1] at hlt'
            omega
          have hkp : ¬ (k < p) := by
            intro hkp
            have e : ag.2.getD (o + k) 0 ≤ c := hbelow k hkp
            rw [aV, (hS (o + k) (le_refl _) (by omega)).1] at e
            omega
          have : p = k := by omega
          rw [hpe, this]
      rw [hp]
      obtain ⟨i1, i2, iV, iA⟩ := insert_at o k hk16' c ag (by omega) (by rw [aV]; omega)
      generalize FindMinimum_insert o c (k : Int) ag = r at i1 i2 iV iA ⊢
      have rVlow : ∀ t, o ≤ t → t < o + k → r.2.getD t 0 = c := by
        intro t t1 t2
        have c1 : ¬ (t = o + k) := by omega
        have c2 : ¬ (o + k < t ∧ t ≤ o + 15) := by omega
        rw [iV t, if_neg c1, if_neg c2, aV]
        exact (hV t t1 (by omega) t2).1
      have rVk : r.2.getD (o + k) 0 = c := by
        rw [iV (o + k), if_pos rfl]
      have rVhigh : ∀ t, o + k < t → t < o + 16 → r.2.getD t 0 = 10000 := by
        intro t t1 t2
        have c1 : ¬ (t = o + k) := by omega
        have c2 : o + k < t ∧ t ≤ o + 15 := by omega
        rw [iV t, if_neg c1, if_pos c2, aV]
        exact (hS (t - 1) (by omega) (by omega)).1
      have rAlow : ∀ t, o ≤ t → t < o + k → r.1.getD t 0 = st.1.getD t 0 + 1 := by
        intro t t1 t2
        have c1 : ¬ (t = o + k) := by omega
        have c2 : ¬ (o + k < t ∧ t ≤ o + 15) := by omega
        rw [iA t, if_neg c1, if_neg c2, gA t t1 (by omega)]
      have rAk : r.1.getD (o + k) 0 = 1 := by
        rw [iA (o + k), if_pos rfl]
      have rAhigh : ∀ t, o + k < t → t < o + 16 → r.1.getD t 0 = (k : Int) + 1 := by
        intro t t1 t2
        have c1 : ¬ (t = o + k) := by omega
        have c2 : o + k < t ∧ t ≤ o + 15 := by omega
        rw [iA t, if_neg c1, if_pos c2, gA (t - 1) (by omega) (by omega),
          (hS (t - 1) (by omega) (by omega)).2]
      refine ⟨i1.trans (a1.trans l1), i2.trans (by rw [aV]; exact l2), ?_, ?_, ?_, ?_, ?_⟩
      · intro t t1 t2 t3
        by_cases ck : t = o + k
        · rw [ck, rVk, rAk]
          exact ⟨rfl, le_refl _⟩
        · rw [rVlow t t1 (by omega), rAlow t t1 (by omega)]
          have := (hV t t1 t2 (by omega)).2
          exact ⟨rfl, by omega⟩
      · intro t t1 t2
        refine ⟨rVhigh t (by omega) t2, ?_⟩
        rw [rAhigh t (by omega) t2]
        push_cast
        rfl
      · intro _
        by_cases k0 : k = 0
        · have e : o = o + k := by omega
          have := rAk
          rw [← e] at this
          rw [this]
          refine ⟨by norm_num, ?_⟩
          have : (1 : Int) ≤ ((k + 1 : Nat) : Int) := by exact_mod_cast Nat.succ_le_succ (Nat.zero_le k)
          exact this
        · rw [rAlow o (le_refl _) (by omega)]
          have b1 := (hA0 (by omega)).2
          have hk16I : (k : Int) < 16 := hkI
          refine ⟨by omega, ?_⟩
          push_cast
          omega
      · intro hk1
        by_cases k1 : k = 1
        · have e : o + 1 = o + k := by omega
          have := rAk
          rw [← e] at this
          rw [this, rAlow o (le_refl _) (by omega)]
          have := (hV o (le_refl _) (by omega) (by omega)).2
          omega
        · rw [rAlow o (le_refl _) (by omega), rAlow (o + 1) (by omega) (by omega)]
          have := hA1 (by omega)
          omega
      · intro t t1 t2 t3
        by_cases ck : t + 1 = o + k
        · rw [ck, rAk, rAlow t (by omega) (by omega)]
          have := (hV t (by omega) (by omega) (by omega)).2
          omega
        · rw [rAlow (t + 1) (by omega) (by omega), rAlow t (by omega) (by omega)]
          have := hCh t t1 t2 (by omega)
          omega

/-! ## Runs of the minimum tracker on a constant feature: convergence -/

theorem downStep_mono (a b : Int) (h : a ≤ b) : downStep a ≤ downStep b := by
  unfold downStep
  omega

theorem downStep_iterate_nonneg (n : Nat) : 0 ≤ downStep^[n] 1600 := by
  induction n with
  | zero => decide
  | succ n ih =>
    rw [Function.iterate_succ_apply']
    generalize downStep^[n] 1600 = B at ih ⊢
    unfold downStep
    omega

theorem downStep_iterate_zero (n : Nat) (h : 6 ≤ n) : downStep^[n] 1600 = 0 := by
  obtain ⟨d, rfl⟩ : ∃ d, n = 6 + d := ⟨n - 6, by omega⟩
  clear h
  induction d with
  | zero => decide
  | succ d ih =>
    have e : 6 + (d + 1) = (6 + d) + 1 := by omega
    rw [e, Function.iterate_succ_apply', ih]
    decide

theorem initState_ConstantRunWindow (c : Int) (channel : Nat) (hch : channel < 6) :
    ConstantRunWindow c (channel * 16) 0 (trackerState initState) := by
  have e1 : (trackerState initState).1 = List.replicate 96 0 := rfl
  have e2 : (trackerState initState).2 = List.replicate 96 10000 := rfl
  refine ⟨rfl, rfl, ?_, ?_, ?_, ?_, ?_⟩
  · intro t t1 t2 t3
    omega
  · intro t t1 t2
    rw [e1, e2, getD_replicate, getD_replicate, if_pos (by omega), if_pos (by omega)]
    exact ⟨rfl, rfl⟩
  · intro h
    omega
  · intro h
    omega
  · intro t t1 t2 t3
    omega

/-- One energetic frame of a constant run: the window after it, the frame
counter, and the returned smoothed minimum as a function of the stored one. -/
theorem FindMinimum_frame_constant (c : Int) (hc0 : 0 ≤ c) (hc1 : c ≤ 9999) (channel : Nat)
    (hch : channel < 6) (k : Nat) (hk : k + 1 < 2147483648) (s : VadInstT)
    (hw : ConstantRunWindow c (channel * 16) k (trackerState s))
    (hl : s.mean_value.length = 6) (hfc : s.frame_counter = (k : Int))
    (hm : 0 ≤ s.mean_value.getD channel 0 ∧ s.mean_value.getD channel 0 ≤ 10000) :
    ConstantRunWindow c (channel * 16) (k + 1)
      (trackerState (FindMinimum_frame c channel s).1) ∧
    (FindMinimum_frame c channel s).1.mean_value.length = 6 ∧
    (FindMinimum_frame c channel s).1.frame_counter = ((k + 1 : Nat) : Int) ∧
    (FindMinimum_frame c channel s).1.mean_value.getD channel 0 =
      (FindMinimum_frame c channel s).2 ∧
    (FindMinimum_frame c channel s).2 =
      (if k = 0 then (s.mean_value.getD channel 0 + 32767 * 1600 + 16384) / 32768
      else if c < s.mean_value.getD channel 0 then
        (6554 * s.mean_value.getD channel 0 + 26214 * c + 16384) / 32768
      else (32440 * s.mean_value.getD channel 0 + 328 * c + 16384) / 32768) := by
  have hW := FindMinimum_constant_window c hc0 hc1 channel hch k s hw
  obtain ⟨w, median, alpha, hwe, hmed, halpha, hres, hmv⟩ := FindMinimum_stages s c channel
  rw [hwe] at hW
  obtain ⟨-, -, hV, -, -, -, -⟩ := hW
  have hkI : (0 : Int) ≤ (k : Int) := Int.ofNat_nonneg k
  have hk2 : (k : Int) + 1 < 2147483648 := by exact_mod_cast hk
  have hfr : (FindMinimum_frame c channel s).2 = (WebRtcVad_FindMinimum s c channel).2 := by
    simp only [FindMinimum_frame]
  have hfm : (FindMinimum_frame c channel s).1.mean_value =
      (WebRtcVad_FindMinimum s c channel).1.mean_value := by
    simp only [FindMinimum_frame]
  have hft : trackerState (FindMinimum_frame c channel s).1 =
      trackerState (WebRtcVad_FindMinimum s c channel).1 := by
    simp only [FindMinimum_frame, trackerState]
  have hff : (FindMinimum_frame c channel s).1.frame_counter = wrap32 (s.frame_counter + 1) := by
    simp only [FindMinimum_frame]
  have hK : WEBRTC_SPL_WORD16_MAX = 32767 := rfl
  have hval : wrap16 (((alpha + 1) * s.mean_value.getD channel 0 +
      (WEBRTC_SPL_WORD16_MAX - alpha) * median + 16384) / 32768) =
      (if k = 0 then (s.mean_value.getD channel 0 + 32767 * 1600 + 16384) / 32768
      else if c < s.mean_value.getD channel 0 then
        (6554 * s.mean_value.getD channel 0 + 26214 * c + 16384) / 32768
      else (32440 * s.mean_value.getD channel 0 + 328 * c + 16384) / 32768) := by
    rw [hK]
    generalize s.mean_value.getD channel 0 = m at hm halpha ⊢
    by_cases k0 : k = 0
    · have c0 : ¬ (s.frame_counter > 0) := by
        rw [hfc, k0]
        decide
      have c2 : ¬ (s.frame_counter > 2) := by
        rw [hfc, k0]
        decide
      rw [if_neg c2, if_neg c0] at hmed
      rw [if_neg c0] at halpha
      rw [if_pos k0, hmed, halpha]
      rw [wrap16_of_range _ (by omega) (by omega)]
      congr 1
      ring
    · have kpos : 0 < k := Nat.pos_of_ne_zero k0
      have c0 : s.frame_counter > 0 := by
        rw [hfc]
        exact_mod_cast kpos
      have hmedc : median = c := by
        rw [hmed]
        by_cases c2 : s.frame_counter > 2
        · rw [if_pos c2]
          have hk3 : 2 < k := by
            rw [hfc] at c2
            exact_mod_cast c2
          exact (hV (channel * 16 + 2) (by omega) (by omega) (by omega)).1
        · rw [if_neg c2, if_pos c0]
          exact (hV (channel * 16 + 0) (by omega) (by omega) (by omega)).1
      rw [if_pos c0, hmedc, kSmoothingDown, kSmoothingUp] at halpha
      rw [if_neg k0, hmedc]
      by_cases cm : c < m
      · rw [if_pos cm] at halpha
        rw [if_pos cm, halpha, wrap16_of_range _ (by omega) (by omega)]
        congr 1
      · rw [if_neg cm] at halpha
        rw [if_neg cm, halpha, wrap16_of_range _ (by omega) (by omega)]
        congr 1
  refine ⟨?_, ?_, ?_, ?_, ?_⟩
  · rw [hft]
    exact FindMinimum_constant_window c hc0 hc1 channel hch k s hw
  · rw [hfm, hmv, List.length_set]
    exact hl
  · rw [hff, hfc, wrap32_of_range _ (by omega) (by omega)]
    push_cast
    rfl
  · rw [hfm, hfr, hmv, hres, getD_set]
    have : channel = channel ∧ channel < s.mean_value.length := ⟨rfl, by omega⟩
    rw [if_pos this]
  · rw [hfr, hres]
    exact hval

/-- The state after `n` energetic frames of a constant run from Init, and the
smoothed minimum returned on the last of them: at or above a feature value of
at most 1600, within the `n - 1` times iterated downward step of 1600 from it;
below a feature value of at least 1601 by at least the smaller of the initial
gap and 49. -/
theorem FindMinimum_frames_constant (c : Int) (hc0 : 0 ≤ c) (hc1 : c ≤ 9999) (channel : Nat)
    (hch : channel < 6) (n : Nat) (hn : n < 2147483648) :
    ConstantRunWindow c (channel * 16) n
      (trackerState (FindMinimum_frames c channel n initState).1) ∧
    (FindMinimum_frames c channel n initState).1.mean_value.length = 6 ∧
    (FindMinimum_frames c channel n initState).1.frame_counter = (n : Int) ∧
    (FindMinimum_frames c channel n initState).1.mean_value.getD channel 0 =
      (FindMinimum_frames c channel n initState).2 ∧
    (c ≤ 1600 → c ≤ (FindMinimum_frames c channel n initState).2 ∧
      (FindMinimum_frames c channel n initState).2 - c ≤ downStep^[n - 1] 1600) ∧
    (1601 ≤ c → 1600 ≤ (FindMinimum_frames c channel n initState).2 ∧
      (FindMinimum_frames c channel n initState).2 ≤ c - min (c - 1600) 49) := by
  induction n with
  | zero =>
    have e : initState.mean_value = List.replicate 6 1600 := rfl
    have hm : initState.mean_value.getD channel 0 = 1600 := by
      rw [e, List.getD_eq_getElem?_getD, List.getElem?_replicate, if_pos hch]
      rfl
    refine ⟨initState_ConstantRunWindow c channel hch, rfl, rfl, rfl, ?_, ?_⟩
    · intro h
      show c ≤ initState.mean_value.getD channel 0 ∧
        initState.mean_value.getD channel 0 - c ≤ 1600
      rw [hm]
      omega
    · intro h
      show 1600 ≤ initState.mean_value.getD channel 0 ∧
        initState.mean_value.getD channel 0 ≤ c - min (c - 1600) 49
      rw [hm]
      omega
  | succ n ih =>
    obtain ⟨i1, i2, i3, i4, i5, i6⟩ := ih (by omega)
    have hmr : 0 ≤ (FindMinimum_frames c channel n initState).2 ∧
        (FindMinimum_frames c channel n initState).2 ≤ 10000 := by
      by_cases cc : c ≤ 1600
      · have := i5 cc
        have := downStep_iterate_nonneg (n - 1)
        have hle : downStep^[n - 1] 1600 ≤ 1600 := by
          clear i1 i2 i3 i4 i5 i6 ih
          induction (n - 1) with
          | zero => exact le_refl _
          | succ j ihj =>
            rw [Function.iterate_succ_apply']
            have := downStep_iterate_nonneg j
            generalize downStep^[j] 1600 = B at ihj this ⊢
            unfold downStep
            omega
        omega
      · have := i6 (by omega)
        omega
    obtain ⟨s1, s2, s3, s4, s5⟩ := FindMinimum_frame_constant c hc0 hc1 channel hch n
      (by omega) (FindMinimum_frames c channel n initState).1 i1 i2 i3
      (by rw [i4]; exact hmr)
    rw [i4] at s5
    have hunf : FindMinimum_frames c channel (n + 1) initState =
        FindMinimum_frame c channel (FindMinimum_frames c channel n initState).1 := rfl
    rw [hunf]
    refine ⟨s1, s2, s3, s4, ?_, ?_⟩
    · intro cc
      obtain ⟨j1, j2⟩ := i5 cc
      rw [s5]
      generalize (FindMinimum_frames c channel n initState).2 = m at hmr j1 j2 ⊢
      by_cases k0 : n = 0
      · subst k0
        rw [if_pos rfl]
        have e0 : downStep^[0 + 1 - 1] 1600 = 1600 := rfl
        have e1 : downStep^[0 - 1] 1600 = 1600 := rfl
        rw [e0]
        rw [e1] at j2
        omega
      · obtain ⟨j, rfl⟩ : ∃ j, n = j + 1 := ⟨n - 1, by omega⟩
        have e0 : j + 1 + 1 - 1 = j + 1 := by omega
        have e1 : j + 1 - 1 = j := by omega
        rw [e1] at j2
        rw [if_neg k0, e0, Function.iterate_succ_apply']
        have hB := downStep_iterate_nonneg j
        have hmono := downStep_mono (m - c) (downStep^[j] 1600) j2
        generalize downStep^[j] 1600 = B at j2 hB hmono ⊢
        unfold downStep at hmono ⊢
        by_cases cm : c < m
        · rw [if_pos cm]
          omega
        · rw [if_neg cm]
          omega
    · intro cc
      obtain ⟨j1, j2⟩ := i6 cc
      rw [s5]
      generalize (FindMinimum_frames c channel n initState).2 = m at hmr j1 j2 ⊢
      by_cases k0 : n = 0
      · rw [if_pos k0]
        omega
      · have cm : ¬ (c < m) := by omega
        rw [if_neg k0, if_neg cm]
        omega

/-- C23 (as the code has it): the smoothed minimum converges to a constant
feature value from above only. From the Init state, with the constant feature
value `c` fed to `WebRtcVad_FindMinimum` on `n` consecutive energetic frames
(the frame counter advancing by one per frame, `n` below `2 ^ 31`): for every
`c` in `[0, 1600]` and every channel the value returned on the last frame is
`c` itself as soon as `n` is at least 7 (so for every `n > 100`); for `c = 1601`
it is 1600, one below `c`; for every `c` in `[1602, 9999]` it lies in
`[1600, c - min (c - 1600) 49]`, so it stays at least 2 below `c` however many
frames are fed. -/
theorem minimum_tracker_convergence (c : Int) (channel : Nat) (hch : channel < kNumChannels)
    (n : Nat) (hn : n < 2147483648) :
    (0 ≤ c → c ≤ 1600 → 7 ≤ n → (FindMinimum_frames c channel n initState).2 = c) ∧
    (c = 1601 → (FindMinimum_frames c channel n initState).2 = 1600) ∧
    (1602 ≤ c → c ≤ 9999 →
      1600 ≤ (FindMinimum_frames c channel n initState).2 ∧
      (FindMinimum_frames c channel n initState).2 ≤ c - min (c - 1600) 49 ∧
      ¬ (c - (FindMinimum_frames c channel n initState).2 ≤ 1)) := by
  refine ⟨?_, ?_, ?_⟩
  · intro h0 h1 h7
    obtain ⟨-, -, -, -, a, -⟩ :=
      FindMinimum_frames_constant c h0 (by omega) channel hch n hn
    obtain ⟨a1, a2⟩ := a h1
    rw [downStep_iterate_zero (n - 1) (by omega)] at a2
    omega
  · intro h
    obtain ⟨-, -, -, -, -, a⟩ :=
      FindMinimum_frames_constant c (by omega) (by omega) channel hch n hn
    have := a (by omega)
    omega
  · intro h0 h1
    obtain ⟨-, -, -, -, -, a⟩ :=
      FindMinimum_frames_constant c (by omega) h1 channel hch n hn
    have := a (by omega)
    omega

/-- Witness of C23: 101 frames with the constant feature value 500 on channel 0
return 500 on the last frame; 101 frames with 9999 return at most 9950. -/
theorem minimum_tracker_convergence_witness :
    (FindMinimum_frames 500 0 101 initState).2 = 500 ∧
    (FindMinimum_frames 9999 0 101 initState).2 ≤ 9999 - min (9999 - 1600) 49 :=
  ⟨(minimum_tracker_convergence 500 0 (by decide) 101 (by decide)).1 (by decide) (by decide)
      (by decide),
   ((minimum_tracker_convergence 9999 0 (by decide) 101 (by decide)).2.2 (by decide)
      (by decide)).2.1⟩

/-! ## The decision smoother on a negative raw decision, in reachable states -/

/-- The smoother on a raw decision 0, for any instance whose overhang counter
is small enough for `2 + over_hang` to fit the 16-bit decision: a positive
counter is emitted plus 2 and goes down by one, a zero counter emits 0; in both
cases `num_of_speech` becomes 0 and nothing else changes. -/
theorem smoother_zero_step (self : VadInstT) (overhead1 overhead2 : Int) :
    (0 < self.over_hang → self.over_hang ≤ 32765 →
      GmmProbability_hysteresis self 0 overhead1 overhead2 =
        ({ self with over_hang := self.over_hang - 1, num_of_speech := 0 },
          2 + self.over_hang)) ∧
    (self.over_hang = 0 →
      GmmProbability_hysteresis self 0 overhead1 overhead2 =
        ({ self with over_hang := 0, num_of_speech := 0 }, 0)) := by
  constructor
  · intro h1 h2
    have e1 : wrap16 (self.over_hang - 1) = self.over_hang - 1 := by unfold wrap16; omega
    have e2 : wrap16 (2 + self.over_hang) = 2 + self.over_hang := by unfold wrap16; omega
    simp only [GmmProbability_hysteresis, if_true, gt_iff_lt, if_pos h1, e1, e2]
  · intro h0
    have hn : ¬ (self.over_hang > 0) := by omega
    simp only [GmmProbability_hysteresis, if_true, if_neg hn]
    rw [← h0]

/-- The speech-frame counter after one 8 kHz classification call is the one the
smoother leaves, applied to the counters of the instance with the raw decision
of the classifier. -/
theorem CalcVad8khz_num_of_speech (spl : Spl) (s : VadInstT) (frame : List Int) (n : Nat) :
    (WebRtcVad_CalcVad8khz spl s frame n).1.num_of_speech =
      (GmmProbability_hysteresis s
        (GmmProbability_raw spl (WebRtcVad_CalculateFeatures spl s frame n).1
          (WebRtcVad_CalculateFeatures spl s frame n).2.1
          (WebRtcVad_CalculateFeatures spl s frame n).2.2 n).2
        (GmmProbability_thresholds s n).1 (GmmProbability_thresholds s n).2.1).1.num_of_speech := by
  have hf := CalculateFeatures_decisionState spl s frame n
  have hr := raw_state spl (WebRtcVad_CalculateFeatures spl s frame n).1
    (WebRtcVad_CalculateFeatures spl s frame n).2.1
    (WebRtcVad_CalculateFeatures spl s frame n).2.2 n
  have ht := thresholds_congr _ _ n hf
  simp only [decisionState, Prod.mk.injEq] at hf hr
  obtain ⟨-, hr2, hr3, -⟩ := hr
  obtain ⟨-, hf2, hf3, -⟩ := hf
  simp only [WebRtcVad_CalcVad8khz, GmmProbability, ht]
  simp only [GmmProbability_hysteresis, hr2, hr3, hf2, hf3]
  split_ifs <;> rfl

/-- The overhang counter after the burst frame from Init is the short preset
8. -/
theorem burst_over_hang :
    (WebRtcVad_CalcVad8khz splRef initState burstFrame 80).1.over_hang = 8 := by
  have hraw1 : (GmmProbability_raw splRef
      (WebRtcVad_CalculateFeatures splRef initState burstFrame 80).1
      (WebRtcVad_CalculateFeatures splRef initState burstFrame 80).2.1
      (WebRtcVad_CalculateFeatures splRef initState burstFrame 80).2.2 80).2 = 1 := by
    decide!
  have h1 := CalcVad8khz_hysteresis splRef initState burstFrame 80
  rw [hraw1] at h1
  exact h1.2.trans (by decide)

/-- The raw decision on a silent frame that follows the burst frame is 0. -/
theorem silent_after_burst_raw :
    (GmmProbability_raw splRef
      (WebRtcVad_CalculateFeatures splRef
        (WebRtcVad_CalcVad8khz splRef initState burstFrame 80).1 silentFrame 80).1
      (WebRtcVad_CalculateFeatures splRef
        (WebRtcVad_CalcVad8khz splRef initState burstFrame 80).1 silentFrame 80).2.1
      (WebRtcVad_CalculateFeatures splRef
        (WebRtcVad_CalcVad8khz splRef initState burstFrame 80).1 silentFrame 80).2.2 80).2 = 0 := by
  have htot : (WebRtcVad_CalculateFeatures splRef
      (WebRtcVad_CalculateFeatures splRef initState burstFrame 80).1 silentFrame 80).2.2 ≤
      kMinEnergy := by
    decide!
  have hcf := CalculateFeatures_congr splRef
    (WebRtcVad_CalcVad8khz splRef initState burstFrame 80).1
    (WebRtcVad_CalculateFeatures splRef initState burstFrame 80).1 silentFrame 80
    (CalcVad8khz_filterState splRef initState burstFrame 80)
  have hraw2 := raw_below_floor splRef
    (WebRtcVad_CalculateFeatures splRef
      (WebRtcVad_CalcVad8khz splRef initState burstFrame 80).1 silentFrame 80).1
    (WebRtcVad_CalculateFeatures splRef
      (WebRtcVad_CalcVad8khz splRef initState burstFrame 80).1 silentFrame 80).2.1
    (WebRtcVad_CalculateFeatures splRef
      (WebRtcVad_CalcVad8khz splRef initState burstFrame 80).1 silentFrame 80).2.2 80
    (by rw [hcf]; exact htot)
  rw [hraw2]

/-- C5: the decision smoother on a negative raw decision, in every state the
code can be in. Take a state `s` reachable from Init and an instance `self`
that carries its overhang counter (inside a classification call the smoother
receives the instance after the model update, which differs from the reachable
one in filter memories, model tables and frame counter only). When the raw
decision is 0 and `over_hang > 0`, the emitted decision is `2 + over_hang` (the
value before the call), `over_hang` goes down by exactly 1 and `num_of_speech`
becomes 0, nothing else changing; when the raw decision is 0 and
`over_hang = 0`, the emitted decision is 0, `over_hang` stays 0 and
`num_of_speech` becomes 0. Accordingly an 8 kHz classification call on `s` whose
raw decision is 0 returns `2 + over_hang` and leaves `over_hang - 1` when the
counter was positive, returns 0 and leaves 0 when it was 0, and leaves
`num_of_speech = 0` in both cases. -/
theorem hysteresis_negative (spl : Spl) (s : VadInstT) (hr : Reachable spl s)
    (self : VadInstT) (hself : self.over_hang = s.over_hang) (overhead1 overhead2 : Int) :
    (0 < self.over_hang →
      GmmProbability_hysteresis self 0 overhead1 overhead2 =
        ({ self with over_hang := self.over_hang - 1, num_of_speech := 0 },
          2 + self.over_hang)) ∧
    (self.over_hang = 0 →
      GmmProbability_hysteresis self 0 overhead1 overhead2 =
        ({ self with over_hang := 0, num_of_speech := 0 }, 0)) ∧
    ∀ (frame : List Int) (n : Nat),
      (GmmProbability_raw spl (WebRtcVad_CalculateFeatures spl s frame n).1
        (WebRtcVad_CalculateFeatures spl s frame n).2.1
        (WebRtcVad_CalculateFeatures spl s frame n).2.2 n).2 = 0 →
      (0 < s.over_hang →
        (WebRtcVad_CalcVad8khz spl s frame n).2 = 2 + s.over_hang ∧
        (WebRtcVad_CalcVad8khz spl s frame n).1.over_hang = s.over_hang - 1 ∧
        (WebRtcVad_CalcVad8khz spl s frame n).1.num_of_speech = 0) ∧
      (s.over_hang = 0 →
        (WebRtcVad_CalcVad8khz spl s frame n).2 = 0 ∧
        (WebRtcVad_CalcVad8khz spl s frame n).1.over_hang = 0 ∧
        (WebRtcVad_CalcVad8khz spl s frame n).1.num_of_speech = 0) := by
  obtain ⟨-, ⟨o0, o1⟩, -, -⟩ := Reachable_inv spl s hr
  refine ⟨fun h => (smoother_zero_step self overhead1 overhead2).1 h (by omega),
    (smoother_zero_step self overhead1 overhead2).2, ?_⟩
  intro frame n hraw
  obtain ⟨c1, c2⟩ := CalcVad8khz_hysteresis spl s frame n
  have c3 := CalcVad8khz_num_of_speech spl s frame n
  rw [hraw] at c1 c2 c3
  constructor
  · intro hpos
    have e := (smoother_zero_step s (GmmProbability_thresholds s n).1
      (GmmProbability_thresholds s n).2.1).1 hpos (by omega)
    rw [e] at c1 c2 c3
    exact ⟨c1, c2, c3⟩
  · intro hz
    have e := (smoother_zero_step s (GmmProbability_thresholds s n).1
      (GmmProbability_thresholds s n).2.1).2 hz
    rw [e] at c1 c2 c3
    exact ⟨c1, c2, c3⟩

/-- Witness of C5: the state after the burst frame from Init is reachable and
has the overhang counter 8; the smoother on it emits `2 + 8` and leaves 7, and
the silent frame that follows returns 10, leaving `over_hang = 7` and
`num_of_speech = 0`. -/
theorem hysteresis_negative_witness :
    Reachable splRef (WebRtcVad_CalcVad8khz splRef initState burstFrame 80).1 ∧
    (WebRtcVad_CalcVad8khz splRef initState burstFrame 80).1.over_hang = 8 ∧
    GmmProbability_hysteresis (WebRtcVad_CalcVad8khz splRef initState burstFrame 80).1 0 8 14 =
      ({ (WebRtcVad_CalcVad8khz splRef initState burstFrame 80).1 with
          over_hang := (WebRtcVad_CalcVad8khz splRef initState burstFrame 80).1.over_hang - 1,
          num_of_speech := 0 },
        2 + (WebRtcVad_CalcVad8khz splRef initState burstFrame 80).1.over_hang) ∧
    (WebRtcVad_CalcVad8khz splRef (WebRtcVad_CalcVad8khz splRef initState burstFrame 80).1
        silentFrame 80).2 =
      2 + (WebRtcVad_CalcVad8khz splRef initState burstFrame 80).1.over_hang ∧
    (WebRtcVad_CalcVad8khz splRef (WebRtcVad_CalcVad8khz splRef initState burstFrame 80).1
        silentFrame 80).1.num_of_speech = 0 :=
  ⟨Reachable.calc8 _ _ _ (Reachable.init zeroInst initState rfl), burst_over_hang,
   (hysteresis_negative splRef _
      (Reachable.calc8 _ _ _ (Reachable.init zeroInst initState rfl))
      (WebRtcVad_CalcVad8khz splRef initState burstFrame 80).1 rfl 8 14).1
      (by rw [burst_over_hang]; decide),
   (((hysteresis_negative splRef _
      (Reachable.calc8 _ _ _ (Reachable.init zeroInst initState rfl))
      (WebRtcVad_CalcVad8khz splRef initState burstFrame 80).1 rfl 8 14).2.2
      silentFrame 80 silent_after_burst_raw).1 (by rw [burst_over_hang]; decide)).1,
   (((hysteresis_negative splRef _
      (Reachable.calc8 _ _ _ (Reachable.init zeroInst initState rfl))
      (WebRtcVad_CalcVad8khz splRef initState burstFrame 80).1 rfl 8 14).2.2
      silentFrame 80 silent_after_burst_raw).1 (by rw [burst_over_hang]; decide)).2.2⟩

end webrtc
